import Mathlib

/-!
# xHCI host controller emulation (hw/usb/hcd-xhci.c): rings, events, transfers, endpoints

A shallow embedding of the TRB ring reader, the event queue and interrupt
notifier, the transfer completion and submission paths, and the endpoint and
slot commands of `hw/usb/hcd-xhci.c`, followed by the properties proved about
them.

Conventions of the embedding.

* C unsigned integers are natural numbers; a result is reduced modulo `2^32`
  (`u32`) or modulo the width of `dma_addr_t` (`dma_addr`) where the C
  operation can leave the range.
* `dma_addr_t` is declared outside this file and `xhci_addr64`/`xhci_mask64`
  support a 4-byte and an 8-byte typedef, so the width is a parameter
  (`DmaWidth`).
* Guest memory is a function from byte address to byte; `pci_dma_read` and
  `pci_dma_write` are the DMA primitives of the PCI layer.
* A `while` loop takes a fuel argument; running out of fuel is a result of
  its own (`none`, or `Fault.fuel`), and the properties below show that enough
  fuel gives the loop's result.
* A call that can abort the process (`assert`, `FIXME()`) or run into
  undefined behaviour returns `Except Fault`.
* Code outside this file that the controller calls (the USB core and the
  devices behind it) is a parameter: its constants, and the answers it gives.
-/

namespace XHCI

/-! ## Machine integers -/

/-- Truncation to `uint32_t`. -/
def u32 (x : Nat) : Nat := x % 4294967296

/-- Truncation to `uint8_t`. -/
def u8 (x : Nat) : Nat := x % 256

/-- Value of a 32-bit pattern read as a C `int` (two's complement). -/
def s32 (x : Nat) : Int :=
  if u32 x < 2147483648 then (u32 x : Int) else (u32 x : Int) - 4294967296

/-- Largest value of a C `int`. -/
def INT_MAX : Int := 2147483647

/-- Size of `dma_addr_t`: the two cases `sizeof(dma_addr_t) == 4` and `== 8`
that `xhci_addr64` and `xhci_mask64` distinguish. -/
inductive DmaWidth where
  | bits32
  | bits64
  deriving DecidableEq, Repr

/-- Number of values of a `dma_addr_t`. -/
def DmaWidth.modulus : DmaWidth → Nat
  | .bits32 => 4294967296
  | .bits64 => 18446744073709551616

/-- Truncation to `dma_addr_t`. -/
def dma_addr (w : DmaWidth) (a : Nat) : Nat := a % w.modulus

/-- `xhci_addr64(low, high)`. -/
def xhci_addr64 (w : DmaWidth) (low high : Nat) : Nat :=
  match w with
  | .bits32 => low
  | .bits64 => low ||| ((high <<< 16) <<< 16)

/-- `xhci_mask64(addr)`. -/
def xhci_mask64 (w : DmaWidth) (addr : Nat) : Nat :=
  match w with
  | .bits32 => addr &&& 0xffffffff
  | .bits64 => addr

/-! ## Constants -/

def MAXSLOTS : Nat := 8
def MAXPORTS : Nat := 4 + 4
def TD_QUEUE : Nat := 24
def EV_QUEUE : Nat := ((3 * TD_QUEUE) + 16) * MAXSLOTS

def USBCMD_INTE : Nat := 1 <<< 2
def USBSTS_HCH : Nat := 1 <<< 0
def USBSTS_EINT : Nat := 1 <<< 3
def USBSTS_HCE : Nat := 1 <<< 12
def IMAN_IP : Nat := 1 <<< 0
def IMAN_IE : Nat := 1 <<< 1
def ERDP_EHB : Nat := 1 <<< 3

def TRB_SIZE : Nat := 16

def TR_NORMAL : Nat := 1
def TR_SETUP : Nat := 2
def TR_DATA : Nat := 3
def TR_STATUS : Nat := 4
def TR_ISOCH : Nat := 5
def TR_LINK : Nat := 6
def TR_EVDATA : Nat := 7
def CR_ENABLE_SLOT : Nat := 9
def ER_TRANSFER : Nat := 32
def ER_COMMAND_COMPLETE : Nat := 33

def CC_SUCCESS : Nat := 1
def CC_USB_TRANSACTION_ERROR : Nat := 4
def CC_TRB_ERROR : Nat := 5
def CC_STALL_ERROR : Nat := 6
def CC_NO_SLOTS_ERROR : Nat := 9
def CC_SLOT_NOT_ENABLED_ERROR : Nat := 11
def CC_EP_NOT_ENABLED_ERROR : Nat := 12
def CC_SHORT_PACKET : Nat := 13
def CC_CONTEXT_STATE_ERROR : Nat := 19

def TRB_C : Nat := 1 <<< 0
def TRB_TYPE_SHIFT : Nat := 10
def TRB_TYPE_MASK : Nat := 0x3f
def TRB_EV_ED : Nat := 1 <<< 2
def TRB_TR_ISP : Nat := 1 <<< 2
def TRB_TR_CH : Nat := 1 <<< 4
def TRB_TR_IOC : Nat := 1 <<< 5
def TRB_TR_IDT : Nat := 1 <<< 6
def TRB_TR_DIR : Nat := 1 <<< 16
def PORTSC_PED : Nat := 1 <<< 1

def ET_ISO_OUT : Nat := 1
def ET_BULK_OUT : Nat := 2
def ET_INTR_OUT : Nat := 3
def ET_CONTROL : Nat := 4
def ET_ISO_IN : Nat := 5
def ET_BULK_IN : Nat := 6
def ET_INTR_IN : Nat := 7
def TRB_LK_TC : Nat := 1 <<< 1

def EP_STATE_MASK : Nat := 0x7
def EP_DISABLED : Nat := 0
def EP_RUNNING : Nat := 1
def EP_HALTED : Nat := 2
def EP_STOPPED : Nat := 3
def EP_ERROR : Nat := 4

/-! ## Guest memory and TRBs -/

/-- Guest physical memory: the byte stored at each address. -/
abbrev Mem := Nat → Nat

/-- `pci_dma_read(dev, addr, buf, len)`: the `len` bytes starting at `addr`. -/
def pci_dma_read (mem : Mem) (addr len : Nat) : List Nat :=
  (List.range len).map (fun i => mem (addr + i) % 256)

/-- `pci_dma_write(dev, addr, buf, len)`: store the bytes of `buf` from `addr` on. -/
def pci_dma_write (mem : Mem) (addr : Nat) (buf : List Nat) : Mem :=
  fun a => if addr ≤ a ∧ a < addr + buf.length then buf.getD (a - addr) 0 % 256 else mem a

/-- Value of a little-endian byte string (`le32_to_cpu`, `le64_to_cpu`). -/
def le_to_cpu : List Nat → Nat
  | [] => 0
  | b :: bs => b + 256 * le_to_cpu bs

/-- Little-endian byte string of `n` bytes for a value (`cpu_to_le32`, `cpu_to_le64`). -/
def cpu_to_le : Nat → Nat → List Nat
  | 0, _ => []
  | n + 1, x => x % 256 :: cpu_to_le n (x / 256)

/-- `struct XHCITRB`. -/
structure XHCITRB where
  parameter : Nat
  status : Nat
  control : Nat
  addr : Nat
  ccs : Bool
  deriving DecidableEq, Repr

/-- `TRB_TYPE(t)`. -/
def TRB_TYPE (t : XHCITRB) : Nat := (t.control >>> TRB_TYPE_SHIFT) &&& TRB_TYPE_MASK

/-- `struct XHCIRing`. -/
structure XHCIRing where
  base : Nat
  dequeue : Nat
  ccs : Bool
  deriving DecidableEq, Repr

/-- The three guest-visible words of a TRB. -/
structure TRBWords where
  parameter : Nat
  status : Nat
  control : Nat
  deriving DecidableEq, Repr

/-- The words of the TRB at `addr` as `pci_dma_read` of `TRB_SIZE` bytes followed
by `le64_to_cpus` on the parameter and `le32_to_cpus` on status and control
leave them. -/
def dma_read_trb (mem : Mem) (addr : Nat) : TRBWords :=
  let buf := pci_dma_read mem addr TRB_SIZE
  { parameter := le_to_cpu (buf.take 8),
    status := le_to_cpu ((buf.drop 8).take 4),
    control := le_to_cpu ((buf.drop 12).take 4) }

/-- What a call of `xhci_ring_fetch` leaves behind: the returned type (0 for
"no TRB"), the ring, `*trb`, and the value stored through `addr` when the call
stored one. -/
structure FetchResult where
  ret : Nat
  ring : XHCIRing
  trb : XHCITRB
  addr : Option Nat
  deriving DecidableEq, Repr

/-- `xhci_ring_fetch(xhci, ring, trb, addr)`. -/
def xhci_ring_fetch (w : DmaWidth) (mem : Mem) : Nat → XHCIRing → Option FetchResult
  | 0, _ => none
  | fuel + 1, ring =>
    let raw := dma_read_trb mem ring.dequeue
    let trb : XHCITRB :=
      { parameter := raw.parameter, status := raw.status, control := raw.control,
        addr := ring.dequeue, ccs := ring.ccs }
    if (trb.control &&& TRB_C) ≠ ring.ccs.toNat then
      some { ret := 0, ring := ring, trb := trb, addr := none }
    else if TRB_TYPE trb ≠ TR_LINK then
      some { ret := TRB_TYPE trb,
             ring := { ring with dequeue := dma_addr w (ring.dequeue + TRB_SIZE) },
             trb := trb, addr := some ring.dequeue }
    else
      xhci_ring_fetch w mem fuel
        { ring with
          dequeue := xhci_mask64 w trb.parameter,
          ccs := if trb.control &&& TRB_LK_TC ≠ 0 then !ring.ccs else ring.ccs }

/-- The local variables of `xhci_ring_chain_length`. -/
structure ChainCursor where
  length : Int
  dequeue : Nat
  ccs : Bool
  control_td_set : Bool
  deriving DecidableEq, Repr

/-- The `while (1)` loop of `xhci_ring_chain_length`.  `length` is a C `int`:
the loop has no defined result (`none`) when `length += 1` would leave its range. -/
def chain_length_loop (w : DmaWidth) (mem : Mem) : Nat → ChainCursor → Option Int
  | 0, _ => none
  | fuel + 1, st =>
    let trb := dma_read_trb mem st.dequeue
    if (trb.control &&& TRB_C) ≠ st.ccs.toNat then
      some (-st.length)
    else
      let type := (trb.control >>> TRB_TYPE_SHIFT) &&& TRB_TYPE_MASK
      if type = TR_LINK then
        chain_length_loop w mem fuel
          { st with
            dequeue := xhci_mask64 w trb.parameter,
            ccs := if trb.control &&& TRB_LK_TC ≠ 0 then !st.ccs else st.ccs }
      else if st.length + 1 > INT_MAX then
        none
      else
        let control_td_set :=
          if type = TR_SETUP then true
          else if type = TR_STATUS then false
          else st.control_td_set
        if !control_td_set && (trb.control &&& TRB_TR_CH) = 0 then
          some (st.length + 1)
        else
          chain_length_loop w mem fuel
            { length := st.length + 1,
              dequeue := dma_addr w (st.dequeue + TRB_SIZE),
              ccs := st.ccs,
              control_td_set := control_td_set }

/-- `xhci_ring_chain_length(xhci, ring)`: the returned count together with the
ring after the call (the ring is passed as `const XHCIRing *` and the walk uses
copies of its cursor). -/
def xhci_ring_chain_length (w : DmaWidth) (mem : Mem) (fuel : Nat) (ring : XHCIRing) :
    Option (Int × XHCIRing) :=
  (chain_length_loop w mem fuel
    { length := 0, dequeue := ring.dequeue, ccs := ring.ccs, control_td_set := false }).map
    (fun n => (n, ring))

/-! ## Ring contents, for stating the ring reader's properties -/

/-- Little-endian value of the `n` bytes of guest memory at `addr`. -/
def le_bytes (mem : Mem) (addr n : Nat) : Nat :=
  ∑ i in Finset.range n, (mem (addr + i) % 256) * 256 ^ i

/-- Bit 0 of a control word: the cycle bit. -/
def cycle_bit (control : Nat) : Bool := control.testBit 0

/-- Bit 1 of a Link TRB's control word: toggle cycle. -/
def toggle_cycle (control : Nat) : Bool := control.testBit 1

/-- Bit 4 of a transfer TRB's control word: chain. -/
def chain_bit (control : Nat) : Bool := control.testBit 4

/-- Bits 10..15 of a control word: the TRB type. -/
def trb_type (control : Nat) : Nat := control / 1024 % 64

/-- Cursor and cycle state a ring walk has after passing the TRB `t` found at
`dq` under cycle state `c`: a Link TRB redirects to its target and toggles the
cycle state when its toggle-cycle bit is set, any other TRB is stepped over. -/
def walk_step (w : DmaWidth) (dq : Nat) (c : Bool) (t : TRBWords) : Nat × Bool :=
  if trb_type t.control = TR_LINK then
    (xhci_mask64 w t.parameter, if toggle_cycle t.control then !c else c)
  else
    (dma_addr w (dq + TRB_SIZE), c)

/-- Cursor and cycle state after walking over the TRBs `l` from `(dq, c)`. -/
def walk_end (w : DmaWidth) : Nat → Bool → List TRBWords → Nat × Bool
  | dq, c, [] => (dq, c)
  | dq, c, t :: rest => walk_end w (walk_step w dq c t).1 (walk_step w dq c t).2 rest

/-- The ring holds the TRBs `l`, in walking order from the cursor `dq` with
cycle state `c`, each with a valid cycle bit (equal to the cycle state the walk
has when it reaches the TRB). -/
def RingHolds (w : DmaWidth) (mem : Mem) : Nat → Bool → List TRBWords → Prop
  | _, _, [] => True
  | dq, c, t :: rest =>
    dma_read_trb mem dq = t ∧ cycle_bit t.control = c ∧
      RingHolds w mem (walk_step w dq c t).1 (walk_step w dq c t).2 rest

/-- `RingHolds` can be evaluated. -/
def RingHolds.dec (w : DmaWidth) (mem : Mem) :
    ∀ (dq : Nat) (c : Bool) (l : List TRBWords), Decidable (RingHolds w mem dq c l)
  | _, _, [] => isTrue trivial
  | dq, c, t :: rest =>
    have := RingHolds.dec w mem (walk_step w dq c t).1 (walk_step w dq c t).2 rest
    inferInstanceAs (Decidable (dma_read_trb mem dq = t ∧ cycle_bit t.control = c ∧
      RingHolds w mem (walk_step w dq c t).1 (walk_step w dq c t).2 rest))

instance (w : DmaWidth) (mem : Mem) (dq : Nat) (c : Bool) (l : List TRBWords) :
    Decidable (RingHolds w mem dq c l) := RingHolds.dec w mem dq c l

/-- Number of TRBs of `l` that are not Link TRBs. -/
def count_non_link (l : List TRBWords) : Nat :=
  (l.filter (fun t => trb_type t.control ≠ TR_LINK)).length

/-- Value of `control_td_set` after the probe has counted the non-Link TRB `t`. -/
def td_set_after (cts : Bool) (t : TRBWords) : Bool :=
  if trb_type t.control = TR_SETUP then true
  else if trb_type t.control = TR_STATUS then false
  else cts

/-- Value of `control_td_set` after the probe has walked over `l`. -/
def td_set_end : Bool → List TRBWords → Bool
  | cts, [] => cts
  | cts, t :: rest =>
    if trb_type t.control = TR_LINK then td_set_end cts rest
    else td_set_end (td_set_after cts t) rest

/-- The non-Link TRB `t`, met with `control_td_set = cts`, ends the descriptor:
its chain bit is clear and it is not inside a Setup..Status group. -/
def EndsDescriptor (cts : Bool) (t : TRBWords) : Prop :=
  trb_type t.control ≠ TR_LINK ∧ td_set_after cts t = false ∧ chain_bit t.control = false

instance (cts : Bool) (t : TRBWords) : Decidable (EndsDescriptor cts t) := by
  unfold EndsDescriptor; infer_instance

/-- No TRB of `l`, walked with `control_td_set` starting at `cts`, ends the
descriptor. -/
def Unfinished : Bool → List TRBWords → Prop
  | _, [] => True
  | cts, t :: rest =>
    if trb_type t.control = TR_LINK then Unfinished cts rest
    else ¬ EndsDescriptor cts t ∧ Unfinished (td_set_after cts t) rest

/-- Store the three words of a TRB at `addr`: `cpu_to_le64` on the parameter,
`cpu_to_le32` on status and control, then `pci_dma_write` of `TRB_SIZE` bytes. -/
def dma_write_trb (mem : Mem) (addr : Nat) (t : TRBWords) : Mem :=
  pci_dma_write mem addr
    (cpu_to_le 8 t.parameter ++ cpu_to_le 4 t.status ++ cpu_to_le 4 t.control)

/-- `Unfinished` can be evaluated. -/
def Unfinished.dec : ∀ (cts : Bool) (l : List TRBWords), Decidable (Unfinished cts l)
  | _, [] => isTrue trivial
  | cts, t :: rest =>
    have := Unfinished.dec cts rest
    have := Unfinished.dec (td_set_after cts t) rest
    inferInstanceAs (Decidable (if trb_type t.control = TR_LINK then Unfinished cts rest
      else ¬ EndsDescriptor cts t ∧ Unfinished (td_set_after cts t) rest))

instance (cts : Bool) (l : List TRBWords) : Decidable (Unfinished cts l) :=
  Unfinished.dec cts l

/-! ## Example rings -/

/-- A Link TRB with cycle bit 1 and toggle-cycle set, pointing at `0x2000`. -/
def ex_link : TRBWords :=
  { parameter := 0x2000, status := 0, control := (TR_LINK <<< 10) ||| TRB_LK_TC ||| TRB_C }

/-- A Normal TRB of length 512 with IOC set and cycle bit 0. -/
def ex_normal : TRBWords :=
  { parameter := 0x5000, status := 512, control := (TR_NORMAL <<< 10) ||| TRB_TR_IOC }

/-- Guest memory that is zero except for `ex_link` at `0x1000` and `ex_normal`
at `0x2000`. -/
def ex_mem : Mem :=
  dma_write_trb (dma_write_trb (fun _ => 0) 0x1000 ex_link) 0x2000 ex_normal

/-- A ring whose cursor is at `ex_link`, cycle state 1. -/
def ex_ring : XHCIRing := { base := 0x1000, dequeue := 0x1000, ccs := true }

/-- A ring whose cursor is at `ex_normal`, cycle state 0. -/
def ex_ring2 : XHCIRing := { base := 0x1000, dequeue := 0x2000, ccs := false }

/-- A Setup TRB (8 bytes of immediate data) with cycle bit 1. -/
def ex_setup : TRBWords :=
  { parameter := 0x0012000001000680, status := 8,
    control := (TR_SETUP <<< 10) ||| (1 <<< 6) ||| TRB_C }

/-- A Link TRB with cycle bit 1 and toggle-cycle set, pointing at `0x4000`. -/
def ex_link2 : TRBWords :=
  { parameter := 0x4000, status := 0, control := (TR_LINK <<< 10) ||| TRB_LK_TC ||| TRB_C }

/-- A Data TRB (IN, 18 bytes) with chain bit clear and cycle bit 0. -/
def ex_data : TRBWords :=
  { parameter := 0x6000, status := 18, control := (TR_DATA <<< 10) ||| (1 <<< 16) }

/-- A Status TRB with IOC set, chain bit clear and cycle bit 0. -/
def ex_status : TRBWords :=
  { parameter := 0, status := 0, control := (TR_STATUS <<< 10) ||| TRB_TR_IOC }

/-- Guest memory holding a control transfer split by a Link TRB: `ex_setup` at
`0x3000`, `ex_link2` at `0x3010`, `ex_data` at `0x4000`, `ex_status` at `0x4010`. -/
def ex_ctl_mem : Mem :=
  dma_write_trb (dma_write_trb (dma_write_trb (dma_write_trb (fun _ => 0)
    0x3000 ex_setup) 0x3010 ex_link2) 0x4000 ex_data) 0x4010 ex_status

/-- Guest memory holding only `ex_setup` at `0x3000`: the rest of the control
transfer has not been written yet. -/
def ex_partial_mem : Mem := dma_write_trb (fun _ => 0) 0x3000 ex_setup

/-- A ring whose cursor is at `0x3000`, cycle state 1. -/
def ex_ctl_ring : XHCIRing := { base := 0x3000, dequeue := 0x3000, ccs := true }

/-! ## Controller state -/

/-- How a modelled call can fail to return normally. -/
inductive Fault where
  /-- An `assert` failed. -/
  | assertion
  /-- `FIXME()` called `abort()`. -/
  | fixme
  /-- Undefined behaviour in C: division by zero, NULL or out-of-bounds access. -/
  | undefined
  /-- The model's fuel ran out before the loop ended. -/
  | fuel
  deriving DecidableEq, Repr

/-- `struct XHCIEvent`. -/
structure XHCIEvent where
  type : Nat
  ccode : Nat
  ptr : Nat
  length : Nat
  flags : Nat
  slotid : Nat
  epid : Nat
  deriving DecidableEq, Repr

/-- The `USB_RET_*` result codes of `hw/usb.h`, a header that is not among the
sources: error codes, hence negative, and pairwise distinct. -/
structure USBRetCodes where
  NODEV : Int
  NAK : Int
  STALL : Int
  ASYNC : Int
  negative : NODEV < 0 ∧ NAK < 0 ∧ STALL < 0 ∧ ASYNC < 0
  distinct : NODEV ≠ NAK ∧ NODEV ≠ STALL ∧ NODEV ≠ ASYNC ∧ NAK ≠ STALL ∧ NAK ≠ ASYNC ∧
    STALL ≠ ASYNC

/-- The values QEMU's `hw/usb.h` gives the result codes. -/
def qemu_usb_ret : USBRetCodes :=
  { NODEV := -1, NAK := -2, STALL := -3, ASYNC := -6,
    negative := by decide, distinct := by decide }

/-- `struct XHCITransfer`.  `trbs` holds the `trb_count` TRBs of the descriptor
(`trb_alloced` only sizes the allocation); `packet_result` is `packet.result`,
`packet_in` is `packet.pid == USB_TOKEN_IN` and `packet_parameter` is
`packet.parameter`; the scatter-gather list is not represented. -/
structure XHCITransfer where
  packet_result : Int
  packet_in : Bool
  packet_parameter : Nat
  in_xfer : Bool
  iso_xfer : Bool
  pkts : Nat
  running_async : Bool
  running_retry : Bool
  cancelled : Bool
  complete : Bool
  slotid : Nat
  epid : Nat
  trbs : List XHCITRB
  status : Nat
  deriving DecidableEq, Repr

/-- `struct XHCIEPContext`.  `retry` is the index in `transfers` of the
transfer `retry` points to. -/
structure XHCIEPContext where
  ring : XHCIRing
  next_xfer : Nat
  comp_xfer : Nat
  transfers : Nat → XHCITransfer
  retry : Option Nat
  type : Nat
  pctx : Nat
  max_psize : Nat
  state : Nat

/-- `struct XHCISlot`; `eps i` is `eps[i]`, `none` for a NULL pointer. -/
structure XHCISlot where
  enabled : Bool
  ctx : Nat
  port : Nat
  devaddr : Nat
  eps : Nat → Option XHCIEPContext

/-- A call of the interrupt delivery interface. -/
inductive IrqEffect where
  /-- `qemu_set_irq(xhci->irq, level)`. -/
  | set_irq (level : Nat)
  /-- `msi_notify(&xhci->pci_dev, vector)`. -/
  | msi_notify (vector : Nat)
  deriving DecidableEq, Repr

/-- `struct XHCIState`: the registers and event-ring fields, followed by the
PCI device's side (`msi_enabled(&xhci->pci_dev)`, the guest memory reached by
DMA) and by histories of what the controller did, oldest first:
`log_events` the events passed to `xhci_event`, `log_ev_trbs` the TRBs
`xhci_write_event` wrote and their addresses, `log_dropped` the events dropped
with "event queue full, dropping event!", `log_irq` the interrupt calls,
`log_cancel` the packets passed to `usb_cancel_packet` and `log_packets` the
packets passed to `usb_handle_packet`, each as slot id, endpoint id and index
in the endpoint's transfer pool, `log_set_address` the SET_ADDRESS requests
passed to `usb_device_handle_control`, each as index in `ports` and address,
and `log_port_reset` the indices in `ports` of the devices passed to
`usb_device_reset`.  `port_dev i` tells whether `ports[i].port.dev` is set,
`port_attached i` and `port_speed i` are that device's `attached` and `speed`.
No modelled code reads a history, except that the number of packets handed over
so far selects the device's next answer. -/
structure XHCIState where
  msi : Nat
  devaddr : Nat
  usbcmd : Nat
  usbsts : Nat
  dnctrl : Nat
  crcr_low : Nat
  crcr_high : Nat
  dcbaap_low : Nat
  dcbaap_high : Nat
  config : Nat
  portsc : Nat → Nat
  port_dev : Nat → Bool
  port_attached : Nat → Bool
  port_speed : Nat → Nat
  slots : Nat → XHCISlot
  mfindex : Nat
  iman : Nat
  imod : Nat
  erstsz : Nat
  erstba_low : Nat
  erstba_high : Nat
  erdp_low : Nat
  erdp_high : Nat
  er_start : Nat
  er_size : Nat
  er_pcs : Bool
  er_ep_idx : Nat
  er_full : Bool
  ev_buffer : Nat → XHCIEvent
  ev_buffer_put : Nat
  ev_buffer_get : Nat
  cmd_ring : XHCIRing
  msi_enabled : Bool
  mem : Mem
  log_events : List XHCIEvent
  log_ev_trbs : List (Nat × TRBWords)
  log_dropped : List XHCIEvent
  log_irq : List IrqEffect
  log_cancel : List (Nat × Nat × Nat)
  log_packets : List (Nat × Nat × Nat)
  log_set_address : List (Nat × Nat)
  log_port_reset : List Nat

/-! ## Event queue and interrupt notifier -/

/-- `x & ~m` on `uint32_t`. -/
def clear_bits (x m : Nat) : Nat := x &&& (0xffffffff ^^^ m)

/-- `xhci_irq_update(xhci)`. -/
def xhci_irq_update (s : XHCIState) : XHCIState :=
  let level : Nat :=
    if s.iman &&& IMAN_IP ≠ 0 ∧ s.iman &&& IMAN_IE ≠ 0 ∧ s.usbcmd &&& USBCMD_INTE ≠ 0 then 1
    else 0
  if s.msi ≠ 0 ∧ s.msi_enabled = true then
    if level ≠ 0 then { s with log_irq := s.log_irq ++ [IrqEffect.msi_notify 0] } else s
  else
    { s with log_irq := s.log_irq ++ [IrqEffect.set_irq level] }

/-- `xhci_die(xhci)`. -/
def xhci_die (s : XHCIState) : XHCIState :=
  { s with usbsts := s.usbsts ||| USBSTS_HCE }

/-- The event TRB `xhci_write_event` builds for `event` under producer cycle
state `pcs`. -/
def event_trb (event : XHCIEvent) (pcs : Bool) : TRBWords :=
  let control :=
    u32 ((event.slotid <<< 24) ||| (event.epid <<< 16) ||| event.flags |||
      (event.type <<< TRB_TYPE_SHIFT))
  { parameter := event.ptr,
    status := u32 (event.length ||| (event.ccode <<< 24)),
    control := if pcs then control ||| TRB_C else control }

/-- `xhci_write_event(xhci, event)`. -/
def xhci_write_event (w : DmaWidth) (s : XHCIState) (event : XHCIEvent) : XHCIState :=
  let ev_trb := event_trb event s.er_pcs
  let addr := dma_addr w (s.er_start + u32 (TRB_SIZE * s.er_ep_idx))
  let s1 : XHCIState :=
    { s with
      mem := dma_write_trb s.mem addr ev_trb,
      log_ev_trbs := s.log_ev_trbs ++ [(addr, ev_trb)],
      er_ep_idx := u32 (s.er_ep_idx + 1) }
  if s1.er_ep_idx ≥ s1.er_size then
    { s1 with er_ep_idx := 0, er_pcs := !s1.er_pcs }
  else s1

/-- The statements `xhci->ev_buffer[xhci->ev_buffer_put++] = *event;` and the
wrap of `ev_buffer_put` at `EV_QUEUE` that follows them. -/
def ev_buffer_push (s : XHCIState) (event : XHCIEvent) : XHCIState :=
  let s1 : XHCIState :=
    { s with
      ev_buffer := Function.update s.ev_buffer s.ev_buffer_put event,
      ev_buffer_put := u32 (s.ev_buffer_put + 1) }
  if s1.ev_buffer_put = EV_QUEUE then { s1 with ev_buffer_put := 0 } else s1

/-- The statements `xhci->ev_buffer_get++;` and the wrap of `ev_buffer_get` at
`EV_QUEUE` that follows (with `do_irq = 1` between them). -/
def ev_buffer_pop (s : XHCIState) : XHCIState :=
  let s1 : XHCIState := { s with ev_buffer_get := u32 (s.ev_buffer_get + 1) }
  if s1.ev_buffer_get = EV_QUEUE then { s1 with ev_buffer_get := 0 } else s1

/-- The drain loop `while (xhci->ev_buffer_put != xhci->ev_buffer_get)` of
`xhci_events_update` (built with `ER_FULL_HACK`); the Boolean is `do_irq`. -/
def events_drain_loop (w : DmaWidth) (dp_idx : Nat) :
    Nat → XHCIState → Bool → Except Fault (XHCIState × Bool)
  | 0, _, _ => .error .fuel
  | fuel + 1, s, do_irq =>
    if s.ev_buffer_put ≠ s.ev_buffer_get then
      if s.er_full = false then .error .assertion
      else if s.er_size = 0 then .error .undefined
      else if u32 (s.er_ep_idx + 1) % s.er_size = dp_idx then .ok (s, true)
      else
        let s1 := xhci_write_event w s (s.ev_buffer s.ev_buffer_get)
        events_drain_loop w dp_idx fuel (ev_buffer_pop s1) true
    else .ok (s, do_irq)

/-- The test `erdp < er_start || erdp >= er_start + TRB_SIZE*er_size` of
`xhci_event` and `xhci_events_update`. -/
def erdp_out_of_bounds (w : DmaWidth) (s : XHCIState) : Prop :=
  xhci_addr64 w s.erdp_low s.erdp_high < s.er_start ∨
    xhci_addr64 w s.erdp_low s.erdp_high ≥ dma_addr w (s.er_start + u32 (TRB_SIZE * s.er_size))

instance (w : DmaWidth) (s : XHCIState) : Decidable (erdp_out_of_bounds w s) := by
  unfold erdp_out_of_bounds; infer_instance

/-- `dp_idx = (erdp - xhci->er_start) / TRB_SIZE`, an `unsigned int`. -/
def erdp_index (w : DmaWidth) (s : XHCIState) : Nat :=
  u32 ((xhci_addr64 w s.erdp_low s.erdp_high - s.er_start) / TRB_SIZE)

/-- The value of `er_free` that `xhci_events_update` compares with
`er_size/2`, as a 32-bit pattern: `int er_free = dp_idx - er_ep_idx`, plus
`er_size` when that is `<= 0`. -/
def er_free (s : XHCIState) (dp_idx : Nat) : Nat :=
  let d := u32 (dp_idx + 4294967296 - u32 s.er_ep_idx)
  if s32 d ≤ 0 then u32 (d + s.er_size) else d

/-- `xhci_events_update(xhci)`. -/
def xhci_events_update (w : DmaWidth) (fuel : Nat) (s : XHCIState) : Except Fault XHCIState :=
  if s.usbsts &&& USBSTS_HCH ≠ 0 then .ok s
  else if erdp_out_of_bounds w s then .ok (xhci_die s)
  else
    let dp_idx := erdp_index w s
    if ¬ dp_idx < s.er_size then .error .assertion
    else if s.er_full = true ∧ er_free s dp_idx < s.er_size / 2 then .ok s
    else
      match events_drain_loop w dp_idx fuel s false with
      | .error f => .error f
      | .ok (s1, do_irq) =>
        let s2 : XHCIState :=
          if do_irq then
            xhci_irq_update
              { s1 with
                erdp_low := s1.erdp_low ||| ERDP_EHB,
                iman := s1.iman ||| IMAN_IP,
                usbsts := s1.usbsts ||| USBSTS_EINT }
          else s1
        if s2.er_full = true ∧ s2.ev_buffer_put = s2.ev_buffer_get then
          .ok { s2 with er_full := false }
        else .ok s2

/-- `xhci_event(xhci, event)` (built with `ER_FULL_HACK`). -/
def xhci_event (w : DmaWidth) (s0 : XHCIState) (event : XHCIEvent) : Except Fault XHCIState :=
  let s : XHCIState := { s0 with log_events := s0.log_events ++ [event] }
  if s.er_full = true then
    if u32 (s.ev_buffer_put + 1) % EV_QUEUE = s.ev_buffer_get then
      .ok { s with log_dropped := s.log_dropped ++ [event] }
    else .ok (ev_buffer_push s event)
  else if erdp_out_of_bounds w s then .ok (xhci_die s)
  else
    let dp_idx := erdp_index w s
    if ¬ dp_idx < s.er_size then .error .assertion
    else if s.er_size = 0 then .error .undefined
    else if u32 (s.er_ep_idx + 1) % s.er_size = dp_idx then
      let s1 : XHCIState := { s with er_full := true }
      if u32 (s1.ev_buffer_put + 1) % EV_QUEUE = s1.ev_buffer_get then
        .ok { s1 with log_dropped := s1.log_dropped ++ [event] }
      else
        let s2 := ev_buffer_push s1 event
        .ok (xhci_irq_update
          { s2 with
            erdp_low := s2.erdp_low ||| ERDP_EHB,
            iman := s2.iman ||| IMAN_IP,
            usbsts := s2.usbsts ||| USBSTS_EINT })
    else
      let s1 := xhci_write_event w s event
      .ok (xhci_irq_update
        { s1 with
          erdp_low := s1.erdp_low ||| ERDP_EHB,
          iman := s1.iman ||| IMAN_IP,
          usbsts := s1.usbsts ||| USBSTS_EINT })

/-- `xhci_er_reset(xhci)`. -/
def xhci_er_reset (w : DmaWidth) (s : XHCIState) : XHCIState :=
  if s.erstsz ≠ 1 then xhci_die s
  else
    let erstba := xhci_addr64 w s.erstba_low s.erstba_high
    let seg := pci_dma_read s.mem erstba 16
    let addr_low := le_to_cpu (seg.take 4)
    let addr_high := le_to_cpu ((seg.drop 4).take 4)
    let size := le_to_cpu ((seg.drop 8).take 4)
    if size < 16 ∨ size > 4096 then xhci_die s
    else
      { s with
        er_start := xhci_addr64 w addr_low addr_high,
        er_size := size,
        er_ep_idx := 0,
        er_pcs := true,
        er_full := false }

/-- `xhci_run(xhci)`. -/
def xhci_run (s : XHCIState) : XHCIState :=
  { s with usbsts := clear_bits s.usbsts USBSTS_HCH }

/-- `xhci_runtime_write(xhci, reg, val)`; `val` is a `uint32_t`. -/
def xhci_runtime_write (w : DmaWidth) (fuel : Nat) (s : XHCIState) (reg val : Nat) :
    Except Fault XHCIState :=
  if reg = 0x20 then
    let s1 : XHCIState :=
      if val &&& IMAN_IP ≠ 0 then { s with iman := clear_bits s.iman IMAN_IP } else s
    let s2 : XHCIState := { s1 with iman := clear_bits s1.iman IMAN_IE }
    let s3 : XHCIState := { s2 with iman := s2.iman ||| (val &&& IMAN_IE) }
    .ok (xhci_irq_update s3)
  else if reg = 0x24 then .ok { s with imod := val }
  else if reg = 0x28 then .ok { s with erstsz := val &&& 0xffff }
  else if reg = 0x30 then .ok { s with erstba_low := val &&& 0xfffffff0 }
  else if reg = 0x34 then .ok (xhci_er_reset w { s with erstba_high := val })
  else if reg = 0x38 then
    let s1 : XHCIState :=
      if val &&& ERDP_EHB ≠ 0 then { s with erdp_low := clear_bits s.erdp_low ERDP_EHB } else s
    .ok { s1 with erdp_low := (clear_bits val ERDP_EHB) ||| (s1.erdp_low &&& ERDP_EHB) }
  else if reg = 0x3c then xhci_events_update w fuel { s with erdp_high := val }
  else .ok s

/-! ## Runs of the event ring -/

/-- What can happen to the event ring between its set-up and a later moment:
the controller posts an event (a call of `xhci_event`), or the guest writes the
low or the high half of ERDP (runtime registers 0x38 and 0x3c; the written
value is a `uint32_t`). -/
inductive EvAction where
  | post (event : XHCIEvent)
  | write_erdp_low (val : Nat)
  | write_erdp_high (val : Nat)
  deriving DecidableEq, Repr

/-- One action on the controller. -/
def ev_step (w : DmaWidth) (fuel : Nat) (s : XHCIState) : EvAction → Except Fault XHCIState
  | .post event => xhci_event w s event
  | .write_erdp_low val => xhci_runtime_write w fuel s 0x38 (u32 val)
  | .write_erdp_high val => xhci_runtime_write w fuel s 0x3c (u32 val)

/-- A sequence of actions, in order. -/
def ev_run (w : DmaWidth) (fuel : Nat) : XHCIState → List EvAction → Except Fault XHCIState
  | s, [] => .ok s
  | s, a :: rest =>
    match ev_step w fuel s a with
    | .error f => .error f
    | .ok s1 => ev_run w fuel s1 rest

/-- The events a sequence of actions posts, in posting order. -/
def posted_events : List EvAction → List XHCIEvent
  | [] => []
  | .post event :: rest => event :: posted_events rest
  | .write_erdp_low _ :: rest => posted_events rest
  | .write_erdp_high _ :: rest => posted_events rest

/-- Where and how a ring of `size` slots at `start` shows the events `es` when
they are the writes number `i`, `i + 1`, ... since the ring's set-up: write
number `k` goes to slot `k mod size` and carries cycle bit 1 on even passes
over the ring (`k / size` even), cycle bit 0 on odd passes. -/
def ring_image (start size : Nat) : Nat → List XHCIEvent → List (Nat × TRBWords)
  | _, [] => []
  | i, e :: es =>
    (start + TRB_SIZE * (i % size), event_trb e (decide (i / size % 2 = 0))) ::
      ring_image start size (i + 1) es

/-- A controller state with every register zero, no device on any port, no
slot enabled, empty queues, zero guest memory and empty histories. -/
def zero_state : XHCIState :=
  { msi := 0, devaddr := 0, usbcmd := 0, usbsts := 0, dnctrl := 0, crcr_low := 0,
    crcr_high := 0, dcbaap_low := 0, dcbaap_high := 0, config := 0,
    portsc := fun _ => 0, port_dev := fun _ => false, port_attached := fun _ => false,
    port_speed := fun _ => 0,
    slots := fun _ => { enabled := false, ctx := 0, port := 0, devaddr := 0,
                        eps := fun _ => none },
    mfindex := 0, iman := 0, imod := 0, erstsz := 0, erstba_low := 0, erstba_high := 0,
    erdp_low := 0, erdp_high := 0, er_start := 0, er_size := 0, er_pcs := false,
    er_ep_idx := 0, er_full := false,
    ev_buffer := fun _ => { type := 0, ccode := 0, ptr := 0, length := 0, flags := 0,
                            slotid := 0, epid := 0 },
    ev_buffer_put := 0, ev_buffer_get := 0,
    cmd_ring := { base := 0, dequeue := 0, ccs := false },
    msi_enabled := false, mem := fun _ => 0,
    log_events := [], log_ev_trbs := [], log_dropped := [], log_irq := [],
    log_cancel := [], log_packets := [], log_set_address := [], log_port_reset := [] }

/-- A Transfer event for slot 1, endpoint 3. -/
def ex_event : XHCIEvent :=
  { type := ER_TRANSFER, ccode := CC_SUCCESS, ptr := 0x2000, length := 0, flags := 0,
    slotid := 1, epid := 3 }

/-- A state with interrupts pending and enabled (IMAN = IP|IE, USBCMD.INTE set),
no MSI. -/
def ex_irq_state : XHCIState := { zero_state with iman := 3, usbcmd := USBCMD_INTE }

/-- A ring of 16 slots at `0x1000` whose producer is at slot 0 and whose
consumer (ERDP) is at slot 1, so that the ring counts as full; the controller
is not in ring-full mode and the software queue is empty. -/
def ex_ring_full_state : XHCIState :=
  { zero_state with
    er_start := 0x1000, er_size := 16, er_pcs := true, er_ep_idx := 0, er_full := false,
    erdp_low := 0x1010, ev_buffer_put := 0, ev_buffer_get := 0 }

/-- The part of the controller state the event ring's behaviour depends on,
with `hce` the HCE bit of USBSTS. -/
structure EvView where
  start : Nat
  size : Nat
  idx : Nat
  pcs : Bool
  full : Bool
  buf : Nat → XHCIEvent
  put : Nat
  get : Nat
  posted : List XHCIEvent
  written : List (Nat × TRBWords)
  dropped : List XHCIEvent
  hce : Bool

/-- The event-ring view of a controller state. -/
def ev_view (s : XHCIState) : EvView :=
  { start := s.er_start, size := s.er_size, idx := s.er_ep_idx, pcs := s.er_pcs,
    full := s.er_full, buf := s.ev_buffer, put := s.ev_buffer_put, get := s.ev_buffer_get,
    posted := s.log_events, written := s.log_ev_trbs, dropped := s.log_dropped,
    hce := s.usbsts.testBit 12 }

/-- The software queue of a view, oldest entry first. -/
def EvView.queue (v : EvView) : List XHCIEvent :=
  (List.range ((v.put + 704 - v.get) % 704)).map (fun i => v.buf ((v.get + i) % 704))

/-- Invariant of the event ring that holds whatever the guest does: indices in
range, and a non-empty software queue only in ring-full mode. -/
structure EvView.Safe (v : EvView) : Prop where
  size_pos : 0 < v.size
  size_le : v.size ≤ 4096
  idx_lt : v.idx < v.size
  put_lt : v.put < 704
  get_lt : v.get < 704
  empty : v.full = false → v.put = v.get

/-- No controller error was raised and no event was dropped. -/
def EvView.Good (v : EvView) : Prop := v.hce = false ∧ v.dropped = []

/-- Invariant of the event ring while no error was raised and no event was
dropped: what was written is the image of a prefix of what was posted, the rest
of what was posted is the software queue, and the producer index and cycle
state follow the number of writes. -/
structure EvView.Core (v : EvView) : Prop where
  written : v.written = ring_image v.start v.size 0 (v.posted.take v.written.length)
  queued : v.posted.drop v.written.length = v.queue
  idx : v.idx = v.written.length % v.size
  pcs : v.pcs = decide (v.written.length / v.size % 2 = 0)

/-- The invariant of the event ring. -/
def EvView.Inv (v : EvView) : Prop := v.Safe ∧ (v.Good → v.Core)

/-- Guest memory holding one event ring segment table entry at `0x800`: a
segment of 16 TRBs at `0x1000`. -/
def ex_erst_mem : Mem :=
  pci_dma_write (fun _ => 0) 0x800
    (cpu_to_le 4 0x1000 ++ cpu_to_le 4 0 ++ cpu_to_le 4 16 ++ cpu_to_le 4 0)

/-- A halted controller whose guest has programmed ERSTSZ = 1 and ERSTBA =
`0x800`; the software queue is empty and the histories are empty. -/
def ex_pre_state : XHCIState :=
  { zero_state with usbsts := USBSTS_HCH, erstsz := 1, erstba_low := 0x800, mem := ex_erst_mem }

/-- A second and a third event. -/
def ex_event2 : XHCIEvent :=
  { type := ER_TRANSFER, ccode := CC_SHORT_PACKET, ptr := 0x2010, length := 256, flags := 0,
    slotid := 1, epid := 3 }

def ex_event3 : XHCIEvent :=
  { type := ER_TRANSFER, ccode := CC_SUCCESS, ptr := 0x7000, length := 64, flags := TRB_EV_ED,
    slotid := 1, epid := 3 }

/-- The guest sets ERDP to the start of the segment, three events are posted,
and the guest acknowledges the first of them. -/
def ex_actions : List EvAction :=
  [.write_erdp_low 0x1000, .write_erdp_high 0, .post ex_event, .post ex_event2,
   .write_erdp_low 0x1010, .write_erdp_high 0, .post ex_event3]

/-! ## Transfer completion -/

/-- `xhci_set_ep_state(xhci, epctx, state)`: the controller state (guest
memory) and the endpoint context after the call.  The five context words are
read and written in host byte order, taken to be little-endian. -/
def xhci_set_ep_state (s : XHCIState) (epctx : XHCIEPContext) (state : Nat) :
    XHCIState × XHCIEPContext :=
  if epctx.state = state then (s, epctx)
  else
    let buf := pci_dma_read s.mem epctx.pctx 20
    let ctx0 := le_to_cpu (buf.take 4)
    let ctx1 := le_to_cpu ((buf.drop 4).take 4)
    let ctx4 := le_to_cpu ((buf.drop 16).take 4)
    let ctx0 := clear_bits ctx0 EP_STATE_MASK
    let ctx0 := ctx0 ||| u32 state
    let ctx2 := u32 (epctx.ring.dequeue ||| epctx.ring.ccs.toNat)
    let ctx3 := u32 ((epctx.ring.dequeue >>> 16) >>> 16)
    let out := cpu_to_le 4 ctx0 ++ cpu_to_le 4 ctx1 ++ cpu_to_le 4 ctx2 ++ cpu_to_le 4 ctx3 ++
      cpu_to_le 4 ctx4
    ({ s with mem := pci_dma_write s.mem epctx.pctx out }, { epctx with state := state })

/-- The local variables of `xhci_xfer_report` that live across loop iterations. -/
structure ReportLocals where
  edtla : Nat
  left : Nat
  reported : Bool
  shortpkt : Bool
  deriving DecidableEq, Repr

/-- The `for` loop of `xhci_xfer_report` over the TRBs still to visit. -/
def xfer_report_loop (w : DmaWidth) (xfer : XHCITransfer) :
    List XHCITRB → ReportLocals → XHCIState → Except Fault XHCIState
  | [], _, s => .ok s
  | trb :: rest, st, s =>
    let ty := TRB_TYPE trb
    let chunk0 : Nat :=
      if ty = TR_DATA ∨ ty = TR_NORMAL ∨ ty = TR_ISOCH then trb.status &&& 0x1ffff else 0
    let chunk : Nat := if chunk0 > st.left then st.left else chunk0
    let st1 : ReportLocals :=
      if ty = TR_DATA ∨ ty = TR_NORMAL ∨ ty = TR_ISOCH then
        { st with
          shortpkt := if chunk0 > st.left ∧ xfer.status = CC_SUCCESS then true else st.shortpkt,
          left := st.left - chunk,
          edtla := u32 (st.edtla + chunk) }
      else if ty = TR_STATUS then { st with reported := false, shortpkt := false }
      else st
    if st1.reported = false ∧
        (trb.control &&& TRB_TR_IOC ≠ 0 ∨
          (st1.shortpkt = true ∧ trb.control &&& TRB_TR_ISP ≠ 0) ∨
          xfer.status ≠ CC_SUCCESS) then
      let event : XHCIEvent :=
        { type := ER_TRANSFER,
          ccode := if xfer.status = CC_SUCCESS then
                     (if st1.shortpkt then CC_SHORT_PACKET else CC_SUCCESS)
                   else xfer.status,
          ptr := trb.addr,
          length := u32 ((trb.status &&& 0x1ffff) + 4294967296 - chunk),
          flags := 0,
          slotid := u8 xfer.slotid,
          epid := u8 xfer.epid }
      let event : XHCIEvent :=
        if ty = TR_EVDATA then
          { event with
            ptr := trb.parameter,
            flags := event.flags ||| TRB_EV_ED,
            length := st1.edtla &&& 0xffffff }
        else event
      let st2 : ReportLocals := if ty = TR_EVDATA then { st1 with edtla := 0 } else st1
      match xhci_event w s event with
      | .error f => .error f
      | .ok s1 =>
        if xfer.status ≠ CC_SUCCESS then .ok s1
        else xfer_report_loop w xfer rest { st2 with reported := true } s1
    else xfer_report_loop w xfer rest st1 s

/-- `xhci_xfer_report(xfer)`. -/
def xhci_xfer_report (w : DmaWidth) (s : XHCIState) (xfer : XHCITransfer) :
    Except Fault XHCIState :=
  xfer_report_loop w xfer xfer.trbs
    { edtla := 0,
      left := if xfer.packet_result < 0 then 0 else u32 xfer.packet_result.toNat,
      reported := false,
      shortpkt := false } s

/-- `xhci_stall_ep(xfer)`.  An index outside `slots`/`eps`, a NULL endpoint
context or a descriptor without TRBs is undefined behaviour in C. -/
def xhci_stall_ep (s : XHCIState) (xfer : XHCITransfer) : Except Fault XHCIState :=
  if xfer.slotid < 1 ∨ xfer.slotid > MAXSLOTS ∨ xfer.epid < 1 ∨ xfer.epid > 31 then
    .error .undefined
  else
    let slot := s.slots (xfer.slotid - 1)
    match slot.eps (xfer.epid - 1), xfer.trbs with
    | some epctx, trb0 :: _ =>
      let epctx1 : XHCIEPContext :=
        { epctx with ring := { epctx.ring with dequeue := trb0.addr, ccs := trb0.ccs } }
      let r := xhci_set_ep_state s epctx1 EP_HALTED
      .ok { r.1 with
            slots := Function.update r.1.slots (xfer.slotid - 1)
              { slot with eps := Function.update slot.eps (xfer.epid - 1) (some r.2) } }
    | _, _ => .error .undefined

/-- `xhci_complete_packet(xfer, ret)`.  The transfer is passed and returned by
value (the caller keeps it in its pool slot); `xhci_xfer_unmap` only releases
the scatter-gather mapping. -/
def xhci_complete_packet (rc : USBRetCodes) (w : DmaWidth) (s : XHCIState)
    (xfer : XHCITransfer) (ret : Int) : Except Fault (XHCIState × XHCITransfer) :=
  if ret = rc.ASYNC then
    .ok (s, { xfer with
              running_async := true, running_retry := false, complete := false,
              cancelled := false })
  else if ret = rc.NAK then
    .ok (s, { xfer with
              running_async := false, running_retry := true, complete := false,
              cancelled := false })
  else
    let xfer1 : XHCITransfer :=
      { xfer with running_async := false, running_retry := false, complete := true }
    if ret ≥ 0 then
      let xfer2 : XHCITransfer := { xfer1 with status := CC_SUCCESS }
      match xhci_xfer_report w s xfer2 with
      | .error f => .error f
      | .ok s1 => .ok (s1, xfer2)
    else if ret = rc.NODEV then
      let xfer2 : XHCITransfer := { xfer1 with status := CC_USB_TRANSACTION_ERROR }
      match xhci_xfer_report w s xfer2 with
      | .error f => .error f
      | .ok s1 =>
        match xhci_stall_ep s1 xfer2 with
        | .error f => .error f
        | .ok s2 => .ok (s2, xfer2)
    else if ret = rc.STALL then
      let xfer2 : XHCITransfer := { xfer1 with status := CC_STALL_ERROR }
      match xhci_xfer_report w s xfer2 with
      | .error f => .error f
      | .ok s1 =>
        match xhci_stall_ep s1 xfer2 with
        | .error f => .error f
        | .ok s2 => .ok (s2, xfer2)
    else .error .fixme

/-- A running ring of 16 slots at `0x1000` with ERDP at its start. -/
def ex_ring_state : XHCIState :=
  { zero_state with er_start := 0x1000, er_size := 16, er_pcs := true, erdp_low := 0x1000 }

/-- A transfer of one Normal TRB of length 512 with IOC set, fetched at
`0x2000`, for slot 1, endpoint 3, on which the device transferred 512 bytes. -/
def ex_xfer : XHCITransfer :=
  { packet_result := 512, packet_in := true, packet_parameter := 0, in_xfer := true,
    iso_xfer := false, pkts := 0, running_async := false, running_retry := false,
    cancelled := false, complete := false, slotid := 1, epid := 3,
    trbs := [{ parameter := 0x5000, status := 512,
               control := (TR_NORMAL <<< 10) ||| TRB_TR_IOC ||| TRB_C,
               addr := 0x2000, ccs := true }],
    status := 0 }

/-- Guest memory holding one event ring segment table entry at `0x800`: a
segment of 17 TRBs at `0x1000`. -/
def ex_erst_mem17 : Mem :=
  pci_dma_write (fun _ => 0) 0x800
    (cpu_to_le 4 0x1000 ++ cpu_to_le 4 0 ++ cpu_to_le 4 17 ++ cpu_to_le 4 0)

/-- A halted controller whose guest has programmed that table. -/
def ex_pre_state17 : XHCIState :=
  { zero_state with
    usbsts := USBSTS_HCH, erstsz := 1, erstba_low := 0x800, mem := ex_erst_mem17 }

/-- The guest sets ERDP to the start of the 17-slot segment, 17 events are
posted without the guest consuming any (16 fill the ring, the 17th finds it
full and is queued), then the guest writes ERDP low for slot 7. -/
def ex_actions17 : List EvAction :=
  [.write_erdp_low 0x1000, .write_erdp_high 0] ++ List.replicate 17 (.post ex_event) ++
    [.write_erdp_low 0x1070]

/-- The guest sets ERDP to the start of the 16-slot segment and 16 events are
posted without the guest consuming any: 15 fill the ring, the 16th finds it
full, puts the controller in ring-full mode and is queued. -/
def ex_actions_fill : List EvAction :=
  [.write_erdp_low 0x1000, .write_erdp_high 0] ++ List.replicate 16 (.post ex_event)

/-- After `ex_actions_fill`, 702 more events are posted, which fills the
software queue (703 of `EV_QUEUE = 704` entries), and the guest writes ERDP low
for slot 1. -/
def ex_actions_overflow : List EvAction :=
  ex_actions_fill ++ (List.replicate 702 (.post ex_event) ++ [.write_erdp_low 0x1010])

/-- The bytes `xhci_xfer_report` attributes to a TRB: the loop's `chunk`. -/
def report_chunk (st : ReportLocals) (trb : XHCITRB) : Nat :=
  let chunk0 : Nat :=
    if TRB_TYPE trb = TR_DATA ∨ TRB_TYPE trb = TR_NORMAL ∨ TRB_TYPE trb = TR_ISOCH then
      trb.status &&& 0x1ffff
    else 0
  if chunk0 > st.left then st.left else chunk0

/-- The loop's locals after the `switch` on the TRB type. -/
def report_visit (status : Nat) (st : ReportLocals) (trb : XHCITRB) : ReportLocals :=
  if TRB_TYPE trb = TR_DATA ∨ TRB_TYPE trb = TR_NORMAL ∨ TRB_TYPE trb = TR_ISOCH then
    { st with
      shortpkt := if (trb.status &&& 0x1ffff) > st.left ∧ status = CC_SUCCESS then true
                  else st.shortpkt,
      left := st.left - report_chunk st trb,
      edtla := u32 (st.edtla + report_chunk st trb) }
  else if TRB_TYPE trb = TR_STATUS then { st with reported := false, shortpkt := false }
  else st

/-- The event the loop builds for a TRB it reports. -/
def report_event (xfer : XHCITransfer) (st : ReportLocals) (trb : XHCITRB) : XHCIEvent :=
  let st1 := report_visit xfer.status st trb
  let event : XHCIEvent :=
    { type := ER_TRANSFER,
      ccode := if xfer.status = CC_SUCCESS then
                 (if st1.shortpkt then CC_SHORT_PACKET else CC_SUCCESS)
               else xfer.status,
      ptr := trb.addr,
      length := u32 ((trb.status &&& 0x1ffff) + 4294967296 - report_chunk st trb),
      flags := 0,
      slotid := u8 xfer.slotid,
      epid := u8 xfer.epid }
  if TRB_TYPE trb = TR_EVDATA then
    { event with
      ptr := trb.parameter,
      flags := event.flags ||| TRB_EV_ED,
      length := st1.edtla &&& 0xffffff }
  else event

/-! ## Transfer reports, for stating the properties of `xhci_xfer_report` -/

/-- Whether a TRB carries data: a Normal, Data or Isoch TRB. -/
def carries_data (t : XHCITRB) : Bool :=
  decide (trb_type t.control = TR_NORMAL ∨ trb_type t.control = TR_DATA ∨
    trb_type t.control = TR_ISOCH)

/-- The transfer length field of a TRB: bits 0..16 of its status word. -/
def trb_length (t : XHCITRB) : Nat := t.status % 131072

/-- The bytes a TRB accounts for when `remaining` transferred bytes are still
unaccounted: the smaller of `remaining` and its length if it carries data, none
otherwise. -/
def bytes_of (remaining : Nat) (t : XHCITRB) : Nat :=
  if carries_data t then min remaining (trb_length t) else 0

/-- The bytes a list of TRBs accounts for, each TRB taking from what the TRBs
before it left. -/
def bytes_consumed : Nat → List XHCITRB → Nat
  | _, [] => 0
  | remaining, t :: ts =>
    bytes_of remaining t + bytes_consumed (remaining - bytes_of remaining t) ts

/-- Whether the transfer counts as short once a TRB has been visited: a data
TRB longer than what remains makes it short, a Status TRB starts afresh. -/
def short_after (remaining : Nat) (short : Bool) (t : XHCITRB) : Bool :=
  if carries_data t then short || decide (remaining < trb_length t)
  else if trb_type t.control = TR_STATUS then false
  else short

/-- The short flag after a list of TRBs. -/
def short_end : Nat → Bool → List XHCITRB → Bool
  | _, short, [] => short
  | remaining, short, t :: ts =>
    short_end (remaining - bytes_of remaining t) (short_after remaining short t) ts

/-- A TRB of a successful transfer is reportable when its IOC flag (bit 5) is
set, or when its ISP flag (bit 2) is set and the transfer is short by then. -/
def Reportable (remaining : Nat) (short : Bool) (t : XHCITRB) : Prop :=
  t.control.testBit 5 = true ∨
    (t.control.testBit 2 = true ∧ short_after remaining short t = true)

/-- No TRB of the list is reportable. -/
def NoReport : Nat → Bool → List XHCITRB → Prop
  | _, _, [] => True
  | remaining, short, t :: ts =>
    ¬ Reportable remaining short t ∧
      NoReport (remaining - bytes_of remaining t) (short_after remaining short t) ts


instance (remaining : Nat) (short : Bool) (t : XHCITRB) :
    Decidable (Reportable remaining short t) := by
  unfold Reportable; infer_instance

/-- `NoReport` can be evaluated. -/
def NoReport.dec : ∀ (remaining : Nat) (short : Bool) (l : List XHCITRB),
    Decidable (NoReport remaining short l)
  | _, _, [] => isTrue trivial
  | remaining, short, t :: ts =>
    have := NoReport.dec (remaining - bytes_of remaining t) (short_after remaining short t) ts
    inferInstanceAs (Decidable (¬ Reportable remaining short t ∧
      NoReport (remaining - bytes_of remaining t) (short_after remaining short t) ts))

instance (remaining : Nat) (short : Bool) (l : List XHCITRB) :
    Decidable (NoReport remaining short l) := NoReport.dec remaining short l

/-- A transfer of one Normal TRB of length 512 with ISP set and IOC clear,
fetched at `0x2000`, for slot 1, endpoint 3, completed successfully with 256
bytes transferred. -/
def ex_short_xfer : XHCITransfer :=
  { packet_result := 256, packet_in := true, packet_parameter := 0, in_xfer := true,
    iso_xfer := false, pkts := 0, running_async := false, running_retry := false,
    cancelled := false, complete := true, slotid := 1, epid := 3,
    trbs := [{ parameter := 0x5000, status := 512,
               control := (TR_NORMAL <<< 10) ||| TRB_TR_ISP ||| TRB_C,
               addr := 0x2000, ccs := true }],
    status := CC_SUCCESS }

/-- A successful transfer of 1024 bytes over a chain of two Normal TRBs of
length 512 at `0x2000` and `0x2010`, both with IOC set. -/
def ex_two_ioc_xfer : XHCITransfer :=
  { packet_result := 1024, packet_in := true, packet_parameter := 0, in_xfer := true,
    iso_xfer := false, pkts := 0, running_async := false, running_retry := false,
    cancelled := false, complete := true, slotid := 1, epid := 3,
    trbs := [{ parameter := 0x5000, status := 512,
               control := (TR_NORMAL <<< 10) ||| TRB_TR_IOC ||| TRB_TR_CH ||| TRB_C,
               addr := 0x2000, ccs := true },
             { parameter := 0x5200, status := 512,
               control := (TR_NORMAL <<< 10) ||| TRB_TR_IOC ||| TRB_C,
               addr := 0x2010, ccs := true }],
    status := CC_SUCCESS }

/-- A successful transfer of 700 bytes over two chained Normal TRBs of length
512 without IOC or ISP, followed by an Event Data TRB with IOC set whose
parameter is `0xabcd`. -/
def ex_edtla_xfer : XHCITransfer :=
  { packet_result := 700, packet_in := true, packet_parameter := 0, in_xfer := true,
    iso_xfer := false, pkts := 0, running_async := false, running_retry := false,
    cancelled := false, complete := true, slotid := 1, epid := 3,
    trbs := [{ parameter := 0x5000, status := 512,
               control := (TR_NORMAL <<< 10) ||| TRB_TR_CH ||| TRB_C,
               addr := 0x2000, ccs := true },
             { parameter := 0x5200, status := 512,
               control := (TR_NORMAL <<< 10) ||| TRB_TR_CH ||| TRB_C,
               addr := 0x2010, ccs := true },
             { parameter := 0xabcd, status := 0,
               control := (TR_EVDATA <<< 10) ||| TRB_TR_IOC ||| TRB_C,
               addr := 0x2020, ccs := true }],
    status := CC_SUCCESS }

/-- An endpoint context at `0x9000` in the Running state, its ring at `0x2000`,
no transfer in flight. -/
def ex_epctx : XHCIEPContext :=
  { ring := { base := 0x2000, dequeue := 0x2010, ccs := true },
    next_xfer := 0, comp_xfer := 0,
    transfers := fun _ =>
      { packet_result := 0, packet_in := false, packet_parameter := 0, in_xfer := false,
        iso_xfer := false, pkts := 0, running_async := false, running_retry := false,
        cancelled := false, complete := false, slotid := 0, epid := 0, trbs := [],
        status := 0 },
    retry := none, type := 6, pctx := 0x9000, max_psize := 512, state := EP_RUNNING }

/-- The running ring of `ex_ring_state` with slot 1 enabled on port 1, which
has a device, and endpoint 3 of that slot enabled as `ex_epctx`. -/
def ex_ep_state : XHCIState :=
  { ex_ring_state with
    port_dev := fun i => decide (i = 0), port_attached := fun i => decide (i = 0),
    port_speed := fun _ => 2,
    slots := fun i =>
      if i = 0 then
        { enabled := true, ctx := 0x8000, port := 1, devaddr := 2,
          eps := fun j => if j = 2 then some ex_epctx else none }
      else zero_state.slots i }

/-! ## Endpoint and slot commands -/

/-- `xhci_ring_init(xhci, ring, base)`. -/
def xhci_ring_init (base : Nat) : XHCIRing := { base := base, dequeue := base, ccs := true }

/-- Store `e` in `slots[slotid-1].eps[epid-1]`. -/
def set_epctx (s : XHCIState) (slotid epid : Nat) (e : Option XHCIEPContext) : XHCIState :=
  { s with
    slots := Function.update s.slots (slotid - 1)
      { s.slots (slotid - 1) with
        eps := Function.update (s.slots (slotid - 1)).eps (epid - 1) e } }

/-- The `for` loop of `xhci_ep_nuke_xfers` with `n` of its `TD_QUEUE` rounds
still to run: the endpoint context, the packets cancelled and `killed`. -/
def nuke_xfers_loop (slotid epid : Nat) :
    Nat → Nat → XHCIEPContext → List (Nat × Nat × Nat) → Int →
      XHCIEPContext × List (Nat × Nat × Nat) × Int
  | 0, _, epctx, cancelled, killed => (epctx, cancelled, killed)
  | n + 1, xferi, epctx, cancelled, killed =>
    let t := epctx.transfers xferi
    let cancelled1 := if t.running_async then cancelled ++ [(slotid, epid, xferi)] else cancelled
    let killed1 := if t.running_async then killed + 1 else killed
    let t1 : XHCITransfer :=
      if t.running_async then { t with running_async := false, cancelled := true } else t
    let retry1 := if t1.running_retry then none else epctx.retry
    let t2 : XHCITransfer := if t1.running_retry then { t1 with running_retry := false } else t1
    let t3 : XHCITransfer := { t2 with trbs := [] }
    nuke_xfers_loop slotid epid n ((xferi + 1) % TD_QUEUE)
      { epctx with transfers := Function.update epctx.transfers xferi t3, retry := retry1 }
      cancelled1 killed1

/-- `xhci_ep_nuke_xfers(xhci, slotid, epid)`: the state and the number of
transfers killed. -/
def xhci_ep_nuke_xfers (s : XHCIState) (slotid epid : Nat) : Except Fault (XHCIState × Int) :=
  if slotid < 1 ∨ slotid > MAXSLOTS then .error .assertion
  else if epid < 1 ∨ epid > 31 then .error .assertion
  else
    match (s.slots (slotid - 1)).eps (epid - 1) with
    | none => .ok (s, 0)
    | some epctx =>
      let r := nuke_xfers_loop slotid epid TD_QUEUE epctx.next_xfer epctx [] 0
      .ok ({ set_epctx s slotid epid (some r.1) with log_cancel := s.log_cancel ++ r.2.1 },
           r.2.2)

/-- `xhci_disable_ep(xhci, slotid, epid)`: the state and the completion code. -/
def xhci_disable_ep (s : XHCIState) (slotid epid : Nat) : Except Fault (XHCIState × Nat) :=
  if slotid < 1 ∨ slotid > MAXSLOTS then .error .assertion
  else if epid < 1 ∨ epid > 31 then .error .assertion
  else
    match (s.slots (slotid - 1)).eps (epid - 1) with
    | none => .ok (s, CC_SUCCESS)
    | some _ =>
      match xhci_ep_nuke_xfers s slotid epid with
      | .error f => .error f
      | .ok (s1, _) =>
        match (s1.slots (slotid - 1)).eps (epid - 1) with
        | none => .error .undefined
        | some epctx =>
          let r := xhci_set_ep_state s1 epctx EP_DISABLED
          .ok (set_epctx r.1 slotid epid none, CC_SUCCESS)

/-- `xhci_reset_ep(xhci, slotid, epid)`.  `ports[port-1]` with `port` outside
`1..MAXPORTS` is an access outside the array. -/
def xhci_reset_ep (s : XHCIState) (slotid epid : Nat) : Except Fault (XHCIState × Nat) :=
  if slotid < 1 ∨ slotid > MAXSLOTS then .error .assertion
  else if epid < 1 ∨ epid > 31 then .ok (s, CC_TRB_ERROR)
  else
    match (s.slots (slotid - 1)).eps (epid - 1) with
    | none => .ok (s, CC_EP_NOT_ENABLED_ERROR)
    | some epctx =>
      if epctx.state ≠ EP_HALTED then .ok (s, CC_CONTEXT_STATE_ERROR)
      else
        match xhci_ep_nuke_xfers s slotid epid with
        | .error f => .error f
        | .ok (s1, _) =>
          let port := (s1.slots (slotid - 1)).port
          if port < 1 ∨ port > MAXPORTS then .error .undefined
          else if s1.port_dev (port - 1) = false then .ok (s1, CC_USB_TRANSACTION_ERROR)
          else
            match (s1.slots (slotid - 1)).eps (epid - 1) with
            | none => .error .undefined
            | some epctx1 =>
              let r := xhci_set_ep_state s1 epctx1 EP_STOPPED
              .ok (set_epctx r.1 slotid epid (some r.2), CC_SUCCESS)

/-- `xhci_set_ep_dequeue(xhci, slotid, epid, pdequeue)`.  `~0xF` is the `int`
-16, which the conversion to `dma_addr_t` turns into the modulus less 16. -/
def xhci_set_ep_dequeue (w : DmaWidth) (s : XHCIState) (slotid epid pdequeue : Nat) :
    Except Fault (XHCIState × Nat) :=
  if slotid < 1 ∨ slotid > MAXSLOTS then .error .assertion
  else if epid < 1 ∨ epid > 31 then .ok (s, CC_TRB_ERROR)
  else
    let dequeue := xhci_mask64 w pdequeue
    match (s.slots (slotid - 1)).eps (epid - 1) with
    | none => .ok (s, CC_EP_NOT_ENABLED_ERROR)
    | some epctx =>
      if epctx.state ≠ EP_STOPPED then .ok (s, CC_CONTEXT_STATE_ERROR)
      else
        let ring := xhci_ring_init (dequeue &&& (w.modulus - 16))
        let epctx1 : XHCIEPContext :=
          { epctx with ring := { ring with ccs := decide (dequeue &&& 1 ≠ 0) } }
        let r := xhci_set_ep_state s epctx1 EP_STOPPED
        .ok (set_epctx r.1 slotid epid (some r.2), CC_SUCCESS)

/-- `xhci_enable_slot(xhci, slotid)`. -/
def xhci_enable_slot (s : XHCIState) (slotid : Nat) : Except Fault (XHCIState × Nat) :=
  if slotid < 1 ∨ slotid > MAXSLOTS then .error .assertion
  else
    .ok ({ s with
           slots := Function.update s.slots (slotid - 1)
             { s.slots (slotid - 1) with
               enabled := true, port := 0,
               eps := fun i => if i < 31 then none else (s.slots (slotid - 1)).eps i } },
         CC_SUCCESS)

/-- The `for` loop of `xhci_disable_slot` with `n` of its 31 rounds still to
run, at endpoint id `i`. -/
def disable_slot_loop (slotid : Nat) : Nat → Nat → XHCIState → Except Fault XHCIState
  | 0, _, s => .ok s
  | n + 1, i, s =>
    match (s.slots (slotid - 1)).eps (i - 1) with
    | none => disable_slot_loop slotid n (i + 1) s
    | some _ =>
      match xhci_disable_ep s slotid i with
      | .error f => .error f
      | .ok (s1, _) => disable_slot_loop slotid n (i + 1) s1

/-- `xhci_disable_slot(xhci, slotid)`. -/
def xhci_disable_slot (s : XHCIState) (slotid : Nat) : Except Fault (XHCIState × Nat) :=
  if slotid < 1 ∨ slotid > MAXSLOTS then .error .assertion
  else
    match disable_slot_loop slotid 31 1 s with
    | .error f => .error f
    | .ok s1 =>
      .ok ({ s1 with
             slots := Function.update s1.slots (slotid - 1)
               { s1.slots (slotid - 1) with enabled := false } },
           CC_SUCCESS)

/-- The locals of `xhci_process_commands` that are declared outside its loop
and so keep their value from one command to the next. -/
structure CommandLocals where
  event : XHCIEvent
  slotid : Nat

/-- The scan `for (i = 0; i < MAXSLOTS; i++) if (!xhci->slots[i].enabled) break;`
with `n` rounds still allowed, at index `i`: the value of `i` after the loop. -/
def enable_slot_scan (s : XHCIState) : Nat → Nat → Nat
  | 0, i => i
  | n + 1, i => if (s.slots i).enabled = false then i else enable_slot_scan s n (i + 1)

/-- The `case CR_ENABLE_SLOT:` of `xhci_process_commands`. -/
def command_enable_slot (s : XHCIState) (l : CommandLocals) :
    Except Fault (XHCIState × CommandLocals) :=
  let i := enable_slot_scan s MAXSLOTS 0
  if i ≥ MAXSLOTS then
    .ok (s, { l with event := { l.event with ccode := CC_NO_SLOTS_ERROR } })
  else
    match xhci_enable_slot s (i + 1) with
    | .error f => .error f
    | .ok (s1, ccode) => .ok (s1, { event := { l.event with ccode := ccode }, slotid := i + 1 })

/-- One round of the loop of `xhci_process_commands` for an Enable Slot TRB
fetched at `addr`: `event.ptr = addr`, the `case CR_ENABLE_SLOT:`, then
`event.slotid = slotid` and `xhci_event`.  The state and the locals for the
next round. -/
def process_enable_slot (w : DmaWidth) (s : XHCIState) (l : CommandLocals) (addr : Nat) :
    Except Fault (XHCIState × CommandLocals) :=
  match command_enable_slot s { l with event := { l.event with ptr := addr } } with
  | .error f => .error f
  | .ok (s1, l1) =>
    let l2 : CommandLocals := { l1 with event := { l1.event with slotid := u8 l1.slotid } }
    match xhci_event w s1 l2.event with
    | .error f => .error f
    | .ok s2 => .ok (s2, l2)

/-- The example bulk transfer of `ex_xfer`, in flight on endpoint 3 of slot 1. -/
def ex_running_xfer : XHCITransfer := { ex_xfer with running_async := true }

/-- The endpoint context `ex_epctx` in the Halted state. -/
def ex_halted_epctx : XHCIEPContext := { ex_epctx with state := EP_HALTED }

/-- The endpoint context `ex_epctx` in the Stopped state. -/
def ex_stopped_epctx : XHCIEPContext := { ex_epctx with state := EP_STOPPED }

/-- The state `ex_ep_state` with endpoint 3 of slot 1 set to `e`. -/
def ex_ep_state_with (e : XHCIEPContext) : XHCIState := set_epctx ex_ep_state 1 3 (some e)

/-- The locals of `xhci_process_commands` when its loop starts:
`event = {ER_COMMAND_COMPLETE, CC_SUCCESS}` and `slotid = 0`. -/
def command_locals_init : CommandLocals :=
  { event := { type := ER_COMMAND_COMPLETE, ccode := CC_SUCCESS, ptr := 0, length := 0,
               flags := 0, slotid := 0, epid := 0 },
    slotid := 0 }

/-! ## Transfer submission: `xhci_kick_ep` -/

/-- What one call of `usb_handle_packet` does as far as the controller sees it:
the value returned, `packet.result` afterwards, and the guest memory after the
device's data transfer. -/
structure DevAnswer where
  ret : Int
  result : Int
  dma : Mem → Mem

/-- The USB core (`hw/usb/core.c`, `hw/usb.h`), which is not among the sources:
`handle_packet n` is the answer to the `n`-th packet handed to
`usb_handle_packet` since the start of the history, `find_device port addr`
tells whether `usb_find_device(&ports[port].port, addr)` finds a device, and
`DIR_IN` is `USB_DIR_IN`; `SPEED_LOW`, `SPEED_FULL` and `SPEED_HIGH` are
`USB_SPEED_LOW`, `USB_SPEED_FULL` and `USB_SPEED_HIGH`.  A device handles a
packet without calling back into the controller. -/
structure USBCore where
  handle_packet : Nat → DevAnswer
  find_device : Nat → Nat → Bool
  DIR_IN : Nat
  SPEED_LOW : Nat
  SPEED_FULL : Nat
  SPEED_HIGH : Nat

/-- The transfer `slots[slotid-1].eps[epid-1]->transfers[i]`. -/
def get_xfer (s : XHCIState) (slotid epid i : Nat) : Option XHCITransfer :=
  ((s.slots (slotid - 1)).eps (epid - 1)).map (fun e => e.transfers i)

/-- Store a transfer in `slots[slotid-1].eps[epid-1]->transfers[i]`. -/
def set_xfer (s : XHCIState) (slotid epid i : Nat) (xfer : XHCITransfer) : XHCIState :=
  match (s.slots (slotid - 1)).eps (epid - 1) with
  | none => s
  | some e =>
    set_epctx s slotid epid (some { e with transfers := Function.update e.transfers i xfer })

/-- The loop of `xhci_xfer_map`: whether it runs through without `goto err`. -/
def xfer_map_ok (in_xfer : Bool) : List XHCITRB → Bool
  | [] => true
  | trb :: rest =>
    if TRB_TYPE trb = TR_DATA ∧ decide (trb.control &&& TRB_TR_DIR = 0) ≠ !in_xfer then false
    else if (TRB_TYPE trb = TR_DATA ∨ TRB_TYPE trb = TR_NORMAL ∨ TRB_TYPE trb = TR_ISOCH) ∧
        trb.control &&& TRB_TR_IDT ≠ 0 ∧ ((trb.status &&& 0x1ffff) > 8 ∨ in_xfer = true) then
      false
    else xfer_map_ok in_xfer rest

/-- `xhci_xfer_map(xfer)`: the controller state afterwards.  The scatter-gather
list it builds is not represented. -/
def xhci_xfer_map (s : XHCIState) (xfer : XHCITransfer) : XHCIState :=
  if xfer_map_ok xfer.packet_in xfer.trbs then s else xhci_die s

/-- `xhci_setup_packet(xfer, dev)`.  `usb_packet_setup` stores the direction in
`packet.pid`; reading `trbs[0]` of a descriptor without TRBs is undefined. -/
def xhci_setup_packet (s : XHCIState) (xfer : XHCITransfer) :
    Except Fault (XHCIState × XHCITransfer) :=
  match xfer.trbs with
  | [] => .error .undefined
  | _ :: _ =>
    let xfer1 : XHCITransfer := { xfer with packet_in := xfer.in_xfer }
    .ok (xhci_xfer_map s xfer1, xfer1)

/-- `usb_handle_packet(dev, &xfer->packet)` for the transfer at index `i` of
the pool of endpoint `epid` of slot `slotid`. -/
def usb_handle_packet (usb : USBCore) (s : XHCIState) (slotid epid i : Nat)
    (xfer : XHCITransfer) : XHCIState × XHCITransfer × Int :=
  let a := usb.handle_packet s.log_packets.length
  ({ s with mem := a.dma s.mem, log_packets := s.log_packets ++ [(slotid, epid, i)] },
   { xfer with packet_result := a.result }, a.ret)

/-- `xhci_find_device(&ports[port], addr) != NULL`. -/
def xhci_find_device (usb : USBCore) (s : XHCIState) (port addr : Nat) : Bool :=
  if s.portsc port &&& PORTSC_PED = 0 then false else usb.find_device port (u8 addr)

/-- The tail `usb_handle_packet`, `xhci_complete_packet`, conditional
`xhci_kick_ep`, `return 0` shared by `xhci_fire_ctl_transfer` and
`xhci_submit`, for the transfer `xfer` kept at index `i` of its endpoint's
pool.  `kick` is `xhci_kick_ep`. -/
def submit_packet (rc : USBRetCodes) (usb : USBCore) (w : DmaWidth)
    (kick : XHCIState → Nat → Nat → Except Fault XHCIState)
    (s : XHCIState) (i : Nat) (xfer : XHCITransfer) : Except Fault (XHCIState × Int) :=
  let r := usb_handle_packet usb s xfer.slotid xfer.epid i xfer
  match xhci_complete_packet rc w r.1 r.2.1 r.2.2 with
  | .error f => .error f
  | .ok (s1, xfer1) =>
    let s2 := set_xfer s1 xfer1.slotid xfer1.epid i xfer1
    if xfer1.running_async = false ∧ xfer1.running_retry = false then
      match kick s2 xfer1.slotid xfer1.epid with
      | .error f => .error f
      | .ok s3 => .ok (s3, 0)
    else .ok (s2, 0)

/-- `xhci_fire_ctl_transfer(xhci, xfer)` for the transfer `xfer` kept at index
`i` of its endpoint's pool: the state and the returned value.  `ports[port-1]`
with `port` outside `1..MAXPORTS` is an access outside the array. -/
def xhci_fire_ctl_transfer (rc : USBRetCodes) (usb : USBCore) (w : DmaWidth)
    (kick : XHCIState → Nat → Nat → Except Fault XHCIState)
    (s : XHCIState) (i : Nat) (xfer : XHCITransfer) : Except Fault (XHCIState × Int) :=
  match xfer.trbs.head?, xfer.trbs.getLast? with
  | some trb_setup, some trb_last =>
    let trb_status :=
      if TRB_TYPE trb_last = TR_EVDATA ∧ xfer.trbs.length > 2 then
        xfer.trbs.getD (xfer.trbs.length - 2) trb_last
      else trb_last
    if TRB_TYPE trb_setup ≠ TR_SETUP then .ok (s, -1)
    else if TRB_TYPE trb_status ≠ TR_STATUS then .ok (s, -1)
    else if trb_setup.control &&& TRB_TR_IDT = 0 then .ok (s, -1)
    else if trb_setup.status &&& 0x1ffff ≠ 8 then .ok (s, -1)
    else
      let bmRequestType := u8 trb_setup.parameter
      let port := (s.slots (xfer.slotid - 1)).port
      if xfer.slotid < 1 ∨ xfer.slotid > MAXSLOTS ∨ port < 1 ∨ port > MAXPORTS then
        .error .undefined
      else if xhci_find_device usb s (port - 1) (s.slots (xfer.slotid - 1)).devaddr = false then
        .ok (s, -1)
      else
        let xfer1 : XHCITransfer :=
          { xfer with in_xfer := decide (bmRequestType &&& usb.DIR_IN ≠ 0), iso_xfer := false }
        match xhci_setup_packet s xfer1 with
        | .error f => .error f
        | .ok (s1, xfer2) =>
          submit_packet rc usb w kick s1 i { xfer2 with packet_parameter := trb_setup.parameter }
  | _, _ => .error .undefined

/-- `xhci_submit(xhci, xfer, epctx)`, which is all `xhci_fire_transfer` calls,
for the transfer `xfer` kept at index `i` of its endpoint's pool. -/
def xhci_submit (rc : USBRetCodes) (usb : USBCore) (w : DmaWidth)
    (kick : XHCIState → Nat → Nat → Except Fault XHCIState)
    (s : XHCIState) (i : Nat) (xfer : XHCITransfer) (epctx : XHCIEPContext) :
    Except Fault (XHCIState × Int) :=
  let xfer1 : XHCITransfer :=
    { xfer with
      in_xfer := decide (epctx.type >>> 2 ≠ 0),
      pkts := if epctx.type = ET_ISO_IN ∨ epctx.type = ET_ISO_OUT then 1 else 0 }
  let port := (s.slots (xfer.slotid - 1)).port
  if xfer.slotid < 1 ∨ xfer.slotid > MAXSLOTS ∨ port < 1 ∨ port > MAXPORTS then
    .error .undefined
  else if xhci_find_device usb s (port - 1) (s.slots (xfer.slotid - 1)).devaddr = false then
    .ok (set_xfer s xfer.slotid xfer.epid i xfer1, -1)
  else
    match xhci_setup_packet s xfer1 with
    | .error f => .error f
    | .ok (s1, xfer2) =>
      if epctx.type = ET_INTR_OUT ∨ epctx.type = ET_INTR_IN ∨ epctx.type = ET_BULK_OUT ∨
          epctx.type = ET_BULK_IN then
        submit_packet rc usb w kick s1 i xfer2
      else if epctx.type = ET_ISO_OUT ∨ epctx.type = ET_ISO_IN then .error .fixme
      else .ok (set_xfer s1 xfer2.slotid xfer2.epid i xfer2, -1)

/-- The `for` loop in `xhci_kick_ep` that fetches the `n` TRBs of a descriptor
under `assert`: the ring afterwards and the TRBs. -/
def fetch_trbs (w : DmaWidth) (mem : Mem) (rf : Nat) :
    Nat → XHCIRing → Except Fault (XHCIRing × List XHCITRB)
  | 0, ring => .ok (ring, [])
  | n + 1, ring =>
    match xhci_ring_fetch w mem rf ring with
    | none => .error .fuel
    | some r =>
      if r.ret = 0 then .error .assertion
      else
        match fetch_trbs w mem rf n r.ring with
        | .error f => .error f
        | .ok (ring1, trbs) => .ok (ring1, r.trb :: trbs)

/-- The body of the `while (1)` loop of `xhci_kick_ep`, one round; `kick` is
`xhci_kick_ep` (called from the submission functions) and `loop` the rest of
the loop.  The walk of the ring has no result when it does not end within `rf`
steps or its count leaves the range of `int`. -/
def kick_ep_round (rc : USBRetCodes) (usb : USBCore) (w : DmaWidth) (rf : Nat)
    (kick loop : XHCIState → Nat → Nat → Except Fault XHCIState)
    (s : XHCIState) (slotid epid : Nat) : Except Fault XHCIState :=
  match (s.slots (slotid - 1)).eps (epid - 1) with
  | none => .error .undefined
  | some epctx =>
    let i := epctx.next_xfer
    let xfer := epctx.transfers i
    if xfer.running_async = true ∨ xfer.running_retry = true then .ok s
    else
      match xhci_ring_chain_length w s.mem rf epctx.ring with
      | none => .error .fuel
      | some (length, _) =>
        if length < 0 then .ok s
        else if length = 0 then .ok s
        else
          match fetch_trbs w s.mem rf length.toNat epctx.ring with
          | .error f => .error f
          | .ok (ring1, trbs) =>
            let xfer1 : XHCITransfer := { xfer with trbs := trbs, epid := epid, slotid := slotid }
            let epctx1 : XHCIEPContext :=
              { epctx with ring := ring1, transfers := Function.update epctx.transfers i xfer1 }
            let s1 := set_epctx s slotid epid (some epctx1)
            let fired :=
              if epid = 1 then xhci_fire_ctl_transfer rc usb w kick s1 i xfer1
              else xhci_submit rc usb w kick s1 i xfer1 epctx1
            match fired with
            | .error f => .error f
            | .ok (s2, r) =>
              match (s2.slots (slotid - 1)).eps (epid - 1) with
              | none => .error .undefined
              | some epctx2 =>
                let epctx3 : XHCIEPContext :=
                  if r ≥ 0 then { epctx2 with next_xfer := (epctx2.next_xfer + 1) % TD_QUEUE }
                  else epctx2
                let s3 := set_epctx s2 slotid epid (some epctx3)
                if epctx3.state = EP_HALTED then .ok s3
                else if (epctx3.transfers i).running_retry = true then
                  .ok (set_epctx s3 slotid epid (some { epctx3 with retry := some i }))
                else loop s3 slotid epid

/-- The part of `xhci_kick_ep` before its `while (1)` loop, followed by the
loop, which is `loop`. -/
def kick_ep_entry (rc : USBRetCodes) (usb : USBCore) (w : DmaWidth)
    (loop : XHCIState → Nat → Nat → Except Fault XHCIState)
    (s : XHCIState) (slotid epid : Nat) : Except Fault XHCIState :=
  if slotid < 1 ∨ slotid > MAXSLOTS then .error .assertion
  else if epid < 1 ∨ epid > 31 then .error .assertion
  else if (s.slots (slotid - 1)).enabled = false then .ok s
  else
    match (s.slots (slotid - 1)).eps (epid - 1) with
    | none => .ok s
    | some epctx =>
      let retried : Except Fault (XHCIState × Bool) :=
        match epctx.retry with
        | none => .ok (s, false)
        | some i =>
          let xfer := epctx.transfers i
          if xfer.running_retry = false then .error .assertion
          else
            match xhci_setup_packet s xfer with
            | .error f => .error f
            | .ok (s1, xfer1) =>
              let r := usb_handle_packet usb s1 slotid epid i xfer1
              if r.2.2 = rc.NAK then .ok (set_xfer r.1 slotid epid i r.2.1, true)
              else
                match xhci_complete_packet rc w r.1 r.2.1 r.2.2 with
                | .error f => .error f
                | .ok (s2, xfer2) =>
                  if xfer2.running_retry = true then .error .assertion
                  else
                    match (s2.slots (slotid - 1)).eps (epid - 1) with
                    | none => .error .undefined
                    | some epctx2 =>
                      .ok (set_epctx s2 slotid epid
                            (some { epctx2 with
                                    transfers := Function.update epctx2.transfers i xfer2,
                                    retry := none }), false)
      match retried with
      | .error f => .error f
      | .ok (s1, true) => .ok s1
      | .ok (s1, false) =>
        match (s1.slots (slotid - 1)).eps (epid - 1) with
        | none => .error .undefined
        | some epctx1 =>
          if epctx1.state = EP_HALTED then .ok s1
          else
            let r := xhci_set_ep_state s1 epctx1 EP_RUNNING
            loop (set_epctx r.1 slotid epid (some r.2)) slotid epid

/-- `xhci_kick_ep` and its `while (1)` loop, each allowed `fuel` nested calls
and loop rounds. -/
def kick_ep_pair (rc : USBRetCodes) (usb : USBCore) (w : DmaWidth) (rf : Nat) :
    Nat → (XHCIState → Nat → Nat → Except Fault XHCIState) ×
      (XHCIState → Nat → Nat → Except Fault XHCIState)
  | 0 => (fun _ _ _ => .error .fuel, fun _ _ _ => .error .fuel)
  | fuel + 1 =>
    let p := kick_ep_pair rc usb w rf fuel
    (kick_ep_entry rc usb w p.2, kick_ep_round rc usb w rf p.1 p.2)

/-- `xhci_kick_ep(xhci, slotid, epid)`. -/
def xhci_kick_ep (rc : USBRetCodes) (usb : USBCore) (w : DmaWidth) (rf fuel : Nat)
    (s : XHCIState) (slotid epid : Nat) : Except Fault XHCIState :=
  (kick_ep_pair rc usb w rf fuel).1 s slotid epid

/-- A device that answers NAK to every packet and moves no data. -/
def ex_usb_nak : USBCore :=
  { handle_packet := fun _ => { ret := -2, result := -2, dma := fun m => m },
    find_device := fun _ _ => true,
    DIR_IN := 0x80, SPEED_LOW := 0, SPEED_FULL := 1, SPEED_HIGH := 2 }

/-- The endpoint context `ex_epctx` with the transfer at index 0 of its pool
NAK'd and pending retry. -/
def ex_retry_epctx : XHCIEPContext :=
  { ex_epctx with
    retry := some 0,
    transfers := fun i =>
      if i = 0 then { ex_xfer with running_retry := true } else ex_epctx.transfers i }

/-- A device that completes every packet at once with 512 bytes transferred and
moves no data into guest memory. -/
def ex_usb_512 : USBCore :=
  { handle_packet := fun _ => { ret := 512, result := 512, dma := fun m => m },
    find_device := fun _ _ => true,
    DIR_IN := 0x80, SPEED_LOW := 0, SPEED_FULL := 1, SPEED_HIGH := 2 }

/-- The state `ex_ep_state` with every port enabled and, at the dequeue pointer
`0x2010` of endpoint 3 of slot 1, one Normal TRB of length 512 with IOC set,
followed by memory the guest has not written. -/
def ex_kick_state : XHCIState :=
  { ex_ep_state with
    portsc := fun _ => PORTSC_PED,
    mem := dma_write_trb (fun _ => 0) 0x2010
      { parameter := 0x5000, status := 512,
        control := (TR_NORMAL <<< 10) ||| TRB_TR_IOC ||| TRB_C } }

/-! ## Command ring: slot commands -/

def CR_DISABLE_SLOT : Nat := 10
def CR_ADDRESS_DEVICE : Nat := 11
def CR_CONFIGURE_ENDPOINT : Nat := 12
def CR_EVALUATE_CONTEXT : Nat := 13
def CR_RESET_ENDPOINT : Nat := 14
def CR_STOP_ENDPOINT : Nat := 15
def CR_SET_TR_DEQUEUE : Nat := 16
def CR_RESET_DEVICE : Nat := 17
def CR_GET_PORT_BANDWIDTH : Nat := 21
def CR_VENDOR_VIA_CHALLENGE_RESPONSE : Nat := 48
def CR_VENDOR_NEC_FIRMWARE_REVISION : Nat := 49
def CR_VENDOR_NEC_CHALLENGE_RESPONSE : Nat := 50
def ER_PORT_STATUS_CHANGE : Nat := 34

def CC_COMMAND_RING_STOPPED : Nat := 24

def TRB_CR_SLOTID_SHIFT : Nat := 24
def TRB_CR_SLOTID_MASK : Nat := 0xff
def TRB_CR_EPID_SHIFT : Nat := 16
def TRB_CR_EPID_MASK : Nat := 0x1f
def TRB_CR_BSR : Nat := 1 <<< 9
def TRB_CR_DC : Nat := 1 <<< 9

def EP_TYPE_MASK : Nat := 0x7
def EP_TYPE_SHIFT : Nat := 3

def SLOT_STATE_MASK : Nat := 0x1f
def SLOT_STATE_SHIFT : Nat := 27
def SLOT_ENABLED : Nat := 0
def SLOT_DEFAULT : Nat := 1
def SLOT_ADDRESSED : Nat := 2
def SLOT_CONFIGURED : Nat := 3
def SLOT_CONTEXT_ENTRIES_MASK : Nat := 0x1f
def SLOT_CONTEXT_ENTRIES_SHIFT : Nat := 27

def USBCMD_RS : Nat := 1 <<< 0
def USBCMD_HCRST : Nat := 1 <<< 1
def USBSTS_HSE : Nat := 1 <<< 2
def USBSTS_PCD : Nat := 1 <<< 4
def USBSTS_SRE : Nat := 1 <<< 10
def CRCR_CS : Nat := 1 <<< 1
def CRCR_CA : Nat := 1 <<< 2
def CRCR_CRR : Nat := 1 <<< 3

def PORTSC_CCS : Nat := 1 <<< 0
def PORTSC_PR : Nat := 1 <<< 4
def PORTSC_PLS_SHIFT : Nat := 5
def PORTSC_PLS_MASK : Nat := 0xf
def PORTSC_PP : Nat := 1 <<< 9
def PORTSC_SPEED_FULL : Nat := 1 <<< 10
def PORTSC_SPEED_LOW : Nat := 2 <<< 10
def PORTSC_SPEED_HIGH : Nat := 3 <<< 10
def PORTSC_LWS : Nat := 1 <<< 16
def PORTSC_CSC : Nat := 1 <<< 17
def PORTSC_PEC : Nat := 1 <<< 18
def PORTSC_WRC : Nat := 1 <<< 19
def PORTSC_OCC : Nat := 1 <<< 20
def PORTSC_PRC : Nat := 1 <<< 21
def PORTSC_PLC : Nat := 1 <<< 22
def PORTSC_CEC : Nat := 1 <<< 23
def PORTSC_WCE : Nat := 1 <<< 25
def PORTSC_WDE : Nat := 1 <<< 26
def PORTSC_WOE : Nat := 1 <<< 27

/-- `SLOT_STATE(s)`. -/
def SLOT_STATE (x : Nat) : Nat := (x >>> SLOT_STATE_SHIFT) &&& SLOT_STATE_MASK

/-- `pci_dma_read` of `n` 32-bit words into a `uint32_t` array, in host byte
order, taken to be little-endian. -/
def read_ctx (mem : Mem) (addr n : Nat) : List Nat :=
  (List.range n).map (fun k => le_to_cpu ((pci_dma_read mem addr (4 * n)).drop (4 * k) |>.take 4))

/-- `pci_dma_write` of a `uint32_t` array, in host byte order, taken to be
little-endian. -/
def write_ctx (mem : Mem) (addr : Nat) (ctx : List Nat) : Mem :=
  pci_dma_write mem addr (ctx.flatMap (fun x => cpu_to_le 4 x))

/-- An `XHCITransfer` of a context that `memset` has zeroed and whose packet
`usb_packet_init` has initialised. -/
def zero_xfer : XHCITransfer :=
  { packet_result := 0, packet_in := false, packet_parameter := 0, in_xfer := false,
    iso_xfer := false, pkts := 0, running_async := false, running_retry := false,
    cancelled := false, complete := false, slotid := 0, epid := 0, trbs := [], status := 0 }

/-- `xhci_enable_ep(xhci, slotid, epid, pctx, ctx)`: the state, the completion
code and the array `ctx` afterwards. -/
def xhci_enable_ep (w : DmaWidth) (s : XHCIState) (slotid epid pctx : Nat) (ctx : List Nat) :
    Except Fault (XHCIState × Nat × List Nat) :=
  if slotid < 1 ∨ slotid > MAXSLOTS then .error .assertion
  else if epid < 1 ∨ epid > 31 then .error .assertion
  else
    match (s.slots (slotid - 1)).eps (epid - 1) with
    | some _ => .ok (s, CC_TRB_ERROR, ctx)
    | none =>
      let dequeue := xhci_addr64 w (ctx.getD 2 0 &&& 0xfffffff0) (ctx.getD 3 0)
      let epctx : XHCIEPContext :=
        { ring := { xhci_ring_init dequeue with ccs := decide (ctx.getD 2 0 &&& 1 ≠ 0) },
          next_xfer := 0, comp_xfer := 0,
          transfers := fun _ => zero_xfer,
          retry := none,
          type := (ctx.getD 1 0 >>> EP_TYPE_SHIFT) &&& EP_TYPE_MASK,
          pctx := pctx,
          max_psize := u32 ((ctx.getD 1 0 >>> 16) * (1 + ((ctx.getD 1 0 >>> 8) &&& 0xff))),
          state := EP_RUNNING }
      .ok (set_epctx s slotid epid (some epctx), CC_SUCCESS,
           ctx.set 0 (clear_bits (ctx.getD 0 0) EP_STATE_MASK ||| EP_RUNNING))

/-- The scan of `xhci_address_slot` for a slot that holds `port`, with `n`
rounds still to run at index `i`: whether it finds one. -/
def port_assigned (s : XHCIState) (port : Nat) : Nat → Nat → Bool
  | 0, _ => false
  | n + 1, i => if (s.slots i).port = port then true else port_assigned s port n (i + 1)

/-- The assignments of `xhci_address_slot` between its checks and its call of
`xhci_enable_ep`: `slot->port`, `slot->ctx` and, with `bsr` clear,
`slot->devaddr = xhci->devaddr++` and the SET_ADDRESS request to the device. -/
def address_slot_assign (s : XHCIState) (slotid port octx : Nat) (bsr : Bool) : XHCIState :=
  let slot := s.slots (slotid - 1)
  if bsr then
    { s with
      slots := Function.update s.slots (slotid - 1) { slot with port := port, ctx := octx } }
  else
    { s with
      slots := Function.update s.slots (slotid - 1)
        { slot with port := port, ctx := octx, devaddr := s.devaddr },
      devaddr := u32 (s.devaddr + 1),
      log_set_address := s.log_set_address ++ [(port - 1, s.devaddr)] }

/-- `xhci_address_slot(xhci, slotid, pictx, bsr)`: the state and the completion
code.  `ports[port-1]` is read before `port` is checked, and is an access
outside the array for `port` outside `1..MAXPORTS`. -/
def xhci_address_slot (w : DmaWidth) (s : XHCIState) (slotid pictx : Nat) (bsr : Bool) :
    Except Fault (XHCIState × Nat) :=
  if slotid < 1 ∨ slotid > MAXSLOTS then .error .assertion
  else
    let dcbaap := xhci_addr64 w s.dcbaap_low s.dcbaap_high
    let poctx := le_to_cpu (pci_dma_read s.mem (dma_addr w (dcbaap + 8 * slotid)) 8)
    let ictx := xhci_mask64 w pictx
    let octx := xhci_mask64 w poctx
    let ictl_ctx := read_ctx s.mem ictx 2
    if ictl_ctx.getD 0 0 ≠ 0x0 ∨ ictl_ctx.getD 1 0 ≠ 0x3 then .ok (s, CC_TRB_ERROR)
    else
      let slot_ctx := read_ctx s.mem (dma_addr w (ictx + 32)) 4
      let ep0_ctx := read_ctx s.mem (dma_addr w (ictx + 64)) 5
      let port := (slot_ctx.getD 1 0 >>> 16) &&& 0xFF
      let dev : Except Fault Bool :=
        if port < 1 ∨ port > MAXPORTS then .error .undefined else .ok (s.port_dev (port - 1))
      match dev with
      | .error f => .error f
      | .ok dev =>
      if port < 1 ∨ port > MAXPORTS then .ok (s, CC_TRB_ERROR)
      else if dev = false then .ok (s, CC_USB_TRANSACTION_ERROR)
      else if port_assigned s port MAXSLOTS 0 then .ok (s, CC_TRB_ERROR)
      else
        let slot_ctx3 :=
          if bsr then SLOT_DEFAULT <<< SLOT_STATE_SHIFT
          else u32 ((SLOT_ADDRESSED <<< SLOT_STATE_SHIFT) ||| s.devaddr)
        let s1 := address_slot_assign s slotid port octx bsr
        match xhci_enable_ep w s1 slotid 1 (dma_addr w (octx + 32)) ep0_ctx with
        | .error f => .error f
        | .ok (s2, res, ep0_ctx1) =>
          let mem1 := write_ctx s2.mem octx (slot_ctx.set 3 slot_ctx3)
          let mem2 := write_ctx mem1 (dma_addr w (octx + 32)) ep0_ctx1
          .ok ({ s2 with mem := mem2 }, res)

/-- A loop `for (i = 2; i <= 31; i++) if (eps[i-1]) xhci_disable_ep(xhci, slotid, i);`
with `n` rounds still to run, at endpoint id `i`. -/
def disable_eps_loop (slotid : Nat) : Nat → Nat → XHCIState → Except Fault XHCIState
  | 0, _, s => .ok s
  | n + 1, i, s =>
    match (s.slots (slotid - 1)).eps (i - 1) with
    | none => disable_eps_loop slotid n (i + 1) s
    | some _ =>
      match xhci_disable_ep s slotid i with
      | .error f => .error f
      | .ok (s1, _) => disable_eps_loop slotid n (i + 1) s1

/-- The slot state field of a slot context dword 3 set to `state`. -/
def set_slot_state (x state : Nat) : Nat :=
  clear_bits x (SLOT_STATE_MASK <<< SLOT_STATE_SHIFT) ||| (state <<< SLOT_STATE_SHIFT)

/-- The endpoint loop of the normal path of `xhci_configure_slot`, with `n`
rounds still to run at endpoint id `i`: the state, or the completion code
returned from inside the loop. -/
def configure_eps_loop (w : DmaWidth) (slotid ictx octx : Nat) (ictl_ctx : List Nat) :
    Nat → Nat → XHCIState → Except Fault (XHCIState × Option Nat)
  | 0, _, s => .ok (s, none)
  | n + 1, i, s =>
    let dropped : Except Fault XHCIState :=
      if ictl_ctx.getD 0 0 &&& (1 <<< i) ≠ 0 then
        match xhci_disable_ep s slotid i with
        | .error f => .error f
        | .ok (s1, _) => .ok s1
      else .ok s
    match dropped with
    | .error f => .error f
    | .ok s1 =>
      if ictl_ctx.getD 1 0 &&& (1 <<< i) ≠ 0 then
        let ep_ctx := read_ctx s1.mem (dma_addr w (ictx + 32 + 32 * i)) 5
        match xhci_disable_ep s1 slotid i with
        | .error f => .error f
        | .ok (s2, _) =>
          match xhci_enable_ep w s2 slotid i (dma_addr w (octx + 32 * i)) ep_ctx with
          | .error f => .error f
          | .ok (s3, res, ep_ctx1) =>
            if res ≠ CC_SUCCESS then .ok (s3, some res)
            else
              configure_eps_loop w slotid ictx octx ictl_ctx n (i + 1)
                { s3 with mem := write_ctx s3.mem (dma_addr w (octx + 32 * i)) ep_ctx1 }
      else configure_eps_loop w slotid ictx octx ictl_ctx n (i + 1) s1

/-- `xhci_configure_slot(xhci, slotid, pictx, dc)`. -/
def xhci_configure_slot (w : DmaWidth) (s : XHCIState) (slotid pictx : Nat) (dc : Bool) :
    Except Fault (XHCIState × Nat) :=
  if slotid < 1 ∨ slotid > MAXSLOTS then .error .assertion
  else
    let ictx := xhci_mask64 w pictx
    let octx := (s.slots (slotid - 1)).ctx
    if dc then
      match disable_eps_loop slotid 30 2 s with
      | .error f => .error f
      | .ok s1 =>
        let slot_ctx := read_ctx s1.mem octx 4
        let slot_ctx1 := slot_ctx.set 3 (set_slot_state (slot_ctx.getD 3 0) SLOT_ADDRESSED)
        .ok ({ s1 with mem := write_ctx s1.mem octx slot_ctx1 }, CC_SUCCESS)
    else
      let ictl_ctx := read_ctx s.mem ictx 2
      if (ictl_ctx.getD 0 0 &&& 0x3) ≠ 0x0 ∨ (ictl_ctx.getD 1 0 &&& 0x3) ≠ 0x1 then
        .ok (s, CC_TRB_ERROR)
      else
        let islot_ctx := read_ctx s.mem (dma_addr w (ictx + 32)) 4
        let slot_ctx := read_ctx s.mem octx 4
        if SLOT_STATE (slot_ctx.getD 3 0) < SLOT_ADDRESSED then .ok (s, CC_CONTEXT_STATE_ERROR)
        else
          match configure_eps_loop w slotid ictx octx ictl_ctx 30 2 s with
          | .error f => .error f
          | .ok (s1, some res) => .ok (s1, res)
          | .ok (s1, none) =>
            let slot_ctx3 := set_slot_state (slot_ctx.getD 3 0) SLOT_CONFIGURED
            let slot_ctx0 :=
              clear_bits (slot_ctx.getD 0 0)
                  (SLOT_CONTEXT_ENTRIES_MASK <<< SLOT_CONTEXT_ENTRIES_SHIFT) |||
                (islot_ctx.getD 0 0 &&&
                  (SLOT_CONTEXT_ENTRIES_MASK <<< SLOT_CONTEXT_ENTRIES_SHIFT))
            .ok ({ s1 with
                   mem := write_ctx s1.mem octx ((slot_ctx.set 3 slot_ctx3).set 0 slot_ctx0) },
                 CC_SUCCESS)

/-- `xhci_evaluate_slot(xhci, slotid, pictx)`. -/
def xhci_evaluate_slot (w : DmaWidth) (s : XHCIState) (slotid pictx : Nat) :
    Except Fault (XHCIState × Nat) :=
  if slotid < 1 ∨ slotid > MAXSLOTS then .error .assertion
  else
    let ictx := xhci_mask64 w pictx
    let octx := (s.slots (slotid - 1)).ctx
    let ictl_ctx := read_ctx s.mem ictx 2
    if ictl_ctx.getD 0 0 ≠ 0x0 ∨ ictl_ctx.getD 1 0 &&& 0xfffffffc ≠ 0 then .ok (s, CC_TRB_ERROR)
    else
      let s1 : XHCIState :=
        if ictl_ctx.getD 1 0 &&& 0x1 ≠ 0 then
          let islot_ctx := read_ctx s.mem (dma_addr w (ictx + 32)) 4
          let slot_ctx := read_ctx s.mem octx 4
          let slot_ctx1 :=
            (slot_ctx.getD 1 0 &&& 0xffff0000) ||| (islot_ctx.getD 1 0 &&& 0xFFFF)
          let slot_ctx2 :=
            (slot_ctx.getD 2 0 &&& 0xf00fffff) ||| (islot_ctx.getD 2 0 &&& 0xFF000000)
          { s with mem := write_ctx s.mem octx ((slot_ctx.set 1 slot_ctx1).set 2 slot_ctx2) }
        else s
      let s2 : XHCIState :=
        if ictl_ctx.getD 1 0 &&& 0x2 ≠ 0 then
          let iep0_ctx := read_ctx s1.mem (dma_addr w (ictx + 64)) 5
          let ep0_ctx := read_ctx s1.mem (dma_addr w (octx + 32)) 5
          let ep0_ctx1 := (ep0_ctx.getD 1 0 &&& 0x0000ffff) ||| (iep0_ctx.getD 1 0 &&& 0xFFFF0000)
          { s1 with mem := write_ctx s1.mem (dma_addr w (octx + 32)) (ep0_ctx.set 1 ep0_ctx1) }
        else s1
      .ok (s2, CC_SUCCESS)

/-- `xhci_reset_slot(xhci, slotid)`. -/
def xhci_reset_slot (s : XHCIState) (slotid : Nat) : Except Fault (XHCIState × Nat) :=
  if slotid < 1 ∨ slotid > MAXSLOTS then .error .assertion
  else
    let octx := (s.slots (slotid - 1)).ctx
    match disable_eps_loop slotid 30 2 s with
    | .error f => .error f
    | .ok s1 =>
      let slot_ctx := read_ctx s1.mem octx 4
      let slot_ctx1 := slot_ctx.set 3 (set_slot_state (slot_ctx.getD 3 0) SLOT_DEFAULT)
      .ok ({ s1 with mem := write_ctx s1.mem octx slot_ctx1 }, CC_SUCCESS)

/-- `xhci_stop_ep(xhci, slotid, epid)`. -/
def xhci_stop_ep (s : XHCIState) (slotid epid : Nat) : Except Fault (XHCIState × Nat) :=
  if slotid < 1 ∨ slotid > MAXSLOTS then .error .assertion
  else if epid < 1 ∨ epid > 31 then .ok (s, CC_TRB_ERROR)
  else
    match (s.slots (slotid - 1)).eps (epid - 1) with
    | none => .ok (s, CC_EP_NOT_ENABLED_ERROR)
    | some _ =>
      match xhci_ep_nuke_xfers s slotid epid with
      | .error f => .error f
      | .ok (s1, _) =>
        match (s1.slots (slotid - 1)).eps (epid - 1) with
        | none => .error .undefined
        | some epctx =>
          let r := xhci_set_ep_state s1 epctx EP_STOPPED
          .ok (set_epctx r.1 slotid epid (some r.2), CC_SUCCESS)

/-- `xhci_get_slot(xhci, event, trb)`: `*event` afterwards and the slot id
returned. -/
def xhci_get_slot (s : XHCIState) (event : XHCIEvent) (trb : XHCITRB) : XHCIEvent × Nat :=
  let slotid := (trb.control >>> TRB_CR_SLOTID_SHIFT) &&& TRB_CR_SLOTID_MASK
  if slotid < 1 ∨ slotid > MAXSLOTS then ({ event with ccode := CC_TRB_ERROR }, 0)
  else if (s.slots (slotid - 1)).enabled = false then
    ({ event with ccode := CC_SLOT_NOT_ENABLED_ERROR }, 0)
  else (event, slotid)

/-- `xhci_get_port_bandwidth(xhci, pctx)`. -/
def xhci_get_port_bandwidth (w : DmaWidth) (s : XHCIState) (pctx : Nat) : XHCIState × Nat :=
  let ctx := xhci_mask64 w pctx
  ({ s with mem := pci_dma_write s.mem ctx (0 :: List.replicate MAXPORTS 80) }, CC_SUCCESS)

/-- `rotl(v, count)`.  With `count & 31` zero the right shift is by 32, the
width of `uint32_t`, which C leaves undefined. -/
def rotl (v count : Nat) : Except Fault Nat :=
  let c := count &&& 31
  if 32 - c ≥ 32 then .error .undefined
  else .ok (u32 (v <<< c) ||| (v >>> (32 - c)))

/-- `a - b` on `uint32_t`. -/
def sub32 (a b : Nat) : Nat := u32 (u32 a + (4294967296 - u32 b))

/-- `xhci_nec_challenge(hi, lo)`. -/
def xhci_nec_challenge (hi lo : Nat) : Except Fault Nat :=
  match rotl (sub32 lo 0x49434878) (32 - ((hi >>> 8) &&& 0x1F)) with
  | .error f => .error f
  | .ok r1 =>
    match rotl (u32 (lo + 0x49434878)) (hi &&& 0x1F) with
    | .error f => .error f
    | .ok r2 =>
      match rotl (hi ^^^ 0x49434878) ((lo >>> 16) &&& 0x1F) with
      | .error f => .error f
      | .ok r3 => .ok (0xffffffff ^^^ sub32 (u32 (r1 + r2)) r3)

/-- `xhci_via_challenge(xhci, addr)`. -/
def xhci_via_challenge (w : DmaWidth) (s : XHCIState) (addr : Nat) : XHCIState :=
  let paddr := xhci_mask64 w addr
  let buf := read_ctx s.mem paddr 8
  let b2 := buf.getD 2 0
  let b3 := buf.getD 3 0
  let obuf : List Nat :=
    if buf.getD 0 0 &&& 0xff = 2 then
      let o2 := u32 (0x0066c2e9 + 0x2091 * b2 + 0x19bd * b3)
      let o3 := u32 (0xd5281342 + 0x2cc9691 * b2 + 0x2367662 * b3)
      [ u32 (0x49932000 + 0x54dc200 * b2 + 0x7429b578 * b3) ||| (u32 (b2 * b3) &&& 0xff),
        u32 (0x0132bb37 + 0xe89 * b2 + 0xf09 * b3),
        o2, o3,
        u32 (0x0123c75c + 0x1595 * b2 + 0x19ec * b3),
        u32 (0x00f695de + 0x26fd * b2 + 0x3e9 * b3),
        o2 ^^^ o3 ^^^ 0x29472956,
        o2 ^^^ o3 ^^^ 0x65866593 ]
    else buf
  { s with mem := write_ctx s.mem paddr obuf }

/-- A `case` of `xhci_process_commands` of the form
`slotid = xhci_get_slot(xhci, &event, &trb); if (slotid) event.ccode = f(xhci, slotid, ...);`. -/
def command_on_slot (s : XHCIState) (l : CommandLocals) (trb : XHCITRB)
    (f : XHCIState → Nat → Except Fault (XHCIState × Nat)) :
    Except Fault (XHCIState × CommandLocals) :=
  let g := xhci_get_slot s l.event trb
  if g.2 ≠ 0 then
    match f s g.2 with
    | .error e => .error e
    | .ok (s1, ccode) => .ok (s1, { event := { g.1 with ccode := ccode }, slotid := g.2 })
  else .ok (s, { event := g.1, slotid := g.2 })

/-- The `switch (type)` of `xhci_process_commands` for the TRB `trb` of type
`type`. -/
def command_switch (w : DmaWidth) (s : XHCIState) (l : CommandLocals) (type : Nat)
    (trb : XHCITRB) : Except Fault (XHCIState × CommandLocals) :=
  let epid := (trb.control >>> TRB_CR_EPID_SHIFT) &&& TRB_CR_EPID_MASK
  if type = CR_ENABLE_SLOT then command_enable_slot s l
  else if type = CR_DISABLE_SLOT then
    command_on_slot s l trb (fun s1 slotid => xhci_disable_slot s1 slotid)
  else if type = CR_ADDRESS_DEVICE then
    command_on_slot s l trb (fun s1 slotid =>
      xhci_address_slot w s1 slotid trb.parameter (decide (trb.control &&& TRB_CR_BSR ≠ 0)))
  else if type = CR_CONFIGURE_ENDPOINT then
    command_on_slot s l trb (fun s1 slotid =>
      xhci_configure_slot w s1 slotid trb.parameter (decide (trb.control &&& TRB_CR_DC ≠ 0)))
  else if type = CR_EVALUATE_CONTEXT then
    command_on_slot s l trb (fun s1 slotid => xhci_evaluate_slot w s1 slotid trb.parameter)
  else if type = CR_STOP_ENDPOINT then
    command_on_slot s l trb (fun s1 slotid => xhci_stop_ep s1 slotid epid)
  else if type = CR_RESET_ENDPOINT then
    command_on_slot s l trb (fun s1 slotid => xhci_reset_ep s1 slotid epid)
  else if type = CR_SET_TR_DEQUEUE then
    command_on_slot s l trb (fun s1 slotid => xhci_set_ep_dequeue w s1 slotid epid trb.parameter)
  else if type = CR_RESET_DEVICE then
    command_on_slot s l trb (fun s1 slotid => xhci_reset_slot s1 slotid)
  else if type = CR_GET_PORT_BANDWIDTH then
    let r := xhci_get_port_bandwidth w s trb.parameter
    .ok (r.1, { l with event := { l.event with ccode := r.2 } })
  else if type = CR_VENDOR_VIA_CHALLENGE_RESPONSE then
    .ok (xhci_via_challenge w s trb.parameter, l)
  else if type = CR_VENDOR_NEC_FIRMWARE_REVISION then
    .ok (s, { l with event := { l.event with type := 48, length := 0x3025 } })
  else if type = CR_VENDOR_NEC_CHALLENGE_RESPONSE then
    match xhci_nec_challenge (u32 (trb.parameter >>> 32)) (u32 trb.parameter) with
    | .error f => .error f
    | .ok val =>
      .ok (s, { event := { l.event with length := val &&& 0xFFFF, epid := u8 (val >>> 16),
                                        type := 48 },
                slotid := val >>> 24 })
  else .ok (s, { l with event := { l.event with ccode := CC_TRB_ERROR } })

/-- One round of the loop of `xhci_process_commands` for a TRB `trb` of type
`type` fetched at `addr`: `event.ptr = addr`, the `switch`, then
`event.slotid = slotid` and `xhci_event`.  The state and the locals for the
next round. -/
def process_command (w : DmaWidth) (s : XHCIState) (l : CommandLocals) (type : Nat)
    (trb : XHCITRB) (addr : Nat) : Except Fault (XHCIState × CommandLocals) :=
  match command_switch w s { l with event := { l.event with ptr := addr } } type trb with
  | .error f => .error f
  | .ok (s1, l1) =>
    let l2 : CommandLocals := { l1 with event := { l1.event with slotid := u8 l1.slotid } }
    match xhci_event w s1 l2.event with
    | .error f => .error f
    | .ok s2 => .ok (s2, l2)

/-- `xhci_running(xhci)`. -/
def xhci_running (s : XHCIState) : Bool :=
  decide (s.usbsts &&& USBSTS_HCH = 0) && !s.er_full

/-- The `while` loop of `xhci_process_commands`, allowed `fuel` rounds, each
fetch allowed `rf` steps. -/
def process_commands_loop (w : DmaWidth) (rf : Nat) :
    Nat → XHCIState → CommandLocals → Except Fault XHCIState
  | 0, _, _ => .error .fuel
  | fuel + 1, s, l =>
    match xhci_ring_fetch w s.mem rf s.cmd_ring with
    | none => .error .fuel
    | some r =>
      let s1 : XHCIState := { s with cmd_ring := r.ring }
      if r.ret = 0 then .ok s1
      else
        match process_command w s1 l r.ret r.trb (r.addr.getD 0) with
        | .error f => .error f
        | .ok (s2, l1) => process_commands_loop w rf fuel s2 l1

/-- `xhci_process_commands(xhci)`. -/
def xhci_process_commands (w : DmaWidth) (rf fuel : Nat) (s : XHCIState) :
    Except Fault XHCIState :=
  if xhci_running s = false then .ok s
  else
    process_commands_loop w rf fuel { s with crcr_low := s.crcr_low ||| CRCR_CRR }
      command_locals_init

/-- `xhci_update_port(xhci, port, is_detach)` for `port = xhci->ports + i`. -/
def xhci_update_port (usb : USBCore) (w : DmaWidth) (s : XHCIState) (i : Nat)
    (is_detach : Bool) : Except Fault XHCIState :=
  let nr := i + 1
  let portsc0 := PORTSC_PP
  let portsc1 :=
    if s.port_dev i = true ∧ s.port_attached i = true ∧ is_detach = false then
      let p := portsc0 ||| PORTSC_CCS
      if s.port_speed i = usb.SPEED_LOW then p ||| PORTSC_SPEED_LOW
      else if s.port_speed i = usb.SPEED_FULL then p ||| PORTSC_SPEED_FULL
      else if s.port_speed i = usb.SPEED_HIGH then p ||| PORTSC_SPEED_HIGH
      else p
    else portsc0
  let s1 : XHCIState := { s with portsc := Function.update s.portsc i portsc1 }
  if xhci_running s1 = true then
    xhci_event w { s1 with portsc := Function.update s1.portsc i (portsc1 ||| PORTSC_CSC) }
      { type := ER_PORT_STATUS_CHANGE, ccode := CC_SUCCESS, ptr := nr <<< 24, length := 0,
        flags := 0, slotid := 0, epid := 0 }
  else .ok s1

/-- The loop `for (i = 0; i < MAXSLOTS; i++) xhci_disable_slot(xhci, i+1);` of
`xhci_reset` with `n` rounds still to run, at index `i`. -/
def reset_slots_loop : Nat → Nat → XHCIState → Except Fault XHCIState
  | 0, _, s => .ok s
  | n + 1, i, s =>
    match xhci_disable_slot s (i + 1) with
    | .error f => .error f
    | .ok (s1, _) => reset_slots_loop n (i + 1) s1

/-- The loop `for (i = 0; i < MAXPORTS; i++) xhci_update_port(xhci, xhci->ports + i, 0);`
of `xhci_reset` with `n` rounds still to run, at index `i`. -/
def reset_ports_loop (usb : USBCore) (w : DmaWidth) : Nat → Nat → XHCIState → Except Fault XHCIState
  | 0, _, s => .ok s
  | n + 1, i, s =>
    match xhci_update_port usb w s i false with
    | .error f => .error f
    | .ok s1 => reset_ports_loop usb w n (i + 1) s1

/-- `xhci_reset(dev)`. -/
def xhci_reset (usb : USBCore) (w : DmaWidth) (s : XHCIState) : Except Fault XHCIState :=
  let s1 : XHCIState :=
    { s with usbcmd := 0, usbsts := USBSTS_HCH, dnctrl := 0, crcr_low := 0, crcr_high := 0,
             dcbaap_low := 0, dcbaap_high := 0, config := 0, devaddr := 2 }
  match reset_slots_loop MAXSLOTS 0 s1 with
  | .error f => .error f
  | .ok s2 =>
    match reset_ports_loop usb w MAXPORTS 0 s2 with
    | .error f => .error f
    | .ok s3 =>
      .ok { s3 with mfindex := 0, iman := 0, imod := 0, erstsz := 0, erstba_low := 0,
                    erstba_high := 0, erdp_low := 0, erdp_high := 0,
                    er_ep_idx := 0, er_pcs := true, er_full := false,
                    ev_buffer_put := 0, ev_buffer_get := 0 }

/-- `xhci_stop(xhci)`. -/
def xhci_stop (s : XHCIState) : XHCIState :=
  { s with usbsts := s.usbsts ||| USBSTS_HCH, crcr_low := clear_bits s.crcr_low CRCR_CRR }

/-- `xhci_port_write(xhci, reg, val)`. -/
def xhci_port_write (s : XHCIState) (reg val : Nat) : XHCIState :=
  let port := reg >>> 4
  if port ≥ MAXPORTS then s
  else if reg &&& 0xf = 0x00 then
    let portsc0 := s.portsc port
    let portsc1 :=
      clear_bits portsc0
        (val &&& (PORTSC_CSC ||| PORTSC_PEC ||| PORTSC_WRC ||| PORTSC_OCC ||| PORTSC_PRC |||
                  PORTSC_PLC ||| PORTSC_CEC))
    let portsc2 :=
      if val &&& PORTSC_LWS ≠ 0 then
        clear_bits portsc1 (PORTSC_PLS_MASK <<< PORTSC_PLS_SHIFT) |||
          (val &&& (PORTSC_PLS_MASK <<< PORTSC_PLS_SHIFT))
      else portsc1
    let portsc3 :=
      clear_bits portsc2 (PORTSC_PP ||| PORTSC_WCE ||| PORTSC_WDE ||| PORTSC_WOE) |||
        (val &&& (PORTSC_PP ||| PORTSC_WCE ||| PORTSC_WDE ||| PORTSC_WOE))
    if val &&& PORTSC_PR ≠ 0 then
      { s with portsc := Function.update s.portsc port (portsc3 ||| PORTSC_PRC ||| PORTSC_PED),
               log_port_reset := s.log_port_reset ++ [port] }
    else { s with portsc := Function.update s.portsc port portsc3 }
  else s

/-- `xhci_oper_write(xhci, reg, val)`; `reg` and `val` are `uint32_t`. -/
def xhci_oper_write (usb : USBCore) (w : DmaWidth) (s : XHCIState) (reg val : Nat) :
    Except Fault XHCIState :=
  if reg ≥ 0x400 then .ok (xhci_port_write s (reg - 0x400) val)
  else if reg = 0x00 then
    let s1 : XHCIState :=
      if val &&& USBCMD_RS ≠ 0 ∧ s.usbcmd &&& USBCMD_RS = 0 then xhci_run s
      else if val &&& USBCMD_RS = 0 ∧ s.usbcmd &&& USBCMD_RS ≠ 0 then xhci_stop s
      else s
    let s2 : XHCIState := { s1 with usbcmd := val &&& 0xc0f }
    if val &&& USBCMD_HCRST ≠ 0 then
      match xhci_reset usb w s2 with
      | .error f => .error f
      | .ok s3 => .ok (xhci_irq_update s3)
    else .ok (xhci_irq_update s2)
  else if reg = 0x04 then
    .ok (xhci_irq_update
      { s with
        usbsts := clear_bits s.usbsts
          (val &&& (USBSTS_HSE ||| USBSTS_EINT ||| USBSTS_PCD ||| USBSTS_SRE)) })
  else if reg = 0x14 then .ok { s with dnctrl := val &&& 0xffff }
  else if reg = 0x18 then
    .ok { s with crcr_low := (val &&& 0xffffffcf) ||| (s.crcr_low &&& CRCR_CRR) }
  else if reg = 0x1c then
    let s1 : XHCIState := { s with crcr_high := val }
    let stopped : Except Fault XHCIState :=
      if s1.crcr_low &&& (CRCR_CA ||| CRCR_CS) ≠ 0 ∧ s1.crcr_low &&& CRCR_CRR ≠ 0 then
        xhci_event w { s1 with crcr_low := clear_bits s1.crcr_low CRCR_CRR }
          { type := ER_COMMAND_COMPLETE, ccode := CC_COMMAND_RING_STOPPED, ptr := 0,
            length := 0, flags := 0, slotid := 0, epid := 0 }
      else
        .ok { s1 with
              cmd_ring := xhci_ring_init (xhci_addr64 w (clear_bits s1.crcr_low 0x3f) val) }
    match stopped with
    | .error f => .error f
    | .ok s2 => .ok { s2 with crcr_low := clear_bits s2.crcr_low (CRCR_CA ||| CRCR_CS) }
  else if reg = 0x30 then .ok { s with dcbaap_low := val &&& 0xffffffc0 }
  else if reg = 0x34 then .ok { s with dcbaap_high := val }
  else if reg = 0x38 then .ok { s with config := val &&& 0xff }
  else .ok s

/-- `xhci_doorbell_write(xhci, reg, val)`; `reg` and `val` are `uint32_t`.  The
command loop is allowed `cf` rounds. -/
def xhci_doorbell_write (rc : USBRetCodes) (usb : USBCore) (w : DmaWidth) (rf fuel cf : Nat)
    (s : XHCIState) (reg val : Nat) : Except Fault XHCIState :=
  if xhci_running s = false then .ok s
  else
    let reg1 := reg >>> 2
    if reg1 = 0 then
      if val = 0 then xhci_process_commands w rf cf s
      else .ok s
    else
      if reg1 > MAXSLOTS then .ok s
      else if val > 31 then .ok s
      else xhci_kick_ep rc usb w rf fuel s reg1 val

/-- `usb_xhci_init(xhci, dev)`. -/
def usb_xhci_init (s : XHCIState) : XHCIState :=
  { s with
    usbsts := USBSTS_HCH,
    portsc := fun i => if i < MAXPORTS then 0 else s.portsc i,
    port_dev := fun i => if i < MAXPORTS then false else s.port_dev i,
    slots := fun i => if i < MAXSLOTS then { s.slots i with enabled := false } else s.slots i }

/-- A control descriptor for slot 1, endpoint 1: a Setup TRB with immediate
data and length 8 whose setup packet is a GET_DESCRIPTOR request
(`bmRequestType` 0x80), a Status TRB and a trailing Event Data TRB. -/
def ex_ctl_xfer : XHCITransfer :=
  { ex_xfer with
    epid := 1, in_xfer := false, packet_in := false, packet_result := 0,
    trbs := [{ parameter := 0x0012000001000680, status := 8,
               control := (TR_SETUP <<< 10) ||| TRB_TR_IDT ||| TRB_C,
               addr := 0x3000, ccs := true },
             { parameter := 0, status := 0,
               control := (TR_STATUS <<< 10) ||| TRB_C, addr := 0x3010, ccs := true },
             { parameter := 0x1234, status := 0,
               control := (TR_EVDATA <<< 10) ||| TRB_TR_IOC ||| TRB_C,
               addr := 0x3020, ccs := true }] }

/-- The state `ex_ep_state` with, in guest memory, an input context at `0x4000`
(drop word 0, add word 1, input slot context with max exit latency `0x1234`
and interrupter target `0x3C`) and the output slot context of slot 1 at
`0x8000` (dword 1 `0x00010777`, dword 2 `0xA5F12345`, dword 3 Addressed with
address 2). -/
def ex_eval_state : XHCIState :=
  { ex_ep_state with
    mem := write_ctx (write_ctx (write_ctx (fun _ => 0) 0x4000 [0, 1]) 0x4020
        [0x08000000, 0x1234, 0x3C000000, 0]) 0x8000
      [0x08100000, 0x00010777, 0xA5F12345, 0x10000002] }

/-- The input control context `ictl_ctx` that the slot commands read at the
input context address `pictx`. -/
def input_control (w : DmaWidth) (s : XHCIState) (pictx : Nat) : List Nat :=
  read_ctx s.mem (xhci_mask64 w pictx) 2

/-- The root hub port number `(slot_ctx[1]>>16) & 0xFF` in the input slot
context of the input context at `pictx`. -/
def input_port (w : DmaWidth) (s : XHCIState) (pictx : Nat) : Nat :=
  ((read_ctx s.mem (dma_addr w (xhci_mask64 w pictx + 32)) 4).getD 1 0 >>> 16) &&& 0xFF

/-- The output context address `octx` that `xhci_address_slot` reads from entry
`slotid` of the device context base address array. -/
def output_ctx (w : DmaWidth) (s : XHCIState) (slotid : Nat) : Nat :=
  xhci_mask64 w
    (le_to_cpu (pci_dma_read s.mem
      (dma_addr w (xhci_addr64 w s.dcbaap_low s.dcbaap_high + 8 * slotid)) 8))

/-- A state as `xhci_reset` leaves it with the controller then set up and
started: the running event ring of `ex_ring_state`, next device address 2, no
slot enabled; devices on ports 1 and 2; the device context base address array
at `0x100` with the output contexts of slots 1 and 2 at `0x8000` and `0x9000`;
input contexts at `0x4000`, `0x5000` and `0x6000` with add word 3 and an input
slot context for port 1, port 2 and port 0. -/
def ex_enum_state : XHCIState :=
  { ex_ring_state with
    devaddr := 2, dcbaap_low := 0x100,
    port_dev := fun i => decide (i < 2), port_attached := fun i => decide (i < 2),
    port_speed := fun _ => 2,
    mem :=
      write_ctx (write_ctx (write_ctx (write_ctx (write_ctx (write_ctx (write_ctx
        (write_ctx (fun _ => 0) 0x108 [0x8000, 0, 0x9000, 0])
        0x4000 [0, 3]) 0x4020 [0x08000000, 0x00010000, 0, 0])
        0x4040 [0, 0x00400020, 0x7001, 0, 8])
        0x5000 [0, 3]) 0x5020 [0x08000000, 0x00020000, 0, 0])
        0x5040 [0, 0x00400020, 0x7001, 0, 8])
        0x6000 [0, 3] }

/-- The state `s1` differs from `s` at most in the endpoint table of the slot
at index `k`, in guest memory and in the record of cancelled packets. -/
def ep_frame (k : Nat) (s s1 : XHCIState) : Prop :=
  ∃ eps m lc,
    s1 = { s with
           slots := Function.update s.slots k { s.slots k with eps := eps },
           mem := m, log_cancel := lc }

/-- No two distinct slots hold the same non-zero port number. -/
def ports_distinct (s : XHCIState) : Prop :=
  ∀ i j, i < MAXSLOTS → j < MAXSLOTS → i ≠ j → (s.slots i).port ≠ 0 →
    (s.slots i).port ≠ (s.slots j).port

/-- The controller states reached from the state that `usb_xhci_init` leaves
by command rounds of `xhci_process_commands` (with any TRB, fetched at any
address, and any values of the locals), by controller resets, and by steps of
the guest, the devices or the rest of the controller that leave the port
number of every slot alone. -/
inductive Reachable (usb : USBCore) (w : DmaWidth) : XHCIState → Prop where
  | init : Reachable usb w (usb_xhci_init zero_state)
  | command (s s1 : XHCIState) (l l1 : CommandLocals) (type : Nat) (trb : XHCITRB) (addr : Nat) :
      Reachable usb w s → process_command w s l type trb addr = .ok (s1, l1) →
      Reachable usb w s1
  | reset (s s1 : XHCIState) :
      Reachable usb w s → xhci_reset usb w s = .ok s1 → Reachable usb w s1
  | other (s s1 : XHCIState) :
      Reachable usb w s → (∀ i, (s1.slots i).port = (s.slots i).port) → Reachable usb w s1

/-- An Enable Slot command TRB with the cycle bit set. -/
def ex_trb_enable : XHCITRB :=
  { parameter := 0, status := 0, control := (CR_ENABLE_SLOT <<< 10) ||| TRB_C,
    addr := 0x700, ccs := true }

/-- An Address Device command TRB for slot 1 with the input context at `0x4000`
and BSR clear. -/
def ex_trb_address : XHCITRB :=
  { parameter := 0x4000, status := 0,
    control := (1 <<< 24) ||| (CR_ADDRESS_DEVICE <<< 10) ||| TRB_C,
    addr := 0x710, ccs := true }

/-- The state and the locals after one round of the command loop on
`ex_enum_state`, for an Enable Slot command. -/
def ex_enabled : XHCIState × CommandLocals :=
  match process_command .bits64 ex_enum_state command_locals_init CR_ENABLE_SLOT
      ex_trb_enable 0x700 with
  | .ok r => r
  | .error _ => (ex_enum_state, command_locals_init)

/-- The round of the command loop that follows, for an Address Device command
for slot 1 on port 1. -/
def ex_enum_run : Except Fault (XHCIState × CommandLocals) :=
  process_command .bits64 ex_enabled.1 ex_enabled.2 CR_ADDRESS_DEVICE ex_trb_address 0x710

/-- The state after an Address Device with BSR set for slot 1 on port 1, issued
on `ex_enum_state`. -/
def ex_default_state : XHCIState :=
  match xhci_address_slot .bits64 ex_enum_state 1 0x4000 true with
  | .ok (s1, _) => s1
  | .error _ => ex_enum_state

/-- The state `ex_enum_state` with a command ring at `0x700` that holds a
vendor NEC firmware revision command followed by an Enable Slot command. -/
def ex_cmd_state : XHCIState :=
  { ex_enum_state with
    cmd_ring := { base := 0x700, dequeue := 0x700, ccs := true },
    mem :=
      dma_write_trb
        (dma_write_trb ex_enum_state.mem 0x700
          { parameter := 0, status := 0,
            control := (CR_VENDOR_NEC_FIRMWARE_REVISION <<< 10) ||| TRB_C })
        0x710
        { parameter := 0, status := 0, control := (CR_ENABLE_SLOT <<< 10) ||| TRB_C } }

/-- The state `ex_enum_state` in which slot 2, not enabled, holds port 1 from
an earlier enumeration. -/
def ex_stale_state : XHCIState :=
  { ex_enum_state with
    slots := fun i =>
      if i = 1 then { ex_enum_state.slots 1 with port := 1 } else ex_enum_state.slots i }

/-- The event local of `xhci_process_commands` has the type, length and
endpoint id it was initialised with. -/
def event_fresh (l : CommandLocals) : Prop :=
  l.event.type = ER_COMMAND_COMPLETE ∧ l.event.length = 0 ∧ l.event.epid = 0

/-- The command types that have a `case` in `xhci_process_commands`. -/
def command_known (type : Nat) : Prop :=
  type = CR_ENABLE_SLOT ∨ type = CR_DISABLE_SLOT ∨ type = CR_ADDRESS_DEVICE ∨
  type = CR_CONFIGURE_ENDPOINT ∨ type = CR_EVALUATE_CONTEXT ∨ type = CR_STOP_ENDPOINT ∨
  type = CR_RESET_ENDPOINT ∨ type = CR_SET_TR_DEQUEUE ∨ type = CR_RESET_DEVICE ∨
  type = CR_GET_PORT_BANDWIDTH ∨ type = CR_VENDOR_VIA_CHALLENGE_RESPONSE ∨
  type = CR_VENDOR_NEC_FIRMWARE_REVISION ∨ type = CR_VENDOR_NEC_CHALLENGE_RESPONSE

/-- A device that takes every packet and leaves it pending: `usb_handle_packet`
returns `USB_RET_ASYNC` and moves no data. -/
def ex_usb_async : USBCore :=
  { handle_packet := fun _ => { ret := -6, result := 0, dma := fun m => m },
    find_device := fun _ _ => true,
    DIR_IN := 0x80, SPEED_LOW := 0, SPEED_FULL := 1, SPEED_HIGH := 2 }

/-- The state `ex_kick_state` with a second Normal TRB of length 512 (IOC set)
at `0x2020`, right after the first: two transfer descriptors of one TRB each. -/
def ex_two_td_state : XHCIState :=
  { ex_kick_state with
    mem := dma_write_trb ex_kick_state.mem 0x2020
      { parameter := 0x5200, status := 512,
        control := (TR_NORMAL <<< 10) ||| TRB_TR_IOC ||| TRB_C } }

/-- The state `ex_kick_state` whose TRB at the dequeue pointer `0x2010` has the
reserved type 0 in its type field, a valid cycle bit and the chain bit clear. -/
def ex_reserved_state : XHCIState :=
  { ex_kick_state with
    mem := dma_write_trb (fun _ => 0) 0x2010
      { parameter := 0x5000, status := 512, control := TRB_TR_IOC ||| TRB_C } }

/-- The state `ex_enum_state` prepared by a guest that never issues Address
Device: every port enabled; at address 0, where the output context pointer of a
slot that was never addressed points, a slot context whose dword 3 says
Addressed; at `0xa000` an input context with add flags A0 and A3 and, at
`0xa080`, an endpoint context for endpoint id 3 (Bulk IN, max packet size 512,
dequeue pointer `0x2010`, cycle state 1); a command ring at `0x700` that holds
an Enable Slot command and a Configure Endpoint command for slot 1 with that
input context; and that transfer ring with one Normal TRB of length 512. -/
def ex_forged_state : XHCIState :=
  { ex_enum_state with
    portsc := fun _ => PORTSC_PED,
    cmd_ring := { base := 0x700, dequeue := 0x700, ccs := true },
    mem :=
      dma_write_trb (dma_write_trb (dma_write_trb
        (write_ctx (write_ctx (write_ctx ex_enum_state.mem
          0x0 [0, 0, 0, SLOT_ADDRESSED <<< SLOT_STATE_SHIFT])
          0xa000 [0, 9])
          0xa080 [0, (512 <<< 16) ||| (ET_BULK_IN <<< EP_TYPE_SHIFT), 0x2011, 0, 0])
        0x700 { parameter := 0, status := 0, control := (CR_ENABLE_SLOT <<< 10) ||| TRB_C })
        0x710 { parameter := 0xa000, status := 0,
                control := (1 <<< 24) ||| (CR_CONFIGURE_ENDPOINT <<< 10) ||| TRB_C })
        0x2010 { parameter := 0x5000, status := 512,
                 control := (TR_NORMAL <<< 10) ||| TRB_TR_IOC ||| TRB_C } }

/-! ## Register windows -/

def MAXINTRS : Nat := 1
def USB2_PORTS : Nat := 4
def USB3_PORTS : Nat := 4

def LEN_CAP : Nat := 0x40
def OFF_OPER : Nat := LEN_CAP
def LEN_OPER : Nat := 0x400 + 0x10 * MAXPORTS
def OFF_RUNTIME : Nat := clear_bits (OFF_OPER + LEN_OPER + 0x20) 0x1f
def LEN_RUNTIME : Nat := 0x20 + MAXINTRS * 0x20
def OFF_DOORBELL : Nat := OFF_RUNTIME + LEN_RUNTIME
def LEN_DOORBELL : Nat := (MAXSLOTS + 1) * 0x20

/-- `xhci_cap_read(xhci, reg)`; `sizeof(dma_addr_t) == 4` is `w = bits32`. -/
def xhci_cap_read (w : DmaWidth) (reg : Nat) : Nat :=
  if reg = 0x00 then 0x01000000 ||| LEN_CAP
  else if reg = 0x04 then (MAXPORTS <<< 24) ||| (MAXINTRS <<< 8) ||| MAXSLOTS
  else if reg = 0x08 then 0x0000000f
  else if reg = 0x0c then 0x00000000
  else if reg = 0x10 then (if w = .bits32 then 0x00081000 else 0x00081001)
  else if reg = 0x14 then OFF_DOORBELL
  else if reg = 0x18 then OFF_RUNTIME
  else if reg = 0x20 then 0x02000402
  else if reg = 0x24 then 0x20425455
  else if reg = 0x28 then 0x00000001 ||| (USB2_PORTS <<< 8)
  else if reg = 0x2c then 0x00000000
  else if reg = 0x30 then 0x03000002
  else if reg = 0x34 then 0x20425455
  else if reg = 0x38 then 0x00000000 ||| (USB2_PORTS + 1) ||| (USB3_PORTS <<< 8)
  else if reg = 0x3c then 0x00000000
  else 0

/-- `xhci_port_read(xhci, reg)`. -/
def xhci_port_read (s : XHCIState) (reg : Nat) : Nat :=
  let port := reg >>> 4
  if port ≥ MAXPORTS then 0
  else if reg &&& 0xf = 0x00 then s.portsc port
  else if reg &&& 0xf = 0x04 ∨ reg &&& 0xf = 0x08 then 0
  else 0

/-- `xhci_oper_read(xhci, reg)`. -/
def xhci_oper_read (s : XHCIState) (reg : Nat) : Nat :=
  if reg ≥ 0x400 then xhci_port_read s (reg - 0x400)
  else if reg = 0x00 then s.usbcmd
  else if reg = 0x04 then s.usbsts
  else if reg = 0x08 then 1
  else if reg = 0x14 then s.dnctrl
  else if reg = 0x18 then clear_bits s.crcr_low 0xe
  else if reg = 0x1c then s.crcr_high
  else if reg = 0x30 then s.dcbaap_low
  else if reg = 0x34 then s.dcbaap_high
  else if reg = 0x38 then s.config
  else 0

/-- `xhci_runtime_read(xhci, reg)`. -/
def xhci_runtime_read (s : XHCIState) (reg : Nat) : Nat :=
  if reg = 0x00 then s.mfindex
  else if reg = 0x20 then s.iman
  else if reg = 0x24 then s.imod
  else if reg = 0x28 then s.erstsz
  else if reg = 0x30 then s.erstba_low
  else if reg = 0x34 then s.erstba_high
  else if reg = 0x38 then s.erdp_low
  else if reg = 0x3c then s.erdp_high
  else 0

/-- `xhci_doorbell_read(xhci, reg)`. -/
def xhci_doorbell_read (_s : XHCIState) (_reg : Nat) : Nat := 0

/-- `xhci_mem_read(ptr, addr, size)`: the value returned; no read changes the
controller state. -/
def xhci_mem_read (w : DmaWidth) (s : XHCIState) (addr : Nat) : Nat :=
  if addr &&& 3 ≠ 0 then 0
  else if addr < LEN_CAP then xhci_cap_read w addr
  else if addr ≥ OFF_OPER ∧ addr < OFF_OPER + LEN_OPER then xhci_oper_read s (addr - OFF_OPER)
  else if addr ≥ OFF_RUNTIME ∧ addr < OFF_RUNTIME + LEN_RUNTIME then
    xhci_runtime_read s (addr - OFF_RUNTIME)
  else if addr ≥ OFF_DOORBELL ∧ addr < OFF_DOORBELL + LEN_DOORBELL then
    xhci_doorbell_read s (addr - OFF_DOORBELL)
  else 0

/-- `xhci_mem_write(ptr, addr, val, size)`; the `uint64_t val` is converted to
the `uint32_t` parameter of the register functions.  `ef` is the fuel of the
event ring's drain loop, `rf`, `fuel` and `cf` are those of
`xhci_doorbell_write`. -/
def xhci_mem_write (rc : USBRetCodes) (usb : USBCore) (w : DmaWidth) (rf fuel cf ef : Nat)
    (s : XHCIState) (addr val : Nat) : Except Fault XHCIState :=
  if addr &&& 3 ≠ 0 then .ok s
  else if addr ≥ OFF_OPER ∧ addr < OFF_OPER + LEN_OPER then
    xhci_oper_write usb w s (addr - OFF_OPER) (u32 val)
  else if addr ≥ OFF_RUNTIME ∧ addr < OFF_RUNTIME + LEN_RUNTIME then
    xhci_runtime_write w ef s (addr - OFF_RUNTIME) (u32 val)
  else if addr ≥ OFF_DOORBELL ∧ addr < OFF_DOORBELL + LEN_DOORBELL then
    xhci_doorbell_write rc usb w rf fuel cf s (addr - OFF_DOORBELL) (u32 val)
  else .ok s

/-- The running ring of `ex_ring_state` after the guest has written an ERDP
outside the segment (`0x9000`; the segment is `0x1000..0x10ff`). -/
def ex_oob_state : XHCIState := { ex_ring_state with erdp_low := 0x9000 }

/-- The run `ex_actions_fill`, which ends in ring-full mode, followed by a
guest write of ERDP low that moves ERDP out of the segment and by one more
event. -/
def ex_actions_oob : List EvAction :=
  ex_actions_fill ++ [.write_erdp_low 0x9000, .post ex_event2]

/-- The sum of the transfer lengths of the TRBs of a list that carry data. -/
def data_length (l : List XHCITRB) : Nat :=
  (l.map (fun t => if carries_data t then trb_length t else 0)).sum

/-- After an event ring reset: 16 events `ex_event2` are posted without the
guest consuming any, then the guest moves ERDP to slot 8 of the segment at
`0x1000` (low half, then high half). -/
def ex_actions_stale : List EvAction :=
  List.replicate 16 (.post ex_event2) ++ [.write_erdp_low 0x1080, .write_erdp_high 0]

theorem and_TRB_C (c : Nat) : c &&& TRB_C = (cycle_bit c).toNat := by
  have h : TRB_C = 1 := by decide
  rw [h, Nat.and_one_is_mod, cycle_bit, Nat.testBit_zero]
  rcases Nat.mod_two_eq_zero_or_one c with h0 | h1
  · simp [h0]
  · simp [h1]

theorem and_TRB_C_ne (c : Nat) (b : Bool) :
    (c &&& TRB_C ≠ b.toNat) ↔ cycle_bit c ≠ b := by
  rw [and_TRB_C]
  cases cycle_bit c <;> cases b <;> simp

theorem and_TRB_LK_TC (c : Nat) : (c &&& TRB_LK_TC ≠ 0) ↔ toggle_cycle c = true := by
  have h : TRB_LK_TC = 2 ^ 1 := by decide
  rw [h, Nat.and_two_pow, toggle_cycle]
  cases c.testBit 1 <;> simp

theorem and_TRB_TR_CH (c : Nat) : (c &&& TRB_TR_CH = 0) ↔ chain_bit c = false := by
  have h : TRB_TR_CH = 2 ^ 4 := by decide
  rw [h, Nat.and_two_pow, chain_bit]
  cases c.testBit 4 <;> simp

theorem shift_mask_type (c : Nat) :
    (c >>> TRB_TYPE_SHIFT) &&& TRB_TYPE_MASK = trb_type c := by
  have h : TRB_TYPE_MASK = 2 ^ 6 - 1 := by decide
  rw [h, Nat.and_pow_two_sub_one_eq_mod, Nat.shiftRight_eq_div_pow]
  rfl

theorem dma_read_trb_eq (mem : Mem) (a : Nat) :
    dma_read_trb mem a =
      { parameter := le_bytes mem a 8,
        status := le_bytes mem (a + 8) 4,
        control := le_bytes mem (a + 12) 4 } := by
  have hr : List.range 16 = [0, 1, 2, 3, 4, 5, 6, 7, 8, 9, 10, 11, 12, 13, 14, 15] := by
    decide
  simp only [dma_read_trb, pci_dma_read, TRB_SIZE, hr, le_bytes, List.map, List.take,
    List.drop, le_to_cpu, Finset.sum_range_succ, Finset.sum_range_zero, Nat.add_assoc]
  congr 1 <;> norm_num <;> ring

/-! ## TRB ring reader: `xhci_ring_fetch` -/

theorem xhci_ring_fetch_succ (w : DmaWidth) (mem : Mem) (fuel : Nat) (ring : XHCIRing) :
    xhci_ring_fetch w mem (fuel + 1) ring =
      if cycle_bit (dma_read_trb mem ring.dequeue).control ≠ ring.ccs then
        some { ret := 0, ring := ring,
               trb := { parameter := (dma_read_trb mem ring.dequeue).parameter,
                        status := (dma_read_trb mem ring.dequeue).status,
                        control := (dma_read_trb mem ring.dequeue).control,
                        addr := ring.dequeue, ccs := ring.ccs },
               addr := none }
      else if trb_type (dma_read_trb mem ring.dequeue).control ≠ TR_LINK then
        some { ret := trb_type (dma_read_trb mem ring.dequeue).control,
               ring := { ring with dequeue := dma_addr w (ring.dequeue + TRB_SIZE) },
               trb := { parameter := (dma_read_trb mem ring.dequeue).parameter,
                        status := (dma_read_trb mem ring.dequeue).status,
                        control := (dma_read_trb mem ring.dequeue).control,
                        addr := ring.dequeue, ccs := ring.ccs },
               addr := some ring.dequeue }
      else
        xhci_ring_fetch w mem fuel
          { ring with
            dequeue := xhci_mask64 w (dma_read_trb mem ring.dequeue).parameter,
            ccs := if toggle_cycle (dma_read_trb mem ring.dequeue).control then !ring.ccs
                   else ring.ccs } := by
  simp only [xhci_ring_fetch, TRB_TYPE, and_TRB_C_ne, shift_mask_type, and_TRB_LK_TC]

/-- C1. When the TRB at `ring.dequeue` has a cycle bit (bit 0 of its control
word, the little-endian 32-bit word at offset 12) different from `ring.ccs`,
`xhci_ring_fetch` returns 0 and leaves the ring, in particular `dequeue` and
`ccs`, unchanged; nothing is stored through `addr`. -/
theorem xhci_ring_fetch_cycle_mismatch (w : DmaWidth) (mem : Mem) (ring : XHCIRing)
    (fuel : Nat)
    (h : (le_bytes mem (ring.dequeue + 12) 4).testBit 0 ≠ ring.ccs) :
    ∃ r, xhci_ring_fetch w mem (fuel + 1) ring = some r ∧ r.ret = 0 ∧
      r.ring.dequeue = ring.dequeue ∧ r.ring.ccs = ring.ccs ∧ r.ring = ring ∧
      r.addr = none := by
  have hc : cycle_bit (dma_read_trb mem ring.dequeue).control ≠ ring.ccs := by
    rw [dma_read_trb_eq]; exact h
  rw [xhci_ring_fetch_succ, if_pos hc]
  exact ⟨_, rfl, rfl, rfl, rfl, rfl, rfl⟩

theorem ring_fetch_step_non_link (w : DmaWidth) (mem : Mem) (ring : XHCIRing)
    (fuel : Nat)
    (hc : (le_bytes mem (ring.dequeue + 12) 4).testBit 0 = ring.ccs)
    (ht : ((le_bytes mem (ring.dequeue + 12) 4) >>> 10) &&& 0x3f ≠ TR_LINK) :
    xhci_ring_fetch w mem (fuel + 1) ring = some
      { ret := ((le_bytes mem (ring.dequeue + 12) 4) >>> 10) &&& 0x3f,
        ring := { base := ring.base,
                  dequeue := (ring.dequeue + 16) % w.modulus,
                  ccs := ring.ccs },
        trb := { parameter := le_bytes mem ring.dequeue 8,
                 status := le_bytes mem (ring.dequeue + 8) 4,
                 control := le_bytes mem (ring.dequeue + 12) 4,
                 addr := ring.dequeue,
                 ccs := ring.ccs },
        addr := some ring.dequeue } := by
  have hty := shift_mask_type (le_bytes mem (ring.dequeue + 12) 4)
  simp only [TRB_TYPE_SHIFT, TRB_TYPE_MASK] at hty
  rw [hty] at ht ⊢
  have hc' : ¬ cycle_bit (dma_read_trb mem ring.dequeue).control ≠ ring.ccs := by
    rw [dma_read_trb_eq]; exact not_not.mpr hc
  have ht' : trb_type (dma_read_trb mem ring.dequeue).control ≠ TR_LINK := by
    rw [dma_read_trb_eq]; exact ht
  rw [xhci_ring_fetch_succ, if_neg hc', if_pos ht', dma_read_trb_eq]
  rfl

/-- C2. When the TRB at `ring.dequeue` has a matching cycle bit and a type
other than Link, `xhci_ring_fetch` returns its type field
`(control >> 10) & 0x3f`, yields the TRB whose parameter, status and control
are the little-endian values of the bytes at offsets 0..7, 8..11 and 12..15 of
the old dequeue address, reports that address as fetch address (in the TRB and
through `addr`), advances `ring.dequeue` by 16 (in `dma_addr_t` arithmetic) and
leaves `ring.ccs` and `ring.base` unchanged. -/
theorem xhci_ring_fetch_non_link (w : DmaWidth) (mem : Mem) (ring : XHCIRing)
    (fuel : Nat)
    (hc : (le_bytes mem (ring.dequeue + 12) 4).testBit 0 = ring.ccs)
    (ht : ((le_bytes mem (ring.dequeue + 12) 4) >>> 10) &&& 0x3f ≠ TR_LINK) :
    xhci_ring_fetch w mem (fuel + 1) ring = some
      { ret := ((le_bytes mem (ring.dequeue + 12) 4) >>> 10) &&& 0x3f,
        ring := { base := ring.base,
                  dequeue := (ring.dequeue + 16) % w.modulus,
                  ccs := ring.ccs },
        trb := { parameter := le_bytes mem ring.dequeue 8,
                 status := le_bytes mem (ring.dequeue + 8) 4,
                 control := le_bytes mem (ring.dequeue + 12) 4,
                 addr := ring.dequeue,
                 ccs := ring.ccs },
        addr := some ring.dequeue } :=
  ring_fetch_step_non_link w mem ring fuel hc ht

/-- C3. Ring wraparound.  When the TRB at `ring.dequeue` is a Link TRB with
matching cycle bit and target `T` (its parameter, passed through
`xhci_mask64`), and the TRB at `T` is a non-Link TRB whose cycle bit equals the
new cycle state (the negation of `ring.ccs` when the Link TRB has toggle-cycle
set, `ring.ccs` itself when it is clear), `xhci_ring_fetch` returns the TRB at
`T` with fetch address `T`; afterwards `ring.dequeue` is `T + 16` (in
`dma_addr_t` arithmetic) and `ring.ccs` is that new cycle state. -/
theorem xhci_ring_fetch_follows_link (w : DmaWidth) (mem : Mem) (ring : XHCIRing)
    (fuel : Nat) (T : Nat) (ccs' : Bool)
    (hT : T = xhci_mask64 w (le_bytes mem ring.dequeue 8))
    (hccs : ccs' = if (le_bytes mem (ring.dequeue + 12) 4).testBit 1 then !ring.ccs
                   else ring.ccs)
    (hc : (le_bytes mem (ring.dequeue + 12) 4).testBit 0 = ring.ccs)
    (hl : ((le_bytes mem (ring.dequeue + 12) 4) >>> 10) &&& 0x3f = TR_LINK)
    (hc2 : (le_bytes mem (T + 12) 4).testBit 0 = ccs')
    (ht2 : ((le_bytes mem (T + 12) 4) >>> 10) &&& 0x3f ≠ TR_LINK) :
    xhci_ring_fetch w mem (fuel + 2) ring = some
      { ret := ((le_bytes mem (T + 12) 4) >>> 10) &&& 0x3f,
        ring := { base := ring.base, dequeue := (T + 16) % w.modulus, ccs := ccs' },
        trb := { parameter := le_bytes mem T 8,
                 status := le_bytes mem (T + 8) 4,
                 control := le_bytes mem (T + 12) 4,
                 addr := T,
                 ccs := ccs' },
        addr := some T } := by
  have hty := shift_mask_type (le_bytes mem (ring.dequeue + 12) 4)
  simp only [TRB_TYPE_SHIFT, TRB_TYPE_MASK] at hty
  rw [hty] at hl
  have hc' : ¬ cycle_bit (dma_read_trb mem ring.dequeue).control ≠ ring.ccs := by
    rw [dma_read_trb_eq]; exact not_not.mpr hc
  have hl' : ¬ trb_type (dma_read_trb mem ring.dequeue).control ≠ TR_LINK := by
    rw [dma_read_trb_eq]; exact not_not.mpr hl
  rw [xhci_ring_fetch_succ, if_neg hc', if_neg hl']
  have hstep :
      ({ ring with
          dequeue := xhci_mask64 w (dma_read_trb mem ring.dequeue).parameter,
          ccs := if toggle_cycle (dma_read_trb mem ring.dequeue).control then !ring.ccs
                 else ring.ccs } : XHCIRing) =
        { base := ring.base, dequeue := T, ccs := ccs' } := by
    rw [dma_read_trb_eq, hT, hccs]; rfl
  rw [hstep]
  exact ring_fetch_step_non_link w mem { base := ring.base, dequeue := T, ccs := ccs' }
    fuel hc2 ht2

/-- Witness for C1: the cursor is at `ex_normal` (cycle bit 0) and the cycle state is 1. -/
theorem xhci_ring_fetch_cycle_mismatch_witness :
    ∃ r, xhci_ring_fetch .bits64 ex_mem (0 + 1) { base := 0x1000, dequeue := 0x2000, ccs := true }
        = some r ∧ r.ret = 0 ∧
      r.ring.dequeue = 0x2000 ∧ r.ring.ccs = true ∧
      r.ring = { base := 0x1000, dequeue := 0x2000, ccs := true } ∧ r.addr = none :=
  xhci_ring_fetch_cycle_mismatch .bits64 ex_mem
    { base := 0x1000, dequeue := 0x2000, ccs := true } 0 (by decide)

/-- Witness for C2: fetching `ex_normal` at `0x2000`. -/
theorem xhci_ring_fetch_non_link_witness :
    xhci_ring_fetch .bits64 ex_mem (0 + 1) ex_ring2 = some
      { ret := TR_NORMAL,
        ring := { base := 0x1000, dequeue := 0x2010, ccs := false },
        trb := { parameter := 0x5000, status := 512, control := 0x420, addr := 0x2000,
                 ccs := false },
        addr := some 0x2000 } :=
  (xhci_ring_fetch_non_link .bits64 ex_mem ex_ring2 0 (by decide) (by decide)).trans
    (by decide)

/-- Witness for C3: the Link TRB `ex_link` at `0x1000` leads to `ex_normal` at
`0x2000`, and the cycle state flips from 1 to 0. -/
theorem xhci_ring_fetch_follows_link_witness :
    xhci_ring_fetch .bits64 ex_mem (0 + 2) ex_ring = some
      { ret := TR_NORMAL,
        ring := { base := 0x1000, dequeue := 0x2010, ccs := false },
        trb := { parameter := 0x5000, status := 512, control := 0x420, addr := 0x2000,
                 ccs := false },
        addr := some 0x2000 } :=
  (xhci_ring_fetch_follows_link .bits64 ex_mem ex_ring 0 0x2000 false (by decide) (by decide)
    (by decide) (by decide) (by decide) (by decide)).trans (by decide)

/-! ## Chain-length probe: `xhci_ring_chain_length` -/

theorem chain_length_loop_succ (w : DmaWidth) (mem : Mem) (fuel : Nat) (st : ChainCursor) :
    chain_length_loop w mem (fuel + 1) st =
      if cycle_bit (dma_read_trb mem st.dequeue).control ≠ st.ccs then
        some (-st.length)
      else if trb_type (dma_read_trb mem st.dequeue).control = TR_LINK then
        chain_length_loop w mem fuel
          { st with
            dequeue := (walk_step w st.dequeue st.ccs (dma_read_trb mem st.dequeue)).1,
            ccs := (walk_step w st.dequeue st.ccs (dma_read_trb mem st.dequeue)).2 }
      else if st.length + 1 > INT_MAX then
        none
      else if EndsDescriptor st.control_td_set (dma_read_trb mem st.dequeue) then
        some (st.length + 1)
      else
        chain_length_loop w mem fuel
          { length := st.length + 1,
            dequeue := (walk_step w st.dequeue st.ccs (dma_read_trb mem st.dequeue)).1,
            ccs := (walk_step w st.dequeue st.ccs (dma_read_trb mem st.dequeue)).2,
            control_td_set := td_set_after st.control_td_set (dma_read_trb mem st.dequeue) } := by
  simp only [chain_length_loop, and_TRB_C_ne, shift_mask_type, and_TRB_LK_TC]
  by_cases hc : cycle_bit (dma_read_trb mem st.dequeue).control ≠ st.ccs
  · simp only [if_pos hc]
  · simp only [if_neg hc]
    by_cases hl : trb_type (dma_read_trb mem st.dequeue).control = TR_LINK
    · simp only [if_pos hl, walk_step]
    · simp only [if_neg hl, walk_step, EndsDescriptor, td_set_after, ne_eq, not_false_eq_true,
        true_and]
      by_cases ho : st.length + 1 > INT_MAX
      · simp only [if_pos ho]
      · simp only [if_neg ho, Bool.and_eq_true, Bool.not_eq_true', decide_eq_true_eq,
          and_TRB_TR_CH, hl, not_false_eq_true, true_and]

theorem count_non_link_cons_link (t : TRBWords) (l : List TRBWords)
    (h : trb_type t.control = TR_LINK) : count_non_link (t :: l) = count_non_link l := by
  simp [count_non_link, List.filter_cons, h]

theorem count_non_link_cons_other (t : TRBWords) (l : List TRBWords)
    (h : trb_type t.control ≠ TR_LINK) : count_non_link (t :: l) = count_non_link l + 1 := by
  simp [count_non_link, List.filter_cons, h]

theorem count_non_link_append (l₁ l₂ : List TRBWords) :
    count_non_link (l₁ ++ l₂) = count_non_link l₁ + count_non_link l₂ := by
  simp [count_non_link, List.filter_append]

theorem walk_end_append (w : DmaWidth) : ∀ (l₁ l₂ : List TRBWords) (dq : Nat) (c : Bool),
    walk_end w dq c (l₁ ++ l₂) =
      walk_end w (walk_end w dq c l₁).1 (walk_end w dq c l₁).2 l₂
  | [], _, _, _ => rfl
  | t :: rest, l₂, dq, c => by
    simp only [List.cons_append, walk_end]
    exact walk_end_append w rest l₂ _ _

theorem ringHolds_append (w : DmaWidth) (mem : Mem) :
    ∀ (l₁ l₂ : List TRBWords) (dq : Nat) (c : Bool),
      RingHolds w mem dq c (l₁ ++ l₂) ↔
        RingHolds w mem dq c l₁ ∧
          RingHolds w mem (walk_end w dq c l₁).1 (walk_end w dq c l₁).2 l₂
  | [], _, _, _ => by simp [RingHolds, walk_end]
  | t :: rest, l₂, dq, c => by
    have ih := ringHolds_append w mem rest l₂ (walk_step w dq c t).1 (walk_step w dq c t).2
    simp only [List.cons_append, RingHolds, walk_end]
    constructor
    · rintro ⟨h1, h2, h3⟩
      exact ⟨⟨h1, h2, (ih.mp h3).1⟩, (ih.mp h3).2⟩
    · rintro ⟨⟨h1, h2, h3⟩, h4⟩
      exact ⟨h1, h2, ih.mpr ⟨h3, h4⟩⟩

theorem td_set_end_append : ∀ (l₁ l₂ : List TRBWords) (cts : Bool),
    td_set_end cts (l₁ ++ l₂) = td_set_end (td_set_end cts l₁) l₂
  | [], _, _ => rfl
  | t :: rest, l₂, cts => by
    simp only [List.cons_append, td_set_end]
    split
    · exact td_set_end_append rest l₂ _
    · exact td_set_end_append rest l₂ _

/-- Walking over TRBs that do not end the descriptor: the probe's loop reaches
the state that has counted them. -/
theorem chain_length_loop_walk (w : DmaWidth) (mem : Mem) :
    ∀ (l : List TRBWords) (st : ChainCursor) (fuel : Nat),
      RingHolds w mem st.dequeue st.ccs l → Unfinished st.control_td_set l →
      st.length + (count_non_link l : Int) ≤ INT_MAX →
      chain_length_loop w mem (l.length + fuel) st =
        chain_length_loop w mem fuel
          { length := st.length + (count_non_link l : Int),
            dequeue := (walk_end w st.dequeue st.ccs l).1,
            ccs := (walk_end w st.dequeue st.ccs l).2,
            control_td_set := td_set_end st.control_td_set l }
  | [], st, fuel, _, _, _ => by
    simp [walk_end, td_set_end, count_non_link]
  | t :: rest, st, fuel, hr, hu, hb => by
    obtain ⟨hread, hcyc, hrest⟩ := hr
    have hlen : (t :: rest).length + fuel = (rest.length + fuel) + 1 := by
      simp only [List.length_cons]; omega
    have hc : ¬ cycle_bit (dma_read_trb mem st.dequeue).control ≠ st.ccs := by
      rw [hread]; exact not_not.mpr hcyc
    rw [hlen, chain_length_loop_succ, if_neg hc, hread]
    by_cases hl : trb_type t.control = TR_LINK
    · rw [if_pos hl]
      simp only [Unfinished, if_pos hl] at hu
      rw [count_non_link_cons_link t rest hl] at hb ⊢
      have ih := chain_length_loop_walk w mem rest
        { st with
          dequeue := (walk_step w st.dequeue st.ccs t).1,
          ccs := (walk_step w st.dequeue st.ccs t).2 } fuel hrest hu hb
      rw [ih]
      simp only [walk_end, td_set_end, if_pos hl]
    · rw [if_neg hl]
      simp only [Unfinished, if_neg hl] at hu
      rw [count_non_link_cons_other t rest hl] at hb ⊢
      have ho : ¬ st.length + 1 > INT_MAX := by
        push_cast at hb
        have : (0 : Int) ≤ (count_non_link rest : Int) := Int.natCast_nonneg _
        omega
      rw [if_neg ho, if_neg hu.1]
      have hb' : (st.length + 1) + (count_non_link rest : Int) ≤ INT_MAX := by
        push_cast at hb; omega
      have ih := chain_length_loop_walk w mem rest
        { length := st.length + 1,
          dequeue := (walk_step w st.dequeue st.ccs t).1,
          ccs := (walk_step w st.dequeue st.ccs t).2,
          control_td_set := td_set_after st.control_td_set t } fuel hrest hu.2 hb'
      rw [ih]
      simp only [walk_end, td_set_end, if_neg hl]
      congr 2
      push_cast
      ring

/-- Every result of the probe's loop comes from a walk over TRBs that do not
end the descriptor, followed either by a TRB with the wrong cycle bit (result
minus the count) or by a TRB that ends the descriptor (result the count). -/
theorem chain_length_loop_sound (w : DmaWidth) (mem : Mem) :
    ∀ (fuel : Nat) (st : ChainCursor) (n : Int),
      chain_length_loop w mem fuel st = some n →
      ∃ l, RingHolds w mem st.dequeue st.ccs l ∧ Unfinished st.control_td_set l ∧
        ((cycle_bit (dma_read_trb mem (walk_end w st.dequeue st.ccs l).1).control ≠
            (walk_end w st.dequeue st.ccs l).2 ∧
          n = -(st.length + (count_non_link l : Int))) ∨
         (∃ t, RingHolds w mem (walk_end w st.dequeue st.ccs l).1
                (walk_end w st.dequeue st.ccs l).2 [t] ∧
            EndsDescriptor (td_set_end st.control_td_set l) t ∧
            n = st.length + (count_non_link l : Int) + 1))
  | 0, _, _, h => by simp [chain_length_loop] at h
  | fuel + 1, st, n, h => by
    rw [chain_length_loop_succ] at h
    by_cases hc : cycle_bit (dma_read_trb mem st.dequeue).control ≠ st.ccs
    · rw [if_pos hc] at h
      refine ⟨[], trivial, trivial, Or.inl ⟨hc, ?_⟩⟩
      simp only [Option.some.injEq] at h
      simp [count_non_link, ← h]
    · rw [if_neg hc] at h
      by_cases hl : trb_type (dma_read_trb mem st.dequeue).control = TR_LINK
      · rw [if_pos hl] at h
        obtain ⟨l, hr, hu, hres⟩ := chain_length_loop_sound w mem fuel _ n h
        refine ⟨dma_read_trb mem st.dequeue :: l, ⟨rfl, not_not.mp hc, hr⟩, ?_, ?_⟩
        · simp only [Unfinished, if_pos hl]; exact hu
        · simp only [walk_end, td_set_end, if_pos hl, count_non_link_cons_link _ l hl]
          exact hres
      · rw [if_neg hl] at h
        by_cases ho : st.length + 1 > INT_MAX
        · rw [if_pos ho] at h; exact absurd h (by simp)
        · rw [if_neg ho] at h
          by_cases he : EndsDescriptor st.control_td_set (dma_read_trb mem st.dequeue)
          · rw [if_pos he] at h
            simp only [Option.some.injEq] at h
            refine ⟨[], trivial, trivial, Or.inr ⟨dma_read_trb mem st.dequeue, ?_, he, ?_⟩⟩
            · exact ⟨rfl, not_not.mp hc, trivial⟩
            · simp [count_non_link, ← h]
          · rw [if_neg he] at h
            obtain ⟨l, hr, hu, hres⟩ := chain_length_loop_sound w mem fuel _ n h
            refine ⟨dma_read_trb mem st.dequeue :: l, ⟨rfl, not_not.mp hc, hr⟩, ?_, ?_⟩
            · simp only [Unfinished, if_neg hl]; exact ⟨he, hu⟩
            · simp only [walk_end, td_set_end, if_neg hl, count_non_link_cons_other _ l hl]
              push_cast
              rcases hres with ⟨h1, h2⟩ | ⟨t, h1, h2, h3⟩
              · exact Or.inl ⟨h1, by rw [h2]; ring⟩
              · exact Or.inr ⟨t, h1, h2, by rw [h3]; ring⟩

/-- Data and Link TRBs inside a Setup..Status group never end the descriptor
and leave `control_td_set` set. -/
theorem unfinished_data_stage : ∀ (mids : List TRBWords),
    (∀ t ∈ mids, trb_type t.control = TR_DATA ∨ trb_type t.control = TR_LINK) →
    Unfinished true mids ∧ td_set_end true mids = true
  | [], _ => ⟨trivial, rfl⟩
  | t :: rest, h => by
    have ih := unfinished_data_stage rest (fun x hx => h x (List.mem_cons_of_mem _ hx))
    by_cases hl : trb_type t.control = TR_LINK
    · simp only [Unfinished, td_set_end, if_pos hl]; exact ih
    · have hd : trb_type t.control = TR_DATA := (h t (List.mem_cons_self _ _)).resolve_right hl
      have hta : td_set_after true t = true := by
        simp [td_set_after, hd, TR_DATA, TR_SETUP, TR_STATUS]
      simp only [Unfinished, td_set_end, if_neg hl, hta]
      refine ⟨⟨?_, ih.1⟩, ih.2⟩
      intro he
      have := he.2.1
      rw [hta] at this
      exact absurd this (by simp)

theorem count_control_descriptor (setup status : TRBWords) (mids : List TRBWords)
    (hsetup : trb_type setup.control = TR_SETUP)
    (hmids : ∀ t ∈ mids, trb_type t.control = TR_DATA ∨ trb_type t.control = TR_LINK)
    (hstatus : trb_type status.control = TR_STATUS) :
    count_non_link (setup :: mids ++ [status]) =
      (mids.filter (fun t => trb_type t.control = TR_DATA)).length + 2 := by
  have h1 : trb_type setup.control ≠ TR_LINK := by rw [hsetup]; decide
  have h2 : trb_type status.control ≠ TR_LINK := by rw [hstatus]; decide
  have h3 : mids.filter (fun t => trb_type t.control ≠ TR_LINK) =
      mids.filter (fun t => trb_type t.control = TR_DATA) := by
    apply List.filter_congr
    intro t ht
    rcases hmids t ht with hd | hl
    · simp [hd, TR_DATA, TR_LINK]
    · simp [hl, TR_DATA, TR_LINK]
  rw [List.cons_append, count_non_link_cons_other _ _ h1, count_non_link_append,
    count_non_link_cons_other _ _ h2]
  simp only [count_non_link, h3, List.filter_nil, List.length_nil]

/-- C4. Control transfer atomicity.  When the ring holds, from the dequeue
cursor on, a Setup TRB, then Data TRBs with Link TRBs anywhere among them (zero
or more of each), then a Status TRB with chain bit clear, all with valid cycle
bits, `xhci_ring_chain_length` returns the number of non-Link TRBs from Setup
through Status, that is the number of Data TRBs plus 2, whatever the chain bits
of the Setup and Data TRBs are (the count is in the range of `int`; the fuel
covers one loop iteration per TRB). -/
theorem xhci_ring_chain_length_control_transfer (w : DmaWidth) (mem : Mem) (ring : XHCIRing)
    (setup status : TRBWords) (mids : List TRBWords)
    (hsetup : trb_type setup.control = TR_SETUP)
    (hmids : ∀ t ∈ mids, trb_type t.control = TR_DATA ∨ trb_type t.control = TR_LINK)
    (hstatus : trb_type status.control = TR_STATUS)
    (hchain : chain_bit status.control = false)
    (hring : RingHolds w mem ring.dequeue ring.ccs (setup :: mids ++ [status]))
    (hrange : (count_non_link (setup :: mids ++ [status]) : Int) ≤ INT_MAX)
    (fuel : Nat) (hfuel : (setup :: mids ++ [status]).length ≤ fuel) :
    xhci_ring_chain_length w mem fuel ring =
        some ((count_non_link (setup :: mids ++ [status]) : Int), ring) ∧
      count_non_link (setup :: mids ++ [status]) =
        (mids.filter (fun t => trb_type t.control = TR_DATA)).length + 2 := by
  refine ⟨?_, count_control_descriptor setup status mids hsetup hmids hstatus⟩
  have h1 : trb_type setup.control ≠ TR_LINK := by rw [hsetup]; decide
  have h2 : trb_type status.control ≠ TR_LINK := by rw [hstatus]; decide
  have hsplit : setup :: mids ++ [status] = (setup :: mids) ++ [status] := rfl
  rw [hsplit] at hring hrange hfuel ⊢
  rw [count_non_link_append, count_non_link_cons_other status [] h2] at hrange ⊢
  obtain ⟨hr1, hr2⟩ := (ringHolds_append w mem _ _ _ _).mp hring
  obtain ⟨hu, hte⟩ := unfinished_data_stage mids hmids
  have hsa : td_set_after false setup = true := by simp [td_set_after, hsetup]
  have hunf : Unfinished false (setup :: mids) := by
    simp only [Unfinished, if_neg h1, hsa]
    refine ⟨?_, hu⟩
    intro he
    have := he.2.1
    rw [hsa] at this
    exact absurd this (by simp)
  have htd : td_set_end false (setup :: mids) = true := by
    simp only [td_set_end, if_neg h1, hsa]; exact hte
  obtain ⟨k, hk⟩ : ∃ k, fuel = (setup :: mids).length + (k + 1) := by
    simp only [List.length_append, List.length_cons, List.length_nil] at hfuel
    exact ⟨fuel - ((setup :: mids).length + 1), by simp only [List.length_cons]; omega⟩
  have hcnt0 : (count_non_link ([] : List TRBWords)) = 0 := rfl
  rw [hcnt0] at hrange ⊢
  push_cast at hrange ⊢
  have hb : (0 : Int) + (count_non_link (setup :: mids) : Int) ≤ INT_MAX := by omega
  have hwalk := chain_length_loop_walk w mem (setup :: mids)
    { length := 0, dequeue := ring.dequeue, ccs := ring.ccs, control_td_set := false }
    (k + 1) hr1 hunf hb
  obtain ⟨hread, hcyc, -⟩ := hr2
  have hends : EndsDescriptor true status := by
    refine ⟨h2, ?_, hchain⟩
    simp [td_set_after, hstatus, TR_STATUS, TR_SETUP]
  simp only [xhci_ring_chain_length, hk, hwalk, chain_length_loop_succ, hread, htd, hcyc,
    ne_eq, not_true_eq_false, if_false, if_neg h2, if_pos hends]
  have ho : ¬ ((0 : Int) + (count_non_link (setup :: mids) : Int) + 1 > INT_MAX) := by omega
  rw [if_neg ho]
  simp

/-- Witness for C4: Setup, Link (toggling the cycle state), Data with chain bit
clear, Status: the probe returns 3. -/
theorem xhci_ring_chain_length_control_transfer_witness :
    xhci_ring_chain_length .bits64 ex_ctl_mem 4 ex_ctl_ring = some (3, ex_ctl_ring) :=
  (xhci_ring_chain_length_control_transfer .bits64 ex_ctl_mem ex_ctl_ring ex_setup ex_status
    [ex_link2, ex_data] (by decide) (by decide) (by decide) (by decide) (by decide)
    (by decide) 4 (by decide)).1.trans (by decide)

/-- C5. `xhci_ring_chain_length` leaves the ring as it was (`dequeue` and `ccs`
included).  When the walk from the cursor passes TRBs `l` with valid cycle
bits, none of which ends the descriptor, and then meets a TRB whose cycle bit
differs from the link-toggled cycle state, the result is minus the number of
non-Link TRBs of `l`; it is 0 when the mismatch is at the cursor itself.  A
positive result `n` is returned only when the walk reached a TRB that ends the
descriptor (not a Link TRB, chain bit clear, outside a Setup..Status group),
and `n` is the number of non-Link TRBs up to and including it. -/
theorem xhci_ring_chain_length_probe (w : DmaWidth) (mem : Mem) (ring : XHCIRing) :
    (∀ fuel n ring', xhci_ring_chain_length w mem fuel ring = some (n, ring') →
        ring'.dequeue = ring.dequeue ∧ ring'.ccs = ring.ccs ∧ ring' = ring) ∧
    (∀ l, RingHolds w mem ring.dequeue ring.ccs l → Unfinished false l →
        (count_non_link l : Int) ≤ INT_MAX →
        cycle_bit (dma_read_trb mem (walk_end w ring.dequeue ring.ccs l).1).control ≠
          (walk_end w ring.dequeue ring.ccs l).2 →
        ∀ fuel, l.length < fuel →
          xhci_ring_chain_length w mem fuel ring = some (-(count_non_link l : Int), ring)) ∧
    (cycle_bit (dma_read_trb mem ring.dequeue).control ≠ ring.ccs →
        ∀ fuel, 0 < fuel → xhci_ring_chain_length w mem fuel ring = some (0, ring)) ∧
    (∀ fuel n ring', xhci_ring_chain_length w mem fuel ring = some (n, ring') → 0 < n →
        ∃ l t, RingHolds w mem ring.dequeue ring.ccs (l ++ [t]) ∧ Unfinished false l ∧
          EndsDescriptor (td_set_end false l) t ∧ n = (count_non_link (l ++ [t]) : Int)) := by
  have hb : ∀ l, RingHolds w mem ring.dequeue ring.ccs l → Unfinished false l →
      (count_non_link l : Int) ≤ INT_MAX →
      cycle_bit (dma_read_trb mem (walk_end w ring.dequeue ring.ccs l).1).control ≠
        (walk_end w ring.dequeue ring.ccs l).2 →
      ∀ fuel, l.length < fuel →
        xhci_ring_chain_length w mem fuel ring = some (-(count_non_link l : Int), ring) := by
    intro l hr hu hrange hmis fuel hfuel
    obtain ⟨k, hk⟩ : ∃ k, fuel = l.length + (k + 1) := ⟨fuel - (l.length + 1), by omega⟩
    have hb0 : (0 : Int) + (count_non_link l : Int) ≤ INT_MAX := by omega
    have hwalk := chain_length_loop_walk w mem l
      { length := 0, dequeue := ring.dequeue, ccs := ring.ccs, control_td_set := false }
      (k + 1) hr hu hb0
    simp only [xhci_ring_chain_length, hk, hwalk, chain_length_loop_succ, if_pos hmis]
    simp
  refine ⟨?_, hb, ?_, ?_⟩
  · intro fuel n ring' h
    simp only [xhci_ring_chain_length, Option.map_eq_some', Prod.mk.injEq] at h
    obtain ⟨_, _, _, rfl⟩ := h
    exact ⟨rfl, rfl, rfl⟩
  · intro hmis fuel hfuel
    have := hb [] trivial trivial (by simp [count_non_link, INT_MAX]) hmis fuel hfuel
    simpa [count_non_link] using this
  · intro fuel n ring' h hn
    simp only [xhci_ring_chain_length, Option.map_eq_some', Prod.mk.injEq] at h
    obtain ⟨m, hloop, rfl, -⟩ := h
    obtain ⟨l, hr, hu, hres⟩ := chain_length_loop_sound w mem fuel _ m hloop
    rcases hres with ⟨-, h2⟩ | ⟨t, h1, h2, h3⟩
    · exfalso
      have : (0 : Int) ≤ (count_non_link l : Int) := Int.natCast_nonneg _
      simp only at h2
      omega
    · refine ⟨l, t, (ringHolds_append w mem l [t] _ _).mpr ⟨hr, h1⟩, hu, h2, ?_⟩
      rw [count_non_link_append, count_non_link_cons_other t [] h2.1, h3]
      simp [count_non_link]

/-- Witness for C5: only the Setup TRB of a control transfer is in the ring,
the next slot still has the old cycle bit; the probe returns -1. -/
theorem xhci_ring_chain_length_probe_witness :
    xhci_ring_chain_length .bits64 ex_partial_mem 2 ex_ctl_ring = some (-1, ex_ctl_ring) :=
  ((xhci_ring_chain_length_probe .bits64 ex_partial_mem ex_ctl_ring).2.1 [ex_setup]
    (by decide) (by decide) (by decide) (by decide) 2 (by decide)).trans (by decide)

/-! ## Interrupt notifier: `xhci_irq_update` and the IMAN register -/

theorem and_two_pow_ne_zero (x i : Nat) : x &&& 2 ^ i ≠ 0 ↔ x.testBit i = true := by
  rw [Nat.and_two_pow]
  cases x.testBit i <;> simp

theorem irq_level_cond (s : XHCIState) :
    (s.iman &&& IMAN_IP ≠ 0 ∧ s.iman &&& IMAN_IE ≠ 0 ∧ s.usbcmd &&& USBCMD_INTE ≠ 0) ↔
      (s.iman.testBit 0 = true ∧ s.iman.testBit 1 = true ∧ s.usbcmd.testBit 2 = true) := by
  have h0 : IMAN_IP = 2 ^ 0 := by decide
  have h1 : IMAN_IE = 2 ^ 1 := by decide
  have h2 : USBCMD_INTE = 2 ^ 2 := by decide
  rw [h0, h1, h2, and_two_pow_ne_zero, and_two_pow_ne_zero, and_two_pow_ne_zero]

theorem iman_write_bits (iman val : Nat) :
    let iman1 := if val &&& IMAN_IP ≠ 0 then clear_bits iman IMAN_IP else iman
    let iman' := clear_bits iman1 IMAN_IE ||| (val &&& IMAN_IE)
    iman'.testBit 0 = (iman.testBit 0 && !val.testBit 0) ∧ iman'.testBit 1 = val.testBit 1 := by
  have h0 : IMAN_IP = 2 ^ 0 := by decide
  have hm0 : (0xffffffff ^^^ IMAN_IP) = 0xfffffffe := by decide
  have hm1 : (0xffffffff ^^^ IMAN_IE) = 0xfffffffd := by decide
  have hie : IMAN_IE = 2 ^ 1 := by decide
  have c00 : Nat.testBit 0xfffffffe 0 = false := by decide
  have c01 : Nat.testBit 0xfffffffe 1 = true := by decide
  have c10 : Nat.testBit 0xfffffffd 0 = true := by decide
  have c11 : Nat.testBit 0xfffffffd 1 = false := by decide
  have e0 : (2 ^ 1 : Nat).testBit 0 = false := by decide
  have e1 : (2 ^ 1 : Nat).testBit 1 = true := by decide
  intro iman1 iman'
  simp only [iman', iman1, clear_bits, hm0, hm1]
  by_cases hv : val &&& IMAN_IP ≠ 0
  · have hb : val.testBit 0 = true := by rw [h0] at hv; exact (and_two_pow_ne_zero val 0).mp hv
    simp only [if_pos hv, hie, Nat.testBit_or, Nat.testBit_and, c00, c01, c10, c11, e0, e1, hb]
    simp
  · have hb : val.testBit 0 = false := by
      rw [h0] at hv
      cases h : val.testBit 0
      · rfl
      · exact absurd ((and_two_pow_ne_zero val 0).mpr h) hv
    simp only [if_neg hv, hie, Nat.testBit_or, Nat.testBit_and, c10, c11, e0, e1, hb]
    simp

/-- C9. `xhci_irq_update` asserts the interrupt exactly when IMAN.IP (bit 0),
IMAN.IE (bit 1) and USBCMD.INTE (bit 2) are all set: without MSI it calls
`qemu_set_irq` with level 1 in that case and level 0 otherwise; with MSI
configured and enabled it sends one MSI in that case and does nothing
otherwise.  A guest write of `val` to IMAN (runtime register 0x20) leaves IP
set only if it was set and `val` has the IP bit clear, gives IE the value of
`val`'s IE bit, and then re-evaluates the interrupt with the new IMAN. -/
theorem xhci_irq_update_contract (w : DmaWidth) (fuel : Nat) (s : XHCIState) :
    (¬ (s.msi ≠ 0 ∧ s.msi_enabled = true) →
        (xhci_irq_update s).log_irq = s.log_irq ++
          [IrqEffect.set_irq
            (if s.iman.testBit 0 = true ∧ s.iman.testBit 1 = true ∧ s.usbcmd.testBit 2 = true
             then 1 else 0)]) ∧
    ((s.msi ≠ 0 ∧ s.msi_enabled = true) →
        (xhci_irq_update s).log_irq = s.log_irq ++
          (if s.iman.testBit 0 = true ∧ s.iman.testBit 1 = true ∧ s.usbcmd.testBit 2 = true
           then [IrqEffect.msi_notify 0] else [])) ∧
    (∀ val, ∃ s1 : XHCIState,
        s1.iman.testBit 0 = (s.iman.testBit 0 && !val.testBit 0) ∧
        s1.iman.testBit 1 = val.testBit 1 ∧
        s1.usbcmd = s.usbcmd ∧ s1.msi = s.msi ∧ s1.msi_enabled = s.msi_enabled ∧
        s1.log_irq = s.log_irq ∧
        xhci_runtime_write w fuel s 0x20 val = .ok (xhci_irq_update s1)) := by
  refine ⟨?_, ?_, ?_⟩
  · intro hm
    simp only [xhci_irq_update, if_neg hm, irq_level_cond]
  · intro hm
    by_cases hc : s.iman.testBit 0 = true ∧ s.iman.testBit 1 = true ∧ s.usbcmd.testBit 2 = true
    · have hc' := (irq_level_cond s).mpr hc
      unfold xhci_irq_update
      rw [if_pos hm, if_pos hc, if_pos hc']
      simp only [ne_eq, one_ne_zero, not_false_eq_true, if_true]
    · have hc' := fun h => hc ((irq_level_cond s).mp h)
      unfold xhci_irq_update
      rw [if_pos hm, if_neg hc, if_neg hc']
      simp only [ne_eq, not_true_eq_false, if_false, List.append_nil]
  · intro val
    have hb := iman_write_bits s.iman val
    simp only at hb
    by_cases hv : val &&& IMAN_IP ≠ 0
    · simp only [if_pos hv] at hb
      refine ⟨{ s with iman := clear_bits (clear_bits s.iman IMAN_IP) IMAN_IE |||
        (val &&& IMAN_IE) }, hb.1, hb.2, rfl, rfl, rfl, rfl, ?_⟩
      simp [xhci_runtime_write, if_pos hv]
    · simp only [if_neg hv] at hb
      refine ⟨{ s with iman := clear_bits s.iman IMAN_IE ||| (val &&& IMAN_IE) },
        hb.1, hb.2, rfl, rfl, rfl, rfl, ?_⟩
      simp [xhci_runtime_write, if_neg hv]

/-- Witness for C9: IP, IE and INTE set, no MSI: the line is raised. -/
theorem xhci_irq_update_contract_witness :
    (xhci_irq_update ex_irq_state).log_irq = [IrqEffect.set_irq 1] :=
  ((xhci_irq_update_contract .bits64 0 ex_irq_state).1 (by decide)).trans (by decide)

/-! ## Event queue: `xhci_event`, `xhci_events_update` -/

theorem u32_of_lt {x : Nat} (h : x < 4294967296) : u32 x = x := Nat.mod_eq_of_lt h

theorem xhci_irq_update_eq (s : XHCIState) :
    xhci_irq_update s = { s with log_irq := (xhci_irq_update s).log_irq } := by
  simp only [xhci_irq_update]
  split_ifs <;> rfl

/-- When ERDP passes the bounds check, the consumer index is inside the ring
and the end of the segment is below the top of the address space. -/
theorem erdp_in_bounds (w : DmaWidth) (s : XHCIState) (h : ¬ erdp_out_of_bounds w s) :
    erdp_index w s < s.er_size ∧ s.er_start + u32 (TRB_SIZE * s.er_size) < w.modulus := by
  unfold erdp_out_of_bounds at h
  unfold erdp_index
  generalize xhci_addr64 w s.erdp_low s.erdp_high = d at *
  cases w <;> simp only [dma_addr, DmaWidth.modulus, u32, TRB_SIZE] at * <;> omega

/-- What `xhci_event` does when it finds the ring full outside ring-full mode. -/
theorem event_on_full_ring (w : DmaWidth) (s : XHCIState) (event : XHCIEvent)
    (hnf : s.er_full = false)
    (hin : ¬ erdp_out_of_bounds w s)
    (hfull : u32 (s.er_ep_idx + 1) % s.er_size = erdp_index w s) :
    ∃ s1, xhci_event w s event = .ok s1 ∧
      s1.mem = s.mem ∧ s1.log_ev_trbs = s.log_ev_trbs ∧
      s1.er_ep_idx = s.er_ep_idx ∧ s1.er_pcs = s.er_pcs ∧ s1.er_full = true ∧
      s1.ev_buffer_get = s.ev_buffer_get ∧
      (u32 (s.ev_buffer_put + 1) % EV_QUEUE ≠ s.ev_buffer_get →
        s1.ev_buffer = Function.update s.ev_buffer s.ev_buffer_put event ∧
        s1.ev_buffer_put =
          (if u32 (s.ev_buffer_put + 1) = EV_QUEUE then 0 else u32 (s.ev_buffer_put + 1)) ∧
        s1.log_dropped = s.log_dropped) ∧
      (u32 (s.ev_buffer_put + 1) % EV_QUEUE = s.ev_buffer_get →
        s1.ev_buffer = s.ev_buffer ∧ s1.ev_buffer_put = s.ev_buffer_put ∧
        s1.log_dropped = s.log_dropped ++ [event]) := by
  obtain ⟨hdp, -⟩ := erdp_in_bounds w s hin
  have hsz : s.er_size ≠ 0 := by omega
  unfold erdp_out_of_bounds at hin
  unfold erdp_index at hdp hfull
  by_cases hq : u32 (s.ev_buffer_put + 1) % EV_QUEUE = s.ev_buffer_get
  · simp only [xhci_event, erdp_out_of_bounds, erdp_index, hnf, Bool.false_eq_true, if_false,
      hin, hdp, not_true_eq_false, hsz, hfull, if_true, hq]
    refine ⟨_, rfl, ?_⟩
    simp
  · simp only [xhci_event, erdp_out_of_bounds, erdp_index, hnf, Bool.false_eq_true, if_false,
      hin, hdp, not_true_eq_false, hsz, hfull, if_true, hq]
    refine ⟨_, rfl, ?_⟩
    rw [xhci_irq_update_eq]
    simp only [ev_buffer_push]
    split <;> simp_all

/-- C8, as amended.  When the controller is not in ring-full mode, ERDP passes
the bounds check and `(er_ep_idx + 1) mod er_size` equals the consumer index,
`xhci_event` writes no TRB to guest memory, leaves `er_ep_idx` and `er_pcs`
unchanged and sets `er_full`; when the software queue has a free entry
(`(ev_buffer_put + 1) mod EV_QUEUE != ev_buffer_get`) it stores the event at
`ev_buffer[ev_buffer_put]` and advances `ev_buffer_put` (wrapping at
`EV_QUEUE`), and otherwise it drops the event and leaves the queue as it was. -/
theorem xhci_event_ring_full (w : DmaWidth) (s : XHCIState) (event : XHCIEvent)
    (hnf : s.er_full = false)
    (hin : ¬ erdp_out_of_bounds w s)
    (hfull : u32 (s.er_ep_idx + 1) % s.er_size = erdp_index w s) :
    ∃ s1, xhci_event w s event = .ok s1 ∧
      s1.mem = s.mem ∧ s1.log_ev_trbs = s.log_ev_trbs ∧
      s1.er_ep_idx = s.er_ep_idx ∧ s1.er_pcs = s.er_pcs ∧ s1.er_full = true ∧
      s1.ev_buffer_get = s.ev_buffer_get ∧
      (u32 (s.ev_buffer_put + 1) % EV_QUEUE ≠ s.ev_buffer_get →
        s1.ev_buffer = Function.update s.ev_buffer s.ev_buffer_put event ∧
        s1.ev_buffer_put =
          (if u32 (s.ev_buffer_put + 1) = EV_QUEUE then 0 else u32 (s.ev_buffer_put + 1)) ∧
        s1.log_dropped = s.log_dropped) ∧
      (u32 (s.ev_buffer_put + 1) % EV_QUEUE = s.ev_buffer_get →
        s1.ev_buffer = s.ev_buffer ∧ s1.ev_buffer_put = s.ev_buffer_put ∧
        s1.log_dropped = s.log_dropped ++ [event]) :=
  event_on_full_ring w s event hnf hin hfull

/-- Witness for C8 as amended: the ring is full, the software queue is empty;
the event goes to `ev_buffer[0]` and `ev_buffer_put` becomes 1. -/
theorem xhci_event_ring_full_witness :
    ∃ s1, xhci_event .bits64 ex_ring_full_state ex_event = .ok s1 ∧
      s1.log_ev_trbs = [] ∧ s1.er_ep_idx = 0 ∧ s1.er_pcs = true ∧ s1.er_full = true ∧
      s1.ev_buffer 0 = ex_event ∧ s1.ev_buffer_put = 1 ∧ s1.ev_buffer_get = 0 := by
  obtain ⟨s1, h, -, hl, hi, hp, hf, hg, hpush, -⟩ :=
    xhci_event_ring_full .bits64 ex_ring_full_state ex_event (by decide) (by decide)
      (by decide)
  obtain ⟨hb, hput, -⟩ := hpush (by decide)
  refine ⟨s1, h, hl, hi, hp, hf, ?_, ?_, hg⟩
  · rw [hb]; exact Function.update_same _ _ _
  · rw [hput]; decide

/-! ## Event ordering on the guest ring -/

theorem ring_image_append (start size : Nat) :
    ∀ (l₁ l₂ : List XHCIEvent) (i : Nat),
      ring_image start size i (l₁ ++ l₂) =
        ring_image start size i l₁ ++ ring_image start size (i + l₁.length) l₂
  | [], _, _ => by simp [ring_image]
  | e :: es, l₂, i => by
    have ih := ring_image_append start size es l₂ (i + 1)
    have hi : i + 1 + es.length = i + (es.length + 1) := by omega
    rw [hi] at ih
    show _ :: ring_image start size (i + 1) (es ++ l₂) = _
    rw [ih]
    rfl

theorem ring_image_length (start size : Nat) :
    ∀ (l : List XHCIEvent) (i : Nat), (ring_image start size i l).length = l.length
  | [], _ => rfl
  | e :: es, i => by simp [ring_image, ring_image_length start size es (i + 1)]

theorem ring_image_getElem? (start size : Nat) :
    ∀ (l : List XHCIEvent) (i k : Nat),
      (ring_image start size i l)[k]? =
        (l[k]?).map (fun e =>
          (start + TRB_SIZE * ((i + k) % size),
            event_trb e (decide ((i + k) / size % 2 = 0))))
  | [], _, _ => by simp [ring_image]
  | e :: es, i, 0 => by simp [ring_image]
  | e :: es, i, k + 1 => by
    simp only [ring_image, List.getElem?_cons_succ]
    rw [ring_image_getElem? start size es (i + 1) k]
    have : i + 1 + k = i + (k + 1) := by omega
    rw [this]

theorem succ_div_mod_wrap (n size : Nat) (h : 0 < size) (h2 : n % size + 1 = size) :
    (n + 1) % size = 0 ∧ (n + 1) / size = n / size + 1 := by
  have h3 := Nat.div_add_mod n size
  have h4 : n + 1 = size * (n / size + 1) := by rw [Nat.mul_add]; omega
  rw [h4]
  simp [Nat.mul_div_cancel_left _ h]

theorem succ_div_mod_step (n size : Nat) (h : 0 < size) (h2 : n % size + 1 < size) :
    (n + 1) % size = n % size + 1 ∧ (n + 1) / size = n / size := by
  have h3 := Nat.div_add_mod n size
  have : (n + 1) / size = n / size ∧ (n + 1) % size = n % size + 1 := by
    rw [Nat.div_mod_unique h]
    constructor
    · omega
    · exact h2
  exact ⟨this.2, this.1⟩

theorem EV_QUEUE_eq : EV_QUEUE = 704 := by decide

theorem queue_push (buf : Nat → XHCIEvent) (get put : Nat) (e : XHCIEvent)
    (hg : get < 704) (hp : put < 704) (hq : (put + 1) % 704 ≠ get) :
    (List.range (((put + 1) % 704 + 704 - get) % 704)).map
        (fun i => Function.update buf put e ((get + i) % 704)) =
      (List.range ((put + 704 - get) % 704)).map (fun i => buf ((get + i) % 704)) ++ [e] := by
  have hlen : ((put + 1) % 704 + 704 - get) % 704 = (put + 704 - get) % 704 + 1 := by omega
  rw [hlen, List.range_succ, List.map_append]
  congr 1
  · apply List.map_congr_left
    intro i hi
    rw [List.mem_range] at hi
    have : (get + i) % 704 ≠ put := by omega
    exact Function.update_noteq this _ _
  · have : (get + (put + 704 - get) % 704) % 704 = put := by omega
    rw [List.map_cons, List.map_nil, this, Function.update_same]

theorem queue_pop (buf : Nat → XHCIEvent) (get put : Nat)
    (hg : get < 704) (hp : put < 704) (hne : put ≠ get) :
    (List.range ((put + 704 - get) % 704)).map (fun i => buf ((get + i) % 704)) =
      buf get ::
        (List.range ((put + 704 - (get + 1) % 704) % 704)).map
          (fun i => buf (((get + 1) % 704 + i) % 704)) := by
  have hlen : (put + 704 - get) % 704 = (put + 704 - (get + 1) % 704) % 704 + 1 := by omega
  rw [hlen, List.range_succ_eq_map, List.map_cons, List.map_map]
  congr 1
  · have : (get + 0) % 704 = get := by omega
    rw [this]
  · apply List.map_congr_left
    intro i _
    have : (get + i.succ) % 704 = ((get + 1) % 704 + i) % 704 := by
      simp only [Nat.succ_eq_add_one]; omega
    simp only [Function.comp, this]

theorem queue_empty (buf : Nat → XHCIEvent) (get : Nat) :
    (List.range ((get + 704 - get) % 704)).map (fun i => buf ((get + i) % 704)) = [] := by
  have : (get + 704 - get) % 704 = 0 := by omega
  rw [this]; rfl

/-- Appending a written event: the list facts behind one `xhci_write_event`. -/
theorem written_snoc (start size : Nat) (posted rest : List XHCIEvent) (e : XHCIEvent)
    (written : List (Nat × TRBWords))
    (hw : written = ring_image start size 0 (posted.take written.length))
    (hd : posted.drop written.length = e :: rest) :
    written ++ [(start + TRB_SIZE * (written.length % size),
        event_trb e (decide (written.length / size % 2 = 0)))] =
      ring_image start size 0 (posted.take (written.length + 1)) ∧
    posted.drop (written.length + 1) = rest := by
  have hsplit := List.take_append_drop written.length posted
  rw [hd] at hsplit
  have hlen : (posted.take written.length).length = written.length := by
    have := congrArg List.length hw
    rw [ring_image_length] at this
    exact this.symm
  have htake : posted.take (written.length + 1) = posted.take written.length ++ [e] := by
    conv_lhs => rw [← hsplit]
    rw [List.take_append_eq_append_take, hlen]
    have : written.length + 1 - written.length = 1 := by omega
    rw [this, List.take_of_length_le (by rw [hlen]; omega)]
    rfl
  constructor
  · rw [htake, ring_image_append, ← hw, hlen]
    simp [ring_image]
  · conv_lhs => rw [← hsplit]
    rw [List.drop_append_eq_append_drop, hlen]
    have : written.length + 1 - written.length = 1 := by omega
    rw [this, List.drop_eq_nil_of_le (by rw [hlen]; omega)]
    rfl

theorem next_idx_pcs (n size idx : Nat) (pcs : Bool) (hsz : 0 < size)
    (hidx : idx = n % size) (hpcs : pcs = decide (n / size % 2 = 0)) :
    (if idx + 1 = size then 0 else idx + 1) = (n + 1) % size ∧
    (if idx + 1 = size then !pcs else pcs) = decide ((n + 1) / size % 2 = 0) := by
  have hlt : n % size < size := Nat.mod_lt _ hsz
  by_cases hw : idx + 1 = size
  · obtain ⟨h1, h2⟩ := succ_div_mod_wrap n size hsz (by omega)
    rw [if_pos hw, if_pos hw, h1, h2, hpcs]
    refine ⟨rfl, ?_⟩
    rcases Nat.mod_two_eq_zero_or_one (n / size) with h | h
    · have : (n / size + 1) % 2 = 1 := by omega
      simp [h, this]
    · have : (n / size + 1) % 2 = 0 := by omega
      simp [h, this]
  · obtain ⟨h1, h2⟩ := succ_div_mod_step n size hsz (by omega)
    rw [if_neg hw, if_neg hw, h1, h2, hpcs, hidx]
    exact ⟨rfl, rfl⟩

theorem written_le_posted (v : EvView) (h : v.Core) : v.written.length ≤ v.posted.length := by
  have := congrArg List.length h.written
  rw [ring_image_length, List.length_take] at this
  omega

/-- A view stays invariant when an event is appended to the software queue. -/
theorem inv_push (v : EvView) (e : XHCIEvent) (h : v.Inv)
    (hq : (v.put + 1) % 704 ≠ v.get) :
    EvView.Inv { v with posted := v.posted ++ [e], buf := Function.update v.buf v.put e,
                        put := (v.put + 1) % 704, full := true } := by
  obtain ⟨hs, hc⟩ := h
  refine ⟨⟨hs.size_pos, hs.size_le, hs.idx_lt, ?_, hs.get_lt, ?_⟩, ?_⟩
  · show (v.put + 1) % 704 < 704
    omega
  · intro hf; exact absurd hf (by simp)
  · intro hg
    have hc := hc hg
    have hle := written_le_posted v hc
    refine ⟨?_, ?_, hc.idx, hc.pcs⟩
    · show v.written = ring_image v.start v.size 0 ((v.posted ++ [e]).take v.written.length)
      rw [List.take_append_of_le_length hle]
      exact hc.written
    · show (v.posted ++ [e]).drop v.written.length = _
      rw [List.drop_append_of_le_length hle, hc.queued]
      exact (queue_push v.buf v.get v.put e hs.get_lt hs.put_lt hq).symm

/-- A view stays invariant when a new event is written to the ring directly
(the software queue is empty). -/
theorem inv_write_new (v : EvView) (e : XHCIEvent) (h : v.Inv) (hpg : v.put = v.get) :
    EvView.Inv { v with posted := v.posted ++ [e],
                        written := v.written ++ [(v.start + TRB_SIZE * v.idx, event_trb e v.pcs)],
                        idx := if v.idx + 1 = v.size then 0 else v.idx + 1,
                        pcs := if v.idx + 1 = v.size then !v.pcs else v.pcs } := by
  obtain ⟨hs, hc⟩ := h
  refine ⟨⟨hs.size_pos, hs.size_le, ?_, hs.put_lt, hs.get_lt, hs.empty⟩, ?_⟩
  · show (if v.idx + 1 = v.size then 0 else v.idx + 1) < v.size
    have := hs.idx_lt
    have := hs.size_pos
    split <;> omega
  · intro hg
    have hc := hc hg
    have hle := written_le_posted v hc
    have hqe : v.queue = [] := by
      unfold EvView.queue
      rw [hpg]
      exact queue_empty v.buf v.get
    have hd : (v.posted ++ [e]).drop v.written.length = e :: [] := by
      rw [List.drop_append_of_le_length hle, hc.queued, hqe]
      rfl
    have hw : v.written = ring_image v.start v.size 0 ((v.posted ++ [e]).take v.written.length) := by
      rw [List.take_append_of_le_length hle]
      exact hc.written
    obtain ⟨h1, h2⟩ := written_snoc v.start v.size (v.posted ++ [e]) [] e v.written hw hd
    obtain ⟨h3, h4⟩ := next_idx_pcs v.written.length v.size v.idx v.pcs hs.size_pos hc.idx hc.pcs
    refine ⟨?_, ?_, ?_, ?_⟩
    · show v.written ++ [(v.start + TRB_SIZE * v.idx, event_trb e v.pcs)] =
        ring_image v.start v.size 0
          ((v.posted ++ [e]).take (v.written ++ [(v.start + TRB_SIZE * v.idx, event_trb e v.pcs)]).length)
      rw [List.length_append, List.length_singleton, ← h1, hc.idx, hc.pcs]
    · show (v.posted ++ [e]).drop
          (v.written ++ [(v.start + TRB_SIZE * v.idx, event_trb e v.pcs)]).length = v.queue
      rw [List.length_append, List.length_singleton, h2, hqe]
    · show (if v.idx + 1 = v.size then 0 else v.idx + 1) =
        (v.written ++ [(v.start + TRB_SIZE * v.idx, event_trb e v.pcs)]).length % v.size
      rw [List.length_append, List.length_singleton]
      exact h3
    · show (if v.idx + 1 = v.size then !v.pcs else v.pcs) =
        decide ((v.written ++ [(v.start + TRB_SIZE * v.idx, event_trb e v.pcs)]).length / v.size % 2 = 0)
      rw [List.length_append, List.length_singleton]
      exact h4

/-- A view stays invariant when the oldest queued event is written to the ring. -/
theorem inv_drain_one (v : EvView) (h : v.Inv) (hne : v.put ≠ v.get) :
    EvView.Inv { v with written := v.written ++
                          [(v.start + TRB_SIZE * v.idx, event_trb (v.buf v.get) v.pcs)],
                        idx := if v.idx + 1 = v.size then 0 else v.idx + 1,
                        pcs := if v.idx + 1 = v.size then !v.pcs else v.pcs,
                        get := (v.get + 1) % 704 } := by
  obtain ⟨hs, hc⟩ := h
  refine ⟨⟨hs.size_pos, hs.size_le, ?_, hs.put_lt, ?_, ?_⟩, ?_⟩
  · show (if v.idx + 1 = v.size then 0 else v.idx + 1) < v.size
    have := hs.idx_lt
    have := hs.size_pos
    split <;> omega
  · show (v.get + 1) % 704 < 704
    omega
  · intro hf
    exact absurd (hs.empty hf) hne
  · intro hg
    have hc := hc hg
    have hpop := queue_pop v.buf v.get v.put hs.get_lt hs.put_lt hne
    have hd : v.posted.drop v.written.length = v.buf v.get ::
        (List.range ((v.put + 704 - (v.get + 1) % 704) % 704)).map
          (fun i => v.buf (((v.get + 1) % 704 + i) % 704)) := by
      rw [hc.queued]; exact hpop
    obtain ⟨h1, h2⟩ := written_snoc v.start v.size v.posted _ (v.buf v.get) v.written
      hc.written hd
    obtain ⟨h3, h4⟩ := next_idx_pcs v.written.length v.size v.idx v.pcs hs.size_pos hc.idx hc.pcs
    refine ⟨?_, ?_, ?_, ?_⟩
    · show v.written ++ [(v.start + TRB_SIZE * v.idx, event_trb (v.buf v.get) v.pcs)] =
        ring_image v.start v.size 0
          (v.posted.take
            (v.written ++ [(v.start + TRB_SIZE * v.idx, event_trb (v.buf v.get) v.pcs)]).length)
      rw [List.length_append, List.length_singleton, ← h1, hc.idx, hc.pcs]
    · show v.posted.drop
          (v.written ++ [(v.start + TRB_SIZE * v.idx, event_trb (v.buf v.get) v.pcs)]).length = _
      rw [List.length_append, List.length_singleton, h2]
      rfl
    · show (if v.idx + 1 = v.size then 0 else v.idx + 1) =
        (v.written ++ [(v.start + TRB_SIZE * v.idx, event_trb (v.buf v.get) v.pcs)]).length % v.size
      rw [List.length_append, List.length_singleton]
      exact h3
    · show (if v.idx + 1 = v.size then !v.pcs else v.pcs) =
        decide ((v.written ++
          [(v.start + TRB_SIZE * v.idx, event_trb (v.buf v.get) v.pcs)]).length / v.size % 2 = 0)
      rw [List.length_append, List.length_singleton]
      exact h4

theorem testBit12_or_EINT (x : Nat) : (x ||| USBSTS_EINT).testBit 12 = x.testBit 12 := by
  have h : USBSTS_EINT.testBit 12 = false := by decide
  rw [Nat.testBit_or, h, Bool.or_false]

theorem testBit12_or_HCE (x : Nat) : (x ||| USBSTS_HCE).testBit 12 = true := by
  have h : USBSTS_HCE.testBit 12 = true := by decide
  rw [Nat.testBit_or, h, Bool.or_true]

theorem ev_view_irq (s : XHCIState) : ev_view (xhci_irq_update s) = ev_view s := by
  rw [xhci_irq_update_eq]; rfl

theorem ev_view_notify (s : XHCIState) (a b : Nat) :
    ev_view { s with erdp_low := a, iman := b, usbsts := s.usbsts ||| USBSTS_EINT } =
      ev_view s := by
  simp only [ev_view, testBit12_or_EINT]

theorem ev_view_write (w : DmaWidth) (s : XHCIState) (e : XHCIEvent)
    (hidx : s.er_ep_idx < s.er_size) (hsz : s.er_size ≤ 4096)
    (hM : s.er_start + u32 (TRB_SIZE * s.er_size) < w.modulus) :
    ev_view (xhci_write_event w s e) =
      { ev_view s with
        written := s.log_ev_trbs ++ [(s.er_start + TRB_SIZE * s.er_ep_idx, event_trb e s.er_pcs)],
        idx := if s.er_ep_idx + 1 = s.er_size then 0 else s.er_ep_idx + 1,
        pcs := if s.er_ep_idx + 1 = s.er_size then !s.er_pcs else s.er_pcs } := by
  have haddr : dma_addr w (s.er_start + u32 (TRB_SIZE * s.er_ep_idx)) =
      s.er_start + TRB_SIZE * s.er_ep_idx := by
    cases w <;> simp only [dma_addr, DmaWidth.modulus, u32, TRB_SIZE] at * <;> omega
  have hu : u32 (s.er_ep_idx + 1) = s.er_ep_idx + 1 := u32_of_lt (by omega)
  by_cases hw : s.er_ep_idx + 1 = s.er_size
  · have hge : s.er_ep_idx + 1 ≥ s.er_size := by omega
    simp only [xhci_write_event, haddr, hu, hge, if_true, ev_view, if_pos hw]
  · have hge : ¬ s.er_ep_idx + 1 ≥ s.er_size := by omega
    simp only [xhci_write_event, haddr, hu, hge, if_false, ev_view, if_neg hw]

theorem ev_view_push (s : XHCIState) (e : XHCIEvent) (hp : s.ev_buffer_put < 704) :
    ev_view (ev_buffer_push s e) =
      { ev_view s with
        buf := Function.update s.ev_buffer s.ev_buffer_put e,
        put := (s.ev_buffer_put + 1) % 704 } := by
  have hu : u32 (s.ev_buffer_put + 1) = s.ev_buffer_put + 1 := u32_of_lt (by omega)
  by_cases hw : s.ev_buffer_put + 1 = 704
  · have h0 : (s.ev_buffer_put + 1) % 704 = 0 := by omega
    simp only [ev_buffer_push, hu, EV_QUEUE_eq]
    rw [if_pos hw]
    simp only [ev_view, h0]
  · have h0 : (s.ev_buffer_put + 1) % 704 = s.ev_buffer_put + 1 := by omega
    simp only [ev_buffer_push, hu, EV_QUEUE_eq]
    rw [if_neg hw]
    simp only [ev_view, h0]

/-- `xhci_event` returns and keeps the event ring's invariant. -/
theorem xhci_event_inv (w : DmaWidth) (s : XHCIState) (e : XHCIEvent)
    (h : (ev_view s).Inv) :
    ∃ s1, xhci_event w s e = .ok s1 ∧ (ev_view s1).Inv ∧
      s1.er_start = s.er_start ∧ s1.er_size = s.er_size ∧
      s1.log_events = s.log_events ++ [e] := by
  have hs := h.1
  have hput : s.ev_buffer_put < 704 := hs.put_lt
  have hget : s.ev_buffer_get < 704 := hs.get_lt
  have hu : u32 (s.ev_buffer_put + 1) = s.ev_buffer_put + 1 := u32_of_lt (by omega)
  simp only [xhci_event, erdp_out_of_bounds, erdp_index, EV_QUEUE_eq, hu]
  by_cases hf : s.er_full = true
  · rw [if_pos hf]
    by_cases hq : (s.ev_buffer_put + 1) % 704 = s.ev_buffer_get
    · rw [if_pos hq]
      refine ⟨_, rfl, ⟨⟨hs.size_pos, hs.size_le, hs.idx_lt, hs.put_lt, hs.get_lt, hs.empty⟩, ?_⟩,
        rfl, rfl, rfl⟩
      intro hg
      have : s.log_dropped ++ [e] = [] := hg.2
      exact absurd this (by simp)
    · rw [if_neg hq]
      refine ⟨_, rfl, ?_, ?_, ?_, ?_⟩
      · rw [ev_view_push { s with log_events := s.log_events ++ [e] } e hput]
        have := inv_push (ev_view s) e h hq
        simpa [ev_view, hf] using this
      · simp only [ev_buffer_push]; split <;> rfl
      · simp only [ev_buffer_push]; split <;> rfl
      · simp only [ev_buffer_push]; split <;> rfl
  · rw [if_neg hf]
    have hff : s.er_full = false := by simpa using hf
    have hpg : s.ev_buffer_put = s.ev_buffer_get := hs.empty hff
    by_cases hin : erdp_out_of_bounds w s
    · unfold erdp_out_of_bounds at hin
      rw [if_pos hin]
      refine ⟨_, rfl, ⟨⟨hs.size_pos, hs.size_le, hs.idx_lt, hs.put_lt, hs.get_lt, hs.empty⟩, ?_⟩,
        rfl, rfl, rfl⟩
      intro hg
      have : (s.usbsts ||| USBSTS_HCE).testBit 12 = false := hg.1
      rw [testBit12_or_HCE] at this
      exact absurd this (by simp)
    · obtain ⟨hdp, hM⟩ := erdp_in_bounds w s hin
      have hsz : s.er_size ≠ 0 := by omega
      have hq : ¬ (s.ev_buffer_put + 1) % 704 = s.ev_buffer_get := by omega
      unfold erdp_out_of_bounds at hin
      unfold erdp_index at hdp
      rw [if_neg hin, if_neg (not_not.mpr hdp), if_neg hsz]
      by_cases hfull : u32 (s.er_ep_idx + 1) % s.er_size =
          u32 ((xhci_addr64 w s.erdp_low s.erdp_high - s.er_start) / TRB_SIZE)
      · rw [if_pos hfull, if_neg hq]
        refine ⟨_, rfl, ?_, ?_, ?_, ?_⟩
        · rw [ev_view_irq, ev_view_notify,
            ev_view_push { s with log_events := s.log_events ++ [e], er_full := true } e hput]
          have := inv_push (ev_view s) e h hq
          simpa [ev_view] using this
        · rw [xhci_irq_update_eq]; simp only [ev_buffer_push]; split <;> rfl
        · rw [xhci_irq_update_eq]; simp only [ev_buffer_push]; split <;> rfl
        · rw [xhci_irq_update_eq]; simp only [ev_buffer_push]; split <;> rfl
      · rw [if_neg hfull]
        have hv := ev_view_write w { s with log_events := s.log_events ++ [e] } e
          hs.idx_lt hs.size_le hM
        refine ⟨_, rfl, ?_, ?_, ?_, ?_⟩
        · rw [ev_view_irq, ev_view_notify, hv]
          have := inv_write_new (ev_view s) e h hpg
          simpa [ev_view] using this
        · have := congrArg EvView.start hv
          rw [xhci_irq_update_eq]; exact this
        · have := congrArg EvView.size hv
          rw [xhci_irq_update_eq]; exact this
        · have := congrArg EvView.posted hv
          rw [xhci_irq_update_eq]; exact this

theorem ev_view_pop (s : XHCIState) (hg : s.ev_buffer_get < 704) :
    ev_view (ev_buffer_pop s) = { ev_view s with get := (s.ev_buffer_get + 1) % 704 } := by
  have hu : u32 (s.ev_buffer_get + 1) = s.ev_buffer_get + 1 := u32_of_lt (by omega)
  by_cases hw : s.ev_buffer_get + 1 = 704
  · have h0 : (s.ev_buffer_get + 1) % 704 = 0 := by omega
    simp only [ev_buffer_pop, hu, EV_QUEUE_eq]
    rw [if_pos hw]
    simp only [ev_view, h0]
  · have h0 : (s.ev_buffer_get + 1) % 704 = s.ev_buffer_get + 1 := by omega
    simp only [ev_buffer_pop, hu, EV_QUEUE_eq]
    rw [if_neg hw]
    simp only [ev_view, h0]

/-- The drain loop returns within `EV_QUEUE` iterations and keeps the event
ring's invariant. -/
theorem drain_loop_inv (w : DmaWidth) (dp : Nat) :
    ∀ (fuel : Nat) (s : XHCIState) (d : Bool),
      (ev_view s).Inv → s.er_start + u32 (TRB_SIZE * s.er_size) < w.modulus →
      (s.ev_buffer_put + 704 - s.ev_buffer_get) % 704 < fuel →
      ∃ s1 d1, events_drain_loop w dp fuel s d = .ok (s1, d1) ∧ (ev_view s1).Inv ∧
        s1.er_start = s.er_start ∧ s1.er_size = s.er_size ∧
        s1.log_events = s.log_events ∧ s1.er_full = s.er_full
  | 0, _, _, _, _, hf => absurd hf (Nat.not_lt_zero _)
  | fuel + 1, s, d, h, hM, hf => by
    have hs := h.1
    have hput : s.ev_buffer_put < 704 := hs.put_lt
    have hget : s.ev_buffer_get < 704 := hs.get_lt
    simp only [events_drain_loop]
    by_cases hne : s.ev_buffer_put = s.ev_buffer_get
    · rw [if_neg (not_not.mpr hne)]
      exact ⟨s, d, rfl, h, rfl, rfl, rfl, rfl⟩
    · rw [if_pos hne]
      have hfull : s.er_full = true := by
        cases hfl : s.er_full
        · exact absurd (hs.empty hfl) hne
        · rfl
      have hnf : ¬ s.er_full = false := by rw [hfull]; simp
      have hsz : s.er_size ≠ 0 := Nat.pos_iff_ne_zero.mp hs.size_pos
      rw [if_neg hnf, if_neg hsz]
      by_cases hbrk : u32 (s.er_ep_idx + 1) % s.er_size = dp
      · rw [if_pos hbrk]
        exact ⟨s, true, rfl, h, rfl, rfl, rfl, rfl⟩
      · rw [if_neg hbrk]
        have hv := ev_view_write w s (s.ev_buffer s.ev_buffer_get) hs.idx_lt hs.size_le hM
        have hg1 : (xhci_write_event w s (s.ev_buffer s.ev_buffer_get)).ev_buffer_get =
            s.ev_buffer_get := congrArg EvView.get hv
        have hp1 : (xhci_write_event w s (s.ev_buffer s.ev_buffer_get)).ev_buffer_put =
            s.ev_buffer_put := congrArg EvView.put hv
        have hv2 := ev_view_pop (xhci_write_event w s (s.ev_buffer s.ev_buffer_get))
          (by rw [hg1]; exact hget)
        rw [hv, hg1] at hv2
        have hinv : (ev_view (ev_buffer_pop
            (xhci_write_event w s (s.ev_buffer s.ev_buffer_get)))).Inv := by
          rw [hv2]
          have := inv_drain_one (ev_view s) h hne
          simpa [ev_view] using this
        have hst : (ev_buffer_pop (xhci_write_event w s (s.ev_buffer s.ev_buffer_get))).er_start =
            s.er_start := congrArg EvView.start hv2
        have hsi : (ev_buffer_pop (xhci_write_event w s (s.ev_buffer s.ev_buffer_get))).er_size =
            s.er_size := congrArg EvView.size hv2
        have hpo : (ev_buffer_pop (xhci_write_event w s (s.ev_buffer s.ev_buffer_get))).log_events =
            s.log_events := congrArg EvView.posted hv2
        have hfu : (ev_buffer_pop (xhci_write_event w s (s.ev_buffer s.ev_buffer_get))).er_full =
            s.er_full := congrArg EvView.full hv2
        have hpu : (ev_buffer_pop (xhci_write_event w s (s.ev_buffer s.ev_buffer_get))).ev_buffer_put =
            s.ev_buffer_put := congrArg EvView.put hv2
        have hge : (ev_buffer_pop (xhci_write_event w s (s.ev_buffer s.ev_buffer_get))).ev_buffer_get =
            (s.ev_buffer_get + 1) % 704 := congrArg EvView.get hv2
        obtain ⟨s1, d1, hrun, hi1, h1, h2, h3, h4⟩ := drain_loop_inv w dp fuel
          (ev_buffer_pop (xhci_write_event w s (s.ev_buffer s.ev_buffer_get))) true hinv
          (by rw [hst, hsi]; exact hM) (by rw [hpu, hge]; omega)
        exact ⟨s1, d1, hrun, hi1, h1.trans hst, h2.trans hsi, h3.trans hpo, h4.trans hfu⟩

theorem inv_clear_full (v : EvView) (h : v.Inv) (hpg : v.put = v.get) :
    EvView.Inv { v with full := false } := by
  obtain ⟨hs, hc⟩ := h
  refine ⟨⟨hs.size_pos, hs.size_le, hs.idx_lt, hs.put_lt, hs.get_lt, fun _ => hpg⟩, ?_⟩
  intro hg
  have hc := hc hg
  exact ⟨hc.written, hc.queued, hc.idx, hc.pcs⟩

/-- `xhci_events_update` returns and keeps the event ring's invariant. -/
theorem xhci_events_update_inv (w : DmaWidth) (fuel : Nat) (s : XHCIState)
    (h : (ev_view s).Inv) (hfuel : 704 ≤ fuel) :
    ∃ s1, xhci_events_update w fuel s = .ok s1 ∧ (ev_view s1).Inv ∧
      s1.er_start = s.er_start ∧ s1.er_size = s.er_size ∧ s1.log_events = s.log_events := by
  have hs := h.1
  simp only [xhci_events_update]
  by_cases hh : s.usbsts &&& USBSTS_HCH ≠ 0
  · rw [if_pos hh]
    exact ⟨s, rfl, h, rfl, rfl, rfl⟩
  · rw [if_neg hh]
    by_cases hin : erdp_out_of_bounds w s
    · rw [if_pos hin]
      refine ⟨_, rfl, ⟨⟨hs.size_pos, hs.size_le, hs.idx_lt, hs.put_lt, hs.get_lt, hs.empty⟩, ?_⟩,
        rfl, rfl, rfl⟩
      intro hg
      have : (s.usbsts ||| USBSTS_HCE).testBit 12 = false := hg.1
      rw [testBit12_or_HCE] at this
      exact absurd this (by simp)
    · rw [if_neg hin]
      obtain ⟨hdp, hM⟩ := erdp_in_bounds w s hin
      rw [if_neg (not_not.mpr hdp)]
      by_cases hhy : s.er_full = true ∧ er_free s (erdp_index w s) < s.er_size / 2
      · rw [if_pos hhy]
        exact ⟨s, rfl, h, rfl, rfl, rfl⟩
      · rw [if_neg hhy]
        have hput : s.ev_buffer_put < 704 := hs.put_lt
        have hget : s.ev_buffer_get < 704 := hs.get_lt
        obtain ⟨s1, d1, hrun, hi1, h1, h2, h3, -⟩ := drain_loop_inv w (erdp_index w s) fuel s
          false h hM (by omega)
        rw [hrun]
        simp only []
        have hv2 : ∀ (b : Bool), ev_view
            (if b = true then
              xhci_irq_update
                { s1 with
                  erdp_low := s1.erdp_low ||| ERDP_EHB,
                  iman := s1.iman ||| IMAN_IP,
                  usbsts := s1.usbsts ||| USBSTS_EINT }
            else s1) = ev_view s1 := by
          intro b
          cases b
          · rfl
          · simp only [if_true]
            rw [ev_view_irq, ev_view_notify]
        generalize hs2 : (if d1 = true then
              xhci_irq_update
                { s1 with
                  erdp_low := s1.erdp_low ||| ERDP_EHB,
                  iman := s1.iman ||| IMAN_IP,
                  usbsts := s1.usbsts ||| USBSTS_EINT }
            else s1) = s2
        have hv3 : ev_view s2 = ev_view s1 := by rw [← hs2]; exact hv2 d1
        have hi2 : (ev_view s2).Inv := by rw [hv3]; exact hi1
        have e1 : s2.er_start = s.er_start := (congrArg EvView.start hv3).trans h1
        have e2 : s2.er_size = s.er_size := (congrArg EvView.size hv3).trans h2
        have e3 : s2.log_events = s.log_events := (congrArg EvView.posted hv3).trans h3
        by_cases hc : s2.er_full = true ∧ s2.ev_buffer_put = s2.ev_buffer_get
        · rw [if_pos hc]
          refine ⟨_, rfl, ?_, e1, e2, e3⟩
          have := inv_clear_full (ev_view s2) hi2 hc.2
          simpa [ev_view] using this
        · rw [if_neg hc]
          exact ⟨s2, rfl, hi2, e1, e2, e3⟩

theorem runtime_write_erdp_low (w : DmaWidth) (fuel : Nat) (s : XHCIState) (val : Nat) :
    ∃ x, xhci_runtime_write w fuel s 0x38 val = .ok { s with erdp_low := x } := by
  unfold xhci_runtime_write
  rw [if_neg (by decide), if_neg (by decide), if_neg (by decide), if_neg (by decide),
    if_neg (by decide), if_pos rfl]
  by_cases hv : val &&& ERDP_EHB ≠ 0
  · simp only [if_pos hv]
    exact ⟨_, rfl⟩
  · simp only [if_neg hv]
    exact ⟨_, rfl⟩

theorem runtime_write_erdp_high (w : DmaWidth) (fuel : Nat) (s : XHCIState) (val : Nat) :
    xhci_runtime_write w fuel s 0x3c val =
      xhci_events_update w fuel { s with erdp_high := val } := by
  unfold xhci_runtime_write
  rw [if_neg (by decide), if_neg (by decide), if_neg (by decide), if_neg (by decide),
    if_neg (by decide), if_neg (by decide), if_pos rfl]

/-- Every action returns and keeps the event ring's invariant. -/
theorem ev_step_inv (w : DmaWidth) (fuel : Nat) (hfuel : 704 ≤ fuel) (s : XHCIState)
    (a : EvAction) (h : (ev_view s).Inv) :
    ∃ s1, ev_step w fuel s a = .ok s1 ∧ (ev_view s1).Inv ∧
      s1.er_start = s.er_start ∧ s1.er_size = s.er_size ∧
      s1.log_events = s.log_events ++ posted_events [a] := by
  cases a with
  | post e => exact xhci_event_inv w s e h
  | write_erdp_low val =>
    obtain ⟨x, hx⟩ := runtime_write_erdp_low w fuel s (u32 val)
    exact ⟨{ s with erdp_low := x }, hx, h, rfl, rfl, by simp [posted_events]⟩
  | write_erdp_high val =>
    have hv : ev_view { s with erdp_high := u32 val } = ev_view s := rfl
    obtain ⟨s1, h1, h2, h3, h4, h5⟩ := xhci_events_update_inv w fuel
      { s with erdp_high := u32 val } (by rw [hv]; exact h) hfuel
    refine ⟨s1, ?_, h2, h3, h4, ?_⟩
    · rw [← h1]
      exact runtime_write_erdp_high w fuel s (u32 val)
    · rw [h5]; simp [posted_events]

theorem posted_events_cons (a : EvAction) (rest : List EvAction) :
    posted_events (a :: rest) = posted_events [a] ++ posted_events rest := by
  cases a <;> rfl

/-- Every run from a state that satisfies the invariant returns and ends in a
state that satisfies it, with the same ring and with the posted events added
to the history. -/
theorem ev_run_inv (w : DmaWidth) (fuel : Nat) (hfuel : 704 ≤ fuel) :
    ∀ (acts : List EvAction) (s : XHCIState), (ev_view s).Inv →
      ∃ s1, ev_run w fuel s acts = .ok s1 ∧ (ev_view s1).Inv ∧
        s1.er_start = s.er_start ∧ s1.er_size = s.er_size ∧
        s1.log_events = s.log_events ++ posted_events acts
  | [], s, h => ⟨s, rfl, h, rfl, rfl, by simp [posted_events]⟩
  | a :: rest, s, h => by
    obtain ⟨s1, h1, h2, h3, h4, h5⟩ := ev_step_inv w fuel hfuel s a h
    obtain ⟨s2, k1, k2, k3, k4, k5⟩ := ev_run_inv w fuel hfuel rest s1 h2
    refine ⟨s2, ?_, k2, k3.trans h3, k4.trans h4, ?_⟩
    · simp only [ev_run, h1]
      exact k1
    · rw [k5, h5, posted_events_cons a rest, List.append_assoc]

theorem or_HCE_and_HCE (x : Nat) : (x ||| USBSTS_HCE) &&& USBSTS_HCE ≠ 0 := by
  have h : USBSTS_HCE = 2 ^ 12 := by decide
  have := testBit12_or_HCE x
  rw [h] at this ⊢
  exact (and_two_pow_ne_zero _ 12).mpr this

theorem and_HCE_eq_zero (x : Nat) : x &&& USBSTS_HCE = 0 ↔ x.testBit 12 = false := by
  have h : USBSTS_HCE = 2 ^ 12 := by decide
  rw [h]
  have := and_two_pow_ne_zero x 12
  cases hb : x.testBit 12
  · simp only [hb, Bool.false_eq_true, iff_false, ne_eq, not_not] at this
    exact ⟨fun _ => rfl, fun _ => this⟩
  · simp only [hb, iff_true] at this
    exact ⟨fun h0 => absurd h0 this, fun h0 => absurd h0 (by simp)⟩

/-- The cycle bit of an event TRB is the producer cycle state, for events whose
flags are 0 or `TRB_EV_ED` (every call site of `xhci_event` passes such an
event). -/
theorem event_trb_cycle (e : XHCIEvent) (pcs : Bool)
    (hf : e.flags = 0 ∨ e.flags = TRB_EV_ED) :
    cycle_bit (event_trb e pcs).control = pcs := by
  have hfb : e.flags.testBit 0 = false := by
    rcases hf with h | h <;> rw [h] <;> decide
  have h32 : (4294967296 : Nat) = 2 ^ 32 := by norm_num
  have hc : (u32 ((e.slotid <<< 24) ||| (e.epid <<< 16) ||| e.flags |||
      (e.type <<< TRB_TYPE_SHIFT))).testBit 0 = false := by
    unfold u32
    rw [h32, Nat.testBit_mod_two_pow]
    simp only [Nat.testBit_or, Nat.testBit_shiftLeft, hfb, TRB_TYPE_SHIFT]
    simp
  have h1 : TRB_C.testBit 0 = true := by decide
  cases pcs
  · simp only [event_trb, cycle_bit, Bool.false_eq_true, if_false, hc]
  · simp only [event_trb, cycle_bit, if_true, Nat.testBit_or, hc, h1, Bool.false_or]

/-- The state `xhci_er_reset` leaves when it succeeds, once the controller
runs, satisfies the event ring's invariant. -/
theorem fresh_inv (w : DmaWidth) (pre : XHCIState)
    (hq : pre.ev_buffer_put = pre.ev_buffer_get) (hq2 : pre.ev_buffer_put < EV_QUEUE)
    (hl1 : pre.log_events = []) (hl2 : pre.log_ev_trbs = [])
    (hok : (xhci_er_reset w pre).usbsts &&& USBSTS_HCE = 0) :
    (ev_view (xhci_run (xhci_er_reset w pre))).Inv ∧
      (xhci_run (xhci_er_reset w pre)).log_events = [] ∧
      16 ≤ (xhci_run (xhci_er_reset w pre)).er_size ∧
      (xhci_run (xhci_er_reset w pre)).er_size ≤ 4096 := by
  rw [EV_QUEUE_eq] at hq2
  unfold xhci_er_reset at hok ⊢
  by_cases h1 : pre.erstsz ≠ 1
  · rw [if_pos h1] at hok
    exact absurd hok (or_HCE_and_HCE _)
  · rw [if_neg h1] at hok ⊢
    simp only [] at hok ⊢
    split_ifs at hok ⊢ with h2
    · exact absurd hok (or_HCE_and_HCE _)
    · refine ⟨⟨⟨?_, ?_, ?_, hq2, ?_, fun _ => hq⟩, ?_⟩, hl1, ?_, ?_⟩
      · show 0 < le_to_cpu _
        omega
      · show le_to_cpu _ ≤ 4096
        omega
      · show 0 < le_to_cpu _
        omega
      · show pre.ev_buffer_get < 704
        omega
      · intro _
        refine ⟨?_, ?_, ?_, ?_⟩
        · show pre.log_ev_trbs = ring_image _ _ 0 (pre.log_events.take pre.log_ev_trbs.length)
          rw [hl1, hl2]; rfl
        · show pre.log_events.drop pre.log_ev_trbs.length = EvView.queue _
          rw [hl1, hl2]
          unfold EvView.queue
          show [] = List.map _ (List.range ((pre.ev_buffer_put + 704 - pre.ev_buffer_get) % 704))
          rw [hq]
          have : (pre.ev_buffer_get + 704 - pre.ev_buffer_get) % 704 = 0 := by omega
          rw [this]; rfl
        · show 0 = pre.log_ev_trbs.length % _
          rw [hl2]; simp
        · show true = decide (pre.log_ev_trbs.length / _ % 2 = 0)
          rw [hl2]; simp
      · show 16 ≤ le_to_cpu _
        omega
      · show le_to_cpu _ ≤ 4096
        omega

/-- The part of C6 that holds: event ordering on a ring whose software queue
was empty at the reset.  Start from the state `xhci_er_reset` leaves when it
succeeds (no controller error), with the controller running, the software
queue empty and the histories empty.  Every sequence of `xhci_event` calls
(with events whose flags are 0 or `TRB_EV_ED`, as at every call site) and guest
writes to ERDP low and high returns, and when at the end no controller error
was raised (HCE is set exactly by an ERDP that fails the bounds check) and no
event was dropped (the software queue never overflowed): the events passed to
`xhci_event` are the posted ones in order; the TRBs `xhci_write_event` wrote
are the encodings of a prefix of them in posting order; the `i`-th written TRB
is stored at `er_start + 16 * (i mod er_size)`, encodes the `i`-th posted event
and has cycle bit 1 when `i / er_size` is even and 0 when it is odd; and
`er_ep_idx` and `er_pcs` are the index and cycle state of the next write. -/
theorem event_ring_order (w : DmaWidth) (fuel : Nat) (pre : XHCIState) (acts : List EvAction)
    (hfuel : EV_QUEUE ≤ fuel)
    (hq : pre.ev_buffer_put = pre.ev_buffer_get) (hq2 : pre.ev_buffer_put < EV_QUEUE)
    (hl1 : pre.log_events = []) (hl2 : pre.log_ev_trbs = [])
    (hok : (xhci_er_reset w pre).usbsts &&& USBSTS_HCE = 0)
    (hflags : ∀ e ∈ posted_events acts, e.flags = 0 ∨ e.flags = TRB_EV_ED) :
    ∃ s, ev_run w fuel (xhci_run (xhci_er_reset w pre)) acts = .ok s ∧
      s.er_start = (xhci_er_reset w pre).er_start ∧
      s.er_size = (xhci_er_reset w pre).er_size ∧
      16 ≤ s.er_size ∧ s.er_size ≤ 4096 ∧
      (s.usbsts &&& USBSTS_HCE = 0 → s.log_dropped = [] →
        s.log_events = posted_events acts ∧
        s.log_ev_trbs.length ≤ (posted_events acts).length ∧
        s.log_ev_trbs =
          ring_image s.er_start s.er_size 0 ((posted_events acts).take s.log_ev_trbs.length) ∧
        (∀ i a t, s.log_ev_trbs[i]? = some (a, t) →
          ∃ e, (posted_events acts)[i]? = some e ∧
            a = s.er_start + 16 * (i % s.er_size) ∧
            t = event_trb e (decide (i / s.er_size % 2 = 0)) ∧
            cycle_bit t.control = decide (i / s.er_size % 2 = 0)) ∧
        s.er_ep_idx = s.log_ev_trbs.length % s.er_size ∧
        s.er_pcs = decide (s.log_ev_trbs.length / s.er_size % 2 = 0)) := by
  obtain ⟨h0, hlog0, hlo, hhi⟩ := fresh_inv w pre hq hq2 hl1 hl2 hok
  rw [EV_QUEUE_eq] at hfuel
  obtain ⟨s, hrun, hinv, hst, hsz, hev⟩ := ev_run_inv w fuel hfuel acts _ h0
  rw [hlog0, List.nil_append] at hev
  refine ⟨s, hrun, hst, hsz, by rw [hsz]; exact hlo, by rw [hsz]; exact hhi, ?_⟩
  intro hhce hdrop
  have hgood : (ev_view s).Good := ⟨(and_HCE_eq_zero _).mp hhce, hdrop⟩
  have hc := hinv.2 hgood
  have hw : s.log_ev_trbs =
      ring_image s.er_start s.er_size 0 ((posted_events acts).take s.log_ev_trbs.length) := by
    rw [← hev]; exact hc.written
  refine ⟨hev, ?_, hw, ?_, hc.idx, hc.pcs⟩
  · rw [← hev]; exact written_le_posted _ hc
  · intro i a t hi
    rw [hw, ring_image_getElem?, Option.map_eq_some'] at hi
    obtain ⟨e, he, hf⟩ := hi
    rw [List.getElem?_take] at he
    split at he
    · simp only [Nat.zero_add, Prod.mk.injEq] at hf
      refine ⟨e, he, hf.1.symm, hf.2.symm, ?_⟩
      rw [← hf.2]
      exact event_trb_cycle e _ (hflags e (List.getElem?_mem he))
    · exact absurd he (by simp)

/-- The example run ends without controller error and without a dropped
event, with three TRBs on the ring. -/
theorem ex_run_good :
    ∃ s, ev_run .bits64 704 (xhci_run (xhci_er_reset .bits64 ex_pre_state)) ex_actions = .ok s ∧
      s.usbsts &&& USBSTS_HCE = 0 ∧ s.log_dropped = [] ∧ s.log_ev_trbs.length = 3 :=
  ⟨_, rfl, by decide, by decide, by decide⟩

/-- Witness: the example run puts the three posted events on the ring in
posting order, at slots 0, 1 and 2, all with cycle bit 1. -/
theorem event_ring_order_witness :
    ∃ s, ev_run .bits64 704 (xhci_run (xhci_er_reset .bits64 ex_pre_state)) ex_actions = .ok s ∧
      s.log_ev_trbs =
        [(0x1000, event_trb ex_event true), (0x1010, event_trb ex_event2 true),
         (0x1020, event_trb ex_event3 true)] ∧
      s.er_ep_idx = 3 ∧ s.er_pcs = true := by
  obtain ⟨s, hrun, hst, hsz, -, -, hmain⟩ :=
    event_ring_order .bits64 704 ex_pre_state ex_actions (by decide) (by decide) (by decide)
      (by decide) (by decide) (by decide) (by decide)
  obtain ⟨s', hrun', hg1, hg2, hlen⟩ := ex_run_good
  have hss : s = s' := Except.ok.inj (hrun.symm.trans hrun')
  subst hss
  obtain ⟨-, -, hw, -, hidx, hpcs⟩ := hmain hg1 hg2
  have hst' : s.er_start = 0x1000 := hst.trans (by decide)
  have hsz' : s.er_size = 16 := hsz.trans (by decide)
  rw [hlen, hst', hsz'] at hw
  rw [hlen, hsz'] at hidx hpcs
  exact ⟨s, hrun, hw.trans (by decide), hidx.trans (by decide), hpcs.trans (by decide)⟩

/-! ## Event-ring-full hysteresis -/

/-- C7, the code at the failing input.  On a ring of 17 slots in ring-full mode
with the producer at slot 16 and one queued event, the guest moves ERDP to slot
7: the number of slots from producer to consumer is `f = 7 - 16 + 17 = 8`, so
`2 * f = 16 < 17 = er_size`, less than half of the ring; the ERDP high write
nevertheless has `xhci_events_update` write the queued event (17 TRBs on the
ring instead of 16) and leave ring-full mode, because the test is
`er_free < er_size / 2` with `17 / 2 = 8`. -/
theorem events_update_odd_ring :
    ∃ s s1,
      ev_run .bits64 704 (xhci_run (xhci_er_reset .bits64 ex_pre_state17)) ex_actions17 = .ok s ∧
      s.er_size = 17 ∧ s.er_full = true ∧ s.er_ep_idx = 16 ∧
      erdp_index .bits64 s = 7 ∧ er_free s 7 = 8 ∧ 2 * 8 < s.er_size ∧
      s.log_ev_trbs.length = 16 ∧
      xhci_runtime_write .bits64 704 s 0x3c 0 = .ok s1 ∧
      s1.log_ev_trbs.length = 17 ∧ s1.er_full = false :=
  ⟨_, _, rfl, by decide, by decide, by decide, by decide, by decide, by decide, by decide,
    rfl, by decide, by decide⟩

/-! ## Transfer completion: `xhci_xfer_report`, `xhci_complete_packet` -/

/-- `xhci_event` always returns, and records the event as posted. -/
theorem xhci_event_returns (w : DmaWidth) (s : XHCIState) (e : XHCIEvent) :
    ∃ s1, xhci_event w s e = .ok s1 ∧ s1.log_events = s.log_events ++ [e] ∧
      s1.slots = s.slots := by
  simp only [xhci_event, erdp_out_of_bounds, erdp_index]
  by_cases hf : s.er_full = true
  · rw [if_pos hf]
    split
    · exact ⟨_, rfl, rfl, rfl⟩
    · refine ⟨_, rfl, ?_, ?_⟩ <;> (simp only [ev_buffer_push]; split <;> rfl)
  · rw [if_neg hf]
    by_cases hin : erdp_out_of_bounds w s
    · unfold erdp_out_of_bounds at hin
      rw [if_pos hin]
      exact ⟨_, rfl, rfl, rfl⟩
    · obtain ⟨hdp, -⟩ := erdp_in_bounds w s hin
      have hsz : s.er_size ≠ 0 := by omega
      unfold erdp_out_of_bounds at hin
      unfold erdp_index at hdp
      rw [if_neg hin, if_neg (not_not.mpr hdp), if_neg hsz]
      split
      · split
        · exact ⟨_, rfl, rfl, rfl⟩
        · refine ⟨_, rfl, ?_, ?_⟩ <;>
            (rw [xhci_irq_update_eq]; simp only [ev_buffer_push]; split <;> rfl)
      · refine ⟨_, rfl, ?_, ?_⟩ <;>
          (rw [xhci_irq_update_eq]; simp only [xhci_write_event]; split <;> rfl)

/-- C10, as amended.  Bulk success scenario: for a transfer that consists of
one Normal TRB of length 512 with IOC set and on which the device reports 512
bytes transferred, `xhci_complete_packet` marks the transfer complete with
status SUCCESS and posts exactly one event: a Transfer event with completion
code SUCCESS, pointer equal to the TRB's own guest address, the transfer's slot
and endpoint ids, and length field 0, the residue 512 - 512 of bytes not
transferred. -/
theorem xhci_complete_packet_bulk_success (rc : USBRetCodes) (w : DmaWidth) (s : XHCIState)
    (xfer : XHCITransfer) (trb : XHCITRB)
    (htrbs : xfer.trbs = [trb])
    (hty : TRB_TYPE trb = TR_NORMAL)
    (hlen : trb.status &&& 0x1ffff = 512)
    (hioc : trb.control &&& TRB_TR_IOC ≠ 0)
    (hres : xfer.packet_result = 512) :
    ∃ s1 xfer1, xhci_complete_packet rc w s xfer 512 = .ok (s1, xfer1) ∧
      s1.log_events = s.log_events ++
        [{ type := ER_TRANSFER, ccode := CC_SUCCESS, ptr := trb.addr, length := 0, flags := 0,
           slotid := u8 xfer.slotid, epid := u8 xfer.epid }] ∧
      xfer1.complete = true ∧ xfer1.status = CC_SUCCESS ∧
      xfer1.running_async = false ∧ xfer1.running_retry = false := by
  obtain ⟨hn1, hn2, hn3, hn4⟩ := rc.negative
  have ha : ¬ (512 : Int) = rc.ASYNC := by omega
  have hk : ¬ (512 : Int) = rc.NAK := by omega
  obtain ⟨s1, hev, hlog, -⟩ := xhci_event_returns w s
    { type := ER_TRANSFER, ccode := CC_SUCCESS, ptr := trb.addr, length := 0, flags := 0,
      slotid := u8 xfer.slotid, epid := u8 xfer.epid }
  refine ⟨s1, { xfer with running_async := false, running_retry := false, complete := true,
                          status := CC_SUCCESS }, ?_, hlog, rfl, rfl, rfl, rfl⟩
  have hl : u32 ((512 : Int).toNat) = 512 := by decide
  have h7 : ¬ TR_NORMAL = TR_EVDATA := by decide
  have hz : u32 (512 + 4294967296 - 512) = 0 := by decide
  simp only [xhci_complete_packet, ha, hk, if_false, ge_iff_le, Int.reduceLE, if_true,
    xhci_xfer_report, htrbs, hres, Int.reduceLT, hl, xfer_report_loop, hty, hlen,
    or_true, true_or, gt_iff_lt, lt_self_iff_false, false_and, true_and, Nat.sub_self,
    hioc, ne_eq, not_false_eq_true, not_true_eq_false, Bool.false_eq_true, h7, hz, hev]

/-- Witness for C10 as amended: the example transfer on a running ring. -/
theorem xhci_complete_packet_bulk_success_witness :
    ∃ s1 xfer1, xhci_complete_packet qemu_usb_ret .bits64 ex_ring_state ex_xfer 512 =
        .ok (s1, xfer1) ∧
      s1.log_events =
        [{ type := ER_TRANSFER, ccode := CC_SUCCESS, ptr := 0x2000, length := 0, flags := 0,
           slotid := 1, epid := 3 }] ∧
      xfer1.complete = true ∧ xfer1.status = CC_SUCCESS ∧
      xfer1.running_async = false ∧ xfer1.running_retry = false :=
  xhci_complete_packet_bulk_success qemu_usb_ret .bits64 ex_ring_state ex_xfer
    { parameter := 0x5000, status := 512,
      control := (TR_NORMAL <<< 10) ||| TRB_TR_IOC ||| TRB_C, addr := 0x2000, ccs := true }
    rfl (by decide) (by decide) (by decide) rfl

/-- Counterexample to C10 as stated: for the example transfer (one Normal TRB
of length 512 with IOC set, 512 bytes transferred) the one posted event has
length field 0, not 512; on the ring its status word is `1 << 24`, completion
code SUCCESS over a zero length. -/
theorem bulk_success_length_is_residue :
    ∃ s1 xfer1, xhci_complete_packet qemu_usb_ret .bits64 ex_ring_state ex_xfer 512 =
        .ok (s1, xfer1) ∧
      s1.log_events.map (fun e => e.length) = [0] ∧
      (¬ ∃ e ∈ s1.log_events, e.length = 512) ∧
      s1.log_ev_trbs.map (fun x => x.2.status) = [1 <<< 24] :=
  ⟨_, _, rfl, by decide, by decide, by decide⟩

/-! ## A full software queue outside ring-full mode -/

theorem ev_run_append (w : DmaWidth) (fuel : Nat) :
    ∀ (a b : List EvAction) (s s1 : XHCIState), ev_run w fuel s a = .ok s1 →
      ev_run w fuel s (a ++ b) = ev_run w fuel s1 b
  | [], b, s, s1, h => by
    simp only [ev_run, Except.ok.injEq] at h
    subst h
    rfl
  | x :: a, b, s, s1, h => by
    simp only [List.cons_append, ev_run] at h ⊢
    cases hx : ev_step w fuel s x with
    | error f => rw [hx] at h; exact Except.noConfusion h
    | ok s2 =>
      rw [hx] at h
      exact ev_run_append w fuel a b s2 s1 h

/-- In ring-full mode, with room in the software queue, every posted event is
queued: only the queue and the history of posted events change. -/
theorem post_while_full (w : DmaWidth) (fuel : Nat) (e : XHCIEvent) :
    ∀ (k : Nat) (s : XHCIState), s.er_full = true → s.ev_buffer_get = 0 →
      s.ev_buffer_put + k < 704 →
      ∃ buf log, ev_run w fuel s (List.replicate k (.post e)) =
        .ok { s with ev_buffer := buf, ev_buffer_put := s.ev_buffer_put + k, log_events := log }
  | 0, s, _, _, _ => ⟨s.ev_buffer, s.log_events, rfl⟩
  | k + 1, s, hf, hg, hp => by
    have hu : u32 (s.ev_buffer_put + 1) = s.ev_buffer_put + 1 := u32_of_lt (by omega)
    have hstep : xhci_event w s e =
        .ok { s with
              log_events := s.log_events ++ [e],
              ev_buffer := Function.update s.ev_buffer s.ev_buffer_put e,
              ev_buffer_put := s.ev_buffer_put + 1 } := by
      simp only [xhci_event, EV_QUEUE_eq, hu]
      rw [if_pos hf, if_neg (by rw [hg]; omega)]
      simp only [ev_buffer_push, hu, EV_QUEUE_eq]
      rw [if_neg (by omega)]
    obtain ⟨buf, log, h⟩ := post_while_full w fuel e k
      { s with
        log_events := s.log_events ++ [e],
        ev_buffer := Function.update s.ev_buffer s.ev_buffer_put e,
        ev_buffer_put := s.ev_buffer_put + 1 } hf hg
      (by show s.ev_buffer_put + 1 + k < 704; omega)
    refine ⟨buf, log, ?_⟩
    simp only [List.replicate_succ, ev_run, ev_step, hstep]
    rw [h]
    have : s.ev_buffer_put + 1 + k = s.ev_buffer_put + (k + 1) := by omega
    simp only [this]

/-- Counterexample to C8 as stated, on a state the guest can bring about.
From the fresh 16-slot ring the guest consumes nothing while 718 events are
posted: 15 fill the ring, the 16th starts ring-full mode, and with 702 more
the software queue holds 703 events, its capacity.  The guest writes ERDP low
for slot 1 and rewrites ERSTBA high, so `xhci_er_reset` resets the producer to
slot 0 and clears `er_full` without emptying the queue.  Now the controller is
not in ring-full mode, ERDP is inside the segment and
`(er_ep_idx + 1) mod er_size` equals the consumer index, yet the next
`xhci_event` does not append the event to the software queue: it sets
`er_full` and drops the event. -/
theorem xhci_event_ring_full_drops :
    ∃ s s0 s1,
      ev_run .bits64 704 (xhci_run (xhci_er_reset .bits64 ex_pre_state)) ex_actions_overflow =
        .ok s ∧
      xhci_runtime_write .bits64 704 s 0x34 0 = .ok s0 ∧
      s0.usbsts &&& USBSTS_HCE = 0 ∧
      s0.er_full = false ∧ ¬ erdp_out_of_bounds .bits64 s0 ∧
      u32 (s0.er_ep_idx + 1) % s0.er_size = erdp_index .bits64 s0 ∧
      xhci_event .bits64 s0 ex_event = .ok s1 ∧
      s1.er_full = true ∧ s1.ev_buffer = s0.ev_buffer ∧
      s1.ev_buffer_put = s0.ev_buffer_put ∧ s1.log_dropped = [ex_event] := by
  obtain ⟨sA, hA, hAf, hAg, hAp, hAz, hAb, hAbh, hAl, hAh, hAd, hAu, f1, f2, f3⟩ :
      ∃ sA, ev_run .bits64 704 (xhci_run (xhci_er_reset .bits64 ex_pre_state)) ex_actions_fill =
          .ok sA ∧
        sA.er_full = true ∧ sA.ev_buffer_get = 0 ∧ sA.ev_buffer_put = 1 ∧ sA.erstsz = 1 ∧
        sA.erstba_low = 0x800 ∧ sA.erstba_high = 0 ∧ sA.erdp_low = 0x1008 ∧ sA.erdp_high = 0 ∧
        sA.log_dropped = [] ∧ sA.usbsts &&& USBSTS_HCE = 0 ∧
        le_to_cpu ((pci_dma_read sA.mem 0x800 16).take 4) = 0x1000 ∧
        le_to_cpu (((pci_dma_read sA.mem 0x800 16).drop 4).take 4) = 0 ∧
        le_to_cpu (((pci_dma_read sA.mem 0x800 16).drop 8).take 4) = 16 :=
    ⟨_, rfl, by decide, by decide, by decide, by decide, by decide, by decide, by decide,
      by decide, by decide, by decide, by decide, by decide, by decide⟩
  obtain ⟨buf, log, hB⟩ := post_while_full .bits64 704 ex_event 702 sA hAf hAg
    (by rw [hAp]; decide)
  have hC : ev_run .bits64 704
      { sA with ev_buffer := buf, ev_buffer_put := sA.ev_buffer_put + 702, log_events := log }
      [.write_erdp_low 0x1010] =
      .ok { sA with ev_buffer := buf, ev_buffer_put := sA.ev_buffer_put + 702, log_events := log,
                    erdp_low := 0x1018 } := by
    have h1 : ¬ (u32 0x1010 &&& ERDP_EHB ≠ 0) := by decide
    have h2 : clear_bits (u32 0x1010) ERDP_EHB ||| (0x1008 &&& ERDP_EHB) = 0x1018 := by decide
    simp only [ev_run, ev_step]
    unfold xhci_runtime_write
    rw [if_neg (by decide), if_neg (by decide), if_neg (by decide), if_neg (by decide),
      if_neg (by decide), if_pos rfl]
    simp only [if_neg h1, hAl, h2]
  have hrun : ev_run .bits64 704 (xhci_run (xhci_er_reset .bits64 ex_pre_state))
      ex_actions_overflow =
      .ok { sA with ev_buffer := buf, ev_buffer_put := sA.ev_buffer_put + 702, log_events := log,
                    erdp_low := 0x1018 } := by
    unfold ex_actions_overflow
    rw [ev_run_append _ _ _ _ _ _ hA, ev_run_append _ _ _ _ _ _ hB]
    exact hC
  have ha : xhci_addr64 .bits64 0x800 0 = 0x800 := by decide
  have ha2 : xhci_addr64 .bits64 0x1000 0 = 0x1000 := by decide
  have hr : ¬ ((16 : Nat) < 16 ∨ (16 : Nat) > 4096) := by decide
  have hD : xhci_runtime_write .bits64 704
      { sA with ev_buffer := buf, ev_buffer_put := sA.ev_buffer_put + 702, log_events := log,
                erdp_low := 0x1018 } 0x34 0 =
      .ok { sA with ev_buffer := buf, ev_buffer_put := sA.ev_buffer_put + 702, log_events := log,
                    erdp_low := 0x1018, erstba_high := 0, er_start := 0x1000, er_size := 16,
                    er_ep_idx := 0, er_pcs := true, er_full := false } := by
    unfold xhci_runtime_write
    rw [if_neg (by decide), if_neg (by decide), if_neg (by decide), if_neg (by decide),
      if_pos rfl]
    simp only [xhci_er_reset, hAz, ne_eq, not_true_eq_false, if_false, hAb, ha, f1, f2, f3, hr,
      ha2]
  have hnf : ({ sA with ev_buffer := buf, ev_buffer_put := sA.ev_buffer_put + 702,
                        log_events := log, erdp_low := 0x1018, erstba_high := 0,
                        er_start := 0x1000, er_size := 16, er_ep_idx := 0, er_pcs := true,
                        er_full := false } : XHCIState).er_full = false := rfl
  have he : xhci_addr64 .bits64 0x1018 0 = 0x1018 := by decide
  have hin : ¬ erdp_out_of_bounds .bits64
      { sA with ev_buffer := buf, ev_buffer_put := sA.ev_buffer_put + 702,
                log_events := log, erdp_low := 0x1018, erstba_high := 0,
                er_start := 0x1000, er_size := 16, er_ep_idx := 0, er_pcs := true,
                er_full := false } := by
    simp only [erdp_out_of_bounds, hAh, he]
    decide
  have hfull : u32 (0 + 1) % 16 = erdp_index .bits64
      { sA with ev_buffer := buf, ev_buffer_put := sA.ev_buffer_put + 702,
                log_events := log, erdp_low := 0x1018, erstba_high := 0,
                er_start := 0x1000, er_size := 16, er_ep_idx := 0, er_pcs := true,
                er_full := false } := by
    simp only [erdp_index, hAh, he]
    decide
  obtain ⟨s1, hE, -, -, -, -, hEf, -, -, hdrop⟩ := event_on_full_ring .bits64 _ ex_event hnf hin
    hfull
  obtain ⟨hd1, hd2, hd3⟩ := hdrop (by
    show u32 (sA.ev_buffer_put + 702 + 1) % EV_QUEUE = sA.ev_buffer_get
    rw [hAp, hAg]; decide)
  refine ⟨_, _, s1, hrun, hD, hAu, hnf, hin, hfull, hE, hEf, hd1, hd2, ?_⟩
  rw [hd3]
  show sA.log_dropped ++ [ex_event] = [ex_event]
  rw [hAd]
  rfl

/-! ## What the hysteresis test guarantees -/

theorem drain_loop_not_full (w : DmaWidth) (dp fuel : Nat) (s s1 : XHCIState) (d d1 : Bool)
    (hnf : s.er_full = false)
    (h : events_drain_loop w dp fuel s d = .ok (s1, d1)) : s1 = s := by
  cases fuel with
  | zero => exact Except.noConfusion h
  | succ n =>
    simp only [events_drain_loop] at h
    by_cases hne : s.ev_buffer_put = s.ev_buffer_get
    · rw [if_neg (not_not.mpr hne)] at h
      simp only [Except.ok.injEq, Prod.mk.injEq] at h
      exact h.1.symm
    · rw [if_pos hne, if_pos hnf] at h
      exact Except.noConfusion h

/-- The hysteresis of the event ring as the code implements it.  In ring-full
mode `xhci_event` writes nothing to the guest ring or to guest memory.
`xhci_events_update` writes an event TRB only in ring-full mode and only when
the number of slots from the producer index to the consumer index (`dp_idx -
er_ep_idx`, plus `er_size` when that is `<= 0`) is at least `er_size / 2`,
the quotient rounded down. -/
theorem events_update_hysteresis (w : DmaWidth) (fuel : Nat) (s : XHCIState) :
    (s.er_full = true → ∀ e s1, xhci_event w s e = .ok s1 →
        s1.log_ev_trbs = s.log_ev_trbs ∧ s1.mem = s.mem) ∧
    (∀ s1, xhci_events_update w fuel s = .ok s1 → s1.log_ev_trbs ≠ s.log_ev_trbs →
        s.er_full = true ∧ s.er_size / 2 ≤ er_free s (erdp_index w s)) := by
  constructor
  · intro hf e s1 h
    simp only [xhci_event] at h
    rw [if_pos hf] at h
    split at h
    · simp only [Except.ok.injEq] at h
      rw [← h]
      exact ⟨rfl, rfl⟩
    · simp only [Except.ok.injEq] at h
      rw [← h]
      simp only [ev_buffer_push]
      split <;> exact ⟨rfl, rfl⟩
  · intro s1 h hne
    simp only [xhci_events_update] at h
    by_cases hh : s.usbsts &&& USBSTS_HCH ≠ 0
    · rw [if_pos hh] at h
      simp only [Except.ok.injEq] at h
      rw [← h] at hne
      exact absurd rfl hne
    · rw [if_neg hh] at h
      by_cases hin : erdp_out_of_bounds w s
      · rw [if_pos hin] at h
        simp only [Except.ok.injEq] at h
        rw [← h] at hne
        exact absurd rfl hne
      · rw [if_neg hin] at h
        obtain ⟨hdp, -⟩ := erdp_in_bounds w s hin
        rw [if_neg (not_not.mpr hdp)] at h
        by_cases hhy : s.er_full = true ∧ er_free s (erdp_index w s) < s.er_size / 2
        · rw [if_pos hhy] at h
          simp only [Except.ok.injEq] at h
          rw [← h] at hne
          exact absurd rfl hne
        · rw [if_neg hhy] at h
          cases hloop : events_drain_loop w (erdp_index w s) fuel s false with
          | error f => rw [hloop] at h; exact Except.noConfusion h
          | ok r =>
            obtain ⟨s2, d2⟩ := r
            rw [hloop] at h
            simp only [] at h
            have hlog : s1.log_ev_trbs = s2.log_ev_trbs := by
              cases d2
              · simp only [Bool.false_eq_true, if_false] at h
                split at h <;> (simp only [Except.ok.injEq] at h; rw [← h])
              · simp only [if_true] at h
                rw [xhci_irq_update_eq] at h
                split at h <;> (simp only [Except.ok.injEq] at h; rw [← h])
            cases hfl : s.er_full
            · have := drain_loop_not_full w _ fuel s s2 false d2 hfl hloop
              rw [hlog, this] at hne
              exact absurd rfl hne
            · refine ⟨rfl, ?_⟩
              rw [hfl] at hhy
              simp only [true_and, not_lt] at hhy
              exact hhy

/-! ## Transfer reports: `xhci_xfer_report` -/

theorem and_len_mask (x : Nat) : x &&& 0x1ffff = x % 131072 := by
  have h : (0x1ffff : Nat) = 2 ^ 17 - 1 := by decide
  rw [h, Nat.and_pow_two_sub_one_eq_mod]

theorem and_TRB_TR_IOC (c : Nat) : c &&& TRB_TR_IOC ≠ 0 ↔ c.testBit 5 = true := by
  have h : TRB_TR_IOC = 2 ^ 5 := by decide
  rw [h, and_two_pow_ne_zero]

theorem and_TRB_TR_ISP (c : Nat) : c &&& TRB_TR_ISP ≠ 0 ↔ c.testBit 2 = true := by
  have h : TRB_TR_ISP = 2 ^ 2 := by decide
  rw [h, and_two_pow_ne_zero]

theorem TRB_TYPE_eq (t : XHCITRB) : TRB_TYPE t = trb_type t.control := by
  unfold TRB_TYPE
  exact shift_mask_type t.control


theorem xfer_report_loop_cons (w : DmaWidth) (xfer : XHCITransfer) (trb : XHCITRB)
    (rest : List XHCITRB) (st : ReportLocals) (s : XHCIState) :
    xfer_report_loop w xfer (trb :: rest) st s =
      if (report_visit xfer.status st trb).reported = false ∧
          (trb.control &&& TRB_TR_IOC ≠ 0 ∨
            ((report_visit xfer.status st trb).shortpkt = true ∧
              trb.control &&& TRB_TR_ISP ≠ 0) ∨
            xfer.status ≠ CC_SUCCESS) then
        match xhci_event w s (report_event xfer st trb) with
        | .error f => .error f
        | .ok s1 =>
          if xfer.status ≠ CC_SUCCESS then .ok s1
          else xfer_report_loop w xfer rest
            { (if TRB_TYPE trb = TR_EVDATA then
                { report_visit xfer.status st trb with edtla := 0 }
               else report_visit xfer.status st trb) with reported := true } s1
      else xfer_report_loop w xfer rest (report_visit xfer.status st trb) s := by
  rw [xfer_report_loop]
  simp only [report_visit, report_event, report_chunk]
  rcases Classical.propComplete
    (TRB_TYPE trb = TR_DATA ∨ TRB_TYPE trb = TR_NORMAL ∨ TRB_TYPE trb = TR_ISOCH) with hd | hd <;>
  rcases Classical.propComplete (TRB_TYPE trb = TR_STATUS) with h4 | h4 <;>
  rcases Classical.propComplete (TRB_TYPE trb = TR_EVDATA) with h7 | h7 <;>
  simp only [hd, h4, h7, if_true, if_false]


theorem report_chunk_eq (st : ReportLocals) (t : XHCITRB) :
    report_chunk st t = bytes_of st.left t := by
  simp only [report_chunk, bytes_of, carries_data, TRB_TYPE_eq, and_len_mask, trb_length,
    TR_DATA, TR_NORMAL, TR_ISOCH]
  by_cases hd : trb_type t.control = 3 ∨ trb_type t.control = 1 ∨ trb_type t.control = 5
  · have hd2 : trb_type t.control = 1 ∨ trb_type t.control = 3 ∨ trb_type t.control = 5 := by
      tauto
    simp only [hd, hd2, if_true, decide_True, gt_iff_lt]
    split <;> omega
  · have hd2 : ¬ (trb_type t.control = 1 ∨ trb_type t.control = 3 ∨ trb_type t.control = 5) := by
      tauto
    simp only [hd, hd2, if_false, decide_False, gt_iff_lt, Nat.not_lt_zero, Bool.false_eq_true]

theorem report_visit_success (st : ReportLocals) (t : XHCITRB) :
    report_visit CC_SUCCESS st t =
      { edtla := if carries_data t then u32 (st.edtla + bytes_of st.left t) else st.edtla,
        left := st.left - bytes_of st.left t,
        reported := if trb_type t.control = 4 then false else st.reported,
        shortpkt := short_after st.left st.shortpkt t } := by
  have hb := report_chunk_eq st t
  simp only [report_visit, hb]
  simp only [bytes_of, short_after, carries_data, TRB_TYPE_eq, and_len_mask, trb_length,
    TR_DATA, TR_NORMAL, TR_ISOCH, TR_STATUS]
  by_cases hd : trb_type t.control = 3 ∨ trb_type t.control = 1 ∨ trb_type t.control = 5
  · have hd2 : trb_type t.control = 1 ∨ trb_type t.control = 3 ∨ trb_type t.control = 5 := by
      tauto
    have h4 : ¬ trb_type t.control = 4 := by omega
    simp only [hd, hd2, h4, if_true, if_false, decide_True, gt_iff_lt, and_true]
    congr 1
    by_cases hl : st.left < t.status % 131072
    · simp [hl]
    · simp [hl]
  · have hd2 : ¬ (trb_type t.control = 1 ∨ trb_type t.control = 3 ∨ trb_type t.control = 5) := by
      tauto
    simp only [hd, hd2, if_false, decide_False, Bool.false_eq_true, Nat.sub_zero]
    by_cases h4 : trb_type t.control = 4
    · simp only [h4, if_true]
    · simp only [h4, if_false]

/-- The report loop passes over TRBs that are not reportable without posting. -/
theorem report_loop_quiet (w : DmaWidth) (xfer : XHCITransfer) (hst : xfer.status = CC_SUCCESS) :
    ∀ (pre rest : List XHCITRB) (st : ReportLocals) (s : XHCIState),
      st.reported = false → st.edtla < 4294967296 → NoReport st.left st.shortpkt pre →
      xfer_report_loop w xfer (pre ++ rest) st s =
        xfer_report_loop w xfer rest
          { edtla := u32 (st.edtla + bytes_consumed st.left pre),
            left := st.left - bytes_consumed st.left pre,
            reported := false,
            shortpkt := short_end st.left st.shortpkt pre } s := by
  intro pre
  induction pre with
  | nil =>
    intro rest st s hr he _
    have h1 : u32 (st.edtla + 0) = st.edtla := by unfold u32; omega
    simp only [List.nil_append, bytes_consumed, short_end, h1, Nat.sub_zero, ← hr]
  | cons t ts ih =>
    intro rest st s hr he hq
    obtain ⟨hq1, hq2⟩ := hq
    have hno : ¬ ((report_visit CC_SUCCESS st t).reported = false ∧
        (t.control &&& TRB_TR_IOC ≠ 0 ∨
          ((report_visit CC_SUCCESS st t).shortpkt = true ∧ t.control &&& TRB_TR_ISP ≠ 0) ∨
          CC_SUCCESS ≠ CC_SUCCESS)) := by
      rw [report_visit_success, and_TRB_TR_IOC, and_TRB_TR_ISP]
      unfold Reportable at hq1
      tauto
    rw [List.cons_append, xfer_report_loop_cons, hst, if_neg hno, report_visit_success]
    have hrep : (if trb_type t.control = 4 then false else st.reported) = false := by
      rw [hr]; split <;> rfl
    rw [hrep]
    have he2 : (if carries_data t then u32 (st.edtla + bytes_of st.left t) else st.edtla)
        < 4294967296 := by
      split
      · unfold u32; omega
      · exact he
    rw [ih rest _ s rfl he2 hq2]
    have hb : bytes_of st.left t ≤ st.left := by
      unfold bytes_of; split <;> omega
    have hz : carries_data t = false → bytes_of st.left t = 0 := by
      intro h; unfold bytes_of; rw [h]; rfl
    congr 2
    · simp only [bytes_consumed]
      cases hc : carries_data t
      · rw [hz hc]; simp [u32]
      · simp only [if_true, u32]; omega
    · simp only [bytes_consumed]; omega


/-- Once an event has been reported for a successful transfer, the loop posts
nothing more as long as it meets no Status TRB. -/
theorem report_loop_reported (w : DmaWidth) (xfer : XHCITransfer)
    (hst : xfer.status = CC_SUCCESS) :
    ∀ (trbs : List XHCITRB) (st : ReportLocals) (s : XHCIState),
      st.reported = true → (∀ x ∈ trbs, trb_type x.control ≠ TR_STATUS) →
      xfer_report_loop w xfer trbs st s = .ok s := by
  intro trbs
  induction trbs with
  | nil => intro st s _ _; rfl
  | cons t ts ih =>
    intro st s hr h4
    have ht : ¬ trb_type t.control = 4 := h4 t (List.mem_cons_self t ts)
    have hrep : (report_visit CC_SUCCESS st t).reported = true := by
      rw [report_visit_success]
      simp only [ht, if_false, hr]
    have hno : ¬ ((report_visit CC_SUCCESS st t).reported = false ∧
        (t.control &&& TRB_TR_IOC ≠ 0 ∨
          ((report_visit CC_SUCCESS st t).shortpkt = true ∧ t.control &&& TRB_TR_ISP ≠ 0) ∨
          CC_SUCCESS ≠ CC_SUCCESS)) := by
      rw [hrep]; simp
    rw [xfer_report_loop_cons, hst, if_neg hno]
    exact ih _ s hrep (fun x hx => h4 x (List.mem_cons_of_mem t hx))

/-- The locals of the report loop when it reaches the first reportable TRB of a
successful transfer on which `r` bytes were transferred. -/
theorem report_first (w : DmaWidth) (s : XHCIState) (xfer : XHCITransfer)
    (pre : List XHCITRB) (t : XHCITRB) (post : List XHCITRB) (r : Nat)
    (htrbs : xfer.trbs = pre ++ t :: post)
    (hst : xfer.status = CC_SUCCESS)
    (hres : xfer.packet_result = (r : Int)) (hr : r < 4294967296)
    (hq : NoReport r false pre)
    (ht : Reportable (r - bytes_consumed r pre) (short_end r false pre) t)
    (hpost : ∀ x ∈ post, trb_type x.control ≠ TR_STATUS) :
    ∃ s1, xhci_xfer_report w s xfer = .ok s1 ∧
      s1.log_events = s.log_events ++
        [report_event xfer
          { edtla := u32 (bytes_consumed r pre), left := r - bytes_consumed r pre,
            reported := false, shortpkt := short_end r false pre } t] := by
  have hneg : ¬ ((r : Int) < 0) := by omega
  have hl : u32 ((r : Int).toNat) = r := by
    rw [Int.toNat_ofNat]; unfold u32; omega
  obtain ⟨s1, hev, hlog, -⟩ := xhci_event_returns w s
    (report_event xfer
      { edtla := u32 (bytes_consumed r pre), left := r - bytes_consumed r pre,
        reported := false, shortpkt := short_end r false pre } t)
  refine ⟨s1, ?_, hlog⟩
  unfold xhci_xfer_report
  rw [htrbs, hres, if_neg hneg, hl,
    report_loop_quiet w xfer hst pre (t :: post)
      { edtla := 0, left := r, reported := false, shortpkt := false } s rfl (by simp) hq]
  simp only [Nat.zero_add]
  have hyes : (report_visit CC_SUCCESS
        { edtla := u32 (bytes_consumed r pre), left := r - bytes_consumed r pre,
          reported := false, shortpkt := short_end r false pre } t).reported = false ∧
      (t.control &&& TRB_TR_IOC ≠ 0 ∨
        ((report_visit CC_SUCCESS
            { edtla := u32 (bytes_consumed r pre), left := r - bytes_consumed r pre,
              reported := false, shortpkt := short_end r false pre } t).shortpkt = true ∧
          t.control &&& TRB_TR_ISP ≠ 0) ∨
        CC_SUCCESS ≠ CC_SUCCESS) := by
    rw [report_visit_success, and_TRB_TR_IOC, and_TRB_TR_ISP]
    unfold Reportable at ht
    refine ⟨by simp, ?_⟩
    tauto
  rw [xfer_report_loop_cons, hst, if_pos hyes, ← hst, hev]
  simp only [hst, ne_eq, not_true_eq_false, if_false]
  exact report_loop_reported w xfer hst post _ s1 rfl hpost

/-- C11.  Short packet scenario: for a successful transfer that consists of one
Normal TRB of requested length L with IOC clear, on which the device
transferred r bytes: if r < L and the TRB has ISP set, `xhci_xfer_report` posts
exactly one event, with completion code SHORT_PACKET, pointer equal to the
TRB's address and length field L - r; if r = L it posts no event and leaves the
controller state as it was. -/
theorem xhci_xfer_report_short_packet (w : DmaWidth) (s : XHCIState) (xfer : XHCITransfer)
    (trb : XHCITRB) (r : Nat)
    (htrbs : xfer.trbs = [trb])
    (hty : TRB_TYPE trb = TR_NORMAL)
    (hst : xfer.status = CC_SUCCESS)
    (hioc : trb.control &&& TRB_TR_IOC = 0)
    (hres : xfer.packet_result = (r : Int))
    (hle : r ≤ trb.status &&& 0x1ffff) :
    (r < trb.status &&& 0x1ffff → trb.control &&& TRB_TR_ISP ≠ 0 →
      ∃ s1, xhci_xfer_report w s xfer = .ok s1 ∧
        s1.log_events = s.log_events ++
          [{ type := ER_TRANSFER, ccode := CC_SHORT_PACKET, ptr := trb.addr,
             length := (trb.status &&& 0x1ffff) - r, flags := 0,
             slotid := u8 xfer.slotid, epid := u8 xfer.epid }]) ∧
    (r = trb.status &&& 0x1ffff → xhci_xfer_report w s xfer = .ok s) := by
  have hL : trb.status &&& 0x1ffff ≤ 0x1ffff := Nat.and_le_right
  have hr : u32 ((r : Int).toNat) = r := by
    rw [Int.toNat_ofNat]; unfold u32; omega
  have hneg : ¬ ((r : Int) < 0) := by omega
  have h7 : ¬ TR_NORMAL = TR_EVDATA := by decide
  have h4 : ¬ TR_NORMAL = TR_STATUS := by decide
  constructor
  · intro hlt hisp
    have hlen : u32 ((trb.status &&& 0x1ffff) + 4294967296 - r) =
        (trb.status &&& 0x1ffff) - r := by
      unfold u32; omega
    obtain ⟨s1, hev, hlog, -⟩ := xhci_event_returns w s
      { type := ER_TRANSFER, ccode := CC_SHORT_PACKET, ptr := trb.addr,
        length := (trb.status &&& 0x1ffff) - r, flags := 0,
        slotid := u8 xfer.slotid, epid := u8 xfer.epid }
    refine ⟨s1, ?_, hlog⟩
    simp only [xhci_xfer_report, htrbs, hres, hneg, if_false, hr, xfer_report_loop, hty,
      or_true, true_or, if_true, gt_iff_lt, hlt, hst, and_self, true_and, hioc, ne_eq,
      not_true_eq_false, false_or, hisp, not_false_eq_true, or_false, h7, hlen, hev]
  · intro heq
    have hnlt : ¬ r < trb.status &&& 0x1ffff := by omega
    simp only [xhci_xfer_report, htrbs, hres, hneg, if_false, hr, xfer_report_loop, hty,
      or_true, true_or, if_true, gt_iff_lt, hnlt, hst, false_and, hioc, ne_eq,
      not_true_eq_false, false_or, Bool.false_eq_true, or_false, and_false, true_and]

/-- Witness for C11: 256 of 512 bytes transferred on a Normal TRB with ISP set
gives one SHORT_PACKET event of length 256. -/
theorem xhci_xfer_report_short_packet_witness :
    (256 < 512 &&& 0x1ffff → ((TR_NORMAL <<< 10) ||| TRB_TR_ISP ||| TRB_C) &&& TRB_TR_ISP ≠ 0 →
      ∃ s1, xhci_xfer_report .bits64 ex_ring_state ex_short_xfer = .ok s1 ∧
        s1.log_events = ex_ring_state.log_events ++
          [{ type := ER_TRANSFER, ccode := CC_SHORT_PACKET, ptr := 0x2000,
             length := (512 &&& 0x1ffff) - 256, flags := 0,
             slotid := u8 1, epid := u8 3 }]) ∧
    (256 = 512 &&& 0x1ffff →
      xhci_xfer_report .bits64 ex_ring_state ex_short_xfer = .ok ex_ring_state) :=
  xhci_xfer_report_short_packet .bits64 ex_ring_state ex_short_xfer
    { parameter := 0x5000, status := 512,
      control := (TR_NORMAL <<< 10) ||| TRB_TR_ISP ||| TRB_C, addr := 0x2000, ccs := true }
    256 rfl (by decide) rfl (by decide) rfl (by decide)

/-- C12, as amended.  For every successfully completed transfer,
`xhci_xfer_report` emits exactly one completion event for the first reportable
TRB of the descriptor and none for the TRBs after it, as long as no Status TRB
follows: in particular a chain of several Normal TRBs that each have IOC set
yields a single event, which points at the first of them. -/
theorem xhci_xfer_report_first_reportable (w : DmaWidth) (s : XHCIState)
    (xfer : XHCITransfer) (pre : List XHCITRB) (t : XHCITRB) (post : List XHCITRB) (r : Nat)
    (htrbs : xfer.trbs = pre ++ t :: post)
    (hst : xfer.status = CC_SUCCESS)
    (hres : xfer.packet_result = (r : Int)) (hr : r < 4294967296)
    (hq : NoReport r false pre)
    (ht : Reportable (r - bytes_consumed r pre) (short_end r false pre) t)
    (hpost : ∀ x ∈ post, trb_type x.control ≠ TR_STATUS) :
    ∃ s1 e, xhci_xfer_report w s xfer = .ok s1 ∧
      s1.log_events = s.log_events ++ [e] ∧
      e.type = ER_TRANSFER ∧ e.slotid = u8 xfer.slotid ∧ e.epid = u8 xfer.epid ∧
      (trb_type t.control ≠ TR_EVDATA → e.ptr = t.addr) := by
  obtain ⟨s1, h1, h2⟩ := report_first w s xfer pre t post r htrbs hst hres hr hq ht hpost
  refine ⟨s1, _, h1, h2, ?_, ?_, ?_, ?_⟩
  · unfold report_event; dsimp only; split <;> rfl
  · unfold report_event; dsimp only; split <;> rfl
  · unfold report_event; dsimp only; split <;> rfl
  · intro h7
    rw [← TRB_TYPE_eq] at h7
    unfold report_event; dsimp only; rw [if_neg h7]

/-- Witness for C12 as amended: the chain of two Normal TRBs with IOC set. -/
theorem xhci_xfer_report_first_reportable_witness :
    ∃ s1 e, xhci_xfer_report .bits64 ex_ring_state ex_two_ioc_xfer = .ok s1 ∧
      s1.log_events = ex_ring_state.log_events ++ [e] ∧
      e.type = ER_TRANSFER ∧ e.slotid = u8 ex_two_ioc_xfer.slotid ∧
      e.epid = u8 ex_two_ioc_xfer.epid ∧
      (trb_type ((TR_NORMAL <<< 10) ||| TRB_TR_IOC ||| TRB_TR_CH ||| TRB_C) ≠ TR_EVDATA →
        e.ptr = 0x2000) :=
  xhci_xfer_report_first_reportable .bits64 ex_ring_state ex_two_ioc_xfer []
    { parameter := 0x5000, status := 512,
      control := (TR_NORMAL <<< 10) ||| TRB_TR_IOC ||| TRB_TR_CH ||| TRB_C,
      addr := 0x2000, ccs := true }
    [{ parameter := 0x5200, status := 512,
       control := (TR_NORMAL <<< 10) ||| TRB_TR_IOC ||| TRB_C, addr := 0x2010, ccs := true }]
    1024 rfl rfl rfl (by decide) (by decide) (by decide) (by decide)

/-- Counterexample to C12 as stated: a successful transfer over a chain of two
Normal TRBs that both have IOC set gets one event, for the TRB at `0x2000`, and
none for the TRB at `0x2010`. -/
theorem two_ioc_trbs_one_event :
    ∃ s1, xhci_xfer_report .bits64 ex_ring_state ex_two_ioc_xfer = .ok s1 ∧
      s1.log_events.map (fun e => e.ptr) = [0x2000] ∧
      (ex_two_ioc_xfer.trbs.filter (fun t => t.control.testBit 5)).length = 2 ∧
      ¬ ∃ e ∈ s1.log_events, e.ptr = 0x2010 :=
  ⟨_, rfl, by decide, by decide, by decide⟩

/-- C14.  EDTLA: for a successful transfer whose TRB chain contains no earlier
reportable TRB and ends with an Event Data TRB with IOC set,
`xhci_xfer_report` posts exactly one event; its pointer is the Event Data TRB's
parameter, its flags have the ED bit (bit 2) set, and its length is the number
of bytes consumed by the preceding Normal, Data and Isoch TRBs (each taking the
smaller of its length and what remains of the transferred bytes), truncated to
24 bits. -/
theorem xhci_xfer_report_event_data (w : DmaWidth) (s : XHCIState)
    (xfer : XHCITransfer) (pre : List XHCITRB) (ed : XHCITRB) (r : Nat)
    (htrbs : xfer.trbs = pre ++ [ed])
    (hst : xfer.status = CC_SUCCESS)
    (hres : xfer.packet_result = (r : Int)) (hr : r < 4294967296)
    (hq : NoReport r false pre)
    (hty : trb_type ed.control = TR_EVDATA)
    (hioc : ed.control.testBit 5 = true) :
    ∃ s1 e, xhci_xfer_report w s xfer = .ok s1 ∧
      s1.log_events = s.log_events ++ [e] ∧
      e.ptr = ed.parameter ∧ e.flags.testBit 2 = true ∧
      e.length = bytes_consumed r pre % 16777216 := by
  obtain ⟨s1, h1, h2⟩ := report_first w s xfer pre ed [] r htrbs hst hres hr hq
    (Or.inl hioc) (fun x hx => absurd hx (List.not_mem_nil x))
  rw [← TRB_TYPE_eq] at hty
  have hnd : ¬ (TRB_TYPE ed = TR_DATA ∨ TRB_TYPE ed = TR_NORMAL ∨ TRB_TYPE ed = TR_ISOCH) := by
    rw [hty]; decide
  have hns : ¬ TRB_TYPE ed = TR_STATUS := by rw [hty]; decide
  refine ⟨s1, _, h1, h2, ?_, ?_, ?_⟩
  · simp only [report_event, if_pos hty]
  · simp only [report_event, if_pos hty]
    decide
  · simp only [report_event, if_pos hty, report_visit, if_neg hnd, if_neg hns]
    have h : (0xffffff : Nat) = 2 ^ 24 - 1 := by decide
    rw [h, Nat.and_pow_two_sub_one_eq_mod]
    unfold u32
    omega

/-- Witness for C14: 700 bytes over two Normal TRBs of length 512, then an
Event Data TRB with IOC set. -/
theorem xhci_xfer_report_event_data_witness :
    ∃ s1 e, xhci_xfer_report .bits64 ex_ring_state ex_edtla_xfer = .ok s1 ∧
      s1.log_events = ex_ring_state.log_events ++ [e] ∧
      e.ptr = 0xabcd ∧ e.flags.testBit 2 = true ∧
      e.length = bytes_consumed 700
        [{ parameter := 0x5000, status := 512,
           control := (TR_NORMAL <<< 10) ||| TRB_TR_CH ||| TRB_C, addr := 0x2000, ccs := true },
         { parameter := 0x5200, status := 512,
           control := (TR_NORMAL <<< 10) ||| TRB_TR_CH ||| TRB_C, addr := 0x2010,
           ccs := true }] % 16777216 :=
  xhci_xfer_report_event_data .bits64 ex_ring_state ex_edtla_xfer
    [{ parameter := 0x5000, status := 512,
       control := (TR_NORMAL <<< 10) ||| TRB_TR_CH ||| TRB_C, addr := 0x2000, ccs := true },
     { parameter := 0x5200, status := 512,
       control := (TR_NORMAL <<< 10) ||| TRB_TR_CH ||| TRB_C, addr := 0x2010, ccs := true }]
    { parameter := 0xabcd, status := 0,
      control := (TR_EVDATA <<< 10) ||| TRB_TR_IOC ||| TRB_C, addr := 0x2020, ccs := true }
    700 rfl rfl rfl (by decide) (by decide) (by decide) (by decide)

/-- Reading back the first dword of a DMA write that starts with `cpu_to_le 4 x`. -/
theorem le_bytes_write_head (mem : Mem) (a x : Nat) (rest : List Nat) :
    le_bytes (pci_dma_write mem a (cpu_to_le 4 x ++ rest)) a 4 = x % 4294967296 := by
  have h0 : a ≤ a + 0 ∧ a + 0 < a + (cpu_to_le 4 x ++ rest).length := by
    simp [cpu_to_le]
  have h1 : a ≤ a + 1 ∧ a + 1 < a + (cpu_to_le 4 x ++ rest).length := by
    simp [cpu_to_le]
  have h2 : a ≤ a + 2 ∧ a + 2 < a + (cpu_to_le 4 x ++ rest).length := by
    simp [cpu_to_le]
  have h3 : a ≤ a + 3 ∧ a + 3 < a + (cpu_to_le 4 x ++ rest).length := by
    simp [cpu_to_le]
  simp only [le_bytes, Finset.sum_range_succ, Finset.sum_range_zero, pci_dma_write,
    if_pos h0, if_pos h1, if_pos h2, if_pos h3, Nat.add_sub_cancel_left]
  simp only [cpu_to_le, List.cons_append, List.getD_cons_zero, List.getD_cons_succ]
  norm_num
  omega

/-- The endpoint state field (bits 0..2) of the context word that
`xhci_set_ep_state` builds is the new state. -/
theorem ep_state_field (ctx0 st : Nat) (h : st < 8) :
    (clear_bits ctx0 EP_STATE_MASK ||| u32 st) % 4294967296 % 8 = st := by
  have hm : ∀ x : Nat, x % 4294967296 % 8 = x &&& 7 := by
    intro x
    have h7 : (7 : Nat) = 2 ^ 3 - 1 := by decide
    rw [h7, Nat.and_pow_two_sub_one_eq_mod]
    omega
  have hu : u32 st = st := by unfold u32; omega
  have hs : st &&& 7 = st := by
    have h7 : (7 : Nat) = 2 ^ 3 - 1 := by decide
    rw [h7, Nat.and_pow_two_sub_one_eq_mod]
    omega
  have hc : clear_bits ctx0 EP_STATE_MASK &&& 7 = 0 := by
    unfold clear_bits
    rw [Nat.and_assoc]
    have : (0xffffffff ^^^ EP_STATE_MASK) &&& 7 = 0 := by decide
    rw [this, Nat.and_zero]
  rw [hm, hu, Nat.and_comm, Nat.and_or_distrib_left, Nat.and_comm 7 st, hs,
    Nat.and_comm, hc, Nat.zero_or]

/-- For a transfer that failed, the report loop posts one event, for the first
TRB, and stops. -/
theorem report_failed (w : DmaWidth) (s : XHCIState) (xfer : XHCITransfer)
    (trb0 : XHCITRB) (rest : List XHCITRB)
    (htrbs : xfer.trbs = trb0 :: rest) (hst : xfer.status ≠ CC_SUCCESS) :
    ∃ s1 e, xhci_xfer_report w s xfer = .ok s1 ∧
      s1.log_events = s.log_events ++ [e] ∧ s1.slots = s.slots ∧
      e.type = ER_TRANSFER ∧ e.ccode = xfer.status ∧
      e.ptr = (if trb_type trb0.control = TR_EVDATA then trb0.parameter else trb0.addr) := by
  obtain ⟨s1, hev, hlog, hslots⟩ := xhci_event_returns w s
    (report_event xfer
      { edtla := 0,
        left := if xfer.packet_result < 0 then 0 else u32 xfer.packet_result.toNat,
        reported := false, shortpkt := false } trb0)
  refine ⟨s1, _, ?_, hlog, hslots, ?_, ?_, ?_⟩
  · have hrep : ∀ st : ReportLocals, st.reported = false →
        (report_visit xfer.status st trb0).reported = false := by
      intro st h
      unfold report_visit
      split
      · exact h
      · split
        · rfl
        · exact h
    unfold xhci_xfer_report
    rw [htrbs, xfer_report_loop_cons, if_pos ⟨hrep _ rfl, Or.inr (Or.inr hst)⟩, hev]
    simp only [hst, ne_eq, not_false_eq_true, if_true]
  · unfold report_event; dsimp only; split <;> rfl
  · simp only [report_event, if_neg hst]; split <;> rfl
  · rw [← TRB_TYPE_eq]
    simp only [report_event]
    split <;> rfl

/-- `xhci_set_ep_state` leaves the endpoint in the requested state, touches
nothing of the endpoint but its state and nothing of the controller but guest
memory, which it writes only on a change of state. -/
theorem set_ep_state_spec (s : XHCIState) (e : XHCIEPContext) (st : Nat) :
    (xhci_set_ep_state s e st).2 = { e with state := st } ∧
      (xhci_set_ep_state s e st).1 = { s with mem := (xhci_set_ep_state s e st).1.mem } ∧
      (e.state = st → (xhci_set_ep_state s e st).1 = s) ∧
      (e.state ≠ st → st < 8 →
        le_bytes (xhci_set_ep_state s e st).1.mem e.pctx 4 % 8 = st) := by
  unfold xhci_set_ep_state
  by_cases h : e.state = st
  · rw [if_pos h]
    refine ⟨?_, rfl, fun _ => rfl, fun h2 => absurd h h2⟩
    rw [← h]
  · rw [if_neg h]
    refine ⟨rfl, rfl, fun h2 => absurd h2 h, fun _ h8 => ?_⟩
    simp only [List.append_assoc]
    rw [le_bytes_write_head]
    exact ep_state_field _ st h8

/-- What `xhci_stall_ep` does to an enabled endpoint. -/
theorem stall_ep_enabled (s : XHCIState) (xfer : XHCITransfer) (trb0 : XHCITRB)
    (rest : List XHCITRB) (epctx : XHCIEPContext)
    (htrbs : xfer.trbs = trb0 :: rest)
    (hslot : 1 ≤ xfer.slotid ∧ xfer.slotid ≤ MAXSLOTS)
    (hep : 1 ≤ xfer.epid ∧ xfer.epid ≤ 31)
    (hctx : (s.slots (xfer.slotid - 1)).eps (xfer.epid - 1) = some epctx) :
    ∃ s1 epctx1, xhci_stall_ep s xfer = .ok s1 ∧
      s1.log_events = s.log_events ∧
      (s1.slots (xfer.slotid - 1)).eps (xfer.epid - 1) = some epctx1 ∧
      epctx1.ring.dequeue = trb0.addr ∧ epctx1.ring.ccs = trb0.ccs ∧
      epctx1.state = EP_HALTED ∧
      (epctx.state ≠ EP_HALTED → le_bytes s1.mem epctx.pctx 4 % 8 = EP_HALTED) := by
  have hr : ¬ (xfer.slotid < 1 ∨ xfer.slotid > MAXSLOTS ∨ xfer.epid < 1 ∨ xfer.epid > 31) := by
    omega
  obtain ⟨h1, h2, -, h4⟩ := set_ep_state_spec s
    { epctx with ring := { epctx.ring with dequeue := trb0.addr, ccs := trb0.ccs } } EP_HALTED
  refine ⟨{ (xhci_set_ep_state s
              { epctx with ring := { epctx.ring with dequeue := trb0.addr, ccs := trb0.ccs } }
              EP_HALTED).1 with
            slots := Function.update (xhci_set_ep_state s
                { epctx with ring := { epctx.ring with dequeue := trb0.addr, ccs := trb0.ccs } }
                EP_HALTED).1.slots (xfer.slotid - 1)
              { s.slots (xfer.slotid - 1) with
                eps := Function.update (s.slots (xfer.slotid - 1)).eps (xfer.epid - 1)
                  (some (xhci_set_ep_state s
                    { epctx with
                      ring := { epctx.ring with dequeue := trb0.addr, ccs := trb0.ccs } }
                    EP_HALTED).2) } },
    (xhci_set_ep_state s
      { epctx with ring := { epctx.ring with dequeue := trb0.addr, ccs := trb0.ccs } }
      EP_HALTED).2, ?_, ?_, ?_, ?_, ?_, ?_, ?_⟩
  · unfold xhci_stall_ep
    rw [if_neg hr]
    simp only [hctx, htrbs]
  · show (xhci_set_ep_state s _ EP_HALTED).1.log_events = s.log_events
    rw [h2]
  · simp only [Function.update_same]
  · rw [h1]
  · rw [h1]
  · rw [h1]
  · intro hne
    exact h4 hne (by decide)

/-- The report loop always returns; every event it posts is a Transfer event
for the transfer's slot whose completion code is SUCCESS or SHORT_PACKET for a
successful transfer and the transfer's status otherwise. -/
theorem report_loop_total (w : DmaWidth) (xfer : XHCITransfer) :
    ∀ (trbs : List XHCITRB) (st : ReportLocals) (s : XHCIState),
      ∃ s1 evs, xfer_report_loop w xfer trbs st s = .ok s1 ∧
        s1.log_events = s.log_events ++ evs ∧ s1.slots = s.slots ∧
        ∀ e ∈ evs, e.type = ER_TRANSFER ∧
          (e.ccode = CC_SUCCESS ∨ e.ccode = CC_SHORT_PACKET ∨ e.ccode = xfer.status) := by
  intro trbs
  induction trbs with
  | nil =>
    intro st s
    exact ⟨s, [], rfl, by simp, rfl, by simp⟩
  | cons t ts ih =>
    intro st s
    rw [xfer_report_loop_cons]
    split
    · obtain ⟨s1, hev, hlog, hslots⟩ := xhci_event_returns w s (report_event xfer st t)
      have hty : (report_event xfer st t).type = ER_TRANSFER := by
        unfold report_event; dsimp only; split <;> rfl
      have hcc : (report_event xfer st t).ccode = CC_SUCCESS ∨
          (report_event xfer st t).ccode = CC_SHORT_PACKET ∨
          (report_event xfer st t).ccode = xfer.status := by
        have : (report_event xfer st t).ccode =
            (if xfer.status = CC_SUCCESS then
              (if (report_visit xfer.status st t).shortpkt then CC_SHORT_PACKET
               else CC_SUCCESS)
             else xfer.status) := by
          unfold report_event; dsimp only; split <;> rfl
        rw [this]
        split
        · split
          · exact Or.inr (Or.inl rfl)
          · exact Or.inl rfl
        · exact Or.inr (Or.inr rfl)
      rw [hev]
      dsimp only
      split
      · refine ⟨s1, [report_event xfer st t], rfl, hlog, hslots, ?_⟩
        intro e he
        rw [List.mem_singleton] at he
        rw [he]
        exact ⟨hty, hcc⟩
      · obtain ⟨s2, evs, h1, h2, h3, h4⟩ := ih
          { (if TRB_TYPE t = TR_EVDATA then
              { report_visit xfer.status st t with edtla := 0 }
             else report_visit xfer.status st t) with reported := true } s1
        refine ⟨s2, report_event xfer st t :: evs, h1, ?_, ?_, ?_⟩
        · rw [h2, hlog, List.append_assoc]; rfl
        · rw [h3, hslots]
        · intro e he
          rcases List.mem_cons.mp he with h | h
          · rw [h]; exact ⟨hty, hcc⟩
          · exact h4 e h
    · exact ih _ s

/-- What `xhci_complete_packet` does on STALL and on no-device. -/
theorem complete_packet_failed (rc : USBRetCodes) (w : DmaWidth) (s : XHCIState)
    (xfer : XHCITransfer) (trb0 : XHCITRB) (rest : List XHCITRB) (epctx : XHCIEPContext)
    (ret : Int)
    (htrbs : xfer.trbs = trb0 :: rest)
    (hslot : 1 ≤ xfer.slotid ∧ xfer.slotid ≤ MAXSLOTS)
    (hep : 1 ≤ xfer.epid ∧ xfer.epid ≤ 31)
    (hctx : (s.slots (xfer.slotid - 1)).eps (xfer.epid - 1) = some epctx)
    (hret : ret = rc.STALL ∨ ret = rc.NODEV) :
    ∃ s1 xfer1 e epctx1, xhci_complete_packet rc w s xfer ret = .ok (s1, xfer1) ∧
      xfer1.complete = true ∧ xfer1.running_async = false ∧ xfer1.running_retry = false ∧
      s1.log_events = s.log_events ++ [e] ∧
      e.type = ER_TRANSFER ∧
      e.ccode = (if ret = rc.STALL then CC_STALL_ERROR else CC_USB_TRANSACTION_ERROR) ∧
      e.ptr = (if trb_type trb0.control = TR_EVDATA then trb0.parameter else trb0.addr) ∧
      (s1.slots (xfer.slotid - 1)).eps (xfer.epid - 1) = some epctx1 ∧
      epctx1.ring.dequeue = trb0.addr ∧ epctx1.ring.ccs = trb0.ccs ∧
      epctx1.state = EP_HALTED ∧
      (epctx.state ≠ EP_HALTED → le_bytes s1.mem epctx.pctx 4 % 8 = EP_HALTED) := by
  obtain ⟨hn1, hn2, hn3, hn4⟩ := rc.negative
  obtain ⟨hd1, hd2, hd3, hd4, hd5, hd6⟩ := rc.distinct
  have ha : ¬ ret = rc.ASYNC := by
    rcases hret with h | h <;> rw [h]
    · exact hd6
    · exact hd3
  have hk : ¬ ret = rc.NAK := by
    rcases hret with h | h <;> rw [h]
    · exact fun h => hd4 h.symm
    · exact hd1
  have hneg : ¬ ret ≥ 0 := by
    rcases hret with h | h <;> rw [h] <;> omega
  rcases hret with h | h
  · have hnd : ¬ ret = rc.NODEV := by rw [h]; exact fun h => hd2 h.symm
    obtain ⟨s1, e, h1, h2, h3, h4, h5, h6⟩ := report_failed w s
      { xfer with running_async := false, running_retry := false, complete := true,
                  status := CC_STALL_ERROR } trb0 rest htrbs
      (by show CC_STALL_ERROR ≠ CC_SUCCESS; decide)
    obtain ⟨s2, epctx1, g1, g2, g3, g4, g5, g6, g7⟩ := stall_ep_enabled s1
      { xfer with running_async := false, running_retry := false, complete := true,
                  status := CC_STALL_ERROR } trb0 rest epctx htrbs hslot hep (by rw [h3]; exact hctx)
    refine ⟨s2, { xfer with running_async := false, running_retry := false, complete := true,
                            status := CC_STALL_ERROR },
      e, epctx1, ?_, rfl, rfl, rfl, by rw [g2, h2], h4, ?_, h6, g3, g4, g5, g6, g7⟩
    · simp only [xhci_complete_packet, ha, hk, hneg, hnd, if_false]
      rw [if_pos h, h1]
      simp only [g1]
    · rw [if_pos h, h5]
  · have hns : ¬ ret = rc.STALL := by rw [h]; exact hd2
    obtain ⟨s1, e, h1, h2, h3, h4, h5, h6⟩ := report_failed w s
      { xfer with running_async := false, running_retry := false, complete := true,
                  status := CC_USB_TRANSACTION_ERROR } trb0 rest htrbs
      (by show CC_USB_TRANSACTION_ERROR ≠ CC_SUCCESS; decide)
    obtain ⟨s2, epctx1, g1, g2, g3, g4, g5, g6, g7⟩ := stall_ep_enabled s1
      { xfer with running_async := false, running_retry := false, complete := true,
                  status := CC_USB_TRANSACTION_ERROR } trb0 rest epctx htrbs hslot hep
      (by rw [h3]; exact hctx)
    refine ⟨s2, { xfer with running_async := false, running_retry := false, complete := true,
                            status := CC_USB_TRANSACTION_ERROR },
      e, epctx1, ?_, rfl, rfl, rfl, by rw [g2, h2], h4, ?_, h6, g3, g4, g5, g6, g7⟩
    · simp only [xhci_complete_packet, ha, hk, hneg, if_false]
      rw [if_pos h, h1]
      simp only [g1]
    · rw [if_neg hns, h5]

/-- C15, as amended.  For a transfer with at least one TRB on an enabled
endpoint and a device result that is non-negative, STALL or no-device,
`xhci_complete_packet` returns normally, marks the transfer complete and posts
its completion events through `xhci_xfer_report`, each a Transfer event with
completion code SUCCESS, SHORT_PACKET, STALL_ERROR or USB_TRANSACTION_ERROR.
For any other negative result that is neither async-pending nor NAK (babble or
I/O error, for example) it does not return: `FIXME()` aborts the process. -/
theorem xhci_complete_packet_terminal (rc : USBRetCodes) (w : DmaWidth) (s : XHCIState)
    (xfer : XHCITransfer) (trb0 : XHCITRB) (rest : List XHCITRB) (epctx : XHCIEPContext)
    (ret : Int)
    (htrbs : xfer.trbs = trb0 :: rest)
    (hslot : 1 ≤ xfer.slotid ∧ xfer.slotid ≤ MAXSLOTS)
    (hep : 1 ≤ xfer.epid ∧ xfer.epid ≤ 31)
    (hctx : (s.slots (xfer.slotid - 1)).eps (xfer.epid - 1) = some epctx) :
    (ret ≥ 0 ∨ ret = rc.STALL ∨ ret = rc.NODEV →
      ∃ s1 xfer1 evs, xhci_complete_packet rc w s xfer ret = .ok (s1, xfer1) ∧
        xfer1.complete = true ∧ s1.log_events = s.log_events ++ evs ∧
        ∀ e ∈ evs, e.type = ER_TRANSFER ∧
          (e.ccode = CC_SUCCESS ∨ e.ccode = CC_SHORT_PACKET ∨ e.ccode = CC_STALL_ERROR ∨
            e.ccode = CC_USB_TRANSACTION_ERROR)) ∧
    (ret < 0 → ret ≠ rc.ASYNC → ret ≠ rc.NAK → ret ≠ rc.STALL → ret ≠ rc.NODEV →
      xhci_complete_packet rc w s xfer ret = .error .fixme) := by
  obtain ⟨hn1, hn2, hn3, hn4⟩ := rc.negative
  constructor
  · rintro (h | h)
    · have ha : ¬ ret = rc.ASYNC := by omega
      have hk : ¬ ret = rc.NAK := by omega
      obtain ⟨s1, evs, h1, h2, -, h4⟩ := report_loop_total w
        { xfer with running_async := false, running_retry := false, complete := true,
                    status := CC_SUCCESS } xfer.trbs
        { edtla := 0, left := if xfer.packet_result < 0 then 0 else u32 xfer.packet_result.toNat,
          reported := false, shortpkt := false } s
      refine ⟨s1, { xfer with running_async := false, running_retry := false, complete := true,
                              status := CC_SUCCESS }, evs, ?_, rfl, h2, ?_⟩
      · simp only [xhci_complete_packet, ha, hk, if_false, h, if_true, xhci_xfer_report, h1]
      · intro e he
        obtain ⟨g1, g2⟩ := h4 e he
        refine ⟨g1, ?_⟩
        rcases g2 with g | g | g
        · exact Or.inl g
        · exact Or.inr (Or.inl g)
        · exact Or.inl g
    · obtain ⟨s1, xfer1, e, epctx1, h1, h2, -, -, h5, h6, h7, -⟩ :=
        complete_packet_failed rc w s xfer trb0 rest epctx ret htrbs hslot hep hctx h
      refine ⟨s1, xfer1, [e], h1, h2, h5, ?_⟩
      intro e1 he
      rw [List.mem_singleton] at he
      rw [he]
      refine ⟨h6, ?_⟩
      rw [h7]
      split
      · exact Or.inr (Or.inr (Or.inl rfl))
      · exact Or.inr (Or.inr (Or.inr rfl))
  · intro hneg ha hk hs hn
    have hge : ¬ ret ≥ 0 := by omega
    simp only [xhci_complete_packet, ha, hk, hs, hn, hge, if_false]

/-- Witness for C15 as amended: the example bulk transfer completes with 512
bytes. -/
theorem xhci_complete_packet_terminal_witness :
    ((512 : Int) ≥ 0 ∨ (512 : Int) = qemu_usb_ret.STALL ∨ (512 : Int) = qemu_usb_ret.NODEV →
      ∃ s1 xfer1 evs,
        xhci_complete_packet qemu_usb_ret .bits64 ex_ep_state ex_running_xfer 512 =
          .ok (s1, xfer1) ∧
        xfer1.complete = true ∧ s1.log_events = ex_ep_state.log_events ++ evs ∧
        ∀ e ∈ evs, e.type = ER_TRANSFER ∧
          (e.ccode = CC_SUCCESS ∨ e.ccode = CC_SHORT_PACKET ∨ e.ccode = CC_STALL_ERROR ∨
            e.ccode = CC_USB_TRANSACTION_ERROR)) ∧
    ((512 : Int) < 0 → (512 : Int) ≠ qemu_usb_ret.ASYNC → (512 : Int) ≠ qemu_usb_ret.NAK →
      (512 : Int) ≠ qemu_usb_ret.STALL → (512 : Int) ≠ qemu_usb_ret.NODEV →
      xhci_complete_packet qemu_usb_ret .bits64 ex_ep_state ex_running_xfer 512 =
        .error .fixme) :=
  xhci_complete_packet_terminal qemu_usb_ret .bits64 ex_ep_state ex_running_xfer
    { parameter := 0x5000, status := 512,
      control := (TR_NORMAL <<< 10) ||| TRB_TR_IOC ||| TRB_C, addr := 0x2000, ccs := true }
    [] ex_epctx 512 rfl (by decide) (by decide) rfl

/-- Counterexample to C15 as stated: the result -4 (QEMU's `USB_RET_BABBLE`) is
negative and is neither async-pending nor NAK, nor STALL nor no-device; on it
`xhci_complete_packet` reaches `FIXME()`, which aborts the process, and no
event has been posted. -/
theorem complete_packet_babble_aborts :
    (-4 : Int) ≠ qemu_usb_ret.ASYNC ∧ (-4 : Int) ≠ qemu_usb_ret.NAK ∧
      xhci_complete_packet qemu_usb_ret .bits64 ex_ep_state ex_running_xfer (-4) =
        .error .fixme :=
  ⟨by decide, by decide, rfl⟩

/-! ## Endpoint and slot commands -/

/-- The nuke loop changes only the transfer pool and the retry pointer. -/
theorem nuke_xfers_loop_frame (slotid epid : Nat) :
    ∀ (n xferi : Nat) (epctx : XHCIEPContext) (c : List (Nat × Nat × Nat)) (k : Int),
      (nuke_xfers_loop slotid epid n xferi epctx c k).1.state = epctx.state ∧
      (nuke_xfers_loop slotid epid n xferi epctx c k).1.ring = epctx.ring ∧
      (nuke_xfers_loop slotid epid n xferi epctx c k).1.pctx = epctx.pctx ∧
      (nuke_xfers_loop slotid epid n xferi epctx c k).1.next_xfer = epctx.next_xfer := by
  intro n
  induction n with
  | zero => intro xferi epctx c k; exact ⟨rfl, rfl, rfl, rfl⟩
  | succ n ih =>
    intro xferi epctx c k
    rw [nuke_xfers_loop]
    exact ih _ _ _ _

/-- `xhci_ep_nuke_xfers` on an enabled endpoint returns, keeps the endpoint
enabled with its state, ring and context address, and leaves ports, the other
fields of the slot and guest memory alone. -/
theorem nuke_xfers_enabled (s : XHCIState) (slotid epid : Nat) (epctx : XHCIEPContext)
    (hslot : 1 ≤ slotid ∧ slotid ≤ MAXSLOTS) (hep : 1 ≤ epid ∧ epid ≤ 31)
    (hctx : (s.slots (slotid - 1)).eps (epid - 1) = some epctx) :
    ∃ s1 k epctx1, xhci_ep_nuke_xfers s slotid epid = .ok (s1, k) ∧
      (s1.slots (slotid - 1)).eps (epid - 1) = some epctx1 ∧
      epctx1.state = epctx.state ∧ epctx1.ring = epctx.ring ∧ epctx1.pctx = epctx.pctx ∧
      (s1.slots (slotid - 1)).port = (s.slots (slotid - 1)).port ∧
      s1.port_dev = s.port_dev ∧ s1.mem = s.mem ∧ s1.log_events = s.log_events := by
  have h1 : ¬ (slotid < 1 ∨ slotid > MAXSLOTS) := by omega
  have h2 : ¬ (epid < 1 ∨ epid > 31) := by omega
  obtain ⟨f1, f2, f3, -⟩ := nuke_xfers_loop_frame slotid epid TD_QUEUE epctx.next_xfer epctx [] 0
  refine ⟨{ set_epctx s slotid epid
              (some (nuke_xfers_loop slotid epid TD_QUEUE epctx.next_xfer epctx [] 0).1) with
            log_cancel := s.log_cancel ++
              (nuke_xfers_loop slotid epid TD_QUEUE epctx.next_xfer epctx [] 0).2.1 },
    (nuke_xfers_loop slotid epid TD_QUEUE epctx.next_xfer epctx [] 0).2.2,
    (nuke_xfers_loop slotid epid TD_QUEUE epctx.next_xfer epctx [] 0).1, ?_,
    ?_, f1, f2, f3, ?_, rfl, rfl, rfl⟩
  · simp only [xhci_ep_nuke_xfers, h1, h2, if_false, hctx]
  · simp only [set_epctx, Function.update_same]
  · simp only [set_epctx, Function.update_same]

/-- C17.  Reset Endpoint (`xhci_reset_ep`, slot id in range): on an enabled
endpoint that is not Halted it returns CONTEXT_STATE_ERROR and changes nothing
(endpoint state, transfers and guest memory included); on a Halted endpoint
whose slot's port is in `1..MAXPORTS` and has a device it returns SUCCESS and
the endpoint becomes Stopped, also in the state field of its guest context; on
a disabled endpoint it returns EP_NOT_ENABLED_ERROR and for an endpoint id
outside 1..31 TRB_ERROR, changing nothing. -/
theorem xhci_reset_ep_contract (s : XHCIState) (slotid epid : Nat)
    (hslot : 1 ≤ slotid ∧ slotid ≤ MAXSLOTS) :
    (∀ epctx, 1 ≤ epid ∧ epid ≤ 31 → (s.slots (slotid - 1)).eps (epid - 1) = some epctx →
      epctx.state ≠ EP_HALTED → xhci_reset_ep s slotid epid = .ok (s, CC_CONTEXT_STATE_ERROR)) ∧
    (∀ epctx, 1 ≤ epid ∧ epid ≤ 31 → (s.slots (slotid - 1)).eps (epid - 1) = some epctx →
      epctx.state = EP_HALTED →
      1 ≤ (s.slots (slotid - 1)).port ∧ (s.slots (slotid - 1)).port ≤ MAXPORTS →
      s.port_dev ((s.slots (slotid - 1)).port - 1) = true →
      ∃ s1 epctx1, xhci_reset_ep s slotid epid = .ok (s1, CC_SUCCESS) ∧
        (s1.slots (slotid - 1)).eps (epid - 1) = some epctx1 ∧
        epctx1.state = EP_STOPPED ∧ le_bytes s1.mem epctx.pctx 4 % 8 = EP_STOPPED) ∧
    (1 ≤ epid ∧ epid ≤ 31 → (s.slots (slotid - 1)).eps (epid - 1) = none →
      xhci_reset_ep s slotid epid = .ok (s, CC_EP_NOT_ENABLED_ERROR)) ∧
    (epid < 1 ∨ epid > 31 → xhci_reset_ep s slotid epid = .ok (s, CC_TRB_ERROR)) := by
  have h1 : ¬ (slotid < 1 ∨ slotid > MAXSLOTS) := by omega
  refine ⟨?_, ?_, ?_, ?_⟩
  · intro epctx hep hctx hst
    have h2 : ¬ (epid < 1 ∨ epid > 31) := by omega
    simp only [xhci_reset_ep, h1, h2, if_false, hctx, hst, ne_eq, not_false_eq_true, if_true]
  · intro epctx hep hctx hst hport hdev
    have h2 : ¬ (epid < 1 ∨ epid > 31) := by omega
    obtain ⟨s1, k, epctx1, g1, g2, g3, -, g5, g6, g7, -, -⟩ :=
      nuke_xfers_enabled s slotid epid epctx hslot hep hctx
    have hp : ¬ ((s1.slots (slotid - 1)).port < 1 ∨ (s1.slots (slotid - 1)).port > MAXPORTS) := by
      rw [g6]; omega
    have hd : ¬ s1.port_dev ((s1.slots (slotid - 1)).port - 1) = false := by
      rw [g6, g7, hdev]; decide
    obtain ⟨e1, -, -, e4⟩ := set_ep_state_spec s1 epctx1 EP_STOPPED
    have hne : epctx1.state ≠ EP_STOPPED := by rw [g3, hst]; decide
    refine ⟨set_epctx (xhci_set_ep_state s1 epctx1 EP_STOPPED).1 slotid epid
        (some (xhci_set_ep_state s1 epctx1 EP_STOPPED).2),
      (xhci_set_ep_state s1 epctx1 EP_STOPPED).2, ?_, ?_, ?_, ?_⟩
    · simp only [xhci_reset_ep, h1, h2, if_false, hctx, hst, ne_eq, not_true_eq_false, g1,
        hp, hd, g2, Bool.true_eq_false]
    · simp only [set_epctx, Function.update_same]
    · rw [e1]
    · rw [← g5]
      exact e4 hne (by decide)
  · intro hep hctx
    have h2 : ¬ (epid < 1 ∨ epid > 31) := by omega
    simp only [xhci_reset_ep, h1, h2, if_false, hctx]
  · intro hep
    simp only [xhci_reset_ep, h1, if_false, hep, if_true]

/-- Masking with `~0xF` at the width of `dma_addr_t` clears the low four bits. -/
theorem and_not_0xF (w : DmaWidth) (x : Nat) (hx : x < w.modulus) :
    x &&& (w.modulus - 16) = x - x % 16 := by
  have key : ∀ n : Nat, 4 ≤ n → x < 2 ^ n → x &&& (2 ^ n - 16) = x - x % 16 := by
    intro n hn hlt
    have hdiv : x - x % 16 = (x >>> 4) <<< 4 := by
      rw [Nat.shiftRight_eq_div_pow, Nat.shiftLeft_eq]
      have := Nat.div_add_mod x 16
      norm_num
      omega
    rw [hdiv]
    apply Nat.eq_of_testBit_eq
    intro i
    rw [Nat.testBit_and, Nat.testBit_shiftLeft, Nat.testBit_shiftRight]
    have hm : (2 ^ n - 16).testBit i = (decide (4 ≤ i) && decide (i < n)) := by
      have h16 : 2 ^ n - 16 = (2 ^ (n - 4) - 1) <<< 4 := by
        rw [Nat.shiftLeft_eq, Nat.sub_mul, ← Nat.pow_add]
        have : n - 4 + 4 = n := by omega
        rw [this]
      rw [h16, Nat.testBit_shiftLeft, Nat.testBit_two_pow_sub_one]
      by_cases h4 : 4 ≤ i
      · by_cases hi : i < n
        · have : i - 4 < n - 4 := by omega
          simp [h4, hi, this]
        · have : ¬ i - 4 < n - 4 := by omega
          simp [h4, hi, this]
      · simp [h4]
    rw [hm]
    by_cases h4 : 4 ≤ i
    · have hi4 : 4 + (i - 4) = i := by omega
      by_cases hi : i < n
      · simp [h4, hi, hi4]
      · have hxi : x.testBit i = false := by
          apply Nat.testBit_lt_two_pow
          calc x < 2 ^ n := hlt
            _ ≤ 2 ^ i := Nat.pow_le_pow_right (by decide) (by omega)
        simp [h4, hi, hi4, hxi]
    · simp [h4]
  cases w with
  | bits32 => exact key 32 (by decide) hx
  | bits64 => exact key 64 (by decide) hx

theorem mask64_lt (w : DmaWidth) (p : Nat) (hp : p < 18446744073709551616) :
    xhci_mask64 w p < w.modulus ∧ xhci_mask64 w p % 16 = p % 16 ∧
      xhci_mask64 w p % 2 = p % 2 := by
  cases w with
  | bits32 =>
    have h : (0xffffffff : Nat) = 2 ^ 32 - 1 := by decide
    have hm : xhci_mask64 .bits32 p = p % 4294967296 := by
      simp only [xhci_mask64, h, Nat.and_pow_two_sub_one_eq_mod]
    rw [hm]
    refine ⟨?_, ?_, ?_⟩
    · show p % 4294967296 < 4294967296
      omega
    · omega
    · omega
  | bits64 => exact ⟨hp, rfl, rfl⟩

/-- C18.  Set TR Dequeue Pointer (`xhci_set_ep_dequeue`, slot id in range, a
64-bit pointer): on an enabled endpoint that is not Stopped it returns
CONTEXT_STATE_ERROR and changes nothing, the ring cursor included; on a Stopped
endpoint it returns SUCCESS and sets `ring.base` and `ring.dequeue` to the
pointer (as `xhci_mask64` reduces it to the width of `dma_addr_t`) with its low
4 bits cleared and `ring.ccs` to bit 0 of the pointer, the endpoint staying
Stopped; on a disabled endpoint it returns EP_NOT_ENABLED_ERROR and for an
endpoint id outside 1..31 TRB_ERROR, changing nothing. -/
theorem xhci_set_ep_dequeue_contract (w : DmaWidth) (s : XHCIState)
    (slotid epid pdequeue : Nat)
    (hslot : 1 ≤ slotid ∧ slotid ≤ MAXSLOTS)
    (hp : pdequeue < 18446744073709551616) :
    (∀ epctx, 1 ≤ epid ∧ epid ≤ 31 → (s.slots (slotid - 1)).eps (epid - 1) = some epctx →
      epctx.state ≠ EP_STOPPED →
      xhci_set_ep_dequeue w s slotid epid pdequeue = .ok (s, CC_CONTEXT_STATE_ERROR)) ∧
    (∀ epctx, 1 ≤ epid ∧ epid ≤ 31 → (s.slots (slotid - 1)).eps (epid - 1) = some epctx →
      epctx.state = EP_STOPPED →
      ∃ s1 epctx1, xhci_set_ep_dequeue w s slotid epid pdequeue = .ok (s1, CC_SUCCESS) ∧
        (s1.slots (slotid - 1)).eps (epid - 1) = some epctx1 ∧
        epctx1.ring.base = xhci_mask64 w pdequeue - pdequeue % 16 ∧
        epctx1.ring.dequeue = xhci_mask64 w pdequeue - pdequeue % 16 ∧
        epctx1.ring.ccs = pdequeue.testBit 0 ∧
        epctx1.state = EP_STOPPED) ∧
    (1 ≤ epid ∧ epid ≤ 31 → (s.slots (slotid - 1)).eps (epid - 1) = none →
      xhci_set_ep_dequeue w s slotid epid pdequeue = .ok (s, CC_EP_NOT_ENABLED_ERROR)) ∧
    (epid < 1 ∨ epid > 31 →
      xhci_set_ep_dequeue w s slotid epid pdequeue = .ok (s, CC_TRB_ERROR)) := by
  have h1 : ¬ (slotid < 1 ∨ slotid > MAXSLOTS) := by omega
  obtain ⟨m1, m2, m3⟩ := mask64_lt w pdequeue hp
  refine ⟨?_, ?_, ?_, ?_⟩
  · intro epctx hep hctx hst
    have h2 : ¬ (epid < 1 ∨ epid > 31) := by omega
    simp only [xhci_set_ep_dequeue, h1, h2, if_false, hctx, hst, ne_eq, not_false_eq_true,
      if_true]
  · intro epctx hep hctx hst
    have h2 : ¬ (epid < 1 ∨ epid > 31) := by omega
    obtain ⟨e1, -, -, -⟩ := set_ep_state_spec s
      { epctx with
        ring := { xhci_ring_init (xhci_mask64 w pdequeue &&& (w.modulus - 16)) with
                  ccs := decide (xhci_mask64 w pdequeue &&& 1 ≠ 0) } } EP_STOPPED
    refine ⟨set_epctx (xhci_set_ep_state s
        { epctx with
          ring := { xhci_ring_init (xhci_mask64 w pdequeue &&& (w.modulus - 16)) with
                    ccs := decide (xhci_mask64 w pdequeue &&& 1 ≠ 0) } } EP_STOPPED).1
        slotid epid (some (xhci_set_ep_state s
        { epctx with
          ring := { xhci_ring_init (xhci_mask64 w pdequeue &&& (w.modulus - 16)) with
                    ccs := decide (xhci_mask64 w pdequeue &&& 1 ≠ 0) } } EP_STOPPED).2),
      (xhci_set_ep_state s
        { epctx with
          ring := { xhci_ring_init (xhci_mask64 w pdequeue &&& (w.modulus - 16)) with
                    ccs := decide (xhci_mask64 w pdequeue &&& 1 ≠ 0) } } EP_STOPPED).2,
      ?_, ?_, ?_, ?_, ?_, ?_⟩
    · simp only [xhci_set_ep_dequeue, h1, h2, if_false, hctx, hst, ne_eq, not_true_eq_false]
    · simp only [set_epctx, Function.update_same]
    · rw [e1]
      simp only [xhci_ring_init]
      rw [and_not_0xF w _ m1, m2]
    · rw [e1]
      simp only [xhci_ring_init]
      rw [and_not_0xF w _ m1, m2]
    · rw [e1]
      simp only [Nat.and_one_is_mod, m3, Nat.testBit_zero]
      rcases Nat.mod_two_eq_zero_or_one pdequeue with h | h <;> simp [h]
    · rw [e1]
  · intro hep hctx
    have h2 : ¬ (epid < 1 ∨ epid > 31) := by omega
    simp only [xhci_set_ep_dequeue, h1, h2, if_false, hctx]
  · intro hep
    simp only [xhci_set_ep_dequeue, h1, if_false, hep, if_true]

/-- `xhci_disable_ep` with ids in range always returns SUCCESS; afterwards the
endpoint is disabled, and no endpoint of the slot that was disabled has become
enabled. -/
theorem disable_ep_returns (s : XHCIState) (slotid epid : Nat)
    (hslot : 1 ≤ slotid ∧ slotid ≤ MAXSLOTS) (hep : 1 ≤ epid ∧ epid ≤ 31) :
    ∃ s1, xhci_disable_ep s slotid epid = .ok (s1, CC_SUCCESS) ∧
      (s1.slots (slotid - 1)).eps (epid - 1) = none ∧
      (∀ j, (s.slots (slotid - 1)).eps j = none → (s1.slots (slotid - 1)).eps j = none) ∧
      (s1.slots (slotid - 1)).enabled = (s.slots (slotid - 1)).enabled := by
  have h1 : ¬ (slotid < 1 ∨ slotid > MAXSLOTS) := by omega
  have h2 : ¬ (epid < 1 ∨ epid > 31) := by omega
  cases hctx : (s.slots (slotid - 1)).eps (epid - 1) with
  | none =>
    refine ⟨s, ?_, hctx, fun j h => h, rfl⟩
    simp only [xhci_disable_ep, h1, h2, if_false, hctx]
  | some epctx =>
    have hn : xhci_ep_nuke_xfers s slotid epid =
        .ok ({ set_epctx s slotid epid
                (some (nuke_xfers_loop slotid epid TD_QUEUE epctx.next_xfer epctx [] 0).1) with
              log_cancel := s.log_cancel ++
                (nuke_xfers_loop slotid epid TD_QUEUE epctx.next_xfer epctx [] 0).2.1 },
             (nuke_xfers_loop slotid epid TD_QUEUE epctx.next_xfer epctx [] 0).2.2) := by
      simp only [xhci_ep_nuke_xfers, h1, h2, if_false, hctx]
    obtain ⟨-, e2, -, -⟩ := set_ep_state_spec
      { set_epctx s slotid epid
          (some (nuke_xfers_loop slotid epid TD_QUEUE epctx.next_xfer epctx [] 0).1) with
        log_cancel := s.log_cancel ++
          (nuke_xfers_loop slotid epid TD_QUEUE epctx.next_xfer epctx [] 0).2.1 }
      (nuke_xfers_loop slotid epid TD_QUEUE epctx.next_xfer epctx [] 0).1 EP_DISABLED
    refine ⟨set_epctx (xhci_set_ep_state
        { set_epctx s slotid epid
            (some (nuke_xfers_loop slotid epid TD_QUEUE epctx.next_xfer epctx [] 0).1) with
          log_cancel := s.log_cancel ++
            (nuke_xfers_loop slotid epid TD_QUEUE epctx.next_xfer epctx [] 0).2.1 }
        (nuke_xfers_loop slotid epid TD_QUEUE epctx.next_xfer epctx [] 0).1 EP_DISABLED).1
        slotid epid none, ?_, ?_, ?_, ?_⟩
    · simp only [xhci_disable_ep, h1, h2, if_false, hctx, hn, set_epctx, Function.update_same]
    · simp only [set_epctx, Function.update_same]
    · intro j hj
      rw [e2]
      simp only [set_epctx, Function.update_same, Function.update_idem]
      by_cases hje : j = epid - 1
      · rw [hje, Function.update_same]
      · rw [Function.update_noteq hje]
        exact hj
    · rw [e2]
      simp only [set_epctx, Function.update_same]

/-- The loop of `xhci_disable_slot` does nothing over endpoints that are all
disabled. -/
theorem disable_slot_loop_none (slotid : Nat) :
    ∀ (n i : Nat) (s : XHCIState), 1 ≤ i →
      (∀ j, i - 1 ≤ j → j < i - 1 + n → (s.slots (slotid - 1)).eps j = none) →
      disable_slot_loop slotid n i s = .ok s := by
  intro n
  induction n with
  | zero => intro i s _ _; rfl
  | succ n ih =>
    intro i s hi h
    rw [disable_slot_loop, h (i - 1) (Nat.le_refl _) (by omega)]
    exact ih (i + 1) s (by omega) (fun j h1 h2 => h j (by omega) (by omega))

/-- The loop of `xhci_disable_slot` returns and leaves the endpoints it has
visited disabled. -/
theorem disable_slot_loop_returns (slotid : Nat) (hslot : 1 ≤ slotid ∧ slotid ≤ MAXSLOTS) :
    ∀ (n i : Nat) (s : XHCIState), 1 ≤ i → i + n ≤ 32 →
      ∃ s1, disable_slot_loop slotid n i s = .ok s1 ∧
        (∀ j, (s.slots (slotid - 1)).eps j = none → (s1.slots (slotid - 1)).eps j = none) ∧
        (∀ j, i - 1 ≤ j → j < i - 1 + n → (s1.slots (slotid - 1)).eps j = none) ∧
        (s1.slots (slotid - 1)).enabled = (s.slots (slotid - 1)).enabled := by
  intro n
  induction n with
  | zero =>
    intro i s _ _
    exact ⟨s, rfl, fun j h => h, fun j h1 h2 => absurd h2 (by omega), rfl⟩
  | succ n ih =>
    intro i s hi hn
    rw [disable_slot_loop]
    cases hctx : (s.slots (slotid - 1)).eps (i - 1) with
    | none =>
      obtain ⟨s1, g1, g2, g3, g4⟩ := ih (i + 1) s (by omega) (by omega)
      refine ⟨s1, g1, g2, ?_, g4⟩
      intro j h1 h2
      by_cases hj : j = i - 1
      · rw [hj]; exact g2 _ hctx
      · exact g3 j (by omega) (by omega)
    | some e =>
      obtain ⟨s0, d1, d2, d3, d4⟩ := disable_ep_returns s slotid i hslot ⟨hi, by omega⟩
      obtain ⟨s1, g1, g2, g3, g4⟩ := ih (i + 1) s0 (by omega) (by omega)
      refine ⟨s1, ?_, fun j h => g2 j (d3 j h), ?_, by rw [g4, d4]⟩
      · simp only [d1]
        exact g1
      · intro j h1 h2
        by_cases hj : j = i - 1
        · rw [hj]; exact g2 _ d2
        · exact g3 j (by omega) (by omega)

/-- A slot record whose `enabled` flag is clear is not changed by clearing it. -/
theorem clear_enabled_self (s : XHCIState) (k : Nat) (h : (s.slots k).enabled = false) :
    ({ s with slots := Function.update s.slots k { s.slots k with enabled := false } } :
      XHCIState) = s := by
  have hsl : ({ s.slots k with enabled := false } : XHCISlot) = s.slots k := by
    cases hk : s.slots k with
    | mk en ctx port dev eps =>
      rw [hk] at h
      simp only at h
      rw [h]
  rw [hsl, Function.update_eq_self]

/-- C19.  Idempotent disable (ids in range): `xhci_disable_ep` applied to an
endpoint that is already disabled returns SUCCESS and changes nothing, guest
memory and the record of cancelled packets included; `xhci_disable_ep` always
returns SUCCESS and applying it again to the state it leaves returns SUCCESS
with that same state.  `xhci_disable_slot` applied to a disabled slot without
endpoints returns SUCCESS with no state change, and the state that
`xhci_disable_slot` leaves is such a state. -/
theorem xhci_disable_idempotent (s : XHCIState) (slotid epid : Nat)
    (hslot : 1 ≤ slotid ∧ slotid ≤ MAXSLOTS) (hep : 1 ≤ epid ∧ epid ≤ 31) :
    ((s.slots (slotid - 1)).eps (epid - 1) = none →
      xhci_disable_ep s slotid epid = .ok (s, CC_SUCCESS)) ∧
    (∃ s1, xhci_disable_ep s slotid epid = .ok (s1, CC_SUCCESS) ∧
      xhci_disable_ep s1 slotid epid = .ok (s1, CC_SUCCESS)) ∧
    ((s.slots (slotid - 1)).enabled = false →
      (∀ i < 31, (s.slots (slotid - 1)).eps i = none) →
      xhci_disable_slot s slotid = .ok (s, CC_SUCCESS)) ∧
    (∃ s1, xhci_disable_slot s slotid = .ok (s1, CC_SUCCESS) ∧
      (s1.slots (slotid - 1)).enabled = false ∧
      (∀ i < 31, (s1.slots (slotid - 1)).eps i = none) ∧
      xhci_disable_slot s1 slotid = .ok (s1, CC_SUCCESS)) := by
  have h1 : ¬ (slotid < 1 ∨ slotid > MAXSLOTS) := by omega
  have h2 : ¬ (epid < 1 ∨ epid > 31) := by omega
  have hnone : ∀ t : XHCIState, (t.slots (slotid - 1)).eps (epid - 1) = none →
      xhci_disable_ep t slotid epid = .ok (t, CC_SUCCESS) := by
    intro t ht
    simp only [xhci_disable_ep, h1, h2, if_false, ht]
  have hslotnone : ∀ t : XHCIState, (t.slots (slotid - 1)).enabled = false →
      (∀ i < 31, (t.slots (slotid - 1)).eps i = none) →
      xhci_disable_slot t slotid = .ok (t, CC_SUCCESS) := by
    intro t hen hall
    have hl := disable_slot_loop_none slotid 31 1 t (Nat.le_refl 1)
      (fun j _ h => hall j (by omega))
    simp only [xhci_disable_slot, h1, if_false, hl]
    rw [clear_enabled_self t (slotid - 1) hen]
  refine ⟨hnone s, ?_, hslotnone s, ?_⟩
  · obtain ⟨s1, d1, d2, -, -⟩ := disable_ep_returns s slotid epid hslot hep
    exact ⟨s1, d1, hnone s1 d2⟩
  · obtain ⟨s0, g1, -, g3, -⟩ := disable_slot_loop_returns slotid hslot 31 1 s (Nat.le_refl 1)
      (by decide)
    have hen : (({ s0 with
        slots := Function.update s0.slots (slotid - 1)
          { s0.slots (slotid - 1) with enabled := false } } : XHCIState).slots
        (slotid - 1)).enabled = false := by
      simp only [Function.update_same]
    have hall : ∀ i < 31, (({ s0 with
        slots := Function.update s0.slots (slotid - 1)
          { s0.slots (slotid - 1) with enabled := false } } : XHCIState).slots
        (slotid - 1)).eps i = none := by
      intro i hi
      simp only [Function.update_same]
      exact g3 i (by omega) (by omega)
    refine ⟨_, ?_, hen, hall, hslotnone _ hen hall⟩
    simp only [xhci_disable_slot, h1, if_false, g1]

/-- The scan stops at the first disabled slot. -/
theorem enable_slot_scan_finds (s : XHCIState) (k : Nat)
    (hk : (s.slots k).enabled = false) :
    ∀ (n i : Nat), i ≤ k → k < i + n →
      (∀ j, i ≤ j → j < k → (s.slots j).enabled = true) →
      enable_slot_scan s n i = k := by
  intro n
  induction n with
  | zero => intro i h1 h2 _; omega
  | succ n ih =>
    intro i h1 h2 hall
    rw [enable_slot_scan]
    by_cases hik : i = k
    · rw [hik, if_pos hk]
    · have hen : ¬ (s.slots i).enabled = false := by
        rw [hall i (Nat.le_refl i) (by omega)]; decide
      rw [if_neg hen]
      exact ih (i + 1) (by omega) (by omega) (fun j h3 h4 => hall j (by omega) h4)

/-- The scan runs to its end when every slot is enabled. -/
theorem enable_slot_scan_full (s : XHCIState) :
    ∀ (n i : Nat), (∀ j, i ≤ j → j < i + n → (s.slots j).enabled = true) →
      enable_slot_scan s n i = i + n := by
  intro n
  induction n with
  | zero => intro i _; rfl
  | succ n ih =>
    intro i hall
    rw [enable_slot_scan]
    have hen : ¬ (s.slots i).enabled = false := by
      rw [hall i (Nat.le_refl i) (by omega)]; decide
    rw [if_neg hen, ih (i + 1) (fun j h3 h4 => hall j (by omega) (by omega))]
    omega

/-- C20.  Enable Slot (one round of `xhci_process_commands` for an Enable Slot
TRB): when slot index `k` (slot id `k + 1`) is the lowest-numbered disabled
slot, that slot becomes enabled with port assignment 0 and an empty endpoint
table, every other slot is unchanged, and the one event posted carries SUCCESS,
the slot id `k + 1` and the address of the command TRB; when all 8 slots are
enabled, the one event posted carries NO_SLOTS_ERROR and no slot changes. -/
theorem process_enable_slot_contract (w : DmaWidth) (s : XHCIState) (l : CommandLocals)
    (addr : Nat) :
    (∀ k, k < MAXSLOTS → (s.slots k).enabled = false →
      (∀ j < k, (s.slots j).enabled = true) →
      ∃ s1 l1 e, process_enable_slot w s l addr = .ok (s1, l1) ∧
        (s1.slots k).enabled = true ∧ (s1.slots k).port = 0 ∧
        (∀ i < 31, (s1.slots k).eps i = none) ∧
        (∀ j, j ≠ k → s1.slots j = s.slots j) ∧
        s1.log_events = s.log_events ++ [e] ∧
        e.ccode = CC_SUCCESS ∧ e.slotid = k + 1 ∧ e.ptr = addr) ∧
    ((∀ j < MAXSLOTS, (s.slots j).enabled = true) →
      ∃ s1 l1 e, process_enable_slot w s l addr = .ok (s1, l1) ∧
        s1.slots = s.slots ∧ s1.log_events = s.log_events ++ [e] ∧
        e.ccode = CC_NO_SLOTS_ERROR ∧ e.ptr = addr) := by
  constructor
  · intro k hk hdis hmin
    have hscan : enable_slot_scan s MAXSLOTS 0 = k :=
      enable_slot_scan_finds s k hdis MAXSLOTS 0 (Nat.zero_le k) (by omega)
        (fun j _ h => hmin j h)
    have hge : ¬ k ≥ MAXSLOTS := by omega
    have hr : ¬ (k + 1 < 1 ∨ k + 1 > MAXSLOTS) := by omega
    have hu : u8 (k + 1) = k + 1 := by
      have : MAXSLOTS = 8 := rfl
      unfold u8; omega
    obtain ⟨s2, hev, hlog, hslots⟩ := xhci_event_returns w
      { s with
        slots := Function.update s.slots (k + 1 - 1)
          { s.slots (k + 1 - 1) with
            enabled := true, port := 0,
            eps := fun i => if i < 31 then none else (s.slots (k + 1 - 1)).eps i } }
      { l.event with ptr := addr, ccode := CC_SUCCESS, slotid := u8 (k + 1) }
    refine ⟨s2,
      { event := { l.event with ptr := addr, ccode := CC_SUCCESS, slotid := u8 (k + 1) },
        slotid := k + 1 },
      { l.event with ptr := addr, ccode := CC_SUCCESS, slotid := u8 (k + 1) },
      ?_, ?_, ?_, ?_, ?_, hlog, rfl, hu, rfl⟩
    · simp only [process_enable_slot, command_enable_slot, hscan, hge, if_false,
        xhci_enable_slot, hr, hev]
    · rw [hslots]
      show (Function.update s.slots k _ k).enabled = true
      rw [Function.update_same]
    · rw [hslots]
      show (Function.update s.slots k _ k).port = 0
      rw [Function.update_same]
    · intro i hi
      rw [hslots]
      show (Function.update s.slots k _ k).eps i = none
      rw [Function.update_same]
      simp only [hi, if_true]
    · intro j hj
      rw [hslots]
      show Function.update s.slots k _ j = s.slots j
      rw [Function.update_noteq hj]
  · intro hall
    have hscan : enable_slot_scan s MAXSLOTS 0 = MAXSLOTS := by
      rw [enable_slot_scan_full s MAXSLOTS 0 (fun j _ h => hall j (by omega))]
      omega
    obtain ⟨s2, hev, hlog, hslots⟩ := xhci_event_returns w s
      { l.event with ptr := addr, ccode := CC_NO_SLOTS_ERROR, slotid := u8 l.slotid }
    refine ⟨s2,
      { event := { l.event with ptr := addr, ccode := CC_NO_SLOTS_ERROR,
                                slotid := u8 l.slotid },
        slotid := l.slotid },
      { l.event with ptr := addr, ccode := CC_NO_SLOTS_ERROR, slotid := u8 l.slotid },
      ?_, hslots, hlog, rfl, rfl⟩
    simp only [process_enable_slot, command_enable_slot, hscan, ge_iff_le, le_refl, if_true,
      hev]

/-- Witness for C17: Reset Endpoint on the Halted endpoint 3 of slot 1, whose
port 1 has a device. -/
theorem xhci_reset_ep_contract_witness :
    ∃ s1 epctx1, xhci_reset_ep (ex_ep_state_with ex_halted_epctx) 1 3 = .ok (s1, CC_SUCCESS) ∧
      (s1.slots (1 - 1)).eps (3 - 1) = some epctx1 ∧
      epctx1.state = EP_STOPPED ∧ le_bytes s1.mem ex_halted_epctx.pctx 4 % 8 = EP_STOPPED :=
  (xhci_reset_ep_contract (ex_ep_state_with ex_halted_epctx) 1 3 (by decide)).2.1
    ex_halted_epctx (by decide) rfl rfl (by decide) rfl

/-- Witness for C18: Set TR Dequeue Pointer to `0x4001` on the Stopped endpoint
3 of slot 1. -/
theorem xhci_set_ep_dequeue_contract_witness :
    ∃ s1 epctx1,
      xhci_set_ep_dequeue .bits64 (ex_ep_state_with ex_stopped_epctx) 1 3 0x4001 =
        .ok (s1, CC_SUCCESS) ∧
      (s1.slots (1 - 1)).eps (3 - 1) = some epctx1 ∧
      epctx1.ring.base = xhci_mask64 .bits64 0x4001 - 0x4001 % 16 ∧
      epctx1.ring.dequeue = xhci_mask64 .bits64 0x4001 - 0x4001 % 16 ∧
      epctx1.ring.ccs = (0x4001 : Nat).testBit 0 ∧
      epctx1.state = EP_STOPPED :=
  (xhci_set_ep_dequeue_contract .bits64 (ex_ep_state_with ex_stopped_epctx) 1 3 0x4001
    (by decide) (by decide)).2.1 ex_stopped_epctx (by decide) rfl rfl

/-- Witness for C19: disabling the enabled endpoint 3 of slot 1 and disabling
it again. -/
theorem xhci_disable_idempotent_witness :
    ∃ s1, xhci_disable_ep ex_ep_state 1 3 = .ok (s1, CC_SUCCESS) ∧
      xhci_disable_ep s1 1 3 = .ok (s1, CC_SUCCESS) :=
  (xhci_disable_idempotent ex_ep_state 1 3 (by decide) (by decide)).2.1

/-- Witness for C20: Enable Slot on a controller with no slot enabled allocates
slot 1. -/
theorem process_enable_slot_contract_witness :
    ∃ s1 l1 e, process_enable_slot .bits64 ex_ring_state command_locals_init 0x3000 =
        .ok (s1, l1) ∧
      (s1.slots 0).enabled = true ∧ (s1.slots 0).port = 0 ∧
      (∀ i < 31, (s1.slots 0).eps i = none) ∧
      (∀ j, j ≠ 0 → s1.slots j = ex_ring_state.slots j) ∧
      s1.log_events = ex_ring_state.log_events ++ [e] ∧
      e.ccode = CC_SUCCESS ∧ e.slotid = 0 + 1 ∧ e.ptr = 0x3000 :=
  (process_enable_slot_contract .bits64 ex_ring_state command_locals_init 0x3000).1 0
    (by decide) rfl (fun j hj => absurd hj (Nat.not_lt_zero j))

/-! ## Transfer submission: `xhci_kick_ep` -/

/-- C16.  At-most-one-outstanding-retry: if an enabled endpoint has a NAK'd
transfer pending retry (`retry` set, the transfer marked `running_retry`, with
at least one TRB) and the device answers NAK again to the re-issued packet,
`xhci_kick_ep` returns after handing that one packet to the device, without
fetching any TRB and without submitting any other transfer: the ring cursor,
`next_xfer`, the endpoint state and the retry pointer are unchanged, every
transfer keeps its TRBs and its running flags, and no event is posted. -/
theorem xhci_kick_ep_retry_nak (rc : USBRetCodes) (usb : USBCore) (w : DmaWidth)
    (rf fuel : Nat) (s : XHCIState) (slotid epid i : Nat) (epctx : XHCIEPContext)
    (hslot : 1 ≤ slotid ∧ slotid ≤ MAXSLOTS) (hep : 1 ≤ epid ∧ epid ≤ 31)
    (hen : (s.slots (slotid - 1)).enabled = true)
    (hctx : (s.slots (slotid - 1)).eps (epid - 1) = some epctx)
    (hretry : epctx.retry = some i)
    (hrun : (epctx.transfers i).running_retry = true)
    (htrbs : (epctx.transfers i).trbs ≠ [])
    (hnak : (usb.handle_packet s.log_packets.length).ret = rc.NAK) :
    ∃ s1 epctx1, xhci_kick_ep rc usb w rf (fuel + 1) s slotid epid = .ok s1 ∧
      (s1.slots (slotid - 1)).eps (epid - 1) = some epctx1 ∧
      epctx1.ring = epctx.ring ∧ epctx1.next_xfer = epctx.next_xfer ∧
      epctx1.state = epctx.state ∧ epctx1.retry = epctx.retry ∧
      (∀ j, (epctx1.transfers j).trbs = (epctx.transfers j).trbs ∧
        (epctx1.transfers j).running_retry = (epctx.transfers j).running_retry ∧
        (epctx1.transfers j).running_async = (epctx.transfers j).running_async) ∧
      s1.log_events = s.log_events ∧
      s1.log_packets = s.log_packets ++ [(slotid, epid, i)] := by
  have h1 : ¬ (slotid < 1 ∨ slotid > MAXSLOTS) := by omega
  have h2 : ¬ (epid < 1 ∨ epid > 31) := by omega
  have hen2 : ¬ (s.slots (slotid - 1)).enabled = false := by rw [hen]; decide
  have hrun2 : ¬ (epctx.transfers i).running_retry = false := by rw [hrun]; decide
  have hmap : ∀ x : XHCITransfer, (xhci_xfer_map s x).slots = s.slots ∧
      (xhci_xfer_map s x).log_events = s.log_events ∧
      (xhci_xfer_map s x).log_packets = s.log_packets ∧
      (xhci_xfer_map s x).mem = s.mem := by
    intro x
    unfold xhci_xfer_map xhci_die
    split <;> exact ⟨rfl, rfl, rfl, rfl⟩
  obtain ⟨m1, m2, m3, m4⟩ := hmap { epctx.transfers i with packet_in := (epctx.transfers i).in_xfer }
  have hnak2 : (usb.handle_packet
      (xhci_xfer_map s
        { epctx.transfers i with packet_in := (epctx.transfers i).in_xfer }).log_packets.length).ret
      = rc.NAK := by rw [m3]; exact hnak
  have hctx2 : ((xhci_xfer_map s
        { epctx.transfers i with packet_in := (epctx.transfers i).in_xfer }).slots
      (slotid - 1)).eps (epid - 1) = some epctx := by rw [m1]; exact hctx
  have hctx3 : (((usb_handle_packet usb
        (xhci_xfer_map s { epctx.transfers i with packet_in := (epctx.transfers i).in_xfer })
        slotid epid i
        { epctx.transfers i with packet_in := (epctx.transfers i).in_xfer }).1).slots
      (slotid - 1)).eps (epid - 1) = some epctx := hctx2
  refine ⟨set_xfer (usb_handle_packet usb
        (xhci_xfer_map s { epctx.transfers i with packet_in := (epctx.transfers i).in_xfer })
        slotid epid i
        { epctx.transfers i with packet_in := (epctx.transfers i).in_xfer }).1 slotid epid i
      (usb_handle_packet usb
        (xhci_xfer_map s { epctx.transfers i with packet_in := (epctx.transfers i).in_xfer })
        slotid epid i
        { epctx.transfers i with packet_in := (epctx.transfers i).in_xfer }).2.1,
    { epctx with
      transfers := Function.update epctx.transfers i
        (usb_handle_packet usb
          (xhci_xfer_map s { epctx.transfers i with packet_in := (epctx.transfers i).in_xfer })
          slotid epid i
          { epctx.transfers i with packet_in := (epctx.transfers i).in_xfer }).2.1 },
    ?_, ?_, rfl, rfl, rfl, rfl, ?_, ?_, ?_⟩
  · have hsetup : xhci_setup_packet s (epctx.transfers i) =
        .ok (xhci_xfer_map s
              { epctx.transfers i with packet_in := (epctx.transfers i).in_xfer },
             { epctx.transfers i with packet_in := (epctx.transfers i).in_xfer }) := by
      unfold xhci_setup_packet
      split
      · next h => exact absurd h htrbs
      · rfl
    have hn : (usb_handle_packet usb
        (xhci_xfer_map s { epctx.transfers i with packet_in := (epctx.transfers i).in_xfer })
        slotid epid i
        { epctx.transfers i with packet_in := (epctx.transfers i).in_xfer }).2.2 = rc.NAK :=
      hnak2
    unfold xhci_kick_ep
    simp only [kick_ep_pair]
    unfold kick_ep_entry
    rw [if_neg h1, if_neg h2, if_neg hen2]
    simp only [hctx, hretry]
    rw [if_neg hrun2]
    simp only [hsetup]
    rw [if_pos hn]
  · simp only [set_xfer, hctx3, set_epctx, Function.update_same]
  · intro j
    by_cases hj : j = i
    · subst hj
      dsimp only
      rw [Function.update_same]
      exact ⟨rfl, rfl, rfl⟩
    · dsimp only
      rw [Function.update_noteq hj]
      exact ⟨rfl, rfl, rfl⟩
  · simp only [set_xfer, hctx3, set_epctx]
    exact m2
  · simp only [set_xfer, hctx3, set_epctx]
    show (xhci_xfer_map s _).log_packets ++ [(slotid, epid, i)] = _
    rw [m3]

/-- Witness for C16: endpoint 3 of slot 1 has the transfer at index 0 pending
retry and the device answers NAK. -/
theorem xhci_kick_ep_retry_nak_witness :
    ∃ s1 epctx1,
      xhci_kick_ep qemu_usb_ret ex_usb_nak .bits64 8 (0 + 1) (ex_ep_state_with ex_retry_epctx)
        1 3 = .ok s1 ∧
      (s1.slots (1 - 1)).eps (3 - 1) = some epctx1 ∧
      epctx1.ring = ex_retry_epctx.ring ∧ epctx1.next_xfer = ex_retry_epctx.next_xfer ∧
      epctx1.state = ex_retry_epctx.state ∧ epctx1.retry = ex_retry_epctx.retry ∧
      (∀ j, (epctx1.transfers j).trbs = (ex_retry_epctx.transfers j).trbs ∧
        (epctx1.transfers j).running_retry = (ex_retry_epctx.transfers j).running_retry ∧
        (epctx1.transfers j).running_async = (ex_retry_epctx.transfers j).running_async) ∧
      s1.log_events = (ex_ep_state_with ex_retry_epctx).log_events ∧
      s1.log_packets = (ex_ep_state_with ex_retry_epctx).log_packets ++ [(1, 3, 0)] :=
  xhci_kick_ep_retry_nak qemu_usb_ret ex_usb_nak .bits64 8 0 (ex_ep_state_with ex_retry_epctx)
    1 3 0 ex_retry_epctx (by decide) (by decide) rfl rfl rfl rfl (by decide) rfl

/-- A run of `xhci_kick_ep` through its loop: with one Normal TRB of length 512
on the ring of endpoint 3 of slot 1 and a device that transfers 512 bytes at
once, the kick hands one packet to the device, posts one Transfer event
(SUCCESS, pointing at the TRB, residue 0), moves the ring past the TRB and
`next_xfer` to the next pool entry, and leaves the endpoint Running with no
retry pending. -/
theorem xhci_kick_ep_submits_descriptor :
    ∃ s1 epctx1, xhci_kick_ep qemu_usb_ret ex_usb_512 .bits64 8 6 ex_kick_state 1 3 = .ok s1 ∧
      (s1.slots 0).eps 2 = some epctx1 ∧
      s1.log_packets = [(1, 3, 0)] ∧
      s1.log_events.map (fun e => (e.type, e.ccode, e.ptr, e.length)) =
        [(ER_TRANSFER, CC_SUCCESS, 0x2010, 0)] ∧
      epctx1.ring.dequeue = 0x2020 ∧ epctx1.next_xfer = 1 ∧
      epctx1.state = EP_RUNNING ∧ epctx1.retry = none :=
  ⟨_, _, rfl, rfl, by decide, by decide, by decide, by decide, by decide, by decide⟩

/-! ## Guest memory: context words -/

theorem word_read (mem : Mem) (a : Nat) :
    le_to_cpu (pci_dma_read mem a 4) =
      mem a % 256 + 256 * (mem (a + 1) % 256 + 256 * (mem (a + 2) % 256 +
        256 * (mem (a + 3) % 256))) := by
  simp [pci_dma_read, List.range_succ, le_to_cpu]

theorem read_ctx_getD (mem : Mem) (a n k : Nat) (hk : k < n) :
    (read_ctx mem a n).getD k 0 = le_to_cpu (pci_dma_read mem (a + 4 * k) 4) := by
  unfold read_ctx
  rw [List.getD_eq_getElem?_getD, List.getElem?_map, List.getElem?_range hk]
  simp only [Option.map_some', Option.getD_some]
  congr 1
  apply List.ext_getElem?
  intro i
  simp only [pci_dma_read, List.getElem?_take, List.getElem?_drop, List.getElem?_map]
  by_cases hi : i < 4
  · rw [if_pos hi, List.getElem?_range (by omega), List.getElem?_range hi]
    simp only [Option.map_some', Nat.add_assoc]
  · rw [if_neg hi, List.getElem?_eq_none (by simp; omega)]
    rfl

theorem flatMap_le_length (ctx : List Nat) :
    (ctx.flatMap (fun x => cpu_to_le 4 x)).length = 4 * ctx.length := by
  induction ctx with
  | nil => rfl
  | cons x xs ih =>
    rw [List.flatMap_cons, List.length_append, ih, List.length_cons]
    simp only [cpu_to_le, List.length_cons, List.length_nil]
    omega

theorem flatMap_le_getD (ctx : List Nat) :
    ∀ (k j : Nat), j < 4 →
      (ctx.flatMap (fun x => cpu_to_le 4 x)).getD (4 * k + j) 0 =
        (cpu_to_le 4 (ctx.getD k 0)).getD j 0 := by
  induction ctx with
  | nil =>
    intro k j hj
    simp only [List.flatMap_nil, List.getD_nil, cpu_to_le]
    have h0 : ((0 : Nat) % 256) = 0 := rfl
    have h1 : ((0 : Nat) / 256) = 0 := rfl
    simp only [h0, h1]
    match j, hj with
    | 0, _ => rfl
    | 1, _ => rfl
    | 2, _ => rfl
    | 3, _ => rfl
  | cons x xs ih =>
    intro k j hj
    rw [List.flatMap_cons]
    cases k with
    | zero =>
      rw [List.getD_cons_zero, Nat.mul_zero, Nat.zero_add, List.getD_append]
      simp only [cpu_to_le, List.length_cons, List.length_nil]
      omega
    | succ k =>
      rw [List.getD_cons_succ, List.getD_append_right]
      · have hl : (cpu_to_le 4 x).length = 4 := rfl
        rw [hl, show 4 * (k + 1) + j - 4 = 4 * k + j by omega]
        exact ih k j hj
      · have hl : (cpu_to_le 4 x).length = 4 := rfl
        rw [hl]
        omega

theorem le_to_cpu_le (x : Nat) :
    (cpu_to_le 4 x).getD 0 0 % 256 + 256 * ((cpu_to_le 4 x).getD 1 0 % 256 +
      256 * ((cpu_to_le 4 x).getD 2 0 % 256 + 256 * ((cpu_to_le 4 x).getD 3 0 % 256))) =
      x % 4294967296 := by
  simp only [cpu_to_le, List.getD_cons_zero, List.getD_cons_succ]
  omega

/-- A word stored by `write_ctx` reads back, truncated to 32 bits. -/
theorem word_write_same (mem : Mem) (a : Nat) (ctx : List Nat) (k : Nat) (hk : k < ctx.length) :
    le_to_cpu (pci_dma_read (write_ctx mem a ctx) (a + 4 * k) 4) = ctx.getD k 0 % 4294967296 := by
  rw [word_read]
  unfold write_ctx pci_dma_write
  rw [flatMap_le_length]
  have h0 : a ≤ a + 4 * k ∧ a + 4 * k < a + 4 * ctx.length := by omega
  have h1 : a ≤ a + 4 * k + 1 ∧ a + 4 * k + 1 < a + 4 * ctx.length := by omega
  have h2 : a ≤ a + 4 * k + 2 ∧ a + 4 * k + 2 < a + 4 * ctx.length := by omega
  have h3 : a ≤ a + 4 * k + 3 ∧ a + 4 * k + 3 < a + 4 * ctx.length := by omega
  rw [if_pos h0, if_pos h1, if_pos h2, if_pos h3]
  rw [show a + 4 * k - a = 4 * k + 0 by omega, show a + 4 * k + 1 - a = 4 * k + 1 by omega,
    show a + 4 * k + 2 - a = 4 * k + 2 by omega, show a + 4 * k + 3 - a = 4 * k + 3 by omega]
  rw [flatMap_le_getD ctx k 0 (by decide), flatMap_le_getD ctx k 1 (by decide),
    flatMap_le_getD ctx k 2 (by decide), flatMap_le_getD ctx k 3 (by decide)]
  simp only [Nat.mod_mod]
  exact le_to_cpu_le _

/-- A word outside the range written by `write_ctx` keeps its value. -/
theorem word_write_other (mem : Mem) (a : Nat) (ctx : List Nat) (b : Nat)
    (h : b + 4 ≤ a ∨ a + 4 * ctx.length ≤ b) :
    le_to_cpu (pci_dma_read (write_ctx mem a ctx) b 4) = le_to_cpu (pci_dma_read mem b 4) := by
  rw [word_read, word_read]
  unfold write_ctx pci_dma_write
  rw [flatMap_le_length]
  have h0 : ¬ (a ≤ b ∧ b < a + 4 * ctx.length) := by omega
  have h1 : ¬ (a ≤ b + 1 ∧ b + 1 < a + 4 * ctx.length) := by omega
  have h2 : ¬ (a ≤ b + 2 ∧ b + 2 < a + 4 * ctx.length) := by omega
  have h3 : ¬ (a ≤ b + 3 ∧ b + 3 < a + 4 * ctx.length) := by omega
  rw [if_neg h0, if_neg h1, if_neg h2, if_neg h3]

/-! ## Slot commands -/

theorem and_three_bits (x : Nat) :
    (x &&& 3 = 0 ↔ x.testBit 0 = false ∧ x.testBit 1 = false) ∧
    (x &&& 3 = 1 ↔ x.testBit 0 = true ∧ x.testBit 1 = false) := by
  have h3 : (3 : Nat) = 2 ^ 2 - 1 := by decide
  have hm : x &&& 3 = x % 4 := by rw [h3, Nat.and_pow_two_sub_one_eq_mod]
  have h0 : x.testBit 0 = decide (x % 2 = 1) := Nat.testBit_zero x
  have h1 : x.testBit 1 = decide (x / 2 % 2 = 1) := by
    rw [Nat.testBit_succ, Nat.testBit_zero]
  rw [hm, h0, h1]
  simp only [decide_eq_false_iff_not, decide_eq_true_eq]
  omega

theorem enable_ep_disabled (w : DmaWidth) (s : XHCIState) (slotid epid pctx : Nat)
    (ctx : List Nat) (hslot : 1 ≤ slotid ∧ slotid ≤ MAXSLOTS) (hep : 1 ≤ epid ∧ epid ≤ 31)
    (hnone : (s.slots (slotid - 1)).eps (epid - 1) = none) :
    ∃ e, xhci_enable_ep w s slotid epid pctx ctx =
        .ok (set_epctx s slotid epid (some e), CC_SUCCESS,
             ctx.set 0 (clear_bits (ctx.getD 0 0) EP_STATE_MASK ||| EP_RUNNING)) ∧
      e.state = EP_RUNNING ∧ e.pctx = pctx := by
  have h1 : ¬ (slotid < 1 ∨ slotid > MAXSLOTS) := by omega
  have h2 : ¬ (epid < 1 ∨ epid > 31) := by omega
  refine ⟨{ ring := { xhci_ring_init (xhci_addr64 w (ctx.getD 2 0 &&& 0xfffffff0) (ctx.getD 3 0))
                      with ccs := decide (ctx.getD 2 0 &&& 1 ≠ 0) },
            next_xfer := 0, comp_xfer := 0, transfers := fun _ => zero_xfer, retry := none,
            type := (ctx.getD 1 0 >>> EP_TYPE_SHIFT) &&& EP_TYPE_MASK, pctx := pctx,
            max_psize := u32 ((ctx.getD 1 0 >>> 16) * (1 + ((ctx.getD 1 0 >>> 8) &&& 0xff))),
            state := EP_RUNNING }, ?_, rfl, rfl⟩
  simp only [xhci_enable_ep, if_neg h1, if_neg h2, hnone]

/-- The endpoint loop of Configure Endpoint runs to its end: every endpoint it
enables was disabled just before, so `xhci_enable_ep` cannot refuse. -/
theorem configure_eps_loop_returns (w : DmaWidth) (slotid ictx octx : Nat) (ictl : List Nat)
    (hslot : 1 ≤ slotid ∧ slotid ≤ MAXSLOTS) :
    ∀ (n i : Nat) (s : XHCIState), 1 ≤ i → i + n ≤ 32 →
      ∃ s1, configure_eps_loop w slotid ictx octx ictl n i s = .ok (s1, none) := by
  intro n
  induction n with
  | zero => intro i s _ _; exact ⟨s, rfl⟩
  | succ n ih =>
    intro i s hi hn
    have hep : 1 ≤ i ∧ i ≤ 31 := by omega
    rw [configure_eps_loop]
    have hrest : ∀ s1 : XHCIState, ∃ s2,
        (if ictl.getD 1 0 &&& (1 <<< i) ≠ 0 then
          match xhci_disable_ep s1 slotid i with
          | .error f => (Except.error f : Except Fault (XHCIState × Option Nat))
          | .ok (s2, _) =>
            match xhci_enable_ep w s2 slotid i (dma_addr w (octx + 32 * i))
                (read_ctx s1.mem (dma_addr w (ictx + 32 + 32 * i)) 5) with
            | .error f => .error f
            | .ok (s3, res, ep_ctx1) =>
              if res ≠ CC_SUCCESS then .ok (s3, some res)
              else
                configure_eps_loop w slotid ictx octx ictl n (i + 1)
                  { s3 with mem := write_ctx s3.mem (dma_addr w (octx + 32 * i)) ep_ctx1 }
        else configure_eps_loop w slotid ictx octx ictl n (i + 1) s1) = .ok (s2, none) := by
      intro s1
      by_cases ha : ictl.getD 1 0 &&& (1 <<< i) ≠ 0
      · rw [if_pos ha]
        obtain ⟨s2, h2, hnone, -⟩ := disable_ep_returns s1 slotid i hslot hep
        obtain ⟨e, h3, -⟩ := enable_ep_disabled w s2 slotid i (dma_addr w (octx + 32 * i))
          (read_ctx s1.mem (dma_addr w (ictx + 32 + 32 * i)) 5) hslot hep hnone
        simp only [h2, h3]
        rw [if_neg (by decide)]
        exact ih (i + 1) _ (by omega) (by omega)
      · rw [if_neg ha]
        exact ih (i + 1) _ (by omega) (by omega)
    by_cases hd : ictl.getD 0 0 &&& (1 <<< i) ≠ 0
    · obtain ⟨s1, h1, -⟩ := disable_ep_returns s slotid i hslot hep
      rw [if_pos hd, h1]
      exact hrest s1
    · rw [if_neg hd]
      exact hrest s

theorem le_to_cpu_read8_lt (mem : Mem) (a : Nat) :
    le_to_cpu (pci_dma_read mem a 8) < 18446744073709551616 := by
  simp only [pci_dma_read, List.range_succ, List.range_zero, List.nil_append, List.cons_append,
    List.map_cons, List.map_nil, le_to_cpu]
  omega

theorem output_ctx_lt (w : DmaWidth) (s : XHCIState) (slotid : Nat) :
    output_ctx w s slotid < w.modulus :=
  (mask64_lt w _ (le_to_cpu_read8_lt _ _)).1

theorem modulus_ge (w : DmaWidth) : 4294967296 ≤ w.modulus := by
  cases w <;> decide

/-- A device context dword stored at `octx + 12` is not touched by a write of
five words at `octx + 32`, also when that address wraps. -/
theorem word_write_ep0 (w : DmaWidth) (mem : Mem) (octx : Nat) (ctx : List Nat) (k : Nat)
    (hk : k < 4) (hl : ctx.length = 5) (ho : octx < w.modulus) :
    le_to_cpu (pci_dma_read (write_ctx mem (dma_addr w (octx + 32)) ctx) (octx + 4 * k) 4) =
      le_to_cpu (pci_dma_read mem (octx + 4 * k) 4) := by
  apply word_write_other
  rw [hl]
  unfold dma_addr
  have hm := modulus_ge w
  by_cases hw : octx + 32 < w.modulus
  · rw [Nat.mod_eq_of_lt hw]; omega
  · have h2 : (octx + 32) % w.modulus = octx + 32 - w.modulus := by
      rw [Nat.mod_eq_sub_mod (by omega), Nat.mod_eq_of_lt (by omega)]
    rw [h2]; omega

/-- What an Address Device that passes its checks does. -/
theorem address_slot_accepted (w : DmaWidth) (s : XHCIState) (slotid pictx : Nat) (bsr : Bool)
    (hslot : 1 ≤ slotid ∧ slotid ≤ MAXSLOTS)
    (hctl : (input_control w s pictx).getD 0 0 = 0 ∧ (input_control w s pictx).getD 1 0 = 3)
    (hport : 1 ≤ input_port w s pictx ∧ input_port w s pictx ≤ MAXPORTS)
    (hdev : s.port_dev (input_port w s pictx - 1) = true)
    (hfree : port_assigned s (input_port w s pictx) MAXSLOTS 0 = false) :
    ∃ s1 res, xhci_address_slot w s slotid pictx bsr = .ok (s1, res) ∧
      (∀ i, i ≠ slotid - 1 → s1.slots i = s.slots i) ∧
      (s1.slots (slotid - 1)).port = input_port w s pictx ∧
      (s1.slots (slotid - 1)).ctx = output_ctx w s slotid ∧
      (s1.slots (slotid - 1)).enabled = (s.slots (slotid - 1)).enabled ∧
      (s1.slots (slotid - 1)).devaddr =
        (if bsr then (s.slots (slotid - 1)).devaddr else s.devaddr) ∧
      s1.devaddr = (if bsr then s.devaddr else u32 (s.devaddr + 1)) ∧
      s1.log_set_address =
        (if bsr then s.log_set_address
         else s.log_set_address ++ [(input_port w s pictx - 1, s.devaddr)]) ∧
      (read_ctx s1.mem (output_ctx w s slotid) 4).getD 3 0 =
        (if bsr then SLOT_DEFAULT <<< SLOT_STATE_SHIFT
         else u32 ((SLOT_ADDRESSED <<< SLOT_STATE_SHIFT) ||| s.devaddr)) ∧
      s1.log_events = s.log_events ∧ s1.port_dev = s.port_dev ∧
      ((s.slots (slotid - 1)).eps 0 = none →
        res = CC_SUCCESS ∧
        ∃ e, (s1.slots (slotid - 1)).eps 0 = some e ∧ e.state = EP_RUNNING ∧
          ∀ j, j ≠ 0 → (s1.slots (slotid - 1)).eps j = (s.slots (slotid - 1)).eps j) ∧
      ((s.slots (slotid - 1)).eps 0 ≠ none →
        res = CC_TRB_ERROR ∧ (s1.slots (slotid - 1)).eps = (s.slots (slotid - 1)).eps) := by
  have h1 : ¬ (slotid < 1 ∨ slotid > MAXSLOTS) := by omega
  have h2 : ¬ ((input_control w s pictx).getD 0 0 ≠ 0x0 ∨
      (input_control w s pictx).getD 1 0 ≠ 0x3) := by
    rw [hctl.1, hctl.2]; decide
  have h3 : ¬ (input_port w s pictx < 1 ∨ input_port w s pictx > MAXPORTS) := by omega
  have h4 : ¬ (s.port_dev (input_port w s pictx - 1) = false) := by rw [hdev]; decide
  have h5 : ¬ (port_assigned s (input_port w s pictx) MAXSLOTS 0 = true) := by
    rw [hfree]; decide
  have hep1 : (1 : Nat) ≤ 1 ∧ (1 : Nat) ≤ 31 := by decide
  have holt := output_ctx_lt w s slotid
  have hunf : xhci_address_slot w s slotid pictx bsr =
      match xhci_enable_ep w (address_slot_assign s slotid (input_port w s pictx)
          (output_ctx w s slotid) bsr) slotid 1 (dma_addr w (output_ctx w s slotid + 32))
          (read_ctx s.mem (dma_addr w (xhci_mask64 w pictx + 64)) 5) with
      | .error f => .error f
      | .ok (s2, res, ep0_ctx1) =>
        .ok ({ s2 with
               mem := write_ctx
                 (write_ctx s2.mem (output_ctx w s slotid)
                   ((read_ctx s.mem (dma_addr w (xhci_mask64 w pictx + 32)) 4).set 3
                     (if bsr then SLOT_DEFAULT <<< SLOT_STATE_SHIFT
                      else u32 ((SLOT_ADDRESSED <<< SLOT_STATE_SHIFT) ||| s.devaddr))))
                 (dma_addr w (output_ctx w s slotid + 32)) ep0_ctx1 }, res) := by
    unfold input_control at h2
    unfold input_port at h3 h4 h5
    unfold xhci_address_slot input_port output_ctx
    rw [if_neg h1]
    simp only []
    rw [if_neg h2]
    simp only [if_neg h3, if_neg h4, if_neg h5]
  have hassign : ∀ i, i ≠ slotid - 1 →
      (address_slot_assign s slotid (input_port w s pictx) (output_ctx w s slotid) bsr).slots i =
        s.slots i := by
    intro i hi
    unfold address_slot_assign
    cases bsr <;> simp only [Bool.false_eq_true, if_false, if_true] <;>
      exact Function.update_noteq hi _ _
  have hslotk :
      (address_slot_assign s slotid (input_port w s pictx) (output_ctx w s slotid) bsr).slots
          (slotid - 1) =
        { s.slots (slotid - 1) with
          port := input_port w s pictx, ctx := output_ctx w s slotid,
          devaddr := if bsr then (s.slots (slotid - 1)).devaddr else s.devaddr } := by
    unfold address_slot_assign
    cases bsr <;> simp only [Bool.false_eq_true, if_false, if_true] <;>
      exact Function.update_same _ _ _
  have hregs :
      (address_slot_assign s slotid (input_port w s pictx) (output_ctx w s slotid) bsr).devaddr =
          (if bsr then s.devaddr else u32 (s.devaddr + 1)) ∧
      (address_slot_assign s slotid (input_port w s pictx) (output_ctx w s slotid)
          bsr).log_set_address =
          (if bsr then s.log_set_address
           else s.log_set_address ++ [(input_port w s pictx - 1, s.devaddr)]) ∧
      (address_slot_assign s slotid (input_port w s pictx) (output_ctx w s slotid)
          bsr).log_events = s.log_events ∧
      (address_slot_assign s slotid (input_port w s pictx) (output_ctx w s slotid)
          bsr).port_dev = s.port_dev := by
    unfold address_slot_assign
    cases bsr <;> exact ⟨rfl, rfl, rfl, rfl⟩
  have hlen : ((read_ctx s.mem (dma_addr w (xhci_mask64 w pictx + 32)) 4).set 3
      (if bsr then SLOT_DEFAULT <<< SLOT_STATE_SHIFT
       else u32 ((SLOT_ADDRESSED <<< SLOT_STATE_SHIFT) ||| s.devaddr))).length = 4 := by
    simp [read_ctx]
  have hword : ∀ (m : Mem) (ctx : List Nat), ctx.length = 5 →
      (read_ctx (write_ctx (write_ctx m (output_ctx w s slotid)
          ((read_ctx s.mem (dma_addr w (xhci_mask64 w pictx + 32)) 4).set 3
            (if bsr then SLOT_DEFAULT <<< SLOT_STATE_SHIFT
             else u32 ((SLOT_ADDRESSED <<< SLOT_STATE_SHIFT) ||| s.devaddr))))
          (dma_addr w (output_ctx w s slotid + 32)) ctx) (output_ctx w s slotid) 4).getD 3 0 =
        (if bsr then SLOT_DEFAULT <<< SLOT_STATE_SHIFT
         else u32 ((SLOT_ADDRESSED <<< SLOT_STATE_SHIFT) ||| s.devaddr)) := by
    intro m ctx hc
    rw [read_ctx_getD _ _ _ _ (by decide), word_write_ep0 w _ _ ctx 3 (by decide) hc holt,
      word_write_same _ _ _ 3 (by rw [hlen]; decide)]
    rw [List.getD_eq_getElem?_getD, List.getElem?_set_self (by simp [read_ctx])]
    cases bsr
    · simp [u32]
    · simp only [if_true, Option.getD_some]; decide
  cases heps : (s.slots (slotid - 1)).eps 0 with
  | none =>
    have hnone : ((address_slot_assign s slotid (input_port w s pictx) (output_ctx w s slotid)
        bsr).slots (slotid - 1)).eps (1 - 1) = none := by
      rw [hslotk]; exact heps
    obtain ⟨e, he, hst, -⟩ := enable_ep_disabled w _ slotid 1
      (dma_addr w (output_ctx w s slotid + 32))
      (read_ctx s.mem (dma_addr w (xhci_mask64 w pictx + 64)) 5) hslot hep1 hnone
    rw [he] at hunf
    refine ⟨_, _, hunf, ?_, ?_, ?_, ?_, ?_, hregs.1, hregs.2.1, ?_, hregs.2.2.1, hregs.2.2.2, ?_, ?_⟩
    · intro i hi
      show (set_epctx _ slotid 1 (some e)).slots i = _
      unfold set_epctx
      simp only [Function.update_noteq hi]
      exact hassign i hi
    · show ((set_epctx _ slotid 1 (some e)).slots (slotid - 1)).port = _
      unfold set_epctx
      simp only [Function.update_same, hslotk]
    · show ((set_epctx _ slotid 1 (some e)).slots (slotid - 1)).ctx = _
      unfold set_epctx
      simp only [Function.update_same, hslotk]
    · show ((set_epctx _ slotid 1 (some e)).slots (slotid - 1)).enabled = _
      unfold set_epctx
      simp only [Function.update_same, hslotk]
    · show ((set_epctx _ slotid 1 (some e)).slots (slotid - 1)).devaddr = _
      unfold set_epctx
      simp only [Function.update_same, hslotk]
    · exact hword _ _ (by simp [read_ctx])
    · intro _
      refine ⟨rfl, e, ?_, hst, ?_⟩
      · show ((set_epctx _ slotid 1 (some e)).slots (slotid - 1)).eps 0 = _
        unfold set_epctx
        simp only [Function.update_same]
      · intro j hj
        show ((set_epctx _ slotid 1 (some e)).slots (slotid - 1)).eps j = _
        unfold set_epctx
        simp only [Function.update_same, Function.update_noteq hj, hslotk]
    · intro hne
      exact absurd rfl hne
  | some e0 =>
    have hsome : ((address_slot_assign s slotid (input_port w s pictx) (output_ctx w s slotid)
        bsr).slots (slotid - 1)).eps (1 - 1) = some e0 := by
      rw [hslotk]; exact heps
    have he : xhci_enable_ep w (address_slot_assign s slotid (input_port w s pictx)
          (output_ctx w s slotid) bsr) slotid 1 (dma_addr w (output_ctx w s slotid + 32))
          (read_ctx s.mem (dma_addr w (xhci_mask64 w pictx + 64)) 5) =
        .ok (address_slot_assign s slotid (input_port w s pictx) (output_ctx w s slotid) bsr,
             CC_TRB_ERROR, read_ctx s.mem (dma_addr w (xhci_mask64 w pictx + 64)) 5) := by
      simp only [xhci_enable_ep, if_neg h1, if_neg (show ¬ ((1 : Nat) < 1 ∨ (1 : Nat) > 31) by decide),
        hsome]
    rw [he] at hunf
    refine ⟨_, _, hunf, ?_, ?_, ?_, ?_, ?_, hregs.1, hregs.2.1, ?_, hregs.2.2.1, hregs.2.2.2, ?_, ?_⟩
    · intro i hi
      exact hassign i hi
    · show ((address_slot_assign _ _ _ _ _).slots (slotid - 1)).port = _
      rw [hslotk]
    · show ((address_slot_assign _ _ _ _ _).slots (slotid - 1)).ctx = _
      rw [hslotk]
    · show ((address_slot_assign _ _ _ _ _).slots (slotid - 1)).enabled = _
      rw [hslotk]
    · show ((address_slot_assign _ _ _ _ _).slots (slotid - 1)).devaddr = _
      rw [hslotk]
    · exact hword _ _ (by simp [read_ctx])
    · intro h
      exact absurd h (by simp)
    · intro _
      refine ⟨rfl, ?_⟩
      show ((address_slot_assign _ _ _ _ _).slots (slotid - 1)).eps = _
      rw [hslotk]

theorem port_assigned_false (s : XHCIState) (p : Nat) :
    ∀ (n i : Nat), port_assigned s p n i = false →
      ∀ j, i ≤ j → j < i + n → (s.slots j).port ≠ p := by
  intro n
  induction n with
  | zero => intro i _ j h1 h2; omega
  | succ n ih =>
    intro i h j h1 h2
    rw [port_assigned] at h
    by_cases hp : (s.slots i).port = p
    · rw [if_pos hp] at h
      exact absurd h (by decide)
    · rw [if_neg hp] at h
      by_cases hj : j = i
      · rw [hj]; exact hp
      · exact ih (i + 1) h j (by omega) (by omega)

theorem port_assigned_true (s : XHCIState) (p : Nat) :
    ∀ (n i j : Nat), i ≤ j → j < i + n → (s.slots j).port = p →
      port_assigned s p n i = true := by
  intro n
  induction n with
  | zero => intro i j h1 h2 _; omega
  | succ n ih =>
    intro i j h1 h2 hp
    rw [port_assigned]
    by_cases hi : (s.slots i).port = p
    · rw [if_pos hi]
    · rw [if_neg hi]
      have hj : j ≠ i := fun h => hi (h ▸ hp)
      exact ih (i + 1) j (by omega) (by omega) hp

/-- The four ways in which `xhci_address_slot` ends before it assigns the slot:
an input control context other than (0, 3), a port outside 1..MAXPORTS, no
device on the port, a slot that holds the port. -/
theorem address_slot_rejected (w : DmaWidth) (s : XHCIState) (slotid pictx : Nat) (bsr : Bool)
    (hslot : 1 ≤ slotid ∧ slotid ≤ MAXSLOTS) :
    (¬ ((input_control w s pictx).getD 0 0 = 0 ∧ (input_control w s pictx).getD 1 0 = 3) →
      xhci_address_slot w s slotid pictx bsr = .ok (s, CC_TRB_ERROR)) ∧
    ((input_control w s pictx).getD 0 0 = 0 ∧ (input_control w s pictx).getD 1 0 = 3 →
      (¬ (1 ≤ input_port w s pictx ∧ input_port w s pictx ≤ MAXPORTS) →
        xhci_address_slot w s slotid pictx bsr = .error .undefined) ∧
      (1 ≤ input_port w s pictx ∧ input_port w s pictx ≤ MAXPORTS →
        (s.port_dev (input_port w s pictx - 1) = false →
          xhci_address_slot w s slotid pictx bsr = .ok (s, CC_USB_TRANSACTION_ERROR)) ∧
        (s.port_dev (input_port w s pictx - 1) = true →
          port_assigned s (input_port w s pictx) MAXSLOTS 0 = true →
          xhci_address_slot w s slotid pictx bsr = .ok (s, CC_TRB_ERROR)))) := by
  have h1 : ¬ (slotid < 1 ∨ slotid > MAXSLOTS) := by omega
  refine ⟨fun hctl => ?_, fun hctl => ⟨fun hport => ?_, fun hport => ⟨fun hdev => ?_,
    fun hdev hused => ?_⟩⟩⟩
  · have h2 : (input_control w s pictx).getD 0 0 ≠ 0x0 ∨
        (input_control w s pictx).getD 1 0 ≠ 0x3 := by
      by_contra hc
      rw [not_or, not_not, not_not] at hc
      exact hctl hc
    unfold input_control at h2
    unfold xhci_address_slot
    rw [if_neg h1]
    simp only []
    rw [if_pos h2]
  · have h2 : ¬ ((input_control w s pictx).getD 0 0 ≠ 0x0 ∨
        (input_control w s pictx).getD 1 0 ≠ 0x3) := by
      rw [hctl.1, hctl.2]; decide
    have h3 : input_port w s pictx < 1 ∨ input_port w s pictx > MAXPORTS := by omega
    unfold input_control at h2
    unfold input_port at h3
    unfold xhci_address_slot
    rw [if_neg h1]
    simp only []
    rw [if_neg h2]
    simp only [if_pos h3]
  · have h2 : ¬ ((input_control w s pictx).getD 0 0 ≠ 0x0 ∨
        (input_control w s pictx).getD 1 0 ≠ 0x3) := by
      rw [hctl.1, hctl.2]; decide
    have h3 : ¬ (input_port w s pictx < 1 ∨ input_port w s pictx > MAXPORTS) := by omega
    unfold input_control at h2
    unfold input_port at h3 hdev
    unfold xhci_address_slot
    rw [if_neg h1]
    simp only []
    rw [if_neg h2]
    simp only [if_neg h3, hdev, if_true]
  · have h2 : ¬ ((input_control w s pictx).getD 0 0 ≠ 0x0 ∨
        (input_control w s pictx).getD 1 0 ≠ 0x3) := by
      rw [hctl.1, hctl.2]; decide
    have h3 : ¬ (input_port w s pictx < 1 ∨ input_port w s pictx > MAXPORTS) := by omega
    unfold input_control at h2
    unfold input_port at h3 hdev hused
    unfold xhci_address_slot
    rw [if_neg h1]
    simp only []
    rw [if_neg h2]
    simp only [if_neg h3, hdev, hused, if_true, Bool.true_eq_false, if_false]

/-- The slot table after any Address Device that returns: as before, or with
the addressed slot on a port that no slot held. -/
theorem address_slot_ports (w : DmaWidth) (s s1 : XHCIState) (slotid pictx c : Nat) (bsr : Bool)
    (h : xhci_address_slot w s slotid pictx bsr = .ok (s1, c)) :
    s1.slots = s.slots ∨
    (slotid - 1 < MAXSLOTS ∧
      (∀ j, j < MAXSLOTS → (s.slots j).port ≠ (s1.slots (slotid - 1)).port) ∧
      ∀ i, i ≠ slotid - 1 → s1.slots i = s.slots i) := by
  by_cases hslot : 1 ≤ slotid ∧ slotid ≤ MAXSLOTS
  · obtain ⟨r1, r2⟩ := address_slot_rejected w s slotid pictx bsr hslot
    by_cases hctl : (input_control w s pictx).getD 0 0 = 0 ∧ (input_control w s pictx).getD 1 0 = 3
    · obtain ⟨r3, r4⟩ := r2 hctl
      by_cases hport : 1 ≤ input_port w s pictx ∧ input_port w s pictx ≤ MAXPORTS
      · obtain ⟨r5, r6⟩ := r4 hport
        cases hdev : s.port_dev (input_port w s pictx - 1) with
        | false =>
          rw [r5 hdev] at h
          simp only [Except.ok.injEq, Prod.mk.injEq] at h
          rw [← h.1]; exact Or.inl rfl
        | true =>
          cases hused : port_assigned s (input_port w s pictx) MAXSLOTS 0 with
          | true =>
            rw [r6 hdev hused] at h
            simp only [Except.ok.injEq, Prod.mk.injEq] at h
            rw [← h.1]; exact Or.inl rfl
          | false =>
            obtain ⟨s2, res, h2, hoth, hp, -⟩ :=
              address_slot_accepted w s slotid pictx bsr hslot hctl hport hdev hused
            rw [h2] at h
            simp only [Except.ok.injEq, Prod.mk.injEq] at h
            rw [← h.1]
            refine Or.inr ⟨by omega, fun j hj => ?_, hoth⟩
            rw [hp]
            exact port_assigned_false s _ MAXSLOTS 0 hused j (Nat.zero_le j) (by omega)
      · rw [r3 hport] at h
        exact absurd h (by simp)
    · rw [r1 hctl] at h
      simp only [Except.ok.injEq, Prod.mk.injEq] at h
      rw [← h.1]; exact Or.inl rfl
  · have h1 : slotid < 1 ∨ slotid > MAXSLOTS := by omega
    unfold xhci_address_slot at h
    rw [if_pos h1] at h
    exact absurd h (by simp)

/-! ## Frame of the endpoint and slot functions -/

theorem ep_frame_refl (k : Nat) (s : XHCIState) : ep_frame k s s := by
  refine ⟨(s.slots k).eps, s.mem, s.log_cancel, ?_⟩
  have h : Function.update s.slots k { s.slots k with eps := (s.slots k).eps } = s.slots :=
    Function.update_eq_self k s.slots
  rw [h]

theorem ep_frame_trans (k : Nat) (s s1 s2 : XHCIState) (h1 : ep_frame k s s1)
    (h2 : ep_frame k s1 s2) : ep_frame k s s2 := by
  obtain ⟨e1, m1, l1, rfl⟩ := h1
  obtain ⟨e2, m2, l2, rfl⟩ := h2
  refine ⟨e2, m2, l2, ?_⟩
  simp only [Function.update_same, Function.update_idem]

theorem ep_frame_mem (k : Nat) (s : XHCIState) (m : Mem) : ep_frame k s { s with mem := m } := by
  refine ⟨(s.slots k).eps, m, s.log_cancel, ?_⟩
  have h : Function.update s.slots k { s.slots k with eps := (s.slots k).eps } = s.slots :=
    Function.update_eq_self k s.slots
  rw [h]

theorem ep_frame_slots (k : Nat) (s s1 : XHCIState) (h : ep_frame k s s1) :
    (∀ i, i ≠ k → s1.slots i = s.slots i) ∧
    (s1.slots k).port = (s.slots k).port ∧ (s1.slots k).ctx = (s.slots k).ctx ∧
    (s1.slots k).devaddr = (s.slots k).devaddr ∧
    (s1.slots k).enabled = (s.slots k).enabled := by
  obtain ⟨e, m, l, rfl⟩ := h
  refine ⟨fun i hi => Function.update_noteq hi _ _, ?_, ?_, ?_, ?_⟩ <;>
    simp only [Function.update_same]

theorem ep_frame_port (k : Nat) (s s1 : XHCIState) (h : ep_frame k s s1) (i : Nat) :
    (s1.slots i).port = (s.slots i).port := by
  obtain ⟨h1, h2, -⟩ := ep_frame_slots k s s1 h
  by_cases hi : i = k
  · rw [hi, h2]
  · rw [h1 i hi]

theorem ep_frame_regs (k : Nat) (s s1 : XHCIState) (h : ep_frame k s s1) :
    s1.usbcmd = s.usbcmd ∧ s1.usbsts = s.usbsts ∧ s1.dnctrl = s.dnctrl ∧
    s1.crcr_low = s.crcr_low ∧ s1.crcr_high = s.crcr_high ∧
    s1.dcbaap_low = s.dcbaap_low ∧ s1.dcbaap_high = s.dcbaap_high ∧ s1.config = s.config ∧
    s1.devaddr = s.devaddr ∧ s1.er_full = s.er_full ∧ s1.log_events = s.log_events ∧
    s1.portsc = s.portsc ∧ s1.port_dev = s.port_dev ∧
    s1.log_set_address = s.log_set_address := by
  obtain ⟨e, m, l, rfl⟩ := h
  exact ⟨rfl, rfl, rfl, rfl, rfl, rfl, rfl, rfl, rfl, rfl, rfl, rfl, rfl, rfl⟩

theorem set_epctx_frame (s : XHCIState) (slotid epid : Nat) (e : Option XHCIEPContext) :
    ep_frame (slotid - 1) s (set_epctx s slotid epid e) :=
  ⟨_, s.mem, s.log_cancel, rfl⟩

theorem set_ep_state_frame (k : Nat) (s : XHCIState) (e : XHCIEPContext) (st : Nat) :
    ep_frame k s (xhci_set_ep_state s e st).1 := by
  have h := (set_ep_state_spec s e st).2.1
  rw [h]
  exact ep_frame_mem k s _

theorem nuke_xfers_frame (s s1 : XHCIState) (slotid epid : Nat) (n : Int)
    (h : xhci_ep_nuke_xfers s slotid epid = .ok (s1, n)) : ep_frame (slotid - 1) s s1 := by
  unfold xhci_ep_nuke_xfers at h
  split at h
  · exact absurd h (by simp)
  split at h
  · exact absurd h (by simp)
  split at h
  · simp only [Except.ok.injEq, Prod.mk.injEq] at h
    rw [← h.1]
    exact ep_frame_refl _ s
  · simp only [Except.ok.injEq, Prod.mk.injEq] at h
    rw [← h.1]
    exact ⟨_, s.mem, _, rfl⟩

theorem disable_ep_frame (s s1 : XHCIState) (slotid epid c : Nat)
    (h : xhci_disable_ep s slotid epid = .ok (s1, c)) : ep_frame (slotid - 1) s s1 := by
  unfold xhci_disable_ep at h
  split at h
  · exact absurd h (by simp)
  split at h
  · exact absurd h (by simp)
  split at h
  · simp only [Except.ok.injEq, Prod.mk.injEq] at h
    rw [← h.1]
    exact ep_frame_refl _ s
  · split at h
    · exact absurd h (by simp)
    · next s2 n hn =>
      have f1 := nuke_xfers_frame s s2 slotid epid n hn
      split at h
      · exact absurd h (by simp)
      · simp only [Except.ok.injEq, Prod.mk.injEq] at h
        rw [← h.1]
        exact ep_frame_trans _ _ _ _ f1
          (ep_frame_trans _ _ _ _ (set_ep_state_frame _ _ _ _) (set_epctx_frame _ _ _ _))

theorem disable_slot_loop_frame (slotid : Nat) :
    ∀ (n i : Nat) (s s1 : XHCIState), disable_slot_loop slotid n i s = .ok s1 →
      ep_frame (slotid - 1) s s1 := by
  intro n
  induction n with
  | zero =>
    intro i s s1 h
    simp only [disable_slot_loop, Except.ok.injEq] at h
    rw [← h]
    exact ep_frame_refl _ s
  | succ n ih =>
    intro i s s1 h
    rw [disable_slot_loop] at h
    split at h
    · exact ih _ _ _ h
    · split at h
      · exact absurd h (by simp)
      · next s2 c hd =>
        exact ep_frame_trans _ _ _ _ (disable_ep_frame s s2 slotid i c hd) (ih _ _ _ h)

theorem disable_eps_loop_frame (slotid : Nat) :
    ∀ (n i : Nat) (s s1 : XHCIState), disable_eps_loop slotid n i s = .ok s1 →
      ep_frame (slotid - 1) s s1 := by
  intro n
  induction n with
  | zero =>
    intro i s s1 h
    simp only [disable_eps_loop, Except.ok.injEq] at h
    rw [← h]
    exact ep_frame_refl _ s
  | succ n ih =>
    intro i s s1 h
    rw [disable_eps_loop] at h
    split at h
    · exact ih _ _ _ h
    · split at h
      · exact absurd h (by simp)
      · next s2 c hd =>
        exact ep_frame_trans _ _ _ _ (disable_ep_frame s s2 slotid i c hd) (ih _ _ _ h)

theorem stop_ep_frame (s s1 : XHCIState) (slotid epid c : Nat)
    (h : xhci_stop_ep s slotid epid = .ok (s1, c)) : ep_frame (slotid - 1) s s1 := by
  unfold xhci_stop_ep at h
  split at h
  · exact absurd h (by simp)
  split at h
  · simp only [Except.ok.injEq, Prod.mk.injEq] at h
    rw [← h.1]
    exact ep_frame_refl _ s
  split at h
  · simp only [Except.ok.injEq, Prod.mk.injEq] at h
    rw [← h.1]
    exact ep_frame_refl _ s
  · split at h
    · exact absurd h (by simp)
    · next s2 n hn =>
      have f1 := nuke_xfers_frame s s2 slotid epid n hn
      split at h
      · exact absurd h (by simp)
      · simp only [Except.ok.injEq, Prod.mk.injEq] at h
        rw [← h.1]
        exact ep_frame_trans _ _ _ _ f1
          (ep_frame_trans _ _ _ _ (set_ep_state_frame _ _ _ _) (set_epctx_frame _ _ _ _))

theorem reset_ep_frame (s s1 : XHCIState) (slotid epid c : Nat)
    (h : xhci_reset_ep s slotid epid = .ok (s1, c)) : ep_frame (slotid - 1) s s1 := by
  unfold xhci_reset_ep at h
  split at h
  · exact absurd h (by simp)
  split at h
  · simp only [Except.ok.injEq, Prod.mk.injEq] at h
    rw [← h.1]
    exact ep_frame_refl _ s
  split at h
  · simp only [Except.ok.injEq, Prod.mk.injEq] at h
    rw [← h.1]
    exact ep_frame_refl _ s
  · split at h
    · simp only [Except.ok.injEq, Prod.mk.injEq] at h
      rw [← h.1]
      exact ep_frame_refl _ s
    · split at h
      · exact absurd h (by simp)
      · next s2 n hn =>
        have f1 := nuke_xfers_frame s s2 slotid epid n hn
        simp only [] at h
        split at h
        · exact absurd h (by simp)
        split at h
        · simp only [Except.ok.injEq, Prod.mk.injEq] at h
          rw [← h.1]
          exact f1
        split at h
        · exact absurd h (by simp)
        · simp only [Except.ok.injEq, Prod.mk.injEq] at h
          rw [← h.1]
          exact ep_frame_trans _ _ _ _ f1
            (ep_frame_trans _ _ _ _ (set_ep_state_frame _ _ _ _) (set_epctx_frame _ _ _ _))

theorem set_ep_dequeue_frame (w : DmaWidth) (s s1 : XHCIState) (slotid epid p c : Nat)
    (h : xhci_set_ep_dequeue w s slotid epid p = .ok (s1, c)) : ep_frame (slotid - 1) s s1 := by
  unfold xhci_set_ep_dequeue at h
  split at h
  · exact absurd h (by simp)
  split at h
  · simp only [Except.ok.injEq, Prod.mk.injEq] at h
    rw [← h.1]
    exact ep_frame_refl _ s
  simp only [] at h
  split at h
  · simp only [Except.ok.injEq, Prod.mk.injEq] at h
    rw [← h.1]
    exact ep_frame_refl _ s
  · split at h
    · simp only [Except.ok.injEq, Prod.mk.injEq] at h
      rw [← h.1]
      exact ep_frame_refl _ s
    · simp only [Except.ok.injEq, Prod.mk.injEq] at h
      rw [← h.1]
      exact ep_frame_trans _ _ _ _ (set_ep_state_frame _ _ _ _) (set_epctx_frame _ _ _ _)

theorem enable_ep_frame (w : DmaWidth) (s s1 : XHCIState) (slotid epid pctx c : Nat)
    (ctx ctx1 : List Nat)
    (h : xhci_enable_ep w s slotid epid pctx ctx = .ok (s1, c, ctx1)) :
    ep_frame (slotid - 1) s s1 := by
  unfold xhci_enable_ep at h
  split at h
  · exact absurd h (by simp)
  split at h
  · exact absurd h (by simp)
  split at h
  · simp only [Except.ok.injEq, Prod.mk.injEq] at h
    rw [← h.1]
    exact ep_frame_refl _ s
  · simp only [Except.ok.injEq, Prod.mk.injEq] at h
    rw [← h.1]
    exact set_epctx_frame _ _ _ _

theorem configure_eps_loop_frame (w : DmaWidth) (slotid ictx octx : Nat) (ictl : List Nat) :
    ∀ (n i : Nat) (s s1 : XHCIState) (r : Option Nat),
      configure_eps_loop w slotid ictx octx ictl n i s = .ok (s1, r) →
      ep_frame (slotid - 1) s s1 := by
  intro n
  induction n with
  | zero =>
    intro i s s1 r h
    simp only [configure_eps_loop, Except.ok.injEq, Prod.mk.injEq] at h
    rw [← h.1]
    exact ep_frame_refl _ s
  | succ n ih =>
    intro i s s1 r h
    rw [configure_eps_loop] at h
    have hrest : ∀ sa : XHCIState, ep_frame (slotid - 1) s sa →
        (if ictl.getD 1 0 &&& (1 <<< i) ≠ 0 then
          match xhci_disable_ep sa slotid i with
          | .error f => (Except.error f : Except Fault (XHCIState × Option Nat))
          | .ok (s2, _) =>
            match xhci_enable_ep w s2 slotid i (dma_addr w (octx + 32 * i))
                (read_ctx sa.mem (dma_addr w (ictx + 32 + 32 * i)) 5) with
            | .error f => .error f
            | .ok (s3, res, ep_ctx1) =>
              if res ≠ CC_SUCCESS then .ok (s3, some res)
              else
                configure_eps_loop w slotid ictx octx ictl n (i + 1)
                  { s3 with mem := write_ctx s3.mem (dma_addr w (octx + 32 * i)) ep_ctx1 }
        else configure_eps_loop w slotid ictx octx ictl n (i + 1) sa) = .ok (s1, r) →
        ep_frame (slotid - 1) s s1 := by
      intro sa fa h
      split at h
      · split at h
        · exact absurd h (by simp)
        · next s2 c hd =>
          have f2 := disable_ep_frame sa s2 slotid i c hd
          split at h
          · exact absurd h (by simp)
          · next s3 res ctx1 he =>
            have f3 := enable_ep_frame w s2 s3 slotid i _ res _ ctx1 he
            have f03 := ep_frame_trans _ _ _ _ fa (ep_frame_trans _ _ _ _ f2 f3)
            split at h
            · simp only [Except.ok.injEq, Prod.mk.injEq] at h
              rw [← h.1]
              exact f03
            · exact ep_frame_trans _ _ _ _
                (ep_frame_trans _ _ _ _ f03 (ep_frame_mem _ s3 _)) (ih _ _ _ _ h)
      · exact ep_frame_trans _ _ _ _ fa (ih _ _ _ _ h)
    by_cases hd : ictl.getD 0 0 &&& (1 <<< i) ≠ 0
    · rw [if_pos hd] at h
      cases hde : xhci_disable_ep s slotid i with
      | error f => rw [hde] at h; exact absurd h (by simp)
      | ok p =>
        obtain ⟨sa, c⟩ := p
        rw [hde] at h
        exact hrest sa (disable_ep_frame s sa slotid i c hde) h
    · rw [if_neg hd] at h
      exact hrest s (ep_frame_refl _ s) h

theorem configure_slot_frame (w : DmaWidth) (s s1 : XHCIState) (slotid pictx c : Nat) (dc : Bool)
    (h : xhci_configure_slot w s slotid pictx dc = .ok (s1, c)) :
    ep_frame (slotid - 1) s s1 := by
  unfold xhci_configure_slot at h
  split at h
  · exact absurd h (by simp)
  simp only [] at h
  split at h
  · split at h
    · exact absurd h (by simp)
    · next s2 hl =>
      simp only [Except.ok.injEq, Prod.mk.injEq] at h
      rw [← h.1]
      exact ep_frame_trans _ _ _ _ (disable_eps_loop_frame slotid _ _ _ _ hl) (ep_frame_mem _ s2 _)
  · split at h
    · simp only [Except.ok.injEq, Prod.mk.injEq] at h
      rw [← h.1]
      exact ep_frame_refl _ s
    split at h
    · simp only [Except.ok.injEq, Prod.mk.injEq] at h
      rw [← h.1]
      exact ep_frame_refl _ s
    split at h
    · exact absurd h (by simp)
    · next s2 res hl =>
      simp only [Except.ok.injEq, Prod.mk.injEq] at h
      rw [← h.1]
      exact configure_eps_loop_frame w slotid _ _ _ _ _ _ _ _ hl
    · next s2 hl =>
      simp only [Except.ok.injEq, Prod.mk.injEq] at h
      rw [← h.1]
      exact ep_frame_trans _ _ _ _ (configure_eps_loop_frame w slotid _ _ _ _ _ _ _ _ hl)
        (ep_frame_mem _ s2 _)

theorem evaluate_slot_frame (w : DmaWidth) (s s1 : XHCIState) (slotid pictx c : Nat)
    (h : xhci_evaluate_slot w s slotid pictx = .ok (s1, c)) :
    ∃ m, s1 = { s with mem := m } := by
  unfold xhci_evaluate_slot at h
  split at h
  · exact absurd h (by simp)
  simp only [] at h
  split at h
  · simp only [Except.ok.injEq, Prod.mk.injEq] at h
    exact ⟨s.mem, h.1.symm⟩
  · simp only [Except.ok.injEq, Prod.mk.injEq] at h
    rw [← h.1]
    split <;> split <;> exact ⟨_, rfl⟩

theorem reset_slot_frame (s s1 : XHCIState) (slotid c : Nat)
    (h : xhci_reset_slot s slotid = .ok (s1, c)) : ep_frame (slotid - 1) s s1 := by
  unfold xhci_reset_slot at h
  split at h
  · exact absurd h (by simp)
  simp only [] at h
  split at h
  · exact absurd h (by simp)
  · next s2 hl =>
    simp only [Except.ok.injEq, Prod.mk.injEq] at h
    rw [← h.1]
    exact ep_frame_trans _ _ _ _ (disable_eps_loop_frame slotid _ _ _ _ hl) (ep_frame_mem _ s2 _)

theorem ports_distinct_of_eq (s s1 : XHCIState)
    (h : ∀ i, (s1.slots i).port = (s.slots i).port) (hd : ports_distinct s) :
    ports_distinct s1 := by
  intro i j hi hj hij hp
  rw [h i] at hp ⊢
  rw [h j]
  exact hd i j hi hj hij hp

theorem ports_distinct_frame (k : Nat) (s s1 : XHCIState) (h : ep_frame k s s1)
    (hd : ports_distinct s) : ports_distinct s1 :=
  ports_distinct_of_eq s s1 (ep_frame_port k s s1 h) hd

theorem disable_slot_ports (s s1 : XHCIState) (slotid c : Nat)
    (h : xhci_disable_slot s slotid = .ok (s1, c)) :
    ∀ i, (s1.slots i).port = (s.slots i).port := by
  unfold xhci_disable_slot at h
  split at h
  · exact absurd h (by simp)
  split at h
  · exact absurd h (by simp)
  · next s2 hl =>
    have f := ep_frame_port _ _ _ (disable_slot_loop_frame slotid _ _ _ _ hl)
    simp only [Except.ok.injEq, Prod.mk.injEq] at h
    intro i
    rw [← h.1, ← f i]
    by_cases hi : i = slotid - 1
    · rw [hi]
      simp only [Function.update_same]
    · simp only [Function.update_noteq hi]

theorem enable_slot_ports (s s1 : XHCIState) (slotid c : Nat)
    (h : xhci_enable_slot s slotid = .ok (s1, c)) (hd : ports_distinct s) :
    ports_distinct s1 := by
  unfold xhci_enable_slot at h
  split at h
  · exact absurd h (by simp)
  simp only [Except.ok.injEq, Prod.mk.injEq] at h
  have hk : (s1.slots (slotid - 1)).port = 0 := by
    rw [← h.1]
    simp only [Function.update_same]
  have ho : ∀ i, i ≠ slotid - 1 → s1.slots i = s.slots i := by
    intro i hi
    rw [← h.1]
    simp only [Function.update_noteq hi]
  intro i j hi hj hij hp
  by_cases hik : i = slotid - 1
  · rw [hik] at hp
    exact absurd hk hp
  · rw [ho i hik] at hp ⊢
    by_cases hjk : j = slotid - 1
    · rw [hjk, hk]
      exact hp
    · rw [ho j hjk]
      exact hd i j hi hj hij hp

theorem address_slot_distinct (w : DmaWidth) (s s1 : XHCIState) (slotid pictx c : Nat)
    (bsr : Bool) (h : xhci_address_slot w s slotid pictx bsr = .ok (s1, c))
    (hd : ports_distinct s) : ports_distinct s1 := by
  rcases address_slot_ports w s s1 slotid pictx c bsr h with heq | ⟨hk, hfree, ho⟩
  · exact ports_distinct_of_eq s s1 (fun i => by rw [heq]) hd
  · intro i j hi hj hij hp
    by_cases hik : i = slotid - 1
    · have hjk : j ≠ slotid - 1 := fun e => hij (hik.trans e.symm)
      rw [ho j hjk, hik]
      exact fun e => hfree j hj e.symm
    · rw [ho i hik] at hp ⊢
      by_cases hjk : j = slotid - 1
      · rw [hjk]
        exact hfree i hi
      · rw [ho j hjk]
        exact hd i j hi hj hij hp

theorem command_on_slot_distinct (s s1 : XHCIState) (l l1 : CommandLocals) (trb : XHCITRB)
    (f : XHCIState → Nat → Except Fault (XHCIState × Nat))
    (hf : ∀ sa sb slotid c, f sa slotid = .ok (sb, c) → ports_distinct sa → ports_distinct sb)
    (h : command_on_slot s l trb f = .ok (s1, l1)) (hd : ports_distinct s) :
    ports_distinct s1 := by
  unfold command_on_slot at h
  simp only [] at h
  split at h
  · split at h
    · exact absurd h (by simp)
    · next s2 c hc =>
      simp only [Except.ok.injEq, Prod.mk.injEq] at h
      rw [← h.1]
      exact hf _ _ _ _ hc hd
  · simp only [Except.ok.injEq, Prod.mk.injEq] at h
    rw [← h.1]
    exact hd

theorem command_enable_slot_distinct (s s1 : XHCIState) (l l1 : CommandLocals)
    (h : command_enable_slot s l = .ok (s1, l1)) (hd : ports_distinct s) :
    ports_distinct s1 := by
  unfold command_enable_slot at h
  simp only [] at h
  split at h
  · simp only [Except.ok.injEq, Prod.mk.injEq] at h
    rw [← h.1]; exact hd
  · split at h
    · exact absurd h (by simp)
    · next s2 c hc =>
      simp only [Except.ok.injEq, Prod.mk.injEq] at h
      rw [← h.1]
      exact enable_slot_ports _ _ _ _ hc hd

theorem command_switch_distinct (w : DmaWidth) (s s1 : XHCIState) (l l1 : CommandLocals)
    (type : Nat) (trb : XHCITRB)
    (h : command_switch w s l type trb = .ok (s1, l1)) (hd : ports_distinct s) :
    ports_distinct s1 := by
  unfold command_switch at h
  by_cases h9 : type = CR_ENABLE_SLOT
  · rw [if_pos h9] at h
    exact command_enable_slot_distinct s s1 l l1 h hd
  rw [if_neg h9] at h
  by_cases h10 : type = CR_DISABLE_SLOT
  · rw [if_pos h10] at h
    exact command_on_slot_distinct s s1 l l1 trb _
      (fun sa sb slotid c hc hda =>
        ports_distinct_of_eq sa sb (disable_slot_ports sa sb slotid c hc) hda) h hd
  rw [if_neg h10] at h
  by_cases h11 : type = CR_ADDRESS_DEVICE
  · rw [if_pos h11] at h
    exact command_on_slot_distinct s s1 l l1 trb _
      (fun sa sb slotid c hc hda => address_slot_distinct w sa sb slotid _ c _ hc hda) h hd
  rw [if_neg h11] at h
  by_cases h12 : type = CR_CONFIGURE_ENDPOINT
  · rw [if_pos h12] at h
    exact command_on_slot_distinct s s1 l l1 trb _
      (fun sa sb slotid c hc hda =>
        ports_distinct_frame _ sa sb (configure_slot_frame w sa sb slotid _ c _ hc) hda) h hd
  rw [if_neg h12] at h
  by_cases h13 : type = CR_EVALUATE_CONTEXT
  · rw [if_pos h13] at h
    exact command_on_slot_distinct s s1 l l1 trb _
      (fun sa sb slotid c hc hda => by
        obtain ⟨m, hm⟩ := evaluate_slot_frame w sa sb slotid _ c hc
        rw [hm]
        exact hda) h hd
  rw [if_neg h13] at h
  by_cases h15 : type = CR_STOP_ENDPOINT
  · rw [if_pos h15] at h
    exact command_on_slot_distinct s s1 l l1 trb _
      (fun sa sb slotid c hc hda =>
        ports_distinct_frame _ sa sb (stop_ep_frame sa sb slotid _ c hc) hda) h hd
  rw [if_neg h15] at h
  by_cases h14 : type = CR_RESET_ENDPOINT
  · rw [if_pos h14] at h
    exact command_on_slot_distinct s s1 l l1 trb _
      (fun sa sb slotid c hc hda =>
        ports_distinct_frame _ sa sb (reset_ep_frame sa sb slotid _ c hc) hda) h hd
  rw [if_neg h14] at h
  by_cases h16 : type = CR_SET_TR_DEQUEUE
  · rw [if_pos h16] at h
    exact command_on_slot_distinct s s1 l l1 trb _
      (fun sa sb slotid c hc hda =>
        ports_distinct_frame _ sa sb (set_ep_dequeue_frame w sa sb slotid _ _ c hc) hda) h hd
  rw [if_neg h16] at h
  by_cases h17 : type = CR_RESET_DEVICE
  · rw [if_pos h17] at h
    exact command_on_slot_distinct s s1 l l1 trb _
      (fun sa sb slotid c hc hda =>
        ports_distinct_frame _ sa sb (reset_slot_frame sa sb slotid c hc) hda) h hd
  rw [if_neg h17] at h
  by_cases h21 : type = CR_GET_PORT_BANDWIDTH
  · rw [if_pos h21] at h
    simp only [Except.ok.injEq, Prod.mk.injEq] at h
    rw [← h.1]; exact hd
  rw [if_neg h21] at h
  by_cases h48 : type = CR_VENDOR_VIA_CHALLENGE_RESPONSE
  · rw [if_pos h48] at h
    simp only [Except.ok.injEq, Prod.mk.injEq] at h
    rw [← h.1]; exact hd
  rw [if_neg h48] at h
  by_cases h49 : type = CR_VENDOR_NEC_FIRMWARE_REVISION
  · rw [if_pos h49] at h
    simp only [Except.ok.injEq, Prod.mk.injEq] at h
    rw [← h.1]; exact hd
  rw [if_neg h49] at h
  by_cases h50 : type = CR_VENDOR_NEC_CHALLENGE_RESPONSE
  · rw [if_pos h50] at h
    split at h
    · exact absurd h (by simp)
    · simp only [Except.ok.injEq, Prod.mk.injEq] at h
      rw [← h.1]; exact hd
  rw [if_neg h50] at h
  simp only [Except.ok.injEq, Prod.mk.injEq] at h
  rw [← h.1]; exact hd

theorem process_command_distinct (w : DmaWidth) (s s1 : XHCIState) (l l1 : CommandLocals)
    (type : Nat) (trb : XHCITRB) (addr : Nat)
    (h : process_command w s l type trb addr = .ok (s1, l1)) (hd : ports_distinct s) :
    ports_distinct s1 := by
  unfold process_command at h
  split at h
  · exact absurd h (by simp)
  · next s2 l2 hc =>
    have h2 := command_switch_distinct w s s2 _ l2 type trb hc hd
    simp only [] at h
    split at h
    · exact absurd h (by simp)
    · next s3 he =>
      obtain ⟨s4, h4, -, hsl⟩ := xhci_event_returns w s2
        { l2.event with slotid := u8 l2.slotid }
      rw [h4] at he
      simp only [Except.ok.injEq] at he
      simp only [Except.ok.injEq, Prod.mk.injEq] at h
      rw [← h.1, ← he]
      exact ports_distinct_of_eq s2 s4 (fun i => by rw [hsl]) h2

/-! ## Controller reset -/

/-- `xhci_disable_slot` on a slot id in range returns SUCCESS, leaves that slot
disabled without endpoints, keeps its port, and changes nothing else but guest
memory and the record of cancelled packets. -/
theorem disable_slot_spec (s : XHCIState) (slotid : Nat)
    (hslot : 1 ≤ slotid ∧ slotid ≤ MAXSLOTS) :
    ∃ s1, xhci_disable_slot s slotid = .ok (s1, CC_SUCCESS) ∧
      (∃ sl m lc, s1 = { s with slots := sl, mem := m, log_cancel := lc }) ∧
      (∀ i, (s1.slots i).port = (s.slots i).port) ∧
      (s1.slots (slotid - 1)).enabled = false ∧
      (∀ j, j < 31 → (s1.slots (slotid - 1)).eps j = none) ∧
      (∀ i, i ≠ slotid - 1 → s1.slots i = s.slots i) := by
  have h1 : ¬ (slotid < 1 ∨ slotid > MAXSLOTS) := by omega
  obtain ⟨s2, hl, -, hnone, -⟩ := disable_slot_loop_returns slotid hslot 31 1 s (by decide)
    (by decide)
  have hf := disable_slot_loop_frame slotid 31 1 s s2 hl
  have hres : xhci_disable_slot s slotid =
      .ok ({ s2 with
             slots := Function.update s2.slots (slotid - 1)
               { s2.slots (slotid - 1) with enabled := false } },
           CC_SUCCESS) := by
    unfold xhci_disable_slot
    rw [if_neg h1, hl]
  refine ⟨_, hres, ?_, ?_, ?_, ?_, ?_⟩
  · obtain ⟨e, m, lc, rfl⟩ := hf
    exact ⟨_, m, lc, rfl⟩
  · intro i
    rw [← ep_frame_port _ _ _ hf i]
    by_cases hi : i = slotid - 1
    · rw [hi]; simp only [Function.update_same]
    · simp only [Function.update_noteq hi]
  · simp only [Function.update_same]
  · intro j hj
    simp only [Function.update_same]
    exact hnone j (by omega) (by omega)
  · intro i hi
    simp only [Function.update_noteq hi]
    exact (ep_frame_slots _ _ _ hf).1 i hi

theorem reset_slots_loop_spec :
    ∀ (n i : Nat) (s : XHCIState), i + n ≤ MAXSLOTS →
      ∃ s1, reset_slots_loop n i s = .ok s1 ∧
        (∃ sl m lc, s1 = { s with slots := sl, mem := m, log_cancel := lc }) ∧
        (∀ k, (s1.slots k).port = (s.slots k).port) ∧
        (∀ k, i ≤ k → k < i + n →
          (s1.slots k).enabled = false ∧ ∀ j, j < 31 → (s1.slots k).eps j = none) ∧
        (∀ k, k < i ∨ i + n ≤ k → s1.slots k = s.slots k) := by
  intro n
  induction n with
  | zero =>
    intro i s _
    exact ⟨s, rfl, ⟨s.slots, s.mem, s.log_cancel, rfl⟩, fun _ => rfl,
      fun k h1 h2 => absurd h2 (by omega), fun _ _ => rfl⟩
  | succ n ih =>
    intro i s hn
    obtain ⟨s1, h1, ⟨sl1, m1, lc1, e1⟩, p1, d1, n1, o1⟩ :=
      disable_slot_spec s (i + 1) ⟨by omega, by omega⟩
    obtain ⟨s2, h2, ⟨sl2, m2, lc2, e2⟩, p2, d2, o2⟩ := ih (i + 1) s1 (by omega)
    refine ⟨s2, ?_, ⟨sl2, m2, lc2, ?_⟩, fun k => (p2 k).trans (p1 k), ?_, ?_⟩
    · rw [reset_slots_loop, h1]
      exact h2
    · rw [e2, e1]
    · intro k hk1 hk2
      by_cases hki : k = i
      · rw [o2 k (Or.inl (by omega)), hki]
        exact ⟨d1, n1⟩
      · exact d2 k (by omega) (by omega)
    · intro k hk
      rw [o2 k (by omega)]
      exact o1 k (by omega)

theorem update_port_halted (usb : USBCore) (w : DmaWidth) (s : XHCIState) (i : Nat) (d : Bool)
    (hrun : xhci_running s = false) :
    ∃ p, xhci_update_port usb w s i d = .ok { s with portsc := p } := by
  unfold xhci_update_port
  have h : ¬ (xhci_running s = true) := by rw [hrun]; decide
  have hr : ∀ p, xhci_running { s with portsc := p } = xhci_running s := fun _ => rfl
  simp only [hr, if_neg h]
  exact ⟨_, rfl⟩

theorem reset_ports_loop_halted (usb : USBCore) (w : DmaWidth) :
    ∀ (n i : Nat) (s : XHCIState), xhci_running s = false →
      ∃ p, reset_ports_loop usb w n i s = .ok { s with portsc := p } := by
  intro n
  induction n with
  | zero => intro i s _; exact ⟨s.portsc, rfl⟩
  | succ n ih =>
    intro i s hrun
    obtain ⟨p, hp⟩ := update_port_halted usb w s i false hrun
    obtain ⟨p2, hp2⟩ := ih (i + 1) { s with portsc := p } hrun
    rw [reset_ports_loop, hp]
    exact ⟨p2, hp2⟩

/-- What `xhci_reset` does: it always returns; the operational and runtime
registers it names are zero, USBSTS is HCH, the next device address is 2, the
event ring producer is at index 0 with cycle 1, not full, the software queue
empty; no event is posted; every slot is disabled and has no endpoint; and
every slot keeps the port number it had. -/
theorem xhci_reset_spec (usb : USBCore) (w : DmaWidth) (s : XHCIState) :
    ∃ s1, xhci_reset usb w s = .ok s1 ∧
      s1.usbcmd = 0 ∧ s1.usbsts = USBSTS_HCH ∧ s1.dnctrl = 0 ∧ s1.crcr_low = 0 ∧
      s1.crcr_high = 0 ∧ s1.dcbaap_low = 0 ∧ s1.dcbaap_high = 0 ∧ s1.config = 0 ∧
      s1.mfindex = 0 ∧ s1.iman = 0 ∧ s1.imod = 0 ∧ s1.erstsz = 0 ∧ s1.erstba_low = 0 ∧
      s1.erstba_high = 0 ∧ s1.erdp_low = 0 ∧ s1.erdp_high = 0 ∧
      s1.er_ep_idx = 0 ∧ s1.er_pcs = true ∧ s1.er_full = false ∧
      s1.ev_buffer_put = 0 ∧ s1.ev_buffer_get = 0 ∧ s1.devaddr = 2 ∧
      s1.log_events = s.log_events ∧ s1.log_ev_trbs = s.log_ev_trbs ∧
      s1.log_set_address = s.log_set_address ∧
      (∀ k, k < MAXSLOTS →
        (s1.slots k).enabled = false ∧ ∀ j, j < 31 → (s1.slots k).eps j = none) ∧
      (∀ k, (s1.slots k).port = (s.slots k).port) := by
  obtain ⟨s2, h2, ⟨sl, m, lc, e2⟩, p2, d2, -⟩ := reset_slots_loop_spec MAXSLOTS 0
    { s with usbcmd := 0, usbsts := USBSTS_HCH, dnctrl := 0, crcr_low := 0, crcr_high := 0,
             dcbaap_low := 0, dcbaap_high := 0, config := 0, devaddr := 2 } (by decide)
  have hrun : xhci_running s2 = false := by
    rw [e2]
    show (decide (USBSTS_HCH &&& USBSTS_HCH = 0) && !s.er_full) = false
    have hd : decide (USBSTS_HCH &&& USBSTS_HCH = 0) = false := by decide
    rw [hd]
    rfl
  obtain ⟨p, h3⟩ := reset_ports_loop_halted usb w MAXPORTS 0 s2 hrun
  have hres : xhci_reset usb w s =
      .ok { ({ s2 with portsc := p } : XHCIState) with
            mfindex := 0, iman := 0, imod := 0, erstsz := 0, erstba_low := 0,
            erstba_high := 0, erdp_low := 0, erdp_high := 0,
            er_ep_idx := 0, er_pcs := true, er_full := false,
            ev_buffer_put := 0, ev_buffer_get := 0 } := by
    unfold xhci_reset
    simp only [h2, h3]
  refine ⟨_, hres, ?_⟩
  · subst e2
    refine ⟨rfl, rfl, rfl, rfl, rfl, rfl, rfl, rfl, rfl, rfl, rfl, rfl, rfl, rfl, rfl, rfl, rfl,
      rfl, rfl, rfl, rfl, rfl, rfl, rfl, rfl, ?_, ?_⟩
    · intro k hk
      exact d2 k (Nat.zero_le k) (by omega)
    · intro k
      exact p2 k

/-! ## Claims on slot commands, command processing, reset and the doorbell -/

/-- C21.  Enumeration.  `xhci_reset` returns and leaves the next device address
2; on a state with no slot enabled (as after a reset) the Enable Slot case
allocates slot 1 with port 0.  An Address Device that passes its checks (input
control (0, 3), port in 1..8 with a device, port held by no slot) records the
port and the output context address in the slot.  With BSR clear it gives the
slot the current next device address `a`, whatever commands came before, makes
the next device address `a + 1`, issues SET_ADDRESS(`a`) to the device on that
port and writes output slot context dword 3 as `(Addressed << 27) | a`; with
BSR set it writes slot state Default, issues no SET_ADDRESS and keeps the next
device address.  When endpoint 1 of the slot is not yet enabled, the command
succeeds and enables it in the Running state; when it is already enabled, the
command returns TRB_ERROR after these effects, the device address consumed. -/
theorem xhci_address_slot_enumeration (usb : USBCore) (w : DmaWidth) (s : XHCIState)
    (slotid pictx : Nat) (bsr : Bool)
    (hslot : 1 ≤ slotid ∧ slotid ≤ MAXSLOTS)
    (hctl : (input_control w s pictx).getD 0 0 = 0 ∧ (input_control w s pictx).getD 1 0 = 3)
    (hport : 1 ≤ input_port w s pictx ∧ input_port w s pictx ≤ MAXPORTS)
    (hdev : s.port_dev (input_port w s pictx - 1) = true)
    (hfree : port_assigned s (input_port w s pictx) MAXSLOTS 0 = false)
    (haddr : s.devaddr < 134217728) :
    (∀ s0 : XHCIState, ∃ sr, xhci_reset usb w s0 = .ok sr ∧ sr.devaddr = 2 ∧
      ∀ l, ∃ se le, command_enable_slot sr l = .ok (se, le) ∧ le.slotid = 1 ∧
        le.event.ccode = CC_SUCCESS ∧ (se.slots 0).enabled = true ∧ (se.slots 0).port = 0) ∧
    ∃ s1 res, xhci_address_slot w s slotid pictx bsr = .ok (s1, res) ∧
      (s1.slots (slotid - 1)).port = input_port w s pictx ∧
      (s1.slots (slotid - 1)).ctx = output_ctx w s slotid ∧
      (bsr = false →
        (s1.slots (slotid - 1)).devaddr = s.devaddr ∧ s1.devaddr = s.devaddr + 1 ∧
        s1.log_set_address = s.log_set_address ++ [(input_port w s pictx - 1, s.devaddr)] ∧
        (read_ctx s1.mem (output_ctx w s slotid) 4).getD 3 0 =
          (SLOT_ADDRESSED <<< 27) ||| s.devaddr) ∧
      (bsr = true →
        (s1.slots (slotid - 1)).devaddr = (s.slots (slotid - 1)).devaddr ∧
        s1.devaddr = s.devaddr ∧ s1.log_set_address = s.log_set_address ∧
        (read_ctx s1.mem (output_ctx w s slotid) 4).getD 3 0 = SLOT_DEFAULT <<< 27) ∧
      ((s.slots (slotid - 1)).eps 0 = none →
        res = CC_SUCCESS ∧
        ∃ e, (s1.slots (slotid - 1)).eps 0 = some e ∧ e.state = EP_RUNNING) ∧
      ((s.slots (slotid - 1)).eps 0 ≠ none → res = CC_TRB_ERROR) := by
  constructor
  · intro s0
    obtain ⟨sr, hr, -, -, -, -, -, -, -, -, -, -, -, -, -, -, -, -, -, -, -, -, -, hda, -, -, -,
      hslots, -⟩ := xhci_reset_spec usb w s0
    refine ⟨sr, hr, hda, fun l => ?_⟩
    have hscan : enable_slot_scan sr MAXSLOTS 0 = 0 :=
      enable_slot_scan_finds sr 0 (hslots 0 (by decide)).1 MAXSLOTS 0 (Nat.le_refl 0)
        (by decide) (fun j h1 h2 => absurd h2 (Nat.not_lt_zero j))
    have hce : command_enable_slot sr l =
        .ok ({ sr with
               slots := Function.update sr.slots (0 + 1 - 1)
                 { sr.slots (0 + 1 - 1) with
                   enabled := true, port := 0,
                   eps := fun i => if i < 31 then none else (sr.slots (0 + 1 - 1)).eps i } },
             { event := { l.event with ccode := CC_SUCCESS }, slotid := 0 + 1 }) := by
      unfold command_enable_slot
      simp only [hscan]
      rw [if_neg (by decide)]
      unfold xhci_enable_slot
      rw [if_neg (by decide)]
    refine ⟨_, _, hce, rfl, rfl, ?_, ?_⟩ <;> simp only [Function.update_same]
  · obtain ⟨s1, res, h1, -, hp, hc, -, hd, hn, hl, hw, -, -, hnone, hsome⟩ :=
      address_slot_accepted w s slotid pictx bsr hslot hctl hport hdev hfree
    refine ⟨s1, res, h1, hp, hc, fun hb => ?_, fun hb => ?_, fun h0 => ?_, fun h0 => ?_⟩
    · rw [hb] at hd hn hl hw
      simp only [Bool.false_eq_true, if_false] at hd hn hl hw
      have hu : u32 (s.devaddr + 1) = s.devaddr + 1 := by unfold u32; omega
      have hor : (SLOT_ADDRESSED <<< SLOT_STATE_SHIFT) ||| s.devaddr < 4294967296 := by
        have h32 : (4294967296 : Nat) = 2 ^ 32 := by decide
        rw [h32]
        apply Nat.or_lt_two_pow
        · decide
        · have : (2 : Nat) ^ 32 = 4294967296 := by decide
          omega
      have hu2 : u32 ((SLOT_ADDRESSED <<< SLOT_STATE_SHIFT) ||| s.devaddr) =
          (SLOT_ADDRESSED <<< SLOT_STATE_SHIFT) ||| s.devaddr := by
        unfold u32; exact Nat.mod_eq_of_lt hor
      rw [hu] at hn
      rw [hu2] at hw
      exact ⟨hd, hn, hl, hw⟩
    · rw [hb] at hd hn hl hw
      simp only [if_true] at hd hn hl hw
      exact ⟨hd, hn, hl, hw⟩
    · obtain ⟨hr, e, he, hst, -⟩ := hnone h0
      exact ⟨hr, e, he, hst⟩
    · exact (hsome h0).1

/-- Witness for C21: the first Address Device with BSR clear on the state
`ex_enum_state`, for slot 1 on port 1. -/
theorem xhci_address_slot_enumeration_witness :
    ∃ s1, xhci_address_slot .bits64 ex_enum_state 1 0x4000 false = .ok (s1, CC_SUCCESS) ∧
      (s1.slots 0).port = 1 ∧ (s1.slots 0).devaddr = 2 ∧ s1.devaddr = 3 ∧
      s1.log_set_address = [(0, 2)] ∧
      (read_ctx s1.mem 0x8000 4).getD 3 0 = (SLOT_ADDRESSED <<< 27) ||| 2 := by
  obtain ⟨s1, res, h1, hp, -, hf, -, hnone, -⟩ :=
    (xhci_address_slot_enumeration ex_usb_512 .bits64 ex_enum_state 1 0x4000 false (by decide)
      (by decide) (by decide) (by decide) (by decide) (by decide)).2
  obtain ⟨hd, hn, hl, hw⟩ := hf rfl
  obtain ⟨hr, -⟩ := hnone rfl
  rw [hr] at h1
  exact ⟨s1, h1, hp, hd, hn, hl, hw⟩

/-- Counterexample to C21 as stated: after Enable Slot and a first successful
Address Device (slot 1, port 1, address 2), an Address Device for the same slot
on port 2 passes the checks, consumes address 3 and sends SET_ADDRESS(3), then
fails with TRB_ERROR because endpoint 1 is already enabled; the next successful
Address Device with BSR clear (slot 2, port 1), the second one that succeeds,
assigns address 4, not 3. -/
theorem second_address_device_gets_four :
    ∃ s1 s2 s3 s4 s5,
      xhci_enable_slot ex_enum_state 1 = .ok (s1, CC_SUCCESS) ∧
      xhci_address_slot .bits64 s1 1 0x4000 false = .ok (s2, CC_SUCCESS) ∧
      (s2.slots 0).devaddr = 2 ∧
      xhci_address_slot .bits64 s2 1 0x5000 false = .ok (s3, CC_TRB_ERROR) ∧
      xhci_enable_slot s3 2 = .ok (s4, CC_SUCCESS) ∧
      xhci_address_slot .bits64 s4 2 0x4000 false = .ok (s5, CC_SUCCESS) ∧
      (s5.slots 1).devaddr = 4 ∧
      s5.log_set_address = [(0, 2), (1, 3), (0, 4)] :=
  ⟨_, _, _, _, _, rfl, rfl, by decide, rfl, rfl, rfl, by decide, by decide⟩

/-- C22.  Address Device with a slot id in range ends before assigning the slot
in four ways.  With an input control context other than (drop 0, add 3) it
returns TRB_ERROR, with no device on the port USB_TRANSACTION_ERROR, with the
port held by a slot TRB_ERROR, and in these three cases the whole state is as
before.  With a port outside 1..8, though, it does not return TRB_ERROR: it
reads `ports[port-1].port.dev`, an element outside the array, before it checks
the port number. -/
theorem xhci_address_slot_rejections (w : DmaWidth) (s : XHCIState) (slotid pictx : Nat)
    (bsr : Bool) (hslot : 1 ≤ slotid ∧ slotid ≤ MAXSLOTS) :
    (¬ ((input_control w s pictx).getD 0 0 = 0 ∧ (input_control w s pictx).getD 1 0 = 3) →
      xhci_address_slot w s slotid pictx bsr = .ok (s, CC_TRB_ERROR)) ∧
    ((input_control w s pictx).getD 0 0 = 0 ∧ (input_control w s pictx).getD 1 0 = 3 →
      (¬ (1 ≤ input_port w s pictx ∧ input_port w s pictx ≤ MAXPORTS) →
        xhci_address_slot w s slotid pictx bsr = .error .undefined) ∧
      (1 ≤ input_port w s pictx ∧ input_port w s pictx ≤ MAXPORTS →
        (s.port_dev (input_port w s pictx - 1) = false →
          xhci_address_slot w s slotid pictx bsr = .ok (s, CC_USB_TRANSACTION_ERROR)) ∧
        (s.port_dev (input_port w s pictx - 1) = true →
          port_assigned s (input_port w s pictx) MAXSLOTS 0 = true →
          xhci_address_slot w s slotid pictx bsr = .ok (s, CC_TRB_ERROR)))) :=
  address_slot_rejected w s slotid pictx bsr hslot

theorem xhci_address_slot_rejections_witness :
    input_port .bits64 ex_enum_state 0x6000 = 0 ∧
    xhci_address_slot .bits64 ex_enum_state 1 0x6000 false = .error .undefined :=
  ⟨by decide,
   ((xhci_address_slot_rejections .bits64 ex_enum_state 1 0x6000 false (by decide)).2
      (by decide)).1 (by decide)⟩

/-- C23.  The port scan of Address Device does not skip the slot being
addressed: when that slot already holds the port named in the input slot
context (as after an Address Device with BSR set), a further Address Device on
the same slot and port, with valid input control context and a device on the
port, is rejected with TRB_ERROR, "port already assigned", and changes
nothing. -/
theorem xhci_address_slot_own_port (w : DmaWidth) (s : XHCIState) (slotid pictx : Nat)
    (bsr : Bool) (hslot : 1 ≤ slotid ∧ slotid ≤ MAXSLOTS)
    (hctl : (input_control w s pictx).getD 0 0 = 0 ∧ (input_control w s pictx).getD 1 0 = 3)
    (hport : 1 ≤ input_port w s pictx ∧ input_port w s pictx ≤ MAXPORTS)
    (hdev : s.port_dev (input_port w s pictx - 1) = true)
    (hown : (s.slots (slotid - 1)).port = input_port w s pictx) :
    xhci_address_slot w s slotid pictx bsr = .ok (s, CC_TRB_ERROR) :=
  (((address_slot_rejected w s slotid pictx bsr hslot).2 hctl).2 hport).2 hdev
    (port_assigned_true s _ MAXSLOTS 0 (slotid - 1) (Nat.zero_le _) (by omega) hown)

/-- Witness for C23: Address Device with BSR set for slot 1 on port 1 succeeds
and leaves the slot in the Default state; the Address Device with BSR clear
that follows, for the same slot and port, is rejected with TRB_ERROR. -/
theorem xhci_address_slot_own_port_witness :
    xhci_address_slot .bits64 ex_enum_state 1 0x4000 true = .ok (ex_default_state, CC_SUCCESS) ∧
    SLOT_STATE ((read_ctx ex_default_state.mem 0x8000 4).getD 3 0) = SLOT_DEFAULT ∧
    xhci_address_slot .bits64 ex_default_state 1 0x4000 false =
      .ok (ex_default_state, CC_TRB_ERROR) :=
  ⟨rfl, by decide,
   xhci_address_slot_own_port .bits64 ex_default_state 1 0x4000 false (by decide)
     (by decide) (by decide) (by decide) (by decide)⟩

/-- C24.  Port-claim invariant: in every state reached from the initial state
by command rounds (Enable Slot, Disable Slot, Address Device, Configure
Endpoint, Evaluate Context, Stop and Reset Endpoint, Set TR Dequeue, Reset
Device and the others, with any TRB), controller resets and steps that leave
the port numbers of the slots alone, no two distinct slots hold the same
non-zero port. -/
theorem reachable_ports_distinct (usb : USBCore) (w : DmaWidth) (s : XHCIState)
    (h : Reachable usb w s) : ports_distinct s := by
  induction h with
  | init =>
    intro i j hi _ _ hp
    have h0 : ((usb_xhci_init zero_state).slots i).port = 0 := by
      unfold usb_xhci_init
      simp only [if_pos hi]
      rfl
    exact absurd h0 hp
  | command s s1 l l1 type trb addr _ hc ih =>
    exact process_command_distinct w s s1 l l1 type trb addr hc ih
  | reset s s1 _ hr ih =>
    obtain ⟨s2, h2, -, -, -, -, -, -, -, -, -, -, -, -, -, -, -, -, -, -, -, -, -, -, -, -, -, -,
      hports⟩ := xhci_reset_spec usb w s
    rw [h2] at hr
    simp only [Except.ok.injEq] at hr
    rw [← hr]
    exact ports_distinct_of_eq s s2 hports ih
  | other s s1 _ hs ih =>
    exact ports_distinct_of_eq s s1 hs ih

/-- Witness for C24: the state after Enable Slot and Address Device for slot 1
on port 1, where slot 1 holds port 1. -/
theorem reachable_ports_distinct_witness :
    ∃ s l, ex_enum_run = .ok (s, l) ∧ (s.slots 0).enabled = true ∧ (s.slots 0).port = 1 ∧
      ports_distinct s :=
  ⟨_, _, rfl, by decide, by decide,
   reachable_ports_distinct ex_usb_512 .bits64 _
     (Reachable.command ex_enabled.1 _ ex_enabled.2 _ CR_ADDRESS_DEVICE ex_trb_address 0x710
       (Reachable.command ex_enum_state ex_enabled.1 command_locals_init ex_enabled.2
         CR_ENABLE_SLOT ex_trb_enable 0x700
         (Reachable.other _ ex_enum_state Reachable.init
           (fun i => by
             show (zero_state.slots i).port = ((usb_xhci_init zero_state).slots i).port
             unfold usb_xhci_init
             by_cases hi : i < MAXSLOTS
             · simp only [if_pos hi]
             · simp only [if_neg hi]))
         rfl)
       rfl)⟩

/-- C25.  Configure Endpoint with the deconfigure flag clear accepts an input
control context exactly when drop bits 0 and 1 are clear, add bit 0 (the slot
context) is set and add bit 1 (endpoint 0) is clear.  Any other input control
context completes with TRB_ERROR and leaves the whole state, endpoints and
guest memory included, as it was; an accepted one completes with
CONTEXT_STATE_ERROR, again changing nothing, when the output slot context is
below Addressed, and with SUCCESS otherwise. -/
theorem xhci_configure_slot_input_control (w : DmaWidth) (s : XHCIState) (slotid pictx : Nat)
    (hslot : 1 ≤ slotid ∧ slotid ≤ MAXSLOTS) :
    let ictl_ctx := read_ctx s.mem (xhci_mask64 w pictx) 2
    let accepted := (ictl_ctx.getD 0 0).testBit 0 = false ∧ (ictl_ctx.getD 0 0).testBit 1 = false ∧
      (ictl_ctx.getD 1 0).testBit 0 = true ∧ (ictl_ctx.getD 1 0).testBit 1 = false
    (¬ accepted → xhci_configure_slot w s slotid pictx false = .ok (s, CC_TRB_ERROR)) ∧
    (accepted →
      (SLOT_STATE ((read_ctx s.mem (s.slots (slotid - 1)).ctx 4).getD 3 0) < SLOT_ADDRESSED →
        xhci_configure_slot w s slotid pictx false = .ok (s, CC_CONTEXT_STATE_ERROR)) ∧
      (¬ SLOT_STATE ((read_ctx s.mem (s.slots (slotid - 1)).ctx 4).getD 3 0) < SLOT_ADDRESSED →
        ∃ s1, xhci_configure_slot w s slotid pictx false = .ok (s1, CC_SUCCESS))) := by
  intro ictl_ctx accepted
  have h1 : ¬ (slotid < 1 ∨ slotid > MAXSLOTS) := by omega
  have hacc : accepted ↔ ¬ ((ictl_ctx.getD 0 0 &&& 0x3) ≠ 0x0 ∨ (ictl_ctx.getD 1 0 &&& 0x3) ≠ 0x1) := by
    show (_ ∧ _ ∧ _ ∧ _) ↔ _
    rw [not_or, not_not, not_not, (and_three_bits (ictl_ctx.getD 0 0)).1,
      (and_three_bits (ictl_ctx.getD 1 0)).2]
    tauto
  refine ⟨fun hrej => ?_, fun hok => ⟨fun hst => ?_, fun hst => ?_⟩⟩
  · have hc : (ictl_ctx.getD 0 0 &&& 0x3) ≠ 0x0 ∨ (ictl_ctx.getD 1 0 &&& 0x3) ≠ 0x1 := by
      by_contra hc
      exact hrej (hacc.2 hc)
    unfold xhci_configure_slot
    rw [if_neg h1]
    simp only [Bool.false_eq_true, if_false]
    rw [if_pos hc]
  · have hc := hacc.1 hok
    unfold xhci_configure_slot
    rw [if_neg h1]
    simp only [Bool.false_eq_true, if_false]
    rw [if_neg hc, if_pos hst]
  · have hc := hacc.1 hok
    obtain ⟨s1, hloop⟩ := configure_eps_loop_returns w slotid (xhci_mask64 w pictx)
      (s.slots (slotid - 1)).ctx ictl_ctx hslot 30 2 s (by decide) (by decide)
    unfold xhci_configure_slot
    rw [if_neg h1]
    simp only [Bool.false_eq_true, if_false]
    rw [if_neg hc, if_neg hst, hloop]
    exact ⟨_, rfl⟩

theorem xhci_configure_slot_input_control_witness :
    (∃ s1, xhci_configure_slot .bits64 ex_eval_state 1 0x4000 false = .ok (s1, CC_SUCCESS)) ∧
    xhci_configure_slot .bits64 ex_eval_state 1 0x4020 false = .ok (ex_eval_state, CC_TRB_ERROR) :=
  ⟨((xhci_configure_slot_input_control .bits64 ex_eval_state 1 0x4000 (by decide)).2
      (by decide)).2 (by decide),
   (xhci_configure_slot_input_control .bits64 ex_eval_state 1 0x4020 (by decide)).1 (by decide)⟩

/-- Counterexample to C25 as stated: with drop word 0 and add word 1 (add bit 1,
endpoint 0, clear) on an Addressed slot, Configure Endpoint does not complete
with TRB_ERROR but with SUCCESS, and moves the slot to Configured. -/
theorem configure_accepts_add_bit1_clear :
    (read_ctx ex_eval_state.mem 0x4000 2).getD 1 0 = 1 ∧
    ∃ s1, xhci_configure_slot .bits64 ex_eval_state 1 0x4000 false = .ok (s1, CC_SUCCESS) ∧
      SLOT_STATE ((read_ctx s1.mem 0x8000 4).getD 3 0) = SLOT_CONFIGURED :=
  ⟨by decide, _, rfl, by decide⟩

/-- C26.  The interrupter-target patch of `xhci_evaluate_slot` uses the mask
`~0xFF00000` where the field is `0xFF000000`: with output dword 2 `0xA5F12345`
and input dword 2 `0x3C000000`, the command succeeds and leaves dword 2
`0xBC012345`: bits 28..31 are the OR of both values instead of the input's,
and bits 20..23, outside the field, are cleared.  The claim asks for
`0x3CF12345`. -/
theorem xhci_evaluate_slot_interrupter_mask :
    ∃ s1, xhci_evaluate_slot .bits64 ex_eval_state 1 0x4000 = .ok (s1, CC_SUCCESS) ∧
      read_ctx s1.mem 0x8000 4 = [0x08100000, 0x00011234, 0xBC012345, 0x10000002] :=
  ⟨_, rfl, by decide⟩

/-- C27.  The event of `xhci_process_commands` is initialised once, before the
loop, and the vendor cases overwrite its type and length: in a batch of a NEC
firmware revision command at `0x700` and an Enable Slot command at `0x710`, the
event posted for Enable Slot points at `0x710` and carries SUCCESS and slot 1,
but its type is 48, not Command Completion (33), and its length is `0x3025`,
both left over from the command before it. -/
theorem process_commands_stale_event :
    ∃ s1, xhci_process_commands .bits64 8 8 ex_cmd_state = .ok s1 ∧
      s1.log_events.map (fun e => (e.type, e.ccode, e.ptr, e.length, e.slotid)) =
        [(48, CC_SUCCESS, 0x700, 0x3025, 0), (48, CC_SUCCESS, 0x710, 0x3025, 1)] ∧
      (s1.slots 0).enabled = true :=
  ⟨_, rfl, by decide, by decide⟩

/-- C28.  Controller reset does not clear the port a slot holds.  `xhci_reset`
always returns and every slot keeps its port number; so on `ex_stale_state`,
where slot 2 holds port 1, a write of HCRST to USBCMD leaves slot 2 disabled
but still on port 1, and after the guest has set DCBAAP again and Enable Slot
has allocated slot 1, Address Device for slot 1 on port 1 is refused with
TRB_ERROR, the port counting as assigned to slot 2. -/
theorem xhci_reset_keeps_ports :
    (∀ (usb : USBCore) (w : DmaWidth) (s : XHCIState),
      ∃ s1, xhci_reset usb w s = .ok s1 ∧ ∀ k, (s1.slots k).port = (s.slots k).port) ∧
    ∃ s1 s2 s3 l s4,
      xhci_oper_write ex_usb_512 .bits64 ex_stale_state 0x00 USBCMD_HCRST = .ok s1 ∧
      (s1.slots 1).enabled = false ∧ (s1.slots 1).port = 1 ∧
      xhci_oper_write ex_usb_512 .bits64 s1 0x30 0x100 = .ok s2 ∧
      command_enable_slot s2 command_locals_init = .ok (s3, l) ∧ l.slotid = 1 ∧
      xhci_address_slot .bits64 s3 1 0x4000 false = .ok (s4, CC_TRB_ERROR) ∧
      s4.log_set_address = [] :=
  ⟨fun usb w s => by
      obtain ⟨s1, h1, -, -, -, -, -, -, -, -, -, -, -, -, -, -, -, -, -, -, -, -, -, -, -, -, -, -,
        hports⟩ := xhci_reset_spec usb w s
      exact ⟨s1, h1, hports⟩,
   _, _, _, _, _, rfl, by decide, by decide, rfl, rfl, by decide, rfl, by decide⟩

theorem and_DIR_IN (x : Nat) : decide (u8 x &&& 0x80 ≠ 0) = x.testBit 7 := by
  have h : (0x80 : Nat) = 2 ^ 7 := by decide
  have hb : (u8 x).testBit 7 = x.testBit 7 := by
    unfold u8
    have h256 : (256 : Nat) = 2 ^ 8 := by decide
    rw [h256, Nat.testBit_mod_two_pow]
    simp
  rw [h, Nat.and_two_pow, hb]
  cases x.testBit 7 <;> simp

/-- C29.  Control descriptor validation.  For a descriptor with first TRB
`trb_setup` and last TRB `trb_last`, let `trb_status` be the TRB before
`trb_last` when `trb_last` is an Event Data TRB and the descriptor has more than
2 TRBs, and `trb_last` otherwise.  If `trb_setup` is not a Setup TRB, or
`trb_status` is not a Status TRB, or `trb_setup` lacks IDT, or its length field
is not 8, `xhci_fire_ctl_transfer` returns -1 and leaves the whole state as it
was: no event, no packet handed to the device.  Otherwise, with `USB_DIR_IN`
being 0x80, the slot's port in range and its device found, the packet is set up
and submitted with direction IN exactly when bit 7 of the Setup TRB parameter
(bit 7 of `bmRequestType`, its low byte) is set. -/
theorem xhci_fire_ctl_transfer_validation (rc : USBRetCodes) (usb : USBCore) (w : DmaWidth)
    (kick : XHCIState → Nat → Nat → Except Fault XHCIState)
    (s : XHCIState) (i : Nat) (xfer : XHCITransfer) (trb_setup trb_last : XHCITRB)
    (hfirst : xfer.trbs.head? = some trb_setup)
    (hlast : xfer.trbs.getLast? = some trb_last) :
    let trb_status :=
      if TRB_TYPE trb_last = TR_EVDATA ∧ xfer.trbs.length > 2 then
        xfer.trbs.getD (xfer.trbs.length - 2) trb_last
      else trb_last
    let bad := TRB_TYPE trb_setup ≠ TR_SETUP ∨ TRB_TYPE trb_status ≠ TR_STATUS ∨
      trb_setup.control &&& TRB_TR_IDT = 0 ∨ trb_setup.status &&& 0x1ffff ≠ 8
    (bad → xhci_fire_ctl_transfer rc usb w kick s i xfer = .ok (s, -1)) ∧
    (¬ bad → usb.DIR_IN = 0x80 →
      1 ≤ xfer.slotid ∧ xfer.slotid ≤ MAXSLOTS →
      1 ≤ (s.slots (xfer.slotid - 1)).port ∧ (s.slots (xfer.slotid - 1)).port ≤ MAXPORTS →
      xhci_find_device usb s ((s.slots (xfer.slotid - 1)).port - 1)
        (s.slots (xfer.slotid - 1)).devaddr = true →
      ∃ s1 xfer1,
        xhci_setup_packet s { xfer with in_xfer := trb_setup.parameter.testBit 7,
                                        iso_xfer := false } = .ok (s1, xfer1) ∧
        xfer1.in_xfer = trb_setup.parameter.testBit 7 ∧
        xfer1.packet_in = trb_setup.parameter.testBit 7 ∧
        xhci_fire_ctl_transfer rc usb w kick s i xfer =
          submit_packet rc usb w kick s1 i
            { xfer1 with packet_parameter := trb_setup.parameter }) := by
  intro trb_status bad
  constructor
  · intro hbad
    unfold xhci_fire_ctl_transfer
    rw [hfirst, hlast]
    show (if TRB_TYPE trb_setup ≠ TR_SETUP then (Except.ok (s, -1) : Except Fault (XHCIState × Int))
      else if TRB_TYPE trb_status ≠ TR_STATUS then .ok (s, -1)
      else if trb_setup.control &&& TRB_TR_IDT = 0 then .ok (s, -1)
      else if trb_setup.status &&& 0x1ffff ≠ 8 then .ok (s, -1)
      else _) = _
    by_cases h1 : TRB_TYPE trb_setup ≠ TR_SETUP
    · rw [if_pos h1]
    rw [if_neg h1]
    by_cases h2 : TRB_TYPE trb_status ≠ TR_STATUS
    · rw [if_pos h2]
    rw [if_neg h2]
    by_cases h3 : trb_setup.control &&& TRB_TR_IDT = 0
    · rw [if_pos h3]
    rw [if_neg h3]
    by_cases h4 : trb_setup.status &&& 0x1ffff ≠ 8
    · rw [if_pos h4]
    exact absurd hbad (by
      intro hb
      rcases hb with hb | hb | hb | hb
      · exact h1 hb
      · exact h2 hb
      · exact h3 hb
      · exact h4 hb)
  · intro hgood hdir hslot hport hdev
    have h1 : ¬ TRB_TYPE trb_setup ≠ TR_SETUP := fun h => hgood (Or.inl h)
    have h2 : ¬ TRB_TYPE trb_status ≠ TR_STATUS := fun h => hgood (Or.inr (Or.inl h))
    have h3 : ¬ trb_setup.control &&& TRB_TR_IDT = 0 := fun h => hgood (Or.inr (Or.inr (Or.inl h)))
    have h4 : ¬ trb_setup.status &&& 0x1ffff ≠ 8 := fun h => hgood (Or.inr (Or.inr (Or.inr h)))
    have h5 : ¬ (xfer.slotid < 1 ∨ xfer.slotid > MAXSLOTS ∨
        (s.slots (xfer.slotid - 1)).port < 1 ∨ (s.slots (xfer.slotid - 1)).port > MAXPORTS) := by
      omega
    have h6 : ¬ (xhci_find_device usb s ((s.slots (xfer.slotid - 1)).port - 1)
        (s.slots (xfer.slotid - 1)).devaddr = false) := by rw [hdev]; decide
    obtain ⟨t0, rest, htr⟩ : ∃ t0 rest, xfer.trbs = t0 :: rest := by
      cases hx : xfer.trbs with
      | nil => rw [hx] at hfirst; exact absurd hfirst (by simp)
      | cons t0 rest => exact ⟨t0, rest, rfl⟩
    have hsetup : xhci_setup_packet s { xfer with in_xfer := trb_setup.parameter.testBit 7,
                                                  iso_xfer := false } =
        .ok (xhci_xfer_map s { xfer with in_xfer := trb_setup.parameter.testBit 7,
                                         iso_xfer := false,
                                         packet_in := trb_setup.parameter.testBit 7 },
             { xfer with in_xfer := trb_setup.parameter.testBit 7, iso_xfer := false,
                         packet_in := trb_setup.parameter.testBit 7 }) := by
      unfold xhci_setup_packet
      split
      · next h => rw [htr] at h; exact absurd h (by simp)
      · rfl
    refine ⟨_, _, hsetup, rfl, rfl, ?_⟩
    unfold xhci_fire_ctl_transfer
    rw [hfirst, hlast]
    show (if TRB_TYPE trb_setup ≠ TR_SETUP then (Except.ok (s, -1) : Except Fault (XHCIState × Int))
      else if TRB_TYPE trb_status ≠ TR_STATUS then .ok (s, -1)
      else if trb_setup.control &&& TRB_TR_IDT = 0 then .ok (s, -1)
      else if trb_setup.status &&& 0x1ffff ≠ 8 then .ok (s, -1)
      else _) = _
    rw [if_neg h1, if_neg h2, if_neg h3, if_neg h4]
    simp only []
    rw [if_neg h5, if_neg h6, hdir, and_DIR_IN, hsetup]

theorem xhci_fire_ctl_transfer_validation_witness :
    xhci_fire_ctl_transfer qemu_usb_ret ex_usb_512 .bits64 (fun s _ _ => .ok s)
        ex_kick_state 0 ex_xfer = .ok (ex_kick_state, -1) ∧
    ∃ s1 xfer1,
      xhci_setup_packet ex_kick_state { ex_ctl_xfer with in_xfer := true, iso_xfer := false } =
        .ok (s1, xfer1) ∧
      xfer1.in_xfer = true ∧ xfer1.packet_in = true ∧
      xhci_fire_ctl_transfer qemu_usb_ret ex_usb_512 .bits64 (fun s _ _ => .ok s)
          ex_kick_state 0 ex_ctl_xfer =
        submit_packet qemu_usb_ret ex_usb_512 .bits64 (fun s _ _ => .ok s) s1 0
          { xfer1 with packet_parameter := 0x0012000001000680 } :=
  ⟨(xhci_fire_ctl_transfer_validation qemu_usb_ret ex_usb_512 .bits64 (fun s _ _ => .ok s)
      ex_kick_state 0 ex_xfer _ _ rfl rfl).1 (Or.inl (by decide)),
   (xhci_fire_ctl_transfer_validation qemu_usb_ret ex_usb_512 .bits64 (fun s _ _ => .ok s)
      ex_kick_state 0 ex_ctl_xfer _ _ rfl rfl).2 (by decide) rfl (by decide) (by decide)
      (by decide)⟩

/-- C30.  A doorbell write is fatal for the value 0 on a slot doorbell: on a
running controller, a write of 0 to the doorbell register of any slot 1..8
passes the two range checks of `xhci_doorbell_write` (only `val > 31` is
refused) and calls `xhci_kick_ep` with endpoint id 0, whose assertion
`epid >= 1 && epid <= 31` fails. -/
theorem xhci_doorbell_write_epid_zero (rc : USBRetCodes) (usb : USBCore) (w : DmaWidth)
    (rf fuel cf : Nat) (s : XHCIState) (reg : Nat)
    (hrun : xhci_running s = true) (h1 : 1 ≤ reg >>> 2) (h2 : reg >>> 2 ≤ MAXSLOTS) :
    xhci_doorbell_write rc usb w rf (fuel + 1) cf s reg 0 = .error .assertion := by
  have hr : ¬ (xhci_running s = false) := by rw [hrun]; decide
  have h0 : ¬ (reg >>> 2 = 0) := by omega
  have h3 : ¬ (reg >>> 2 > MAXSLOTS) := by omega
  have h4 : ¬ ((0 : Nat) > 31) := by decide
  have h5 : ¬ (reg >>> 2 < 1 ∨ reg >>> 2 > MAXSLOTS) := by omega
  have h6 : (0 : Nat) < 1 ∨ (0 : Nat) > 31 := Or.inl (by decide)
  simp only [xhci_doorbell_write, if_neg hr, if_neg h0, if_neg h3, if_neg h4, xhci_kick_ep,
    kick_ep_pair, kick_ep_entry, if_neg h5, if_pos h6]

theorem xhci_doorbell_write_epid_zero_witness :
    xhci_doorbell_write qemu_usb_ret ex_usb_nak .bits64 8 1 8 ex_ep_state 16 0 =
      .error .assertion :=
  xhci_doorbell_write_epid_zero qemu_usb_ret ex_usb_nak .bits64 8 0 8 ex_ep_state 16
    (by decide) (by decide) (by decide)

/-! ## What the command loop, the reset and Evaluate Context do guarantee -/

/-- The Enable Slot round of C20 is the round of the command loop for a TRB of
type Enable Slot. -/
theorem process_command_enable_slot (w : DmaWidth) (s : XHCIState) (l : CommandLocals)
    (trb : XHCITRB) (addr : Nat) :
    process_command w s l CR_ENABLE_SLOT trb addr = process_enable_slot w s l addr := by
  unfold process_command process_enable_slot command_switch
  rw [if_pos rfl]

theorem address_slot_log_events (w : DmaWidth) (s s1 : XHCIState) (slotid pictx c : Nat)
    (bsr : Bool) (h : xhci_address_slot w s slotid pictx bsr = .ok (s1, c)) :
    s1.log_events = s.log_events := by
  by_cases hslot : 1 ≤ slotid ∧ slotid ≤ MAXSLOTS
  · obtain ⟨r1, r2⟩ := address_slot_rejected w s slotid pictx bsr hslot
    by_cases hctl : (input_control w s pictx).getD 0 0 = 0 ∧ (input_control w s pictx).getD 1 0 = 3
    · obtain ⟨r3, r4⟩ := r2 hctl
      by_cases hport : 1 ≤ input_port w s pictx ∧ input_port w s pictx ≤ MAXPORTS
      · obtain ⟨r5, r6⟩ := r4 hport
        cases hdev : s.port_dev (input_port w s pictx - 1) with
        | false =>
          rw [r5 hdev] at h
          simp only [Except.ok.injEq, Prod.mk.injEq] at h
          rw [← h.1]
        | true =>
          cases hused : port_assigned s (input_port w s pictx) MAXSLOTS 0 with
          | true =>
            rw [r6 hdev hused] at h
            simp only [Except.ok.injEq, Prod.mk.injEq] at h
            rw [← h.1]
          | false =>
            obtain ⟨s2, res, h2, -, -, -, -, -, -, -, -, hlog, -⟩ :=
              address_slot_accepted w s slotid pictx bsr hslot hctl hport hdev hused
            rw [h2] at h
            simp only [Except.ok.injEq, Prod.mk.injEq] at h
            rw [← h.1]
            exact hlog
      · rw [r3 hport] at h
        exact absurd h (by simp)
    · rw [r1 hctl] at h
      simp only [Except.ok.injEq, Prod.mk.injEq] at h
      rw [← h.1]
  · have h1 : slotid < 1 ∨ slotid > MAXSLOTS := by omega
    unfold xhci_address_slot at h
    rw [if_pos h1] at h
    exact absurd h (by simp)

theorem disable_slot_log_events (s s1 : XHCIState) (slotid c : Nat)
    (h : xhci_disable_slot s slotid = .ok (s1, c)) : s1.log_events = s.log_events := by
  unfold xhci_disable_slot at h
  split at h
  · exact absurd h (by simp)
  split at h
  · exact absurd h (by simp)
  · next s2 hl =>
    have f := (ep_frame_regs _ _ _ (disable_slot_loop_frame slotid _ _ _ _ hl)).2.2.2.2.2.2.2.2.2.2.1
    simp only [Except.ok.injEq, Prod.mk.injEq] at h
    rw [← h.1, ← f]

theorem frame_log_events (k : Nat) (s s1 : XHCIState) (h : ep_frame k s s1) :
    s1.log_events = s.log_events :=
  (ep_frame_regs k s s1 h).2.2.2.2.2.2.2.2.2.2.1

theorem get_slot_event (s : XHCIState) (e : XHCIEvent) (trb : XHCITRB) :
    ∃ c, (xhci_get_slot s e trb).1 = { e with ccode := c } := by
  unfold xhci_get_slot
  simp only []
  split
  · exact ⟨_, rfl⟩
  · split
    · exact ⟨_, rfl⟩
    · exact ⟨e.ccode, rfl⟩

theorem command_on_slot_event (s s1 : XHCIState) (l l1 : CommandLocals) (trb : XHCITRB)
    (f : XHCIState → Nat → Except Fault (XHCIState × Nat))
    (hf : ∀ sa sb slotid c, f sa slotid = .ok (sb, c) → sb.log_events = sa.log_events)
    (h : command_on_slot s l trb f = .ok (s1, l1)) :
    s1.log_events = s.log_events ∧ ∃ c, l1.event = { l.event with ccode := c } := by
  obtain ⟨c0, hg⟩ := get_slot_event s l.event trb
  unfold command_on_slot at h
  simp only [] at h
  split at h
  · split at h
    · exact absurd h (by simp)
    · next s2 c hc =>
      simp only [Except.ok.injEq, Prod.mk.injEq] at h
      rw [← h.1, ← h.2]
      refine ⟨hf _ _ _ _ hc, c, ?_⟩
      simp only [hg]
  · simp only [Except.ok.injEq, Prod.mk.injEq] at h
    rw [← h.1, ← h.2]
    exact ⟨rfl, c0, hg⟩

/-- The `switch` of `xhci_process_commands` posts no event itself, and outside
the two NEC vendor cases it changes nothing of the event but the completion
code. -/
theorem command_switch_event (w : DmaWidth) (s s1 : XHCIState) (l l1 : CommandLocals)
    (type : Nat) (trb : XHCITRB)
    (hnec : type ≠ CR_VENDOR_NEC_FIRMWARE_REVISION ∧ type ≠ CR_VENDOR_NEC_CHALLENGE_RESPONSE)
    (h : command_switch w s l type trb = .ok (s1, l1)) :
    s1.log_events = s.log_events ∧ ∃ c, l1.event = { l.event with ccode := c } := by
  unfold command_switch at h
  by_cases h9 : type = CR_ENABLE_SLOT
  · rw [if_pos h9] at h
    unfold command_enable_slot at h
    simp only [] at h
    split at h
    · simp only [Except.ok.injEq, Prod.mk.injEq] at h
      rw [← h.1, ← h.2]
      exact ⟨rfl, _, rfl⟩
    · split at h
      · exact absurd h (by simp)
      · next s2 c hc =>
        simp only [Except.ok.injEq, Prod.mk.injEq] at h
        rw [← h.1, ← h.2]
        refine ⟨?_, c, rfl⟩
        unfold xhci_enable_slot at hc
        split at hc
        · exact absurd hc (by simp)
        · simp only [Except.ok.injEq, Prod.mk.injEq] at hc
          rw [← hc.1]
  rw [if_neg h9] at h
  by_cases h10 : type = CR_DISABLE_SLOT
  · rw [if_pos h10] at h
    exact command_on_slot_event s s1 l l1 trb _
      (fun sa sb slotid c hc => disable_slot_log_events sa sb slotid c hc) h
  rw [if_neg h10] at h
  by_cases h11 : type = CR_ADDRESS_DEVICE
  · rw [if_pos h11] at h
    exact command_on_slot_event s s1 l l1 trb _
      (fun sa sb slotid c hc => address_slot_log_events w sa sb slotid _ c _ hc) h
  rw [if_neg h11] at h
  by_cases h12 : type = CR_CONFIGURE_ENDPOINT
  · rw [if_pos h12] at h
    exact command_on_slot_event s s1 l l1 trb _
      (fun sa sb slotid c hc =>
        frame_log_events _ sa sb (configure_slot_frame w sa sb slotid _ c _ hc)) h
  rw [if_neg h12] at h
  by_cases h13 : type = CR_EVALUATE_CONTEXT
  · rw [if_pos h13] at h
    exact command_on_slot_event s s1 l l1 trb _
      (fun sa sb slotid c hc => by
        obtain ⟨m, hm⟩ := evaluate_slot_frame w sa sb slotid _ c hc
        rw [hm]) h
  rw [if_neg h13] at h
  by_cases h15 : type = CR_STOP_ENDPOINT
  · rw [if_pos h15] at h
    exact command_on_slot_event s s1 l l1 trb _
      (fun sa sb slotid c hc => frame_log_events _ sa sb (stop_ep_frame sa sb slotid _ c hc)) h
  rw [if_neg h15] at h
  by_cases h14 : type = CR_RESET_ENDPOINT
  · rw [if_pos h14] at h
    exact command_on_slot_event s s1 l l1 trb _
      (fun sa sb slotid c hc => frame_log_events _ sa sb (reset_ep_frame sa sb slotid _ c hc)) h
  rw [if_neg h14] at h
  by_cases h16 : type = CR_SET_TR_DEQUEUE
  · rw [if_pos h16] at h
    exact command_on_slot_event s s1 l l1 trb _
      (fun sa sb slotid c hc =>
        frame_log_events _ sa sb (set_ep_dequeue_frame w sa sb slotid _ _ c hc)) h
  rw [if_neg h16] at h
  by_cases h17 : type = CR_RESET_DEVICE
  · rw [if_pos h17] at h
    exact command_on_slot_event s s1 l l1 trb _
      (fun sa sb slotid c hc => frame_log_events _ sa sb (reset_slot_frame sa sb slotid c hc)) h
  rw [if_neg h17] at h
  by_cases h21 : type = CR_GET_PORT_BANDWIDTH
  · rw [if_pos h21] at h
    simp only [Except.ok.injEq, Prod.mk.injEq] at h
    rw [← h.1, ← h.2]
    exact ⟨rfl, _, rfl⟩
  rw [if_neg h21] at h
  by_cases h48 : type = CR_VENDOR_VIA_CHALLENGE_RESPONSE
  · rw [if_pos h48] at h
    simp only [Except.ok.injEq, Prod.mk.injEq] at h
    rw [← h.1, ← h.2]
    exact ⟨rfl, l.event.ccode, rfl⟩
  rw [if_neg h48, if_neg hnec.1, if_neg hnec.2] at h
  simp only [Except.ok.injEq, Prod.mk.injEq] at h
  rw [← h.1, ← h.2]
  exact ⟨rfl, _, rfl⟩

/-- One event per command, Command Completion unless a NEC vendor command came
before: a round of the command loop that starts with the event local as
initialised (type Command Completion, length 0, endpoint id 0) and handles a
TRB that is not a NEC vendor command posts exactly one event, of type Command
Completion with pointer the address of the TRB, length 0 and endpoint id 0, and
leaves the event local as initialised; for a command type without a `case` the
event carries TRB_ERROR and the state is the one that posting this event alone
gives. -/
theorem process_command_event (w : DmaWidth) (s s1 : XHCIState) (l l1 : CommandLocals)
    (type : Nat) (trb : XHCITRB) (addr : Nat)
    (hfresh : event_fresh l)
    (hnec : type ≠ CR_VENDOR_NEC_FIRMWARE_REVISION ∧ type ≠ CR_VENDOR_NEC_CHALLENGE_RESPONSE)
    (h : process_command w s l type trb addr = .ok (s1, l1)) :
    event_fresh l1 ∧
    (∃ e, s1.log_events = s.log_events ++ [e] ∧ e.type = ER_COMMAND_COMPLETE ∧
      e.ptr = addr ∧ e.length = 0 ∧ e.epid = 0) ∧
    (¬ command_known type →
      xhci_event w s { l.event with ptr := addr, ccode := CC_TRB_ERROR, slotid := u8 l.slotid } =
        .ok s1) := by
  have hunk : ¬ command_known type →
      command_switch w s { l with event := { l.event with ptr := addr } } type trb =
        .ok (s, { l with event := { l.event with ptr := addr, ccode := CC_TRB_ERROR } }) := by
    intro hk
    unfold command_known at hk
    simp only [not_or] at hk
    obtain ⟨k1, k2, k3, k4, k5, k6, k7, k8, k9, k10, k11, k12, k13⟩ := hk
    unfold command_switch
    rw [if_neg k1, if_neg k2, if_neg k3, if_neg k4, if_neg k5, if_neg k6, if_neg k7, if_neg k8,
      if_neg k9, if_neg k10, if_neg k11, if_neg k12, if_neg k13]
  unfold process_command at h
  split at h
  · exact absurd h (by simp)
  · next s2 l2 hc =>
    obtain ⟨hlog, c, hev⟩ := command_switch_event w s s2 _ l2 type trb hnec hc
    simp only [] at h
    obtain ⟨s4, h4, hlog4, -⟩ := xhci_event_returns w s2 { l2.event with slotid := u8 l2.slotid }
    rw [h4] at h
    simp only [Except.ok.injEq, Prod.mk.injEq] at h
    obtain ⟨ht, hl, he⟩ := hfresh
    refine ⟨?_, ⟨{ l2.event with slotid := u8 l2.slotid }, ?_, ?_, ?_, ?_, ?_⟩, fun hk => ?_⟩
    · rw [← h.2]
      unfold event_fresh
      simp only [hev]
      exact ⟨ht, hl, he⟩
    · rw [← h.1, hlog4, hlog]
    · simp only [hev]; exact ht
    · simp only [hev]
    · simp only [hev]; exact hl
    · simp only [hev]; exact he
    · rw [hunk hk] at hc
      simp only [Except.ok.injEq, Prod.mk.injEq] at hc
      rw [← h.1, ← h4, ← hc.1, ← hc.2]

/-- Witness: the Enable Slot round on `ex_enum_state`. -/
theorem process_command_event_witness :
    event_fresh ex_enabled.2 ∧
    ∃ e, ex_enabled.1.log_events = ex_enum_state.log_events ++ [e] ∧
      e.type = ER_COMMAND_COMPLETE ∧ e.ptr = 0x700 ∧ e.length = 0 ∧ e.epid = 0 :=
  ⟨(process_command_event .bits64 ex_enum_state ex_enabled.1 command_locals_init ex_enabled.2
      CR_ENABLE_SLOT ex_trb_enable 0x700 ⟨rfl, rfl, rfl⟩ (by decide) rfl).1,
   (process_command_event .bits64 ex_enum_state ex_enabled.1 command_locals_init ex_enabled.2
      CR_ENABLE_SLOT ex_trb_enable 0x700 ⟨rfl, rfl, rfl⟩ (by decide) rfl).2.1⟩

theorem irq_update_frame (s : XHCIState) :
    ∃ irq, xhci_irq_update s = { s with log_irq := irq } := by
  unfold xhci_irq_update
  simp only []
  split
  · split
    · exact ⟨_, rfl⟩
    · exact ⟨s.log_irq, rfl⟩
  · exact ⟨_, rfl⟩

/-- Controller reset through USBCMD: a write to USBCMD with HCRST set always
returns and leaves USBCMD, DNCTRL, CRCR, DCBAAP, CONFIG and the runtime
registers zero, USBSTS equal to HCH, the event ring producer at index 0 with
cycle 1 and not full, the software queue empty and the next device address 2;
it posts no event and writes no event TRB; and it leaves every slot disabled
and without endpoints, each with the port number it had. -/
theorem oper_write_hcrst (usb : USBCore) (w : DmaWidth) (s : XHCIState) (val : Nat)
    (h : val &&& USBCMD_HCRST ≠ 0) :
    ∃ s1, xhci_oper_write usb w s 0x00 val = .ok s1 ∧
      s1.usbcmd = 0 ∧ s1.usbsts = USBSTS_HCH ∧ s1.dnctrl = 0 ∧ s1.crcr_low = 0 ∧
      s1.crcr_high = 0 ∧ s1.dcbaap_low = 0 ∧ s1.dcbaap_high = 0 ∧ s1.config = 0 ∧
      s1.mfindex = 0 ∧ s1.iman = 0 ∧ s1.imod = 0 ∧ s1.erstsz = 0 ∧ s1.erstba_low = 0 ∧
      s1.erstba_high = 0 ∧ s1.erdp_low = 0 ∧ s1.erdp_high = 0 ∧
      s1.er_ep_idx = 0 ∧ s1.er_pcs = true ∧ s1.er_full = false ∧
      s1.ev_buffer_put = 0 ∧ s1.ev_buffer_get = 0 ∧ s1.devaddr = 2 ∧
      s1.log_events = s.log_events ∧ s1.log_ev_trbs = s.log_ev_trbs ∧
      (∀ k, k < MAXSLOTS →
        (s1.slots k).enabled = false ∧ ∀ j, j < 31 → (s1.slots k).eps j = none) ∧
      (∀ k, (s1.slots k).port = (s.slots k).port) := by
  have hpre : ∃ sts crcr, (if val &&& USBCMD_RS ≠ 0 ∧ s.usbcmd &&& USBCMD_RS = 0 then xhci_run s
      else if val &&& USBCMD_RS = 0 ∧ s.usbcmd &&& USBCMD_RS ≠ 0 then xhci_stop s
      else s) = { s with usbsts := sts, crcr_low := crcr } := by
    split
    · exact ⟨_, s.crcr_low, rfl⟩
    · split
      · exact ⟨_, _, rfl⟩
      · exact ⟨s.usbsts, s.crcr_low, rfl⟩
  obtain ⟨sts, crcr, hp⟩ := hpre
  obtain ⟨s1, h1, r1, r2, r3, r4, r5, r6, r7, r8, r9, r10, r11, r12, r13, r14, r15, r16, r17,
    r18, r19, r20, r21, r22, r23, r24, -, hsl, hports⟩ :=
    xhci_reset_spec usb w { s with usbsts := sts, crcr_low := crcr, usbcmd := val &&& 0xc0f }
  obtain ⟨irq, hirq⟩ := irq_update_frame s1
  have hres : xhci_oper_write usb w s 0x00 val = .ok (xhci_irq_update s1) := by
    unfold xhci_oper_write
    rw [if_neg (by decide), if_pos rfl]
    simp only [hp]
    rw [if_pos h, h1]
  refine ⟨_, hres, ?_⟩
  rw [hirq]
  exact ⟨r1, r2, r3, r4, r5, r6, r7, r8, r9, r10, r11, r12, r13, r14, r15, r16, r17, r18, r19,
    r20, r21, r22, r23, r24, hsl, hports⟩

/-- Witness: HCRST written on `ex_stale_state`. -/
theorem oper_write_hcrst_witness :
    ∃ s1, xhci_oper_write ex_usb_512 .bits64 ex_stale_state 0x00 USBCMD_HCRST = .ok s1 ∧
      s1.usbsts = USBSTS_HCH ∧ s1.devaddr = 2 ∧ s1.log_events = ex_stale_state.log_events ∧
      (∀ k, k < MAXSLOTS →
        (s1.slots k).enabled = false ∧ ∀ j, j < 31 → (s1.slots k).eps j = none) := by
  obtain ⟨s1, h1, -, r2, -, -, -, -, -, -, -, -, -, -, -, -, -, -, -, -, -, -, -, r22, r23, -,
    hsl, -⟩ := oper_write_hcrst ex_usb_512 .bits64 ex_stale_state USBCMD_HCRST (by decide)
  exact ⟨s1, h1, r2, r22, r23, hsl⟩

theorem word_lt (mem : Mem) (a : Nat) : le_to_cpu (pci_dma_read mem a 4) < 4294967296 := by
  rw [word_read]
  omega

theorem read_ctx_length (mem : Mem) (a n : Nat) : (read_ctx mem a n).length = n := by
  simp [read_ctx]

theorem read_ctx_lt (mem : Mem) (a n k : Nat) : (read_ctx mem a n).getD k 0 < 4294967296 := by
  by_cases hk : k < n
  · rw [read_ctx_getD mem a n k hk]
    exact word_lt _ _
  · rw [List.getD_eq_getElem?_getD, List.getElem?_eq_none (by rw [read_ctx_length]; omega)]
    decide

theorem and_or_lt (a b m1 m2 : Nat) (ha : a < 4294967296) (hb : b < 4294967296) :
    ((a &&& m1) ||| (b &&& m2)) % 4294967296 = (a &&& m1) ||| (b &&& m2) := by
  apply Nat.mod_eq_of_lt
  have h32 : (4294967296 : Nat) = 2 ^ 32 := by decide
  rw [h32] at ha hb ⊢
  exact Nat.or_lt_two_pow (Nat.lt_of_le_of_lt Nat.and_le_left ha)
    (Nat.lt_of_le_of_lt Nat.and_le_left hb)

/-- Evaluate Context, the parts that hold.  An input control context with a
non-zero drop word or an add bit above bit 1 gives TRB_ERROR and changes
nothing.  With add word 1 the command succeeds and rewrites the output slot
context: dwords 0 and 3 keep their value, dword 1 gets its low 16 bits (max
exit latency) from the input slot context and keeps the others, and dword 2
becomes `(old & 0xF00FFFFF) | (input & 0xFF000000)`, the old value with bits
20..27 cleared OR-ed with the input's bits 24..31.  With add word 2 it succeeds
and rewrites the output endpoint 0 context: dword 1 gets its high 16 bits (max
packet size) from the input endpoint 0 context and keeps the others, and
dwords 0, 2, 3 and 4 keep their value. -/
theorem xhci_evaluate_slot_patches (w : DmaWidth) (s : XHCIState) (slotid pictx : Nat)
    (hslot : 1 ≤ slotid ∧ slotid ≤ MAXSLOTS) :
    let octx := (s.slots (slotid - 1)).ctx
    let islot := read_ctx s.mem (dma_addr w (xhci_mask64 w pictx + 32)) 4
    let oslot := read_ctx s.mem octx 4
    let iep0 := read_ctx s.mem (dma_addr w (xhci_mask64 w pictx + 64)) 5
    let oep0 := read_ctx s.mem (dma_addr w (octx + 32)) 5
    ((input_control w s pictx).getD 0 0 ≠ 0 ∨
        (input_control w s pictx).getD 1 0 &&& 0xfffffffc ≠ 0 →
      xhci_evaluate_slot w s slotid pictx = .ok (s, CC_TRB_ERROR)) ∧
    ((input_control w s pictx).getD 0 0 = 0 → (input_control w s pictx).getD 1 0 = 1 →
      ∃ s1, xhci_evaluate_slot w s slotid pictx = .ok (s1, CC_SUCCESS) ∧
        read_ctx s1.mem octx 4 =
          [oslot.getD 0 0,
           (oslot.getD 1 0 &&& 0xffff0000) ||| (islot.getD 1 0 &&& 0xFFFF),
           (oslot.getD 2 0 &&& 0xf00fffff) ||| (islot.getD 2 0 &&& 0xFF000000),
           oslot.getD 3 0]) ∧
    ((input_control w s pictx).getD 0 0 = 0 → (input_control w s pictx).getD 1 0 = 2 →
      ∃ s1, xhci_evaluate_slot w s slotid pictx = .ok (s1, CC_SUCCESS) ∧
        read_ctx s1.mem (dma_addr w (octx + 32)) 5 =
          [oep0.getD 0 0,
           (oep0.getD 1 0 &&& 0x0000ffff) ||| (iep0.getD 1 0 &&& 0xFFFF0000),
           oep0.getD 2 0, oep0.getD 3 0, oep0.getD 4 0]) := by
  intro octx islot oslot iep0 oep0
  have h1 : ¬ (slotid < 1 ∨ slotid > MAXSLOTS) := by omega
  have hlist4 : ∀ (m : Mem) (a : Nat), read_ctx m a 4 =
      [(read_ctx m a 4).getD 0 0, (read_ctx m a 4).getD 1 0, (read_ctx m a 4).getD 2 0,
       (read_ctx m a 4).getD 3 0] := by
    intro m a
    simp [read_ctx, List.range_succ]
  have hlist5 : ∀ (m : Mem) (a : Nat), read_ctx m a 5 =
      [(read_ctx m a 5).getD 0 0, (read_ctx m a 5).getD 1 0, (read_ctx m a 5).getD 2 0,
       (read_ctx m a 5).getD 3 0, (read_ctx m a 5).getD 4 0] := by
    intro m a
    simp [read_ctx, List.range_succ]
  refine ⟨fun hbad => ?_, fun h0 h1a => ?_, fun h0 h1a => ?_⟩
  · unfold input_control at hbad
    unfold xhci_evaluate_slot
    rw [if_neg h1]
    simp only []
    rw [if_pos hbad]
  · have hok : ¬ ((input_control w s pictx).getD 0 0 ≠ 0x0 ∨
        (input_control w s pictx).getD 1 0 &&& 0xfffffffc ≠ 0) := by
      rw [h0, h1a]; decide
    have hb0 : (input_control w s pictx).getD 1 0 &&& 0x1 ≠ 0 := by rw [h1a]; decide
    have hb1 : ¬ ((input_control w s pictx).getD 1 0 &&& 0x2 ≠ 0) := by rw [h1a]; decide
    unfold input_control at hok hb0 hb1
    have hres : xhci_evaluate_slot w s slotid pictx =
        .ok ({ s with
               mem := write_ctx s.mem octx
                 ((oslot.set 1 ((oslot.getD 1 0 &&& 0xffff0000) ||| (islot.getD 1 0 &&& 0xFFFF))).set
                   2 ((oslot.getD 2 0 &&& 0xf00fffff) ||| (islot.getD 2 0 &&& 0xFF000000))) },
             CC_SUCCESS) := by
      unfold xhci_evaluate_slot
      rw [if_neg h1]
      simp only []
      rw [if_neg hok]
      simp only [if_pos hb0, if_neg hb1]
    refine ⟨_, hres, ?_⟩
    have hlen : ((oslot.set 1 ((oslot.getD 1 0 &&& 0xffff0000) ||| (islot.getD 1 0 &&& 0xFFFF))).set
        2 ((oslot.getD 2 0 &&& 0xf00fffff) ||| (islot.getD 2 0 &&& 0xFF000000))).length = 4 := by
      simp only [List.length_set]
      exact read_ctx_length _ _ _
    have hw : ∀ k, k < 4 → (read_ctx (write_ctx s.mem octx
          ((oslot.set 1 ((oslot.getD 1 0 &&& 0xffff0000) ||| (islot.getD 1 0 &&& 0xFFFF))).set
            2 ((oslot.getD 2 0 &&& 0xf00fffff) ||| (islot.getD 2 0 &&& 0xFF000000)))) octx
          4).getD k 0 =
        ((oslot.set 1 ((oslot.getD 1 0 &&& 0xffff0000) ||| (islot.getD 1 0 &&& 0xFFFF))).set
          2 ((oslot.getD 2 0 &&& 0xf00fffff) ||| (islot.getD 2 0 &&& 0xFF000000))).getD k 0 %
          4294967296 := by
      intro k hk
      rw [read_ctx_getD _ _ _ _ hk, word_write_same _ _ _ k (by rw [hlen]; exact hk)]
    have hl0 : (0 : Nat) < oslot.length := by rw [read_ctx_length]; decide
    have hl1 : (1 : Nat) < oslot.length := by rw [read_ctx_length]; decide
    have hl2 : (2 : Nat) < oslot.length := by rw [read_ctx_length]; decide
    have hl3 : (3 : Nat) < oslot.length := by rw [read_ctx_length]; decide
    show read_ctx (write_ctx s.mem octx _) octx 4 = _
    rw [hlist4 (write_ctx s.mem octx _) octx, hw 0 (by decide), hw 1 (by decide),
      hw 2 (by decide), hw 3 (by decide)]
    simp only [List.getD_eq_getElem?_getD, List.getElem?_set, List.length_set, hl0, hl1, hl2,
      hl3, if_true, if_false, Nat.succ_ne_zero, Nat.reduceEqDiff, OfNat.ofNat_ne_zero,
      OfNat.zero_ne_ofNat, OfNat.ofNat_ne_one, OfNat.one_ne_ofNat, Option.getD_some]
    simp only [← List.getD_eq_getElem?_getD]
    rw [Nat.mod_eq_of_lt (read_ctx_lt s.mem octx 4 0), Nat.mod_eq_of_lt (read_ctx_lt s.mem octx 4 3),
      and_or_lt _ _ _ _ (read_ctx_lt s.mem octx 4 1) (read_ctx_lt _ _ 4 1),
      and_or_lt _ _ _ _ (read_ctx_lt s.mem octx 4 2) (read_ctx_lt _ _ 4 2)]
  · have hok : ¬ ((input_control w s pictx).getD 0 0 ≠ 0x0 ∨
        (input_control w s pictx).getD 1 0 &&& 0xfffffffc ≠ 0) := by
      rw [h0, h1a]; decide
    have hb0 : ¬ ((input_control w s pictx).getD 1 0 &&& 0x1 ≠ 0) := by rw [h1a]; decide
    have hb1 : (input_control w s pictx).getD 1 0 &&& 0x2 ≠ 0 := by rw [h1a]; decide
    unfold input_control at hok hb0 hb1
    have hres : xhci_evaluate_slot w s slotid pictx =
        .ok ({ s with
               mem := write_ctx s.mem (dma_addr w (octx + 32))
                 (oep0.set 1 ((oep0.getD 1 0 &&& 0x0000ffff) ||| (iep0.getD 1 0 &&& 0xFFFF0000))) },
             CC_SUCCESS) := by
      unfold xhci_evaluate_slot
      rw [if_neg h1]
      simp only []
      rw [if_neg hok]
      simp only [if_neg hb0, if_pos hb1]
    refine ⟨_, hres, ?_⟩
    have hlen : (oep0.set 1
        ((oep0.getD 1 0 &&& 0x0000ffff) ||| (iep0.getD 1 0 &&& 0xFFFF0000))).length = 5 := by
      simp only [List.length_set]
      exact read_ctx_length _ _ _
    have hw : ∀ k, k < 5 → (read_ctx (write_ctx s.mem (dma_addr w (octx + 32))
          (oep0.set 1 ((oep0.getD 1 0 &&& 0x0000ffff) ||| (iep0.getD 1 0 &&& 0xFFFF0000))))
          (dma_addr w (octx + 32)) 5).getD k 0 =
        (oep0.set 1 ((oep0.getD 1 0 &&& 0x0000ffff) ||| (iep0.getD 1 0 &&& 0xFFFF0000))).getD k 0 %
          4294967296 := by
      intro k hk
      rw [read_ctx_getD _ _ _ _ hk, word_write_same _ _ _ k (by rw [hlen]; exact hk)]
    have hl0 : (0 : Nat) < oep0.length := by rw [read_ctx_length]; decide
    have hl1 : (1 : Nat) < oep0.length := by rw [read_ctx_length]; decide
    have hl2 : (2 : Nat) < oep0.length := by rw [read_ctx_length]; decide
    have hl3 : (3 : Nat) < oep0.length := by rw [read_ctx_length]; decide
    have hl4 : (4 : Nat) < oep0.length := by rw [read_ctx_length]; decide
    show read_ctx (write_ctx s.mem (dma_addr w (octx + 32)) _) (dma_addr w (octx + 32)) 5 = _
    rw [hlist5 (write_ctx s.mem (dma_addr w (octx + 32)) _) (dma_addr w (octx + 32)),
      hw 0 (by decide), hw 1 (by decide), hw 2 (by decide), hw 3 (by decide), hw 4 (by decide)]
    simp only [List.getD_eq_getElem?_getD, List.getElem?_set, List.length_set, hl0, hl1, hl2,
      hl3, hl4, if_true, if_false, Nat.succ_ne_zero, Nat.reduceEqDiff, OfNat.ofNat_ne_zero,
      OfNat.zero_ne_ofNat, OfNat.ofNat_ne_one, OfNat.one_ne_ofNat, Option.getD_some]
    simp only [← List.getD_eq_getElem?_getD]
    rw [Nat.mod_eq_of_lt (read_ctx_lt s.mem (dma_addr w (octx + 32)) 5 0),
      Nat.mod_eq_of_lt (read_ctx_lt s.mem (dma_addr w (octx + 32)) 5 2),
      Nat.mod_eq_of_lt (read_ctx_lt s.mem (dma_addr w (octx + 32)) 5 3),
      Nat.mod_eq_of_lt (read_ctx_lt s.mem (dma_addr w (octx + 32)) 5 4),
      and_or_lt _ _ _ _ (read_ctx_lt s.mem (dma_addr w (octx + 32)) 5 1) (read_ctx_lt _ _ 5 1)]

/-- Witness: Evaluate Context on `ex_eval_state`, whose input control context
has add word 1. -/
theorem xhci_evaluate_slot_patches_witness :
    ∃ s1, xhci_evaluate_slot .bits64 ex_eval_state 1 0x4000 = .ok (s1, CC_SUCCESS) ∧
      (read_ctx s1.mem 0x8000 4).getD 1 0 = 0x00011234 := by
  obtain ⟨s1, h1, h2⟩ :=
    (xhci_evaluate_slot_patches .bits64 ex_eval_state 1 0x4000 (by decide)).2.1 (by decide)
      (by decide)
  refine ⟨s1, h1, ?_⟩
  have h3 : (read_ctx s1.mem 0x8000 4).getD 1 0 =
      ((read_ctx ex_eval_state.mem 0x8000 4).getD 1 0 &&& 0xffff0000) |||
        ((read_ctx ex_eval_state.mem (dma_addr .bits64 (xhci_mask64 .bits64 0x4000 + 32))
          4).getD 1 0 &&& 0xFFFF) := by
    rw [show read_ctx s1.mem 0x8000 4 = _ from h2]
    rfl
  rw [h3]
  decide

/-! ## Unimplemented register offsets -/

theorem window_offsets :
    OFF_OPER = 0x40 ∧ LEN_OPER = 0x480 ∧ OFF_RUNTIME = 0x4e0 ∧ LEN_RUNTIME = 0x40 ∧
      OFF_DOORBELL = 0x520 ∧ LEN_DOORBELL = 0x120 := by decide

/-- C31, as amended.  An aligned guest access at a register offset of the
operational or the runtime window that has no `case` in the register functions
is ignored (the code only prints a message): a write returns with the controller
state exactly as it was, so HCE keeps the value it had, and a read returns 0.
The offsets without a `case` are, for writes, those of the operational window
below `0x400` other than `0x00`, `0x04`, `0x14`, `0x18`, `0x1c`, `0x30`, `0x34`,
`0x38`, those of a port register set other than PORTSC, and those of the
runtime window other than `0x20`, `0x24`, `0x28`, `0x30`, `0x34`, `0x38`,
`0x3c`; for reads the same without `0x08` of the operational window (PAGESIZE,
which reads 1) and `0x00` of the runtime window (MFINDEX). -/
theorem unimplemented_register_ignored (rc : USBRetCodes) (usb : USBCore) (w : DmaWidth)
    (rf fuel cf ef : Nat) (s : XHCIState) (addr val : Nat) (hal : addr &&& 3 = 0) :
    (OFF_OPER ≤ addr ∧ addr < OFF_OPER + 0x400 →
      (∀ r ∈ [0x00, 0x04, 0x14, 0x18, 0x1c, 0x30, 0x34, 0x38], addr - OFF_OPER ≠ r) →
      xhci_mem_write rc usb w rf fuel cf ef s addr val = .ok s) ∧
    (OFF_OPER + 0x400 ≤ addr ∧ addr < OFF_OPER + LEN_OPER →
      (addr - OFF_OPER - 0x400) &&& 0xf ≠ 0 →
      xhci_mem_write rc usb w rf fuel cf ef s addr val = .ok s ∧
        xhci_mem_read w s addr = 0) ∧
    (OFF_RUNTIME ≤ addr ∧ addr < OFF_RUNTIME + LEN_RUNTIME →
      (∀ r ∈ [0x20, 0x24, 0x28, 0x30, 0x34, 0x38, 0x3c], addr - OFF_RUNTIME ≠ r) →
      xhci_mem_write rc usb w rf fuel cf ef s addr val = .ok s) ∧
    (OFF_OPER ≤ addr ∧ addr < OFF_OPER + 0x400 →
      (∀ r ∈ [0x00, 0x04, 0x08, 0x14, 0x18, 0x1c, 0x30, 0x34, 0x38], addr - OFF_OPER ≠ r) →
      xhci_mem_read w s addr = 0) ∧
    (OFF_RUNTIME ≤ addr ∧ addr < OFF_RUNTIME + LEN_RUNTIME →
      (∀ r ∈ [0x00, 0x20, 0x24, 0x28, 0x30, 0x34, 0x38, 0x3c], addr - OFF_RUNTIME ≠ r) →
      xhci_mem_read w s addr = 0) := by
  obtain ⟨o1, o2, o3, o4, -, -⟩ := window_offsets
  have hal2 : ¬ addr &&& 3 ≠ 0 := not_not.mpr hal
  have hcap : LEN_CAP = 0x40 := rfl
  rw [o1, o2, o3, o4]
  refine ⟨?_, ?_, ?_, ?_, ?_⟩
  · intro hw hr
    simp only [List.mem_cons, List.mem_singleton, List.not_mem_nil, or_false, forall_eq_or_imp,
      forall_eq] at hr
    obtain ⟨r0, r1, r2, r3, r4, r5, r6, r7⟩ := hr
    unfold xhci_mem_write
    rw [if_neg hal2, o1, o2, if_pos (by omega)]
    unfold xhci_oper_write
    rw [if_neg (by omega), if_neg r0, if_neg r1, if_neg r2, if_neg r3, if_neg r4, if_neg r5,
      if_neg r6, if_neg r7]
  · intro hw hr
    refine ⟨?_, ?_⟩
    · unfold xhci_mem_write
      rw [if_neg hal2, o1, o2, if_pos (by omega)]
      unfold xhci_oper_write
      rw [if_pos (by omega)]
      unfold xhci_port_write
      simp only []
      rw [if_neg hr]
      split <;> rfl
    · unfold xhci_mem_read
      rw [if_neg hal2, hcap, if_neg (by omega), o1, o2, if_pos (by omega)]
      unfold xhci_oper_read
      rw [if_pos (by omega)]
      unfold xhci_port_read
      simp only []
      rw [if_neg hr]
      split
      · rfl
      · split <;> rfl
  · intro hw hr
    simp only [List.mem_cons, List.mem_singleton, List.not_mem_nil, or_false, forall_eq_or_imp,
      forall_eq] at hr
    obtain ⟨r0, r1, r2, r3, r4, r5, r6⟩ := hr
    unfold xhci_mem_write
    rw [if_neg hal2, o1, o2, if_neg (by omega), o3, o4, if_pos (by omega)]
    unfold xhci_runtime_write
    rw [if_neg r0, if_neg r1, if_neg r2, if_neg r3, if_neg r4, if_neg r5, if_neg r6]
  · intro hw hr
    simp only [List.mem_cons, List.mem_singleton, List.not_mem_nil, or_false, forall_eq_or_imp,
      forall_eq] at hr
    obtain ⟨r0, r1, r2, r3, r4, r5, r6, r7, r8⟩ := hr
    unfold xhci_mem_read
    rw [if_neg hal2, hcap, if_neg (by omega), o1, o2, if_pos (by omega)]
    unfold xhci_oper_read
    rw [if_neg (by omega), if_neg r0, if_neg r1, if_neg r2, if_neg r3, if_neg r4, if_neg r5,
      if_neg r6, if_neg r7, if_neg r8]
  · intro hw hr
    simp only [List.mem_cons, List.mem_singleton, List.not_mem_nil, or_false, forall_eq_or_imp,
      forall_eq] at hr
    obtain ⟨r0, r1, r2, r3, r4, r5, r6, r7⟩ := hr
    unfold xhci_mem_read
    rw [if_neg hal2, hcap, if_neg (by omega), o1, o2, if_neg (by omega), o3, o4,
      if_pos (by omega)]
    unfold xhci_runtime_read
    rw [if_neg r0, if_neg r1, if_neg r2, if_neg r3, if_neg r4, if_neg r5, if_neg r6, if_neg r7]

/-- Witness for C31 as amended: a write of 5 at offset `0x08` of the
operational window (PAGESIZE, which has no `case` in `xhci_oper_write`) of
`ex_ring_state`. -/
theorem unimplemented_register_ignored_witness :
    xhci_mem_write qemu_usb_ret ex_usb_512 .bits64 8 6 8 704 ex_ring_state 0x48 5 =
      .ok ex_ring_state :=
  (unimplemented_register_ignored qemu_usb_ret ex_usb_512 .bits64 8 6 8 704 ex_ring_state 0x48 5
    (by decide)).1 (by decide) (by decide)

/-- Counterexample to C31 as stated.  On `ex_ring_state`, whose HCE bit is
clear, the guest writes at offset `0x0c` of the operational window and at
offset `0x04` of the runtime window and reads at offset `0x10` of the
operational window, none of which is implemented: both writes return with HCE
still clear, and the read returns 0. -/
theorem unimplemented_access_no_hce :
    ex_ring_state.usbsts &&& USBSTS_HCE = 0 ∧
    (∃ s1, xhci_mem_write qemu_usb_ret ex_usb_512 .bits64 8 6 8 704 ex_ring_state
        (OFF_OPER + 0x0c) 0xffffffff = .ok s1 ∧ s1.usbsts &&& USBSTS_HCE = 0) ∧
    (∃ s1, xhci_mem_write qemu_usb_ret ex_usb_512 .bits64 8 6 8 704 ex_ring_state
        (OFF_RUNTIME + 0x04) 0xffffffff = .ok s1 ∧ s1.usbsts &&& USBSTS_HCE = 0) ∧
    xhci_mem_read .bits64 ex_ring_state (OFF_OPER + 0x10) = 0 :=
  ⟨by decide, ⟨_, rfl, by decide⟩, ⟨_, rfl, by decide⟩, by decide⟩

/-! ## Writes to PORTSC -/

/-- The bits of the value that `xhci_port_write` stores in PORTSC, from the
old value `old` and the written value `val`. -/
theorem portsc_bits (old val i : Nat) (hi : i < 32) :
    let portsc1 := clear_bits old (val &&& (PORTSC_CSC ||| PORTSC_PEC ||| PORTSC_WRC |||
      PORTSC_OCC ||| PORTSC_PRC ||| PORTSC_PLC ||| PORTSC_CEC))
    let portsc2 :=
      if val &&& PORTSC_LWS ≠ 0 then
        clear_bits portsc1 (PORTSC_PLS_MASK <<< PORTSC_PLS_SHIFT) |||
          (val &&& (PORTSC_PLS_MASK <<< PORTSC_PLS_SHIFT))
      else portsc1
    let portsc3 := clear_bits portsc2 (PORTSC_PP ||| PORTSC_WCE ||| PORTSC_WDE ||| PORTSC_WOE) |||
      (val &&& (PORTSC_PP ||| PORTSC_WCE ||| PORTSC_WDE ||| PORTSC_WOE))
    let new := if val &&& PORTSC_PR ≠ 0 then portsc3 ||| PORTSC_PRC ||| PORTSC_PED else portsc3
    new.testBit i =
      if i = 1 then (old.testBit 1 || val.testBit 4)
      else if 5 ≤ i ∧ i ≤ 8 then (if val.testBit 16 then val.testBit i else old.testBit i)
      else if i = 9 ∨ i = 25 ∨ i = 26 ∨ i = 27 then val.testBit i
      else if i = 21 then ((old.testBit 21 && !val.testBit 21) || val.testBit 4)
      else if 17 ≤ i ∧ i ≤ 23 then (old.testBit i && !val.testBit i)
      else old.testBit i := by
  intro portsc1 portsc2 portsc3 new
  have hl : (val &&& PORTSC_LWS ≠ 0) ↔ val.testBit 16 = true := by
    have h : PORTSC_LWS = 2 ^ 16 := by decide
    rw [h, and_two_pow_ne_zero]
  have hp : (val &&& PORTSC_PR ≠ 0) ↔ val.testBit 4 = true := by
    have h : PORTSC_PR = 2 ^ 4 := by decide
    rw [h, and_two_pow_ne_zero]
  have c1 : (PORTSC_CSC ||| PORTSC_PEC ||| PORTSC_WRC ||| PORTSC_OCC ||| PORTSC_PRC |||
      PORTSC_PLC ||| PORTSC_CEC) = 0xfe0000 := by decide
  have c2 : PORTSC_PLS_MASK <<< PORTSC_PLS_SHIFT = 0x1e0 := by decide
  have c3 : (PORTSC_PP ||| PORTSC_WCE ||| PORTSC_WDE ||| PORTSC_WOE) = 0xe000200 := by decide
  have c4 : PORTSC_PRC = 2 ^ 21 := by decide
  have c5 : PORTSC_PED = 2 ^ 1 := by decide
  have k0 : ∀ j, j < 32 → (0xffffffff : Nat).testBit j = true := by decide
  have k1 : ∀ j, j < 32 → (0xfe0000 : Nat).testBit j = decide (17 ≤ j ∧ j ≤ 23) := by decide
  have k2 : ∀ j, j < 32 → (0x1e0 : Nat).testBit j = decide (5 ≤ j ∧ j ≤ 8) := by decide
  have k3 : ∀ j, j < 32 → (0xe000200 : Nat).testBit j =
      decide (j = 9 ∨ j = 25 ∨ j = 26 ∨ j = 27) := by decide
  simp only [new, portsc3, portsc2, portsc1, clear_bits, c1, c2, c3, hl, hp]
  rw [c4, c5]
  cases h16 : val.testBit 16 <;> cases h4 : val.testBit 4 <;>
    simp only [if_true, if_false, Bool.false_eq_true, Nat.testBit_and, Nat.testBit_or,
      Nat.testBit_xor, Nat.testBit_two_pow, k0 i hi, k1 i hi, k2 i hi, k3 i hi] <;>
    interval_cases i <;> simp

/-- C32.  A write of `val` to the PORTSC register of a port (offset
`0x400 + 0x10 * port` of the operational window, that is `xhci_port_write` with
`reg = 0x10 * port`, `port < MAXPORTS`) stores in PORTSC, bit by bit: the change
bits CSC, PEC, WRC, OCC, PLC and CEC (bits 17..20, 22, 23) cleared exactly when
`val` has them set and kept otherwise; PRC (bit 21) likewise, and then set when
`val` has PR (bit 4) set; the link-state field (bits 5..8) from `val` when
`val` has LWS (bit 16) set and kept otherwise; PP, WCE, WDE and WOE (bits 9, 25,
26, 27) from `val`; PED (bit 1) set when `val` has PR set and kept otherwise;
and every other bit of the 32 (CCS, PR, the speed field, LWS, ...) kept.  No
other port's PORTSC changes, and the device on the port is reset exactly when
`val` has PR set. -/
theorem xhci_port_write_portsc (usb : USBCore) (w : DmaWidth) (s : XHCIState) (reg val : Nat)
    (hport : reg >>> 4 < MAXPORTS) (hreg : reg &&& 0xf = 0) :
    xhci_oper_write usb w s (0x400 + reg) val = .ok (xhci_port_write s reg val) ∧
    (∀ i, 17 ≤ i → i ≤ 23 → i ≠ 21 →
      ((xhci_port_write s reg val).portsc (reg >>> 4)).testBit i =
        ((s.portsc (reg >>> 4)).testBit i && !val.testBit i)) ∧
    ((xhci_port_write s reg val).portsc (reg >>> 4)).testBit 21 =
      (((s.portsc (reg >>> 4)).testBit 21 && !val.testBit 21) || val.testBit 4) ∧
    (∀ i, 5 ≤ i → i ≤ 8 →
      ((xhci_port_write s reg val).portsc (reg >>> 4)).testBit i =
        if val.testBit 16 then val.testBit i else (s.portsc (reg >>> 4)).testBit i) ∧
    (∀ i, i = 9 ∨ i = 25 ∨ i = 26 ∨ i = 27 →
      ((xhci_port_write s reg val).portsc (reg >>> 4)).testBit i = val.testBit i) ∧
    ((xhci_port_write s reg val).portsc (reg >>> 4)).testBit 1 =
      ((s.portsc (reg >>> 4)).testBit 1 || val.testBit 4) ∧
    (∀ i, i < 32 → i ≠ 1 → ¬ (5 ≤ i ∧ i ≤ 9) → ¬ (17 ≤ i ∧ i ≤ 23) → ¬ (25 ≤ i ∧ i ≤ 27) →
      ((xhci_port_write s reg val).portsc (reg >>> 4)).testBit i =
        (s.portsc (reg >>> 4)).testBit i) ∧
    (∀ p, p ≠ reg >>> 4 → (xhci_port_write s reg val).portsc p = s.portsc p) ∧
    (xhci_port_write s reg val).log_port_reset =
      (if val.testBit 4 then s.log_port_reset ++ [reg >>> 4] else s.log_port_reset) := by
  have hp : (val &&& PORTSC_PR ≠ 0) ↔ val.testBit 4 = true := by
    have h : PORTSC_PR = 2 ^ 4 := by decide
    rw [h, and_two_pow_ne_zero]
  have hport2 : ¬ reg >>> 4 ≥ MAXPORTS := by omega
  have hnew : ∀ i, i < 32 →
      ((xhci_port_write s reg val).portsc (reg >>> 4)).testBit i =
        if i = 1 then ((s.portsc (reg >>> 4)).testBit 1 || val.testBit 4)
        else if 5 ≤ i ∧ i ≤ 8 then
          (if val.testBit 16 then val.testBit i else (s.portsc (reg >>> 4)).testBit i)
        else if i = 9 ∨ i = 25 ∨ i = 26 ∨ i = 27 then val.testBit i
        else if i = 21 then
          (((s.portsc (reg >>> 4)).testBit 21 && !val.testBit 21) || val.testBit 4)
        else if 17 ≤ i ∧ i ≤ 23 then ((s.portsc (reg >>> 4)).testBit i && !val.testBit i)
        else (s.portsc (reg >>> 4)).testBit i := by
    intro i hi
    rw [← portsc_bits (s.portsc (reg >>> 4)) val i hi]
    unfold xhci_port_write
    simp only []
    rw [if_neg hport2, if_pos hreg]
    split <;> simp only [Function.update_same]
  refine ⟨?_, ?_, ?_, ?_, ?_, ?_, ?_, ?_, ?_⟩
  · unfold xhci_oper_write
    rw [if_pos (by omega), Nat.add_sub_cancel_left]
  · intro i h1 h2 h3
    rw [hnew i (by omega), if_neg (by omega), if_neg (by omega), if_neg (by omega), if_neg h3,
      if_pos ⟨h1, h2⟩]
  · rw [hnew 21 (by omega)]
    simp
  · intro i h1 h2
    rw [hnew i (by omega), if_neg (by omega), if_pos ⟨h1, h2⟩]
  · intro i h
    rw [hnew i (by omega), if_neg (by omega), if_neg (by omega), if_pos h]
  · rw [hnew 1 (by omega)]
    simp
  · intro i hi h1 h2 h3 h4
    rw [hnew i hi, if_neg h1, if_neg (by omega), if_neg (by omega), if_neg (by omega),
      if_neg h3]
  · intro p hpne
    unfold xhci_port_write
    simp only []
    rw [if_neg hport2, if_pos hreg]
    split <;> simp only [Function.update_noteq hpne]
  · unfold xhci_port_write
    simp only []
    rw [if_neg hport2, if_pos hreg]
    by_cases h4 : val &&& PORTSC_PR ≠ 0
    · rw [if_pos h4, if_pos (hp.mp h4)]
    · rw [if_neg h4, if_neg (fun h => h4 (hp.mpr h))]

/-- Witness for C32: on a state whose port 2 has PORTSC `0x00260e03` (CCS, PED,
PP, high speed, CSC, PEC, PRC), the guest writes `0x0a2301f0` (PR, link state
15, LWS, CSC, PRC, WCE, WOE) to offset `0x410`: PORTSC becomes `0x0a240de3`. -/
theorem xhci_port_write_portsc_witness :
    xhci_oper_write ex_usb_512 .bits64
        { ex_ring_state with portsc := fun _ => 0x00260e03 } (0x400 + 0x10) 0x0a2301f0 =
      .ok (xhci_port_write { ex_ring_state with portsc := fun _ => 0x00260e03 } 0x10
        0x0a2301f0) ∧
    (xhci_port_write { ex_ring_state with portsc := fun _ => 0x00260e03 } 0x10
      0x0a2301f0).portsc 1 = 0x0a240de3 ∧
    (xhci_port_write { ex_ring_state with portsc := fun _ => 0x00260e03 } 0x10
      0x0a2301f0).log_port_reset = [1] :=
  ⟨(xhci_port_write_portsc ex_usb_512 .bits64
      { ex_ring_state with portsc := fun _ => 0x00260e03 } 0x10 0x0a2301f0 (by decide)
      (by decide)).1, by decide, by decide⟩

/-! ## Transfers left pending by the device -/

theorem fetch_trbs_length (w : DmaWidth) (mem : Mem) (rf : Nat) :
    ∀ (n : Nat) (ring ring1 : XHCIRing) (trbs : List XHCITRB),
      fetch_trbs w mem rf n ring = .ok (ring1, trbs) → trbs.length = n
  | 0, ring, ring1, trbs, h => by
    simp only [fetch_trbs, Except.ok.injEq, Prod.mk.injEq] at h
    rw [← h.2]; rfl
  | n + 1, ring, ring1, trbs, h => by
    unfold fetch_trbs at h
    split at h
    · exact absurd h (by simp)
    · rename_i r hr
      split at h
      · exact absurd h (by simp)
      · split at h
        · exact absurd h (by simp)
        · rename_i ring2 trbs2 h2
          simp only [Except.ok.injEq, Prod.mk.injEq] at h
          rw [← h.2, List.length_cons, fetch_trbs_length w mem rf n _ _ _ h2]

theorem xfer_map_frame (s : XHCIState) (x : XHCITransfer) :
    (xhci_xfer_map s x).slots = s.slots ∧
      (xhci_xfer_map s x).log_events = s.log_events ∧
      (xhci_xfer_map s x).log_packets = s.log_packets ∧
      (xhci_xfer_map s x).mem = s.mem ∧ (xhci_xfer_map s x).portsc = s.portsc := by
  unfold xhci_xfer_map xhci_die
  split <;> exact ⟨rfl, rfl, rfl, rfl, rfl⟩

theorem submit_packet_async (rc : USBRetCodes) (usb : USBCore) (w : DmaWidth)
    (kick : XHCIState → Nat → Nat → Except Fault XHCIState)
    (s : XHCIState) (i : Nat) (xfer : XHCITransfer)
    (hasync : (usb.handle_packet s.log_packets.length).ret = rc.ASYNC) :
    submit_packet rc usb w kick s i xfer =
      .ok (set_xfer (usb_handle_packet usb s xfer.slotid xfer.epid i xfer).1 xfer.slotid
            xfer.epid i
            { (usb_handle_packet usb s xfer.slotid xfer.epid i xfer).2.1 with
              running_async := true, running_retry := false, complete := false,
              cancelled := false }, 0) := by
  have hr : (usb_handle_packet usb s xfer.slotid xfer.epid i xfer).2.2 = rc.ASYNC := hasync
  unfold submit_packet
  simp only [xhci_complete_packet, hr, if_true]
  rw [if_neg (by simp)]
  rfl

/-- A bulk or interrupt transfer that the device leaves pending: `xhci_submit`
returns 0, the transfer is stored in its pool entry marked `running_async`, no
event is posted. -/
theorem submit_async (rc : USBRetCodes) (usb : USBCore) (w : DmaWidth)
    (kick : XHCIState → Nat → Nat → Except Fault XHCIState)
    (s : XHCIState) (i : Nat) (xfer : XHCITransfer) (epctx e : XHCIEPContext)
    (hslot : 1 ≤ xfer.slotid ∧ xfer.slotid ≤ MAXSLOTS)
    (hport : 1 ≤ (s.slots (xfer.slotid - 1)).port ∧ (s.slots (xfer.slotid - 1)).port ≤ MAXPORTS)
    (hdev : xhci_find_device usb s ((s.slots (xfer.slotid - 1)).port - 1)
      (s.slots (xfer.slotid - 1)).devaddr = true)
    (htype : epctx.type = ET_INTR_OUT ∨ epctx.type = ET_INTR_IN ∨ epctx.type = ET_BULK_OUT ∨
      epctx.type = ET_BULK_IN)
    (htrbs : xfer.trbs ≠ [])
    (hctx : (s.slots (xfer.slotid - 1)).eps (xfer.epid - 1) = some e)
    (hasync : (usb.handle_packet s.log_packets.length).ret = rc.ASYNC) :
    ∃ s2 x, xhci_submit rc usb w kick s i xfer epctx = .ok (s2, 0) ∧
      (s2.slots (xfer.slotid - 1)).eps (xfer.epid - 1) =
        some { e with transfers := Function.update e.transfers i x } ∧
      x.running_async = true ∧ x.running_retry = false ∧ x.trbs = xfer.trbs ∧
      s2.log_events = s.log_events ∧
      s2.log_packets = s.log_packets ++ [(xfer.slotid, xfer.epid, i)] := by
  have h1 : ¬ (xfer.slotid < 1 ∨ xfer.slotid > MAXSLOTS ∨
      (s.slots (xfer.slotid - 1)).port < 1 ∨ (s.slots (xfer.slotid - 1)).port > MAXPORTS) := by
    omega
  have h2 : ¬ (xhci_find_device usb s ((s.slots (xfer.slotid - 1)).port - 1)
      (s.slots (xfer.slotid - 1)).devaddr = false) := by rw [hdev]; decide
  obtain ⟨t, rest, ht⟩ : ∃ t rest, xfer.trbs = t :: rest := by
    cases hx : xfer.trbs with
    | nil => exact absurd hx htrbs
    | cons t rest => exact ⟨t, rest, rfl⟩
  obtain ⟨xb, hxb, hb1, hb2, hb3⟩ : ∃ xb : XHCITransfer,
      xhci_setup_packet s
        { xfer with
          in_xfer := decide (epctx.type >>> 2 ≠ 0),
          pkts := if epctx.type = ET_ISO_IN ∨ epctx.type = ET_ISO_OUT then 1 else 0 } =
        .ok (xhci_xfer_map s xb, xb) ∧
      xb.slotid = xfer.slotid ∧ xb.epid = xfer.epid ∧ xb.trbs = xfer.trbs := by
    refine ⟨{ xfer with
              in_xfer := decide (epctx.type >>> 2 ≠ 0),
              pkts := if epctx.type = ET_ISO_IN ∨ epctx.type = ET_ISO_OUT then 1 else 0,
              packet_in := decide (epctx.type >>> 2 ≠ 0) }, ?_, rfl, rfl, rfl⟩
    unfold xhci_setup_packet
    simp only [ht]
  obtain ⟨m1, m2, m3, m4, m5⟩ := xfer_map_frame s xb
  have hctx2 : (((usb_handle_packet usb (xhci_xfer_map s xb) xb.slotid xb.epid i xb).1).slots
      (xb.slotid - 1)).eps (xb.epid - 1) = some e := by
    show (((xhci_xfer_map s xb).slots) (xb.slotid - 1)).eps (xb.epid - 1) = some e
    rw [m1, hb1, hb2]
    exact hctx
  unfold xhci_submit
  simp only []
  rw [if_neg h1, if_neg h2]
  simp only [hxb]
  rw [if_pos htype, submit_packet_async rc usb w kick _ i _ (by rw [m3]; exact hasync)]
  refine ⟨_, { (usb_handle_packet usb (xhci_xfer_map s xb) xb.slotid xb.epid i xb).2.1 with
              running_async := true, running_retry := false, complete := false,
              cancelled := false }, rfl, ?_, rfl, rfl, hb3, ?_, ?_⟩
  · rw [← hb1, ← hb2]
    simp only [set_xfer, hctx2, set_epctx, Function.update_same]
  · simp only [set_xfer, hctx2, set_epctx]
    exact m2
  · simp only [set_xfer, hctx2, set_epctx]
    show (xhci_xfer_map s xb).log_packets ++ [(xb.slotid, xb.epid, i)] = _
    rw [m3, hb1, hb2]

/-- C33, as amended.  A round of the drain loop of `xhci_kick_ep` on a bulk or
interrupt endpoint (endpoint id other than 1) whose pool entry at `next_xfer`
is idle, whose ring holds a complete descriptor (the probe returns `n > 0` and
the `n` fetches succeed) and whose slot is on a port with a device: when the
device leaves the packet pending (`usb_handle_packet` returns `USB_RET_ASYNC`),
`xhci_submit` returns 0, so the round stores the descriptor in the pool entry,
marks it `running_async`, posts no event, advances `next_xfer` by one modulo
`TD_QUEUE`, leaves the ring past the descriptor, and goes on with the next
round of the loop.  A round stops without fetching or submitting anything only
when the pool entry at `next_xfer` is itself still in flight. -/
theorem xhci_kick_ep_async_advances (rc : USBRetCodes) (usb : USBCore) (w : DmaWidth)
    (rf : Nat) (kick loop : XHCIState → Nat → Nat → Except Fault XHCIState)
    (s : XHCIState) (slotid epid : Nat) (epctx : XHCIEPContext)
    (n : Int) (ring0 ring1 : XHCIRing) (trbs : List XHCITRB)
    (hslot : 1 ≤ slotid ∧ slotid ≤ MAXSLOTS) (hep : epid ≠ 1)
    (hctx : (s.slots (slotid - 1)).eps (epid - 1) = some epctx)
    (hidle : (epctx.transfers epctx.next_xfer).running_async = false ∧
      (epctx.transfers epctx.next_xfer).running_retry = false)
    (hlen : xhci_ring_chain_length w s.mem rf epctx.ring = some (n, ring0)) (hn : 0 < n)
    (hfetch : fetch_trbs w s.mem rf n.toNat epctx.ring = .ok (ring1, trbs))
    (hport : 1 ≤ (s.slots (slotid - 1)).port ∧ (s.slots (slotid - 1)).port ≤ MAXPORTS)
    (hdev : xhci_find_device usb s ((s.slots (slotid - 1)).port - 1)
      (s.slots (slotid - 1)).devaddr = true)
    (htype : epctx.type = ET_INTR_OUT ∨ epctx.type = ET_INTR_IN ∨ epctx.type = ET_BULK_OUT ∨
      epctx.type = ET_BULK_IN)
    (hst : epctx.state ≠ EP_HALTED)
    (hasync : (usb.handle_packet s.log_packets.length).ret = rc.ASYNC) :
    (∃ s3 epctx3,
      kick_ep_round rc usb w rf kick loop s slotid epid = loop s3 slotid epid ∧
      (s3.slots (slotid - 1)).eps (epid - 1) = some epctx3 ∧
      epctx3.next_xfer = (epctx.next_xfer + 1) % TD_QUEUE ∧
      epctx3.ring = ring1 ∧
      (epctx3.transfers epctx.next_xfer).running_async = true ∧
      (epctx3.transfers epctx.next_xfer).trbs = trbs ∧
      (∀ j, j ≠ epctx.next_xfer → epctx3.transfers j = epctx.transfers j) ∧
      epctx3.state = epctx.state ∧ epctx3.retry = epctx.retry ∧
      s3.log_events = s.log_events ∧
      s3.log_packets = s.log_packets ++ [(slotid, epid, epctx.next_xfer)]) ∧
    (∀ (s0 : XHCIState) (e0 : XHCIEPContext),
      (s0.slots (slotid - 1)).eps (epid - 1) = some e0 →
      (e0.transfers e0.next_xfer).running_async = true →
      kick_ep_round rc usb w rf kick loop s0 slotid epid = .ok s0) := by
  refine ⟨?_, ?_⟩
  · have hidle2 : ¬ ((epctx.transfers epctx.next_xfer).running_async = true ∨
        (epctx.transfers epctx.next_xfer).running_retry = true) := by
      rw [hidle.1, hidle.2]; simp
    have hn1 : ¬ n < 0 := by omega
    have hn2 : ¬ n = 0 := by omega
    have htr : trbs ≠ [] := by
      have hl := fetch_trbs_length w s.mem rf _ _ _ _ hfetch
      intro h0
      rw [h0] at hl
      simp only [List.length_nil] at hl
      omega
    obtain ⟨s2, x, hsub, he2, hx1, hx2, hx3, hl1, hl2⟩ := submit_async rc usb w kick
      (set_epctx s slotid epid (some
        { epctx with
          ring := ring1,
          transfers := Function.update epctx.transfers epctx.next_xfer
            { epctx.transfers epctx.next_xfer with
              trbs := trbs, epid := epid, slotid := slotid } }))
      epctx.next_xfer
      { epctx.transfers epctx.next_xfer with trbs := trbs, epid := epid, slotid := slotid }
      { epctx with
        ring := ring1,
        transfers := Function.update epctx.transfers epctx.next_xfer
          { epctx.transfers epctx.next_xfer with
            trbs := trbs, epid := epid, slotid := slotid } }
      { epctx with
        ring := ring1,
        transfers := Function.update epctx.transfers epctx.next_xfer
          { epctx.transfers epctx.next_xfer with
            trbs := trbs, epid := epid, slotid := slotid } }
      hslot
      (by simp only [set_epctx, Function.update_same]; exact hport)
      (by
        have : xhci_find_device usb (set_epctx s slotid epid (some
            { epctx with
              ring := ring1,
              transfers := Function.update epctx.transfers epctx.next_xfer
                { epctx.transfers epctx.next_xfer with
                  trbs := trbs, epid := epid, slotid := slotid } }))
            ((s.slots (slotid - 1)).port - 1) (s.slots (slotid - 1)).devaddr =
            xhci_find_device usb s ((s.slots (slotid - 1)).port - 1)
              (s.slots (slotid - 1)).devaddr := rfl
        simp only [set_epctx, Function.update_same]
        exact this.trans hdev)
      htype htr
      (by simp only [set_epctx, Function.update_same])
      hasync
    dsimp only at hsub he2 hx3 hl2
    refine ⟨set_epctx s2 slotid epid (some
        { epctx with
          ring := ring1,
          transfers := Function.update (Function.update epctx.transfers epctx.next_xfer
            { epctx.transfers epctx.next_xfer with
              trbs := trbs, epid := epid, slotid := slotid }) epctx.next_xfer x,
          next_xfer := (epctx.next_xfer + 1) % TD_QUEUE }),
      { epctx with
        ring := ring1,
        transfers := Function.update (Function.update epctx.transfers epctx.next_xfer
          { epctx.transfers epctx.next_xfer with
            trbs := trbs, epid := epid, slotid := slotid }) epctx.next_xfer x,
        next_xfer := (epctx.next_xfer + 1) % TD_QUEUE }, ?_, ?_, rfl, rfl, ?_, ?_, ?_,
      rfl, rfl, hl1, hl2⟩
    · unfold kick_ep_round
      simp only [hctx]
      rw [if_neg hidle2]
      simp only [hlen]
      rw [if_neg hn1, if_neg hn2]
      simp only [hfetch]
      rw [if_neg hep]
      simp only [hsub, he2, ge_iff_le, le_refl, if_true]
      rw [if_neg hst]
      simp only [Function.update_same, hx2, Bool.false_eq_true, if_false]
    · simp only [set_epctx, Function.update_same]
    · dsimp only
      rw [Function.update_same]; exact hx1
    · dsimp only
      rw [Function.update_same]; exact hx3
    · intro j hj
      dsimp only
      rw [Function.update_noteq hj, Function.update_noteq hj]
  · intro s0 e0 h0 hrun
    unfold kick_ep_round
    simp only [h0]
    rw [if_pos (Or.inl hrun)]

/-- Witness for C33 as amended: the first round of the drain loop on
`ex_two_td_state` with a device that leaves every packet pending. -/
theorem xhci_kick_ep_async_advances_witness :
    ∃ s3 epctx3,
      kick_ep_round qemu_usb_ret ex_usb_async .bits64 8
          (kick_ep_pair qemu_usb_ret ex_usb_async .bits64 8 5).1
          (kick_ep_pair qemu_usb_ret ex_usb_async .bits64 8 5).2 ex_two_td_state 1 3 =
        (kick_ep_pair qemu_usb_ret ex_usb_async .bits64 8 5).2 s3 1 3 ∧
      (s3.slots (1 - 1)).eps (3 - 1) = some epctx3 ∧
      epctx3.next_xfer = (ex_epctx.next_xfer + 1) % TD_QUEUE ∧
      epctx3.ring = { base := 0x2000, dequeue := 0x2020, ccs := true } ∧
      (epctx3.transfers ex_epctx.next_xfer).running_async = true ∧
      (epctx3.transfers ex_epctx.next_xfer).trbs =
        [{ parameter := 0x5000, status := 512,
           control := (TR_NORMAL <<< 10) ||| TRB_TR_IOC ||| TRB_C,
           addr := 0x2010, ccs := true }] ∧
      (∀ j, j ≠ ex_epctx.next_xfer → epctx3.transfers j = ex_epctx.transfers j) ∧
      epctx3.state = ex_epctx.state ∧ epctx3.retry = ex_epctx.retry ∧
      s3.log_events = ex_two_td_state.log_events ∧
      s3.log_packets = ex_two_td_state.log_packets ++ [(1, 3, ex_epctx.next_xfer)] :=
  (xhci_kick_ep_async_advances qemu_usb_ret ex_usb_async .bits64 8
    (kick_ep_pair qemu_usb_ret ex_usb_async .bits64 8 5).1
    (kick_ep_pair qemu_usb_ret ex_usb_async .bits64 8 5).2 ex_two_td_state 1 3 ex_epctx 1
    ex_epctx.ring { base := 0x2000, dequeue := 0x2020, ccs := true }
    [{ parameter := 0x5000, status := 512,
       control := (TR_NORMAL <<< 10) ||| TRB_TR_IOC ||| TRB_C,
       addr := 0x2010, ccs := true }]
    (by decide) (by decide) rfl (by decide) (by decide) (by decide) rfl (by decide) (by decide)
    (by decide) (by decide) rfl).1

/-- Counterexample to C33 as stated.  The ring of endpoint 3 of slot 1 holds
two transfer descriptors and the device leaves every packet pending.  One call
of `xhci_kick_ep` submits the first descriptor, which stays pending, advances
`next_xfer` to 1, fetches and submits the second descriptor as well and
advances `next_xfer` to 2: both transfers are in flight, the ring is past both
descriptors, and no event was posted. -/
theorem kick_ep_async_pipelines :
    ∃ s1 epctx1,
      xhci_kick_ep qemu_usb_ret ex_usb_async .bits64 8 6 ex_two_td_state 1 3 = .ok s1 ∧
      (s1.slots 0).eps 2 = some epctx1 ∧
      s1.log_packets = [(1, 3, 0), (1, 3, 1)] ∧ s1.log_events = [] ∧
      epctx1.next_xfer = 2 ∧ epctx1.ring.dequeue = 0x2030 ∧
      (epctx1.transfers 0).running_async = true ∧
      (epctx1.transfers 1).running_async = true ∧
      (epctx1.transfers 0).trbs.map (fun t => t.addr) = [0x2010] ∧
      (epctx1.transfers 1).trbs.map (fun t => t.addr) = [0x2020] :=
  ⟨_, _, rfl, rfl, by decide, by decide, by decide, by decide, by decide, by decide, by decide,
    by decide⟩

/-! ## The fetch loop of `xhci_kick_ep` and TRBs of reserved type -/

/-- C34 (the code evaluated).  The probe counts a TRB whose type field is 0,
the fetch returns that 0.  On `ex_reserved_state` the ring of endpoint 3 of
slot 1 holds, at its dequeue pointer, a TRB with a valid cycle bit, the chain
bit clear and type field 0: `xhci_ring_chain_length` returns 1, the one
`xhci_ring_fetch` that follows takes the TRB, advances the ring and returns its
type, 0, so `assert(xhci_ring_fetch(...))` in the fetch loop of `xhci_kick_ep`
fails, and with it a doorbell write for that endpoint. -/
theorem kick_ep_reserved_type_trb :
    xhci_ring_chain_length .bits64 ex_reserved_state.mem 8 ex_epctx.ring =
      some (1, ex_epctx.ring) ∧
    (∃ r, xhci_ring_fetch .bits64 ex_reserved_state.mem 8 ex_epctx.ring = some r ∧
      r.ret = 0 ∧ r.addr = some 0x2010 ∧ r.ring.dequeue = 0x2020) ∧
    fetch_trbs .bits64 ex_reserved_state.mem 8 1 ex_epctx.ring = .error .assertion ∧
    (ex_reserved_state.slots 0).eps 2 = some ex_epctx ∧
    xhci_kick_ep qemu_usb_ret ex_usb_512 .bits64 8 6 ex_reserved_state 1 3 =
      .error .assertion ∧
    xhci_doorbell_write qemu_usb_ret ex_usb_512 .bits64 8 6 8 ex_reserved_state 4 3 =
      .error .assertion :=
  ⟨by decide, ⟨_, rfl, by decide, by decide, by decide⟩, rfl, rfl, rfl, rfl⟩

/-! ## The software event queue and `er_full` -/

/-- C35 (the code evaluated).  Rewriting ERSTBA high while events are queued
leaves a non-empty software queue with `er_full` clear.  From the fresh ring of
`ex_pre_state` the guest sets ERDP and 16 events are posted without the guest
consuming any, so the controller is in ring-full mode with one event queued.
The guest then writes ERSTBA high (runtime register 0x34): `xhci_er_reset`
clears `er_full` and does not touch `ev_buffer_put` and `ev_buffer_get`, no
error is raised.  The guest's next write of ERDP high (0x3c) reaches the drain
loop of `xhci_events_update`, whose `assert(xhci->er_full)` fails. -/
theorem er_reset_keeps_queued_events :
    ∃ sA s0,
      ev_run .bits64 704 (xhci_run (xhci_er_reset .bits64 ex_pre_state)) ex_actions_fill =
        .ok sA ∧
      sA.er_full = true ∧ sA.ev_buffer_put = 1 ∧ sA.ev_buffer_get = 0 ∧
      xhci_runtime_write .bits64 704 sA 0x34 0 = .ok s0 ∧
      s0.usbsts &&& USBSTS_HCE = 0 ∧ s0.usbsts &&& USBSTS_HCH = 0 ∧
      s0.er_full = false ∧ s0.ev_buffer_put = 1 ∧ s0.ev_buffer_get = 0 ∧
      xhci_runtime_write .bits64 704 s0 0x3c 0 = .error .assertion :=
  ⟨_, _, rfl, by decide, by decide, by decide, rfl, by decide, by decide, by decide, by decide,
    by decide, rfl⟩

/-- The part of C35 that holds: from a fresh event ring (the state a successful
`xhci_er_reset` leaves when the software queue is empty, once the controller
runs), every sequence of event postings and guest writes to ERDP returns, and
in the state it reaches a non-empty software queue implies that `er_full` is
set. -/
theorem event_queue_only_when_full (w : DmaWidth) (fuel : Nat) (pre : XHCIState)
    (acts : List EvAction)
    (hfuel : 704 ≤ fuel)
    (hq : pre.ev_buffer_put = pre.ev_buffer_get) (hq2 : pre.ev_buffer_put < EV_QUEUE)
    (hl1 : pre.log_events = []) (hl2 : pre.log_ev_trbs = [])
    (hok : (xhci_er_reset w pre).usbsts &&& USBSTS_HCE = 0) :
    ∃ s, ev_run w fuel (xhci_run (xhci_er_reset w pre)) acts = .ok s ∧
      (s.ev_buffer_put ≠ s.ev_buffer_get → s.er_full = true) := by
  obtain ⟨hinv, -⟩ := fresh_inv w pre hq hq2 hl1 hl2 hok
  obtain ⟨s, hs, hi, -⟩ := ev_run_inv w fuel hfuel acts _ hinv
  refine ⟨s, hs, fun hne => ?_⟩
  have := hi.1.empty
  cases hf : s.er_full
  · exact absurd (this hf) hne
  · rfl

/-- Witness: the run `ex_actions_fill` on the fresh ring of `ex_pre_state`. -/
theorem event_queue_only_when_full_witness :
    ∃ s, ev_run .bits64 704 (xhci_run (xhci_er_reset .bits64 ex_pre_state)) ex_actions_fill =
        .ok s ∧
      (s.ev_buffer_put ≠ s.ev_buffer_get → s.er_full = true) :=
  event_queue_only_when_full .bits64 704 ex_pre_state ex_actions_fill (by decide) (by decide)
    (by decide) (by decide) (by decide) (by decide)

/-! ## Endpoints on a slot without a port -/

/-- C36 (the code evaluated).  Configure Endpoint enables endpoints on a slot
that has no port.  On `ex_forged_state` one write to the command doorbell runs
Enable Slot, which allocates slot 1 with port 0, and Configure Endpoint for
slot 1, whose slot-state check reads the slot context the guest has forged at
the slot's output context pointer and passes: both commands complete with
SUCCESS, no error is raised, and slot 1 has endpoint 3 enabled and port 0.  A
write of 3 to the doorbell of slot 1 then fetches the descriptor and reaches
the port lookup `ports[slot.port - 1]` of `xhci_submit` with `slot.port = 0`,
an index outside the array. -/
theorem configure_endpoint_on_portless_slot :
    ∃ s1 epctx,
      xhci_doorbell_write qemu_usb_ret ex_usb_512 .bits64 8 6 8 ex_forged_state 0 0 = .ok s1 ∧
      s1.log_events.map (fun e => (e.type, e.ccode, e.ptr, e.slotid)) =
        [(ER_COMMAND_COMPLETE, CC_SUCCESS, 0x700, 1),
         (ER_COMMAND_COMPLETE, CC_SUCCESS, 0x710, 1)] ∧
      s1.usbsts &&& USBSTS_HCE = 0 ∧
      (s1.slots 0).enabled = true ∧ (s1.slots 0).port = 0 ∧
      (s1.slots 0).eps 2 = some epctx ∧ epctx.state = EP_RUNNING ∧
      epctx.type = ET_BULK_IN ∧ epctx.ring.dequeue = 0x2010 ∧
      xhci_doorbell_write qemu_usb_ret ex_usb_512 .bits64 8 6 8 s1 4 3 = .error .undefined :=
  ⟨_, _, rfl, by decide, by decide, by decide, by decide, rfl, by decide, by decide, by decide,
    rfl⟩

/-! ## The ERDP bounds check -/

theorem pop_write_event_frame (w : DmaWidth) (s : XHCIState) (e : XHCIEvent) :
    (ev_buffer_pop (xhci_write_event w s e)).er_full = s.er_full ∧
      (ev_buffer_pop (xhci_write_event w s e)).er_size = s.er_size := by
  unfold ev_buffer_pop xhci_write_event
  simp only []
  split <;> split <;> exact ⟨rfl, rfl⟩

/-- In ring-full mode the drain loop fails only by running out of fuel. -/
theorem drain_loop_full_failure (w : DmaWidth) (dp : Nat) :
    ∀ (fuel : Nat) (s : XHCIState) (d : Bool) (f : Fault),
      s.er_size ≠ 0 → s.er_full = true →
      events_drain_loop w dp fuel s d = .error f → f = .fuel
  | 0, _, _, f, _, _, h => by
    simp only [events_drain_loop, Except.error.injEq] at h
    exact h.symm
  | fuel + 1, s, d, f, hz, hf, h => by
    simp only [events_drain_loop] at h
    by_cases hne : s.ev_buffer_put ≠ s.ev_buffer_get
    · rw [if_pos hne, if_neg (by rw [hf]; decide), if_neg hz] at h
      by_cases hd : u32 (s.er_ep_idx + 1) % s.er_size = dp
      · rw [if_pos hd] at h
        cases h
      · rw [if_neg hd] at h
        obtain ⟨h1, h2⟩ := pop_write_event_frame w s (s.ev_buffer s.ev_buffer_get)
        exact drain_loop_full_failure w dp fuel _ true f (by rw [h2]; exact hz)
          (by rw [h1]; exact hf) h
    · rw [if_neg hne] at h
      cases h

/-- The drain loop never divides by zero when `er_size` is not zero, and its
assertion fails only when the queue is not empty and `er_full` is clear. -/
theorem drain_loop_failure (w : DmaWidth) (dp fuel : Nat) (s : XHCIState) (d : Bool)
    (f : Fault) (hz : s.er_size ≠ 0) (h : events_drain_loop w dp fuel s d = .error f) :
    f = .fuel ∨
      (f = .assertion ∧ s.er_full = false ∧ s.ev_buffer_put ≠ s.ev_buffer_get) := by
  cases hf : s.er_full
  · cases fuel with
    | zero =>
      simp only [events_drain_loop, Except.error.injEq] at h
      exact Or.inl h.symm
    | succ n =>
      simp only [events_drain_loop] at h
      by_cases hne : s.ev_buffer_put ≠ s.ev_buffer_get
      · rw [if_pos hne, if_pos hf] at h
        simp only [Except.error.injEq] at h
        exact Or.inr ⟨h.symm, rfl, hne⟩
      · rw [if_neg hne] at h
        cases h
  · exact Or.inl (drain_loop_full_failure w dp fuel s d f hz hf h)

theorem die_HCE (s : XHCIState) : (xhci_die s).usbsts &&& USBSTS_HCE ≠ 0 :=
  or_HCE_and_HCE s.usbsts

/-- C37, as amended.  Whenever ERDP passes the bounds check of `xhci_event` and
`xhci_events_update`, `er_size` is at least 1 and the consumer index
`(erdp - er_start) / 16` is below `er_size` (also after its conversion to
`unsigned int`); a ring of size 0 never passes.  So `xhci_event` always returns,
and `xhci_events_update` neither divides by zero nor fails
`assert(dp_idx < er_size)`: its only failing assertion is `assert(er_full)` of
the drain loop, met with a non-empty software queue while `er_full` is clear,
and in a state that satisfies the event ring's invariant it returns.  When
ERDP does not pass the check (in particular when `er_size` is 0), `xhci_event`
outside ring-full mode and `xhci_events_update` on a controller that is not
halted set HCE, write no event TRB and leave `er_ep_idx`, `er_pcs` and the
software queue unchanged.  In ring-full mode `xhci_event` queues or drops the
event before any check, without touching USBSTS, and on a halted controller
`xhci_events_update` returns at once with the state as it was. -/
theorem erdp_bounds_check (w : DmaWidth) (fuel : Nat) (s : XHCIState) (event : XHCIEvent) :
    (¬ erdp_out_of_bounds w s →
      1 ≤ s.er_size ∧ erdp_index w s < s.er_size ∧
      (xhci_addr64 w s.erdp_low s.erdp_high - s.er_start) / TRB_SIZE < s.er_size) ∧
    (s.er_size = 0 → erdp_out_of_bounds w s) ∧
    (∃ s1, xhci_event w s event = .ok s1) ∧
    (∀ f, xhci_events_update w fuel s = .error f →
      f = .fuel ∨
        (f = .assertion ∧ s.er_full = false ∧ s.ev_buffer_put ≠ s.ev_buffer_get)) ∧
    ((ev_view s).Inv → 704 ≤ fuel → ∃ s1, xhci_events_update w fuel s = .ok s1) ∧
    (erdp_out_of_bounds w s → s.er_full = false →
      ∃ s1, xhci_event w s event = .ok s1 ∧ s1.usbsts &&& USBSTS_HCE ≠ 0 ∧
        s1.mem = s.mem ∧ s1.log_ev_trbs = s.log_ev_trbs ∧
        s1.er_ep_idx = s.er_ep_idx ∧ s1.er_pcs = s.er_pcs ∧
        s1.ev_buffer = s.ev_buffer ∧ s1.ev_buffer_put = s.ev_buffer_put ∧
        s1.ev_buffer_get = s.ev_buffer_get) ∧
    (erdp_out_of_bounds w s → s.usbsts &&& USBSTS_HCH = 0 →
      ∃ s1, xhci_events_update w fuel s = .ok s1 ∧ s1.usbsts &&& USBSTS_HCE ≠ 0 ∧
        s1.mem = s.mem ∧ s1.log_ev_trbs = s.log_ev_trbs ∧
        s1.er_ep_idx = s.er_ep_idx ∧ s1.er_pcs = s.er_pcs ∧
        s1.ev_buffer = s.ev_buffer ∧ s1.ev_buffer_put = s.ev_buffer_put ∧
        s1.ev_buffer_get = s.ev_buffer_get) ∧
    (s.er_full = true →
      ∃ s1, xhci_event w s event = .ok s1 ∧ s1.usbsts = s.usbsts ∧ s1.mem = s.mem ∧
        s1.log_ev_trbs = s.log_ev_trbs ∧
        (s1.log_dropped = s.log_dropped ++ [event] ∨
          s1.ev_buffer s.ev_buffer_put = event)) ∧
    (s.usbsts &&& USBSTS_HCH ≠ 0 → xhci_events_update w fuel s = .ok s) := by
  have hsize : s.er_size = 0 → erdp_out_of_bounds w s := by
    intro h0
    unfold erdp_out_of_bounds
    rw [h0]
    have hm : dma_addr w (s.er_start + u32 (TRB_SIZE * 0)) ≤ s.er_start := by
      cases w <;> simp only [dma_addr, DmaWidth.modulus, u32, TRB_SIZE] <;> omega
    omega
  refine ⟨?_, hsize, ?_, ?_, ?_, ?_, ?_, ?_, ?_⟩
  · intro hin
    obtain ⟨h1, h2⟩ := erdp_in_bounds w s hin
    refine ⟨by omega, h1, ?_⟩
    unfold erdp_out_of_bounds at hin
    have hm : dma_addr w (s.er_start + u32 (TRB_SIZE * s.er_size)) ≤
        s.er_start + TRB_SIZE * s.er_size := by
      cases w <;> simp only [dma_addr, DmaWidth.modulus, u32, TRB_SIZE] <;> omega
    simp only [TRB_SIZE] at hm hin ⊢
    omega
  · obtain ⟨s1, h1, -⟩ := xhci_event_returns w s event
    exact ⟨s1, h1⟩
  · intro f h
    unfold xhci_events_update at h
    by_cases hh : s.usbsts &&& USBSTS_HCH ≠ 0
    · rw [if_pos hh] at h
      cases h
    · rw [if_neg hh] at h
      by_cases hin : erdp_out_of_bounds w s
      · rw [if_pos hin] at h
        cases h
      · rw [if_neg hin] at h
        obtain ⟨h1, -⟩ := erdp_in_bounds w s hin
        simp only [] at h
        rw [if_neg (not_not.mpr h1)] at h
        by_cases hy : s.er_full = true ∧ er_free s (erdp_index w s) < s.er_size / 2
        · rw [if_pos hy] at h
          cases h
        · rw [if_neg hy] at h
          cases hd : events_drain_loop w (erdp_index w s) fuel s false with
          | error f1 =>
            rw [hd] at h
            simp only [Except.error.injEq] at h
            rw [← h]
            exact drain_loop_failure w _ fuel s false f1 (by omega) hd
          | ok r =>
            rw [hd] at h
            have key : ∀ s2 : XHCIState,
                (if s2.er_full = true ∧ s2.ev_buffer_put = s2.ev_buffer_get then
                  (.ok { s2 with er_full := false } : Except Fault XHCIState)
                else .ok s2) ≠ .error f := by
              intro s2
              split <;> simp
            exact absurd h (key _)
  · intro hinv hfuel
    obtain ⟨s1, h1, -⟩ := xhci_events_update_inv w fuel s hinv hfuel
    exact ⟨s1, h1⟩
  · intro hout hnf
    refine ⟨xhci_die { s with log_events := s.log_events ++ [event] }, ?_, die_HCE _, rfl, rfl,
      rfl, rfl, rfl, rfl, rfl⟩
    have hout2 : erdp_out_of_bounds w { s with log_events := s.log_events ++ [event] } := hout
    unfold xhci_event
    simp only []
    rw [if_neg (by rw [hnf]; decide), if_pos hout2]
  · intro hout hh
    refine ⟨xhci_die s, ?_, die_HCE _, rfl, rfl, rfl, rfl, rfl, rfl, rfl⟩
    unfold xhci_events_update
    rw [if_neg (not_not.mpr hh), if_pos hout]
  · intro hf
    unfold xhci_event
    simp only []
    rw [if_pos hf]
    by_cases hq : u32 (s.ev_buffer_put + 1) % EV_QUEUE = s.ev_buffer_get
    · rw [if_pos hq]
      exact ⟨_, rfl, rfl, rfl, rfl, Or.inl rfl⟩
    · rw [if_neg hq]
      refine ⟨_, rfl, ?_, ?_, ?_, Or.inr ?_⟩ <;>
        (simp only [ev_buffer_push]; split <;> simp only [Function.update_same])
  · intro hh
    unfold xhci_events_update
    rw [if_pos hh]

/-- Witness for C37 as amended: on `ex_oob_state`, outside ring-full mode with
ERDP outside the segment, `xhci_event` sets HCE and writes nothing. -/
theorem erdp_bounds_check_witness :
    ∃ s1, xhci_event .bits64 ex_oob_state ex_event = .ok s1 ∧ s1.usbsts &&& USBSTS_HCE ≠ 0 ∧
      s1.mem = ex_oob_state.mem ∧ s1.log_ev_trbs = ex_oob_state.log_ev_trbs ∧
      s1.er_ep_idx = ex_oob_state.er_ep_idx ∧ s1.er_pcs = ex_oob_state.er_pcs ∧
      s1.ev_buffer = ex_oob_state.ev_buffer ∧ s1.ev_buffer_put = ex_oob_state.ev_buffer_put ∧
      s1.ev_buffer_get = ex_oob_state.ev_buffer_get :=
  (erdp_bounds_check .bits64 704 ex_oob_state ex_event).2.2.2.2.2.1 (by decide) (by decide)

/-- Counterexample to C37 as stated.  (1) After `ex_actions_fill` the
controller is in ring-full mode; the guest moves ERDP out of the segment and
another event is posted: `xhci_event` appends it to the software queue
(`ev_buffer_put` goes from 1 to 2) and HCE stays clear.  (2) On the halted
controller `ex_pre_state`, whose event ring has size 0, a guest write of ERDP
high calls `xhci_events_update`, which returns at once: HCE stays clear. -/
theorem erdp_check_skipped :
    (∃ sA s1,
      ev_run .bits64 704 (xhci_run (xhci_er_reset .bits64 ex_pre_state)) ex_actions_fill =
        .ok sA ∧ sA.ev_buffer_put = 1 ∧
      ev_run .bits64 704 (xhci_run (xhci_er_reset .bits64 ex_pre_state)) ex_actions_oob =
        .ok s1 ∧
      erdp_out_of_bounds .bits64 s1 ∧ s1.usbsts &&& USBSTS_HCE = 0 ∧
      s1.ev_buffer_put = 2 ∧ s1.ev_buffer 1 = ex_event2) ∧
    (ex_pre_state.er_size = 0 ∧ ex_pre_state.usbsts &&& USBSTS_HCH ≠ 0 ∧
      ∃ s1, xhci_runtime_write .bits64 704 ex_pre_state 0x3c 0 = .ok s1 ∧
        xhci_events_update .bits64 704 { ex_pre_state with erdp_high := 0 } = .ok s1 ∧
        s1.usbsts &&& USBSTS_HCE = 0) :=
  ⟨⟨_, _, rfl, by decide, rfl, by decide, by decide, by decide, by decide⟩,
    by decide, by decide, _, rfl, rfl, by decide⟩

/-! ## Byte accounting of `xhci_xfer_report` -/

theorem bytes_consumed_min : ∀ (l : List XHCITRB) (r : Nat),
    bytes_consumed r l = min r (data_length l)
  | [], r => by simp [bytes_consumed, data_length]
  | t :: ts, r => by
    have ih := bytes_consumed_min ts (r - bytes_of r t)
    have hd : data_length (t :: ts) =
        (if carries_data t then trb_length t else 0) + data_length ts := by
      simp [data_length]
    rw [bytes_consumed, ih, hd]
    unfold bytes_of
    cases carries_data t
    · simp
    · simp only [if_true]
      omega

theorem bytes_consumed_append : ∀ (a b : List XHCITRB) (r : Nat),
    bytes_consumed r (a ++ b) = bytes_consumed r a + bytes_consumed (r - bytes_consumed r a) b
  | [], b, r => by simp [bytes_consumed]
  | t :: ts, b, r => by
    rw [List.cons_append, bytes_consumed, bytes_consumed, bytes_consumed_append ts b,
      Nat.sub_sub, Nat.add_assoc]

theorem short_end_snoc : ∀ (pre : List XHCITRB) (r : Nat) (sp : Bool) (t : XHCITRB),
    short_end r sp (pre ++ [t]) =
      short_after (r - bytes_consumed r pre) (short_end r sp pre) t
  | [], r, sp, t => by simp [short_end, bytes_consumed]
  | x :: xs, r, sp, t => by
    rw [List.cons_append, short_end, short_end, bytes_consumed, short_end_snoc xs, Nat.sub_sub]

theorem carries_data_not_status (t : XHCITRB) (h : carries_data t = true) :
    trb_type t.control ≠ TR_STATUS := by
  simp only [carries_data, decide_eq_true_eq, TR_NORMAL, TR_DATA, TR_ISOCH] at h
  simp only [TR_STATUS]
  omega

/-- When the short flag is set after a list of TRBs: it was set before and no
Status TRB cleared it, or a data TRB of the list is longer than what remained
for it and no Status TRB follows that TRB. -/
theorem short_end_iff : ∀ (l : List XHCITRB) (r : Nat) (sp : Bool),
    short_end r sp l = true ↔
      (sp = true ∧ ∀ x ∈ l, trb_type x.control ≠ TR_STATUS) ∨
      (∃ a d b, l = a ++ d :: b ∧ carries_data d = true ∧
        r - bytes_consumed r a < trb_length d ∧ ∀ x ∈ b, trb_type x.control ≠ TR_STATUS)
  | [], r, sp => by
    simp [short_end]
  | t :: ts, r, sp => by
    rw [short_end, short_end_iff ts]
    constructor
    · rintro (⟨h1, h2⟩ | ⟨a, d, b, h1, h2, h3, h4⟩)
      · unfold short_after at h1
        by_cases hc : carries_data t = true
        · rw [if_pos hc] at h1
          simp only [Bool.or_eq_true, decide_eq_true_eq] at h1
          rcases h1 with h1 | h1
          · left
            refine ⟨h1, ?_⟩
            intro x hx
            rcases List.mem_cons.mp hx with hx | hx
            · rw [hx]; exact carries_data_not_status t hc
            · exact h2 x hx
          · right
            exact ⟨[], t, ts, rfl, hc, by simpa [bytes_consumed] using h1, h2⟩
        · rw [if_neg hc] at h1
          by_cases h4 : trb_type t.control = TR_STATUS
          · rw [if_pos h4] at h1
            exact absurd h1 (by simp)
          · rw [if_neg h4] at h1
            left
            refine ⟨h1, ?_⟩
            intro x hx
            rcases List.mem_cons.mp hx with hx | hx
            · rw [hx]; exact h4
            · exact h2 x hx
      · right
        refine ⟨t :: a, d, b, by rw [h1]; rfl, h2, ?_, h4⟩
        rw [bytes_consumed, ← Nat.sub_sub]
        exact h3
    · rintro (⟨h1, h2⟩ | ⟨a, d, b, h1, h2, h3, h4⟩)
      · left
        refine ⟨?_, fun x hx => h2 x (List.mem_cons_of_mem t hx)⟩
        have h4 := h2 t (List.mem_cons_self t ts)
        unfold short_after
        by_cases hc : carries_data t = true
        · rw [if_pos hc, h1]; rfl
        · rw [if_neg hc, if_neg h4]; exact h1
      · cases a with
        | nil =>
          simp only [List.nil_append, List.cons.injEq] at h1
          obtain ⟨h1a, h1b⟩ := h1
          subst h1a
          subst h1b
          left
          refine ⟨?_, h4⟩
          unfold short_after
          rw [if_pos h2]
          simp only [bytes_consumed, Nat.sub_zero] at h3
          simp [h3]
        | cons x xs =>
          simp only [List.cons_append, List.cons.injEq] at h1
          obtain ⟨h1a, h1b⟩ := h1
          subst h1a
          right
          refine ⟨xs, d, b, h1b, h2, ?_, h4⟩
          rw [bytes_consumed, ← Nat.sub_sub] at h3
          exact h3

theorem report_visit_left (status : Nat) (st : ReportLocals) (t : XHCITRB) :
    (report_visit status st t).left = st.left - bytes_of st.left t := by
  have hb := report_chunk_eq st t
  unfold report_visit
  split
  · simp only [hb]
  · rename_i hd
    have hz : bytes_of st.left t = 0 := by
      rw [← hb]
      unfold report_chunk
      simp only [if_neg hd]
      rfl
    split <;> simp only [hz, Nat.sub_zero]

/-- Every run of the report loop returns, and every event it posts is the
event built for one of the TRBs, from locals whose `left` is what the TRBs
before it have left over and, for a successful transfer, whose `shortpkt` is
the short flag after those TRBs. -/
theorem report_loop_trace (w : DmaWidth) (xfer : XHCITransfer) :
    ∀ (trbs : List XHCITRB) (st : ReportLocals) (s : XHCIState),
      ∃ s1 es, xfer_report_loop w xfer trbs st s = .ok s1 ∧
        s1.log_events = s.log_events ++ es ∧
        ∀ e ∈ es, ∃ pre t post stk, trbs = pre ++ t :: post ∧
          stk.left = st.left - bytes_consumed st.left pre ∧
          (xfer.status = CC_SUCCESS → stk.shortpkt = short_end st.left st.shortpkt pre) ∧
          e = report_event xfer stk t
  | [], st, s => ⟨s, [], rfl, by simp, fun e he => absurd he (List.not_mem_nil e)⟩
  | t :: rest, st, s => by
    have hlift : ∀ (st1 : ReportLocals) (e : XHCIEvent),
        st1.left = st.left - bytes_of st.left t →
        (xfer.status = CC_SUCCESS → st1.shortpkt = short_after st.left st.shortpkt t) →
        (∃ pre t1 post stk, rest = pre ++ t1 :: post ∧
          stk.left = st1.left - bytes_consumed st1.left pre ∧
          (xfer.status = CC_SUCCESS → stk.shortpkt = short_end st1.left st1.shortpkt pre) ∧
          e = report_event xfer stk t1) →
        ∃ pre t1 post stk, t :: rest = pre ++ t1 :: post ∧
          stk.left = st.left - bytes_consumed st.left pre ∧
          (xfer.status = CC_SUCCESS → stk.shortpkt = short_end st.left st.shortpkt pre) ∧
          e = report_event xfer stk t1 := by
      rintro st1 e hl hs ⟨pre, t1, post, stk, h1, h2, h3, h4⟩
      refine ⟨t :: pre, t1, post, stk, by rw [h1]; rfl, ?_, ?_, h4⟩
      · rw [h2, hl, bytes_consumed, Nat.sub_sub]
      · intro hst
        rw [h3 hst, hl, hs hst, short_end]
    have hvs : xfer.status = CC_SUCCESS →
        (report_visit xfer.status st t).shortpkt = short_after st.left st.shortpkt t := by
      intro hst
      rw [hst, report_visit_success]
    rw [xfer_report_loop_cons]
    by_cases hc : (report_visit xfer.status st t).reported = false ∧
        (t.control &&& TRB_TR_IOC ≠ 0 ∨
          ((report_visit xfer.status st t).shortpkt = true ∧ t.control &&& TRB_TR_ISP ≠ 0) ∨
          xfer.status ≠ CC_SUCCESS)
    · rw [if_pos hc]
      obtain ⟨s1, hev, hlog, -⟩ := xhci_event_returns w s (report_event xfer st t)
      have hfirst : ∃ pre t1 post stk, t :: rest = pre ++ t1 :: post ∧
          stk.left = st.left - bytes_consumed st.left pre ∧
          (xfer.status = CC_SUCCESS → stk.shortpkt = short_end st.left st.shortpkt pre) ∧
          report_event xfer st t = report_event xfer stk t1 :=
        ⟨[], t, rest, st, rfl, by simp [bytes_consumed], fun _ => rfl, rfl⟩
      rw [hev]
      by_cases hst : xfer.status ≠ CC_SUCCESS
      · simp only [if_pos hst]
        refine ⟨s1, [report_event xfer st t], rfl, hlog, ?_⟩
        intro e he
        rw [List.mem_singleton] at he
        rw [he]
        exact hfirst
      · simp only [if_neg hst]
        obtain ⟨s2, es, h1, h2, h3⟩ := report_loop_trace w xfer rest
          { (if TRB_TYPE t = TR_EVDATA then
              { report_visit xfer.status st t with edtla := 0 }
             else report_visit xfer.status st t) with reported := true } s1
        refine ⟨s2, report_event xfer st t :: es, h1, ?_, ?_⟩
        · rw [h2, hlog, List.append_assoc]
          rfl
        · intro e he
          rcases List.mem_cons.mp he with he | he
          · rw [he]; exact hfirst
          · refine hlift _ e ?_ ?_ (h3 e he)
            · show (if TRB_TYPE t = TR_EVDATA then
                  { report_visit xfer.status st t with edtla := 0 }
                 else report_visit xfer.status st t).left = _
              rw [← report_visit_left xfer.status st t]
              split <;> rfl
            · intro hs
              show (if TRB_TYPE t = TR_EVDATA then
                  { report_visit xfer.status st t with edtla := 0 }
                 else report_visit xfer.status st t).shortpkt = _
              rw [← hvs hs]
              split <;> rfl
    · rw [if_neg hc]
      obtain ⟨s2, es, h1, h2, h3⟩ := report_loop_trace w xfer rest
        (report_visit xfer.status st t) s
      refine ⟨s2, es, h1, h2, ?_⟩
      intro e he
      exact hlift _ e (report_visit_left xfer.status st t) hvs (h3 e he)

theorem bytes_of_le (r : Nat) (t : XHCITRB) :
    bytes_of r t ≤ trb_length t ∧ bytes_of r t ≤ r ∧ trb_length t < 131072 := by
  unfold bytes_of trb_length
  split <;> omega

/-- C38.  Byte accounting of `xhci_xfer_report`, for a transfer on which the
device transferred `r >= 0` bytes.  (1) The bytes the loop attributes to a TRB
(`chunk`) are the smaller of what remains (`left`) and the TRB's length for a
Normal, Data or Isoch TRB and 0 for any other, and `left` goes down by them.
(2) Attributed in order from `r`, they add up to the smaller of `r` and the sum
of the lengths of the data TRBs, so never to more than `r`.  (3) The report
always returns; every event it posts belongs to a TRB `t` of the descriptor;
unless `t` is an Event Data TRB, the event points at `t` and its length field
is the residual, the length of `t` less the bytes attributed to it, which does
not underflow and lies between 0 and the length of `t`; and for a successful
transfer the completion code is SHORT_PACKET or SUCCESS, SHORT_PACKET exactly
when some data TRB at or before `t`, with no Status TRB after it up to `t`, was
attributed fewer bytes than its length. -/
theorem xhci_xfer_report_byte_accounting (w : DmaWidth) (s : XHCIState) (xfer : XHCITransfer)
    (r : Nat) (hres : xfer.packet_result = (r : Int)) (hr : r < 4294967296) :
    (∀ (st : ReportLocals) (t : XHCITRB),
      report_chunk st t = (if carries_data t then min st.left (trb_length t) else 0) ∧
      (report_visit xfer.status st t).left = st.left - report_chunk st t) ∧
    (bytes_consumed r xfer.trbs = min r (data_length xfer.trbs) ∧
      bytes_consumed r xfer.trbs ≤ r) ∧
    ∃ s1 es, xhci_xfer_report w s xfer = .ok s1 ∧ s1.log_events = s.log_events ++ es ∧
      ∀ e ∈ es, ∃ pre t post, xfer.trbs = pre ++ t :: post ∧
        (trb_type t.control ≠ TR_EVDATA →
          e.ptr = t.addr ∧ bytes_of (r - bytes_consumed r pre) t ≤ trb_length t ∧
          e.length = trb_length t - bytes_of (r - bytes_consumed r pre) t ∧
          e.length ≤ trb_length t) ∧
        (xfer.status = CC_SUCCESS →
          (e.ccode = CC_SHORT_PACKET ∨ e.ccode = CC_SUCCESS) ∧
          (e.ccode = CC_SHORT_PACKET ↔
            ∃ a d b, pre ++ [t] = a ++ d :: b ∧ carries_data d = true ∧
              bytes_of (r - bytes_consumed r a) d < trb_length d ∧
              ∀ x ∈ b, trb_type x.control ≠ TR_STATUS)) := by
  have hneg : ¬ ((r : Int) < 0) := by omega
  have hl : u32 ((r : Int).toNat) = r := by
    rw [Int.toNat_ofNat]; unfold u32; omega
  refine ⟨?_, ?_, ?_⟩
  · intro st t
    rw [report_chunk_eq, report_visit_left]
    exact ⟨rfl, rfl⟩
  · rw [bytes_consumed_min]
    exact ⟨rfl, Nat.min_le_left _ _⟩
  · obtain ⟨s1, es, h1, h2, h3⟩ := report_loop_trace w xfer xfer.trbs
      { edtla := 0, left := r, reported := false, shortpkt := false } s
    refine ⟨s1, es, ?_, h2, ?_⟩
    · unfold xhci_xfer_report
      rw [hres, if_neg hneg, hl]
      exact h1
    · intro e he
      obtain ⟨pre, t, post, stk, k1, k2, k3, k4⟩ := h3 e he
      simp only [] at k2 k3
      obtain ⟨b1, b2, b3⟩ := bytes_of_le (r - bytes_consumed r pre) t
      refine ⟨pre, t, post, k1, ?_, ?_⟩
      · intro h7
        rw [← TRB_TYPE_eq] at h7
        have hlen : e.length = u32 ((t.status &&& 0x1ffff) + 4294967296 - report_chunk stk t) := by
          rw [k4]
          simp only [report_event, if_neg h7]
        have hptr : e.ptr = t.addr := by
          rw [k4]
          simp only [report_event, if_neg h7]
        rw [report_chunk_eq, k2, and_len_mask] at hlen
        have ht : t.status % 131072 = trb_length t := rfl
        rw [ht] at hlen
        refine ⟨hptr, b1, ?_, ?_⟩
        · rw [hlen]; unfold u32; omega
        · rw [hlen]; unfold u32; omega
      · intro hst
        have hcc : e.ccode =
            if short_after stk.left stk.shortpkt t then CC_SHORT_PACKET else CC_SUCCESS := by
          rw [k4]
          have hv : (report_visit xfer.status stk t).shortpkt =
              short_after stk.left stk.shortpkt t := by
            rw [hst, report_visit_success]
          simp only [report_event, hv]
          split <;> simp only [hst, if_true]
        have hsn : short_after stk.left stk.shortpkt t = short_end r false (pre ++ [t]) := by
          rw [short_end_snoc, k2, k3 hst]
        rw [hsn] at hcc
        have hiff := short_end_iff (pre ++ [t]) r false
        have hlt : ∀ (a : List XHCITRB) (d : XHCITRB), carries_data d = true →
            (bytes_of (r - bytes_consumed r a) d < trb_length d ↔
              r - bytes_consumed r a < trb_length d) := by
          intro a d hd
          unfold bytes_of
          rw [if_pos hd]
          omega
        constructor
        · rw [hcc]
          split
          · exact Or.inl rfl
          · exact Or.inr rfl
        · constructor
          · intro hs
            have hse : short_end r false (pre ++ [t]) = true := by
              cases hq : short_end r false (pre ++ [t])
              · rw [hq] at hcc
                rw [hcc] at hs
                exact absurd hs (by decide)
              · rfl
            rcases hiff.mp hse with ⟨hf, -⟩ | ⟨a, d, b, q1, q2, q3, q4⟩
            · exact absurd hf (by simp)
            · exact ⟨a, d, b, q1, q2, (hlt a d q2).mpr q3, q4⟩
          · rintro ⟨a, d, b, q1, q2, q3, q4⟩
            have hse : short_end r false (pre ++ [t]) = true :=
              hiff.mpr (Or.inr ⟨a, d, b, q1, q2, (hlt a d q2).mp q3, q4⟩)
            rw [hcc, hse]
            rfl

/-- Witness for C38: the transfer `ex_short_xfer`, 256 bytes on one Normal TRB
of length 512 with ISP set. -/
theorem xhci_xfer_report_byte_accounting_witness :
    (bytes_consumed 256 ex_short_xfer.trbs = min 256 (data_length ex_short_xfer.trbs) ∧
      bytes_consumed 256 ex_short_xfer.trbs ≤ 256) ∧
    ∃ s1 es, xhci_xfer_report .bits64 ex_ring_state ex_short_xfer = .ok s1 ∧
      s1.log_events = ex_ring_state.log_events ++ es ∧
      ∀ e ∈ es, ∃ pre t post, ex_short_xfer.trbs = pre ++ t :: post ∧
        (trb_type t.control ≠ TR_EVDATA →
          e.ptr = t.addr ∧ bytes_of (256 - bytes_consumed 256 pre) t ≤ trb_length t ∧
          e.length = trb_length t - bytes_of (256 - bytes_consumed 256 pre) t ∧
          e.length ≤ trb_length t) ∧
        (ex_short_xfer.status = CC_SUCCESS →
          (e.ccode = CC_SHORT_PACKET ∨ e.ccode = CC_SUCCESS) ∧
          (e.ccode = CC_SHORT_PACKET ↔
            ∃ a d b, pre ++ [t] = a ++ d :: b ∧ carries_data d = true ∧
              bytes_of (256 - bytes_consumed 256 a) d < trb_length d ∧
              ∀ x ∈ b, trb_type x.control ≠ TR_STATUS)) :=
  (xhci_xfer_report_byte_accounting .bits64 ex_ring_state ex_short_xfer 256 rfl
    (by decide)).2

/-! ## Set TR Dequeue Pointer and the guest's endpoint context -/

/-- C39 (the code evaluated).  `xhci_set_ep_dequeue` never writes guest memory:
on the only path that changes anything the endpoint is Stopped, so its call
`xhci_set_ep_state(xhci, epctx, EP_STOPPED)` returns at
`if (epctx->state == state) return;` before the context is written.  Whatever
the command returns, guest memory, and with it dwords 2 and 3 of the endpoint
context record, is what it was before. -/
theorem xhci_set_ep_dequeue_keeps_memory (w : DmaWidth) (s s1 : XHCIState)
    (slotid epid pdequeue cc : Nat)
    (h : xhci_set_ep_dequeue w s slotid epid pdequeue = .ok (s1, cc)) :
    s1.mem = s.mem := by
  unfold xhci_set_ep_dequeue at h
  split at h
  · exact absurd h (by simp)
  · split at h
    · simp only [Except.ok.injEq, Prod.mk.injEq] at h
      rw [← h.1]
    · split at h
      · simp only [Except.ok.injEq, Prod.mk.injEq] at h
        rw [← h.1]
      · rename_i epctx hctx
        split at h
        · simp only [Except.ok.injEq, Prod.mk.injEq] at h
          rw [← h.1]
        · rename_i hst
          simp only [Except.ok.injEq, Prod.mk.injEq] at h
          rw [← h.1]
          have hs : epctx.state = EP_STOPPED := not_not.mp hst
          simp only [set_epctx, xhci_set_ep_state, hs, if_true]

/-- Witness for C39: Set TR Dequeue Pointer to `0x4001` on the Stopped endpoint
3 of slot 1 succeeds and moves the cursor to `0x4000` with cycle state 1, while
dwords 2 and 3 of the endpoint context at `0x9000` stay 0 instead of becoming
`0x4001` and 0. -/
theorem xhci_set_ep_dequeue_keeps_memory_witness :
    ∃ s1 epctx1,
      xhci_set_ep_dequeue .bits64 (ex_ep_state_with ex_stopped_epctx) 1 3 0x4001 =
        .ok (s1, CC_SUCCESS) ∧
      s1.mem = (ex_ep_state_with ex_stopped_epctx).mem ∧
      (s1.slots 0).eps 2 = some epctx1 ∧
      epctx1.ring.dequeue = 0x4000 ∧ epctx1.ring.ccs = true ∧
      le_bytes s1.mem (epctx1.pctx + 8) 4 = 0 ∧
      u32 (epctx1.ring.dequeue ||| epctx1.ring.ccs.toNat) = 0x4001 :=
  ⟨_, _, rfl,
    xhci_set_ep_dequeue_keeps_memory .bits64 (ex_ep_state_with ex_stopped_epctx) _ 1 3 0x4001
      CC_SUCCESS rfl,
    rfl, by decide, by decide, by decide, by decide⟩

/-! ## The command-ring-running flag -/

/-- C40 (the code evaluated).  A guest write to CRCR low can set CRR: the mask
`0xffffffcf` of `xhci_oper_write` lets bit 3 of the written value through.  On
the running controller `ex_ring_state`, whose CRR is clear and which has
processed no command, the guest writes `0xa` (CRR and CS) to CRCR low and then
0 to CRCR high: CRR is set after the first write, and the second posts a
Command-Completion event with code COMMAND_RING_STOPPED, a Command Ring Stopped
event for a command ring that never ran. -/
theorem oper_write_crcr_low_sets_crr (usb : USBCore) (w : DmaWidth) :
    ex_ring_state.crcr_low &&& CRCR_CRR = 0 ∧ ex_ring_state.log_events = [] ∧
    ∃ s1 s2, xhci_oper_write usb w ex_ring_state 0x18 0xa = .ok s1 ∧
      s1.crcr_low &&& CRCR_CRR = CRCR_CRR ∧
      xhci_oper_write usb w s1 0x1c 0 = .ok s2 ∧
      s2.log_events =
        [{ type := ER_COMMAND_COMPLETE, ccode := CC_COMMAND_RING_STOPPED, ptr := 0,
           length := 0, flags := 0, slotid := 0, epid := 0 }] ∧
      s2.crcr_low &&& CRCR_CRR = 0 := by
  refine ⟨by decide, rfl, ?_⟩
  cases w
  · exact ⟨_, _, rfl, by decide, rfl, by decide, by decide⟩
  · exact ⟨_, _, rfl, by decide, rfl, by decide, by decide⟩

/-- The part of C40 that holds: a guest write to CRCR low whose bit 3 is clear
leaves CRR as it was (set or clear), and the other bits of CRCR low are those
of the written value without bits 4 and 5. -/
theorem oper_write_crcr_low_keeps_crr (usb : USBCore) (w : DmaWidth) (s : XHCIState)
    (val : Nat) (hv : val &&& CRCR_CRR = 0) :
    ∃ s1, xhci_oper_write usb w s 0x18 val = .ok s1 ∧
      s1.crcr_low &&& CRCR_CRR = s.crcr_low &&& CRCR_CRR ∧
      ∀ i, i ≠ 3 → s1.crcr_low.testBit i = (val.testBit i && decide (i ≠ 4 ∧ i ≠ 5 ∧ i < 32)) := by
  refine ⟨{ s with crcr_low := (val &&& 0xffffffcf) ||| (s.crcr_low &&& CRCR_CRR) }, rfl, ?_, ?_⟩
  · show ((val &&& 0xffffffcf) ||| (s.crcr_low &&& CRCR_CRR)) &&& CRCR_CRR =
      s.crcr_low &&& CRCR_CRR
    have hb : val.testBit 3 = false := by
      have := (and_two_pow_ne_zero val 3).not.mp (by simpa [CRCR_CRR] using hv)
      simpa using this
    have h8 : CRCR_CRR = 2 ^ 3 := by decide
    apply Nat.eq_of_testBit_eq
    intro i
    rw [h8]
    simp only [Nat.testBit_and, Nat.testBit_or, Nat.testBit_two_pow]
    by_cases hi : 3 = i
    · subst hi; simp [hb]
    · simp [hi]
  · intro i hi
    show ((val &&& 0xffffffcf) ||| (s.crcr_low &&& CRCR_CRR)).testBit i = _
    have h8 : CRCR_CRR = 2 ^ 3 := by decide
    have hi' : ¬ 3 = i := fun h => hi h.symm
    rw [h8]
    simp only [Nat.testBit_and, Nat.testBit_or, Nat.testBit_two_pow, hi', decide_False,
      Bool.and_false, Bool.or_false]
    congr 1
    by_cases h32 : i < 32
    · have : ∀ j < 32, (0xffffffcf : Nat).testBit j = decide (j ≠ 4 ∧ j ≠ 5 ∧ j < 32) := by
        decide
      exact this i h32
    · have h1 : (0xffffffcf : Nat).testBit i = false :=
        Nat.testBit_lt_two_pow (lt_of_lt_of_le (by decide : 0xffffffcf < 2 ^ 32)
          (Nat.pow_le_pow_right (by decide) (by omega)))
      simp [h1, h32]

/-- Witness: writing 1 (ring cycle state) to CRCR low of `ex_ring_state`. -/
theorem oper_write_crcr_low_keeps_crr_witness :
    ∃ s1, xhci_oper_write ex_usb_nak .bits64 ex_ring_state 0x18 1 = .ok s1 ∧
      s1.crcr_low &&& CRCR_CRR = ex_ring_state.crcr_low &&& CRCR_CRR ∧
      ∀ i, i ≠ 3 → s1.crcr_low.testBit i =
        ((1 : Nat).testBit i && decide (i ≠ 4 ∧ i ≠ 5 ∧ i < 32)) :=
  oper_write_crcr_low_keeps_crr ex_usb_nak .bits64 ex_ring_state 1 (by decide)

/-! ## The fetch loop after the probe -/

/-- A fetch passes over Link TRBs and takes the first TRB that is not one. -/
theorem fetch_over_links (w : DmaWidth) (mem : Mem) :
    ∀ (links : List TRBWords) (t : TRBWords) (ring : XHCIRing) (k : Nat),
      (∀ x ∈ links, trb_type x.control = TR_LINK) → trb_type t.control ≠ TR_LINK →
      RingHolds w mem ring.dequeue ring.ccs (links ++ [t]) →
      xhci_ring_fetch w mem (links.length + 1 + k) ring = some
        { ret := trb_type t.control,
          ring := { base := ring.base,
                    dequeue := (walk_end w ring.dequeue ring.ccs (links ++ [t])).1,
                    ccs := (walk_end w ring.dequeue ring.ccs (links ++ [t])).2 },
          trb := { parameter := t.parameter, status := t.status, control := t.control,
                   addr := (walk_end w ring.dequeue ring.ccs links).1,
                   ccs := (walk_end w ring.dequeue ring.ccs links).2 },
          addr := some (walk_end w ring.dequeue ring.ccs links).1 }
  | [], t, ring, k, _, ht, hr => by
    obtain ⟨hread, hcyc, -⟩ := hr
    have hf : ([] : List TRBWords).length + 1 + k = k + 1 := by
      simp only [List.length_nil]; omega
    have hc : ¬ cycle_bit (dma_read_trb mem ring.dequeue).control ≠ ring.ccs := by
      rw [hread]; exact not_not.mpr hcyc
    have ht2 : trb_type (dma_read_trb mem ring.dequeue).control ≠ TR_LINK := by
      rw [hread]; exact ht
    rw [hf, xhci_ring_fetch_succ, if_neg hc, if_pos ht2, hread]
    simp only [List.nil_append, walk_end, walk_step, if_neg ht]
  | x :: xs, t, ring, k, hl, ht, hr => by
    obtain ⟨hread, hcyc, hrest⟩ := hr
    have hx : trb_type x.control = TR_LINK := hl x (List.mem_cons_self x xs)
    have hf : (x :: xs).length + 1 + k = (xs.length + 1 + k) + 1 := by
      simp only [List.length_cons]; omega
    have hc : ¬ cycle_bit (dma_read_trb mem ring.dequeue).control ≠ ring.ccs := by
      rw [hread]; exact not_not.mpr hcyc
    have hx2 : ¬ trb_type (dma_read_trb mem ring.dequeue).control ≠ TR_LINK := by
      rw [hread]; exact not_not.mpr hx
    have hstep : walk_step w ring.dequeue ring.ccs x =
        (xhci_mask64 w x.parameter, if toggle_cycle x.control then !ring.ccs else ring.ccs) := by
      simp only [walk_step, if_pos hx]
    rw [hstep] at hrest
    have ih := fetch_over_links w mem xs t
      { ring with
        dequeue := xhci_mask64 w x.parameter,
        ccs := if toggle_cycle x.control then !ring.ccs else ring.ccs } k
      (fun y hy => hl y (List.mem_cons_of_mem x hy)) ht hrest
    rw [hf, xhci_ring_fetch_succ, if_neg hc, if_neg hx2, hread, ih]
    simp only [List.cons_append, walk_end, hstep]
    rfl

/-- The fetches of a descriptor whose TRBs have a type field other than 0:
after any Link TRBs `pre` still to pass, the walk `l ++ [t]` ends in the TRB `t`
that is not a Link TRB.  The fetches succeed, one for each TRB that is not a
Link TRB, and leave the ring where the walk ends. -/
theorem fetch_trbs_walk (w : DmaWidth) (mem : Mem) (rf : Nat) :
    ∀ (l pre : List TRBWords) (t : TRBWords) (ring : XHCIRing),
      (∀ x ∈ pre, trb_type x.control = TR_LINK) → trb_type t.control ≠ TR_LINK →
      (∀ x ∈ l ++ [t], trb_type x.control ≠ 0) →
      RingHolds w mem ring.dequeue ring.ccs (pre ++ (l ++ [t])) →
      (pre ++ (l ++ [t])).length ≤ rf →
      ∃ trbs, fetch_trbs w mem rf (count_non_link (l ++ [t])) ring =
          .ok ({ base := ring.base,
                 dequeue := (walk_end w ring.dequeue ring.ccs (pre ++ (l ++ [t]))).1,
                 ccs := (walk_end w ring.dequeue ring.ccs (pre ++ (l ++ [t]))).2 }, trbs) ∧
        trbs.length = count_non_link (l ++ [t]) ∧ ∀ x ∈ trbs, TRB_TYPE x ≠ 0
  | [], pre, t, ring, hpre, ht, hty, hr, hfuel => by
    have h0 : trb_type t.control ≠ 0 := hty t (by simp)
    have hcount : count_non_link ([] ++ [t]) = 0 + 1 := by
      rw [List.nil_append, count_non_link_cons_other t [] ht]; rfl
    obtain ⟨k, hk⟩ : ∃ k, rf = pre.length + 1 + k :=
      ⟨rf - (pre.length + 1), by simp only [List.length_append, List.length_cons,
        List.length_nil] at hfuel; omega⟩
    have hfetch := fetch_over_links w mem pre t ring k hpre ht hr
    rw [← hk] at hfetch
    rw [hcount]
    refine ⟨[{ parameter := t.parameter, status := t.status, control := t.control,
               addr := (walk_end w ring.dequeue ring.ccs pre).1,
               ccs := (walk_end w ring.dequeue ring.ccs pre).2 }], ?_, rfl, ?_⟩
    · simp only [fetch_trbs, hfetch, if_neg h0, List.nil_append]
    · intro x hx
      rw [List.mem_singleton] at hx
      rw [hx, TRB_TYPE_eq]
      exact h0
  | x :: xs, pre, t, ring, hpre, ht, hty, hr, hfuel => by
    by_cases hx : trb_type x.control = TR_LINK
    · have hlist : pre ++ (x :: xs ++ [t]) = (pre ++ [x]) ++ (xs ++ [t]) := by simp
      have hcount : count_non_link (x :: xs ++ [t]) = count_non_link (xs ++ [t]) := by
        rw [List.cons_append, count_non_link_cons_link x _ hx]
      rw [hlist] at hr hfuel ⊢
      rw [hcount]
      exact fetch_trbs_walk w mem rf xs (pre ++ [x]) t ring
        (by
          intro y hy
          rcases List.mem_append.mp hy with hy | hy
          · exact hpre y hy
          · rw [List.mem_singleton] at hy; rw [hy]; exact hx)
        ht (fun y hy => hty y (by rw [List.cons_append]; exact List.mem_cons_of_mem x hy)) hr hfuel
    · have h0 : trb_type x.control ≠ 0 := hty x (by simp)
      have hlist : pre ++ (x :: xs ++ [t]) = (pre ++ [x]) ++ (xs ++ [t]) := by simp
      have hcount : count_non_link (x :: xs ++ [t]) = count_non_link (xs ++ [t]) + 1 := by
        rw [List.cons_append, count_non_link_cons_other x _ hx]
      rw [hlist] at hr hfuel ⊢
      obtain ⟨hr1, hr2⟩ := (ringHolds_append w mem _ _ _ _).mp hr
      obtain ⟨k, hk⟩ : ∃ k, rf = pre.length + 1 + k :=
        ⟨rf - (pre.length + 1), by simp only [List.length_append, List.length_cons,
          List.length_nil] at hfuel; omega⟩
      have hfetch := fetch_over_links w mem pre x ring k hpre hx hr1
      rw [← hk] at hfetch
      obtain ⟨trbs, h1, h2, h3⟩ := fetch_trbs_walk w mem rf xs [] t
        { base := ring.base,
          dequeue := (walk_end w ring.dequeue ring.ccs (pre ++ [x])).1,
          ccs := (walk_end w ring.dequeue ring.ccs (pre ++ [x])).2 }
        (fun y hy => absurd hy (List.not_mem_nil y)) ht
        (fun y hy => hty y (by rw [List.cons_append]; exact List.mem_cons_of_mem x hy))
        (by rw [List.nil_append]; exact hr2)
        (by
          simp only [List.length_append, List.length_cons, List.length_nil] at hfuel ⊢
          omega)
      rw [hcount]
      refine ⟨{ parameter := x.parameter, status := x.status, control := x.control,
                addr := (walk_end w ring.dequeue ring.ccs pre).1,
                ccs := (walk_end w ring.dequeue ring.ccs pre).2 } :: trbs, ?_, ?_, ?_⟩
      · rw [List.nil_append] at h1
        simp only [fetch_trbs, hfetch, if_neg h0, h1]
        rw [walk_end_append w (pre ++ [x]) (xs ++ [t])]
      · rw [List.length_cons, h2]
      · intro y hy
        rcases List.mem_cons.mp hy with hy | hy
        · rw [hy, TRB_TYPE_eq]; exact h0
        · exact h3 y hy

/-- The part of C34 that holds.  Whenever `xhci_ring_chain_length` returns
`n > 0`, the probe has walked TRBs `l ++ [t]` of the ring, of which `n` are not
Link TRBs; if none of them has the reserved type 0 in its type field, the `n`
calls of `xhci_ring_fetch` that follow (memory unchanged, each allowed at least
as many steps as the walk is long) each return a non-zero type, so the
assertion of the fetch loop holds, and they leave `ring.dequeue` and `ring.ccs`
at the cursor and the cycle state the probe had reached. -/
theorem fetch_trbs_after_probe (w : DmaWidth) (mem : Mem) (rf fuel : Nat) (ring ring1 : XHCIRing)
    (n : Int) (h : xhci_ring_chain_length w mem fuel ring = some (n, ring1)) (hn : 0 < n) :
    ∃ l t, RingHolds w mem ring.dequeue ring.ccs (l ++ [t]) ∧
      n = (count_non_link (l ++ [t]) : Int) ∧
      ((∀ x ∈ l ++ [t], trb_type x.control ≠ 0) → (l ++ [t]).length ≤ rf →
        ∃ trbs, fetch_trbs w mem rf n.toNat ring =
            .ok ({ base := ring.base,
                   dequeue := (walk_end w ring.dequeue ring.ccs (l ++ [t])).1,
                   ccs := (walk_end w ring.dequeue ring.ccs (l ++ [t])).2 }, trbs) ∧
          trbs.length = n.toNat ∧ ∀ x ∈ trbs, TRB_TYPE x ≠ 0) := by
  simp only [xhci_ring_chain_length, Option.map_eq_some', Prod.mk.injEq] at h
  obtain ⟨m, hm, hmn, -⟩ := h
  subst hmn
  obtain ⟨l, hr, -, hres⟩ := chain_length_loop_sound w mem fuel _ m hm
  simp only [] at hr hres
  rcases hres with ⟨-, h2⟩ | ⟨t, h1, h2, h3⟩
  · omega
  · have hcount : (m : Int) = (count_non_link (l ++ [t]) : Int) := by
      rw [count_non_link_append, count_non_link_cons_other t [] h2.1, h3]
      simp [count_non_link]
    refine ⟨l, t, (ringHolds_append w mem l [t] _ _).mpr ⟨hr, h1⟩, hcount, ?_⟩
    intro hty hfuel
    have hnat : m.toNat = count_non_link (l ++ [t]) := by
      rw [hcount]; exact Int.toNat_ofNat _
    rw [hnat]
    have := fetch_trbs_walk w mem rf l [] t ring
      (fun y hy => absurd hy (List.not_mem_nil y)) h2.1 hty
      (by rw [List.nil_append]; exact (ringHolds_append w mem l [t] _ _).mpr ⟨hr, h1⟩)
      (by rw [List.nil_append]; exact hfuel)
    rw [List.nil_append] at this
    exact this

/-- Witness: the control transfer of `ex_ctl_mem`, a Setup TRB, a Link TRB, a
Data TRB and a Status TRB, for which the probe returns 3. -/
theorem fetch_trbs_after_probe_witness :
    ∃ l t, RingHolds .bits64 ex_ctl_mem ex_ctl_ring.dequeue ex_ctl_ring.ccs (l ++ [t]) ∧
      (3 : Int) = (count_non_link (l ++ [t]) : Int) ∧
      ((∀ x ∈ l ++ [t], trb_type x.control ≠ 0) → (l ++ [t]).length ≤ 4 →
        ∃ trbs, fetch_trbs .bits64 ex_ctl_mem 4 (3 : Int).toNat ex_ctl_ring =
            .ok ({ base := ex_ctl_ring.base,
                   dequeue :=
                     (walk_end .bits64 ex_ctl_ring.dequeue ex_ctl_ring.ccs (l ++ [t])).1,
                   ccs := (walk_end .bits64 ex_ctl_ring.dequeue ex_ctl_ring.ccs (l ++ [t])).2 },
                 trbs) ∧
          trbs.length = (3 : Int).toNat ∧ ∀ x ∈ trbs, TRB_TYPE x ≠ 0) :=
  fetch_trbs_after_probe .bits64 ex_ctl_mem 4 4 ex_ctl_ring ex_ctl_ring 3 (by decide)
    (by decide)

/-- The part of C39 that holds: on a change of state `xhci_set_ep_state` writes
the ring cursor to the endpoint context in guest memory, dword 2 the low 32
bits of the dequeue pointer OR-ed with the cycle state and dword 3 the high 32
bits, and it writes nothing when the state does not change. -/
theorem set_ep_state_writes_cursor (s : XHCIState) (e : XHCIEPContext) (st : Nat) :
    (e.state ≠ st →
      le_to_cpu (pci_dma_read (xhci_set_ep_state s e st).1.mem (e.pctx + 8) 4) =
        u32 (e.ring.dequeue ||| e.ring.ccs.toNat) ∧
      le_to_cpu (pci_dma_read (xhci_set_ep_state s e st).1.mem (e.pctx + 12) 4) =
        u32 ((e.ring.dequeue >>> 16) >>> 16)) ∧
    (e.state = st → (xhci_set_ep_state s e st).1.mem = s.mem) := by
  refine ⟨fun h => ?_, fun h => ?_⟩
  · unfold xhci_set_ep_state
    rw [if_neg h]
    simp only []
    have hw : ∀ a b c d f : Nat,
        pci_dma_write s.mem e.pctx
          (cpu_to_le 4 a ++ cpu_to_le 4 b ++ cpu_to_le 4 c ++ cpu_to_le 4 d ++ cpu_to_le 4 f) =
        write_ctx s.mem e.pctx [a, b, c, d, f] := by
      intro a b c d f
      simp [write_ctx, List.flatMap]
    rw [hw]
    have h2 := word_write_same s.mem e.pctx
      [clear_bits (le_to_cpu ((pci_dma_read s.mem e.pctx 20).take 4)) EP_STATE_MASK ||| u32 st,
       le_to_cpu (((pci_dma_read s.mem e.pctx 20).drop 4).take 4),
       u32 (e.ring.dequeue ||| e.ring.ccs.toNat),
       u32 ((e.ring.dequeue >>> 16) >>> 16),
       le_to_cpu (((pci_dma_read s.mem e.pctx 20).drop 16).take 4)] 2 (by simp)
    have h3 := word_write_same s.mem e.pctx
      [clear_bits (le_to_cpu ((pci_dma_read s.mem e.pctx 20).take 4)) EP_STATE_MASK ||| u32 st,
       le_to_cpu (((pci_dma_read s.mem e.pctx 20).drop 4).take 4),
       u32 (e.ring.dequeue ||| e.ring.ccs.toNat),
       u32 ((e.ring.dequeue >>> 16) >>> 16),
       le_to_cpu (((pci_dma_read s.mem e.pctx 20).drop 16).take 4)] 3 (by simp)
    have hu : ∀ x, u32 x % 4294967296 = u32 x := by
      intro x; unfold u32; omega
    simp only [List.getD_cons_succ, List.getD_cons_zero, hu] at h2 h3
    exact ⟨h2, h3⟩
  · unfold xhci_set_ep_state
    rw [if_pos h]

/-- Witness: the Running endpoint `ex_epctx`, whose cursor is `0x2010` with
cycle state 1, is set to Stopped. -/
theorem set_ep_state_writes_cursor_witness :
    le_to_cpu (pci_dma_read (xhci_set_ep_state ex_ep_state ex_epctx EP_STOPPED).1.mem
        (ex_epctx.pctx + 8) 4) = u32 (ex_epctx.ring.dequeue ||| ex_epctx.ring.ccs.toNat) ∧
      le_to_cpu (pci_dma_read (xhci_set_ep_state ex_ep_state ex_epctx EP_STOPPED).1.mem
        (ex_epctx.pctx + 12) 4) = u32 ((ex_epctx.ring.dequeue >>> 16) >>> 16) :=
  (set_ep_state_writes_cursor ex_ep_state ex_epctx EP_STOPPED).1 (by decide)

set_option maxRecDepth 2048

/-- C6 (the code evaluated).  An event ring reset with an event still queued
puts that event on the new ring.  From the fresh ring of `ex_pre_state` the
guest sets ERDP and 16 events `ex_event` are posted without the guest consuming
any: the controller is in ring-full mode with one event queued.  The guest
writes ERSTBA high (runtime register 0x34): `xhci_er_reset` succeeds, the
controller is running, the ring starts again at slot 0 of the segment at
`0x1000` with cycle state 1, and the queued event stays in the software queue.
Then 16 events `ex_event2` are posted and the guest moves ERDP to slot 8, inside
the segment; no error is raised and no event is dropped.  Since the reset 16
events were posted and 17 TRBs were written: 15 of the posted events at slots 0
to 14, then at slot 15 the event queued before the reset, which is none of the
posted ones, then the 16th posted event at slot 0 with cycle bit 0. -/
theorem er_reset_stale_event_written :
    ∃ sA s0 s1,
      ev_run .bits64 704 (xhci_run (xhci_er_reset .bits64 ex_pre_state)) ex_actions_fill =
        .ok sA ∧
      sA.er_full = true ∧ sA.ev_buffer_put = 1 ∧ sA.ev_buffer_get = 0 ∧
      xhci_runtime_write .bits64 704 sA 0x34 0 = .ok s0 ∧
      s0.usbsts &&& USBSTS_HCE = 0 ∧ s0.usbsts &&& USBSTS_HCH = 0 ∧
      s0.er_start = 0x1000 ∧ s0.er_size = 16 ∧ s0.er_ep_idx = 0 ∧ s0.er_pcs = true ∧
      s0.er_full = false ∧ s0.ev_buffer_put = 1 ∧ s0.ev_buffer_get = 0 ∧
      s0.ev_buffer 0 = ex_event ∧
      ev_run .bits64 704 s0 ex_actions_stale = .ok s1 ∧
      s1.usbsts &&& USBSTS_HCE = 0 ∧ s1.log_dropped = [] ∧
      s1.log_events = s0.log_events ++ posted_events ex_actions_stale ∧
      (posted_events ex_actions_stale).length = 16 ∧
      ex_event ∉ posted_events ex_actions_stale ∧
      s1.log_ev_trbs =
        s0.log_ev_trbs ++
          (ring_image 0x1000 16 0 ((posted_events ex_actions_stale).take 15) ++
            [(0x10f0, event_trb ex_event true), (0x1000, event_trb ex_event2 false)]) ∧
      s1.log_ev_trbs.length = s0.log_ev_trbs.length + 17 :=
  ⟨_, _, _, rfl, by decide, by decide, by decide, rfl, by decide, by decide, by decide,
    by decide, by decide, by decide, by decide, by decide, by decide, by decide, rfl, by decide,
    by decide, by decide, by decide, by decide, by decide, by decide⟩

end XHCI
